import Mathlib

/-!
# Observation collections, inertia tensors and patched conics (tudat)

A shallow embedding of three parts of tudat:

* `SingleObservationSet`, `ObservationCollection` and the free functions on them from
  `include/tudat/simulation/estimation_setup/observations.h`;
* `getInertiaTensor` and `getDegreeTwoSphericalHarmonicCoefficients` from
  `src/astro/gravitation/sphericalHarmonicsGravityField.cpp`;
* the full-problem propagation of patched-conics trajectories from
  `Tudat/SimulationSetup/PropagationSetup/propagationPatchedConicFullProblem.cpp`.

Modelling conventions.

* `std::vector< X >` is `List X`; an `Eigen` column vector is the `List` of its
  coefficients, `rows( )` is `List.length`.
* `std::map< K, V >` is `StdMap K V`, the list of its entries in iteration order
  (strictly ascending keys); `std::multimap` is a list with ascending keys in which
  equivalent keys keep their insertion order.
* `TimeType` is any linearly ordered type `T` (a `double` that is not a NaN),
  `ObservationScalarType` and `double` are one scalar type `S`, `LinkEnds` is any
  linearly ordered key type `L`, an enumeration is the `Nat` of its value.
* A `throw`, an out-of-range `.at( )`, an `Eigen` size assertion and undefined
  behaviour of the standard library (erasing or writing past the end, unchecked
  `operator[]` past the end) are the `Error` alternative of `Except`.
* `int` counters and offsets are `Nat`: they are sizes of containers held in memory,
  far below the range of `int`.
* An output argument passed by reference is an argument of the function and a component
  of its result.
* In the gravity field part a `double` is an element of a field; a dynamic `Eigen`
  matrix is its two dimensions and its coefficient function, and an access outside the
  dimensions is an `Eigen` assertion.
* In the patched-conics part a `double` is an element of a linearly ordered field, a
  body name is a `String`, the body map is a function from names to optional bodies, and
  a Cartesian state is a pair of a position and a velocity. The collaborators that are
  declared in other files (trajectory construction, leg propagation, creation of
  acceleration models and of termination settings) are the fields of the structure
  `ExternalFunctions`. A local variable that the code reads before it has written it
  is an explicit argument named `uninitialised...`.
-/

namespace Tudat

/-! ## Definitions -/

/-- Failure modes of the embedded code. -/
inductive Error where
  | incompatibleCalculatorType
  | incompatibleCalculatorLinkEnds
  | inconsistentInputSizes
  | inconsistentObservableSizes
  | incompatibleAfterTimeOrdering
  | weightsSizeIncompatible
  | weightsNoData
  | inconsistentLinkDefinitions
  | weightsInconsistent
  | noObservationsOfType
  | noObservationsForLinkEnds
  | residualObservableNotEqual
  | residualReferenceLinkEndNotEqual
  | residualLinkEndsNotEqual
  | residualNumberOfObservablesNotEqual
  | residualTimeNotEqual
  | filterInputSizeIncompatible
  | filterSetSizeIncompatible
  | filterListIncompatible
  | outOfRange
  | centralBodyNotFound
  | ephemerisNotDefinedDeparture
  | ephemerisNotDefinedArrival
  | eigenAssertion
  | undefinedBehaviour
  deriving DecidableEq, Repr

/-- True for the failures that reach the caller as a C++ exception (a `throw` of the
code, the `std::out_of_range` of `.at( )`); a failed `Eigen` assertion and undefined
behaviour raise no exception. -/
def Error.isException : Error → Bool
  | .eigenAssertion => false
  | .undefinedBehaviour => false
  | _ => true

/-- Enumeration `ObservableType`, by the value of the enumerator. -/
abbrev ObservableType := Nat

/-- Enumeration `LinkEndType`, by the value of the enumerator. -/
abbrev LinkEndType := Nat

/-- Modelled from the spec: `LinkDefinition` (declared in `linkTypeDefs.h`) wraps the
link-ends tuple `linkEnds_`; two link definitions are equal when their tuples are. -/
structure LinkDefinition (L : Type) where
  linkEnds_ : L
  deriving DecidableEq, Repr

/-- Modelled from the spec: `ObservationDependentVariableCalculator` (declared in
`observationOutput.h`), reduced to what `getObservableType( )` and `getLinkEnds( )`
return. -/
structure ObservationDependentVariableCalculator (L : Type) where
  observableType_ : ObservableType
  linkEnds_ : LinkDefinition L
  deriving DecidableEq, Repr

/-- Entries of a `std::map` in iteration order. -/
abbrev StdMap (K V : Type) := List (K × V)

section Containers

variable {K V α : Type}

/-- Class invariant of `std::map`: keys strictly ascending. -/
def StdMap.WF [LinearOrder K] (m : StdMap K V) : Prop :=
  (m.map Prod.fst).Sorted (· < ·)

/-- Lookup `m.find( k )`. -/
def StdMap.find? [LinearOrder K] (m : StdMap K V) (k : K) : Option V :=
  match m with
  | [] => none
  | (k', v) :: rest => if k' = k then some v else StdMap.find? rest k

/-- Counting lookup `m.count( k )`. -/
def StdMap.count [LinearOrder K] (m : StdMap K V) (k : K) : Nat :=
  match StdMap.find? m k with
  | some _ => 1
  | none => 0

/-- Checked lookup `m.at( k )`, which throws `std::out_of_range`. -/
def StdMap.at [LinearOrder K] (m : StdMap K V) (k : K) : Except Error V :=
  match StdMap.find? m k with
  | some v => .ok v
  | none => .error .outOfRange

/-- Update `m[ k ] = f( m[ k ] )`, where `operator[]` first inserts the
value-initialised `dflt` when the key is absent. -/
def StdMap.modify [LinearOrder K] (dflt : V) (f : V → V) (k : K) : StdMap K V → StdMap K V
  | [] => [(k, f dflt)]
  | (k', v) :: rest =>
    if k < k' then (k, f dflt) :: (k', v) :: rest
    else if k' < k then (k', v) :: StdMap.modify dflt f k rest
    else (k', f v) :: rest

/-- Statement `m[ k₁ ][ k₂ ].push_back( x )` on a map of maps of vectors. -/
def StdMap.pushBack {K₁ K₂ : Type} [LinearOrder K₁] [LinearOrder K₂] (k₁ : K₁) (k₂ : K₂)
    (x : V) (m : StdMap K₁ (StdMap K₂ (List V))) : StdMap K₁ (StdMap K₂ (List V)) :=
  StdMap.modify [] (StdMap.modify [] (fun v => v ++ [x]) k₂) k₁ m

/-- Vector stored under `k₁` and `k₂` in a map of maps of vectors, empty when a key is
absent. -/
def StdMap.entriesAt {K₁ K₂ : Type} [LinearOrder K₁] [LinearOrder K₂]
    (m : StdMap K₁ (StdMap K₂ (List V))) (k₁ : K₁) (k₂ : K₂) : List V :=
  (StdMap.find? ((StdMap.find? m k₁).getD []) k₂).getD []

/-- Class invariant of a `std::map` of `std::map`s. -/
def StdMap.NestedWF {K₁ K₂ : Type} [LinearOrder K₁] [LinearOrder K₂]
    (m : StdMap K₁ (StdMap K₂ V)) : Prop :=
  StdMap.WF m ∧ ∀ p ∈ m, StdMap.WF p.2

/-- Every binding of the map `a` is a binding of the map `b`. -/
def StdMap.Extends [LinearOrder K] (a b : StdMap K V) : Prop :=
  ∀ k v, StdMap.find? a k = some v → StdMap.find? b k = some v

/-- Assignment `m[ k ] = v`. -/
def StdMap.assign [LinearOrder K] (k : K) (v : V) (m : StdMap K V) : StdMap K V :=
  StdMap.modify v (fun _ => v) k m

/-- Insertion `m.insert( { k, v } )` into a `std::multimap`: the new entry goes to
the upper bound of the entries with an equivalent key. -/
def multimapInsert [LinearOrder K] (k : K) (v : V) : List (K × V) → List (K × V)
  | [] => [(k, v)]
  | (k', v') :: rest =>
    if k < k' then (k, v) :: (k', v') :: rest
    else (k', v') :: multimapInsert k v rest

/-- Modelled from the spec: `utilities::createVectorFromMultiMapKeys` (declared in
`utilities.h`), the keys of a multimap in iteration order. -/
def createVectorFromMultiMapKeys (m : List (K × V)) : List K := m.map Prod.fst

/-- Modelled from the spec: `utilities::createVectorFromMultiMapValues` (declared in
`utilities.h`), the values of a multimap in iteration order. -/
def createVectorFromMultiMapValues (m : List (K × V)) : List V := m.map Prod.snd

/-- Modelled from the spec: `utilities::createVectorFromMapValues` (declared in
`utilities.h`), the values of a map in iteration order. -/
def createVectorFromMapValues (m : StdMap K V) : List V := m.map Prod.snd

/-- Checked access `v.at( i )`. -/
def vectorAt (v : List α) (i : Nat) : Except Error α :=
  match v.get? i with
  | some a => .ok a
  | none => .error .outOfRange

/-- Erasure `v.erase( v.begin( ) + i )` for an `int` offset; undefined unless the
iterator points at an element. -/
def vectorErase (v : List α) (i : Int) : Except Error (List α) :=
  if 0 ≤ i ∧ i < (v.length : Int) then .ok (v.eraseIdx i.toNat) else .error .undefinedBehaviour

/-- Unchecked write `v[ i ] = x`; undefined unless `i` is the position of an element. -/
def vectorSet (v : List α) (i : Nat) (x : α) : Except Error (List α) :=
  if i < v.length then .ok (v.set i x) else .error .undefinedBehaviour

/-- Resizing `v.resize( n )`, new elements being value-initialised to `dflt`. -/
def vectorResize (v : List α) (n : Nat) (dflt : α) : List α :=
  v.take n ++ List.replicate (n - v.length) dflt

/-- Block assignment `v.segment( start, n ) = w` of `Eigen`, which asserts that the
block lies inside `v` and that `w` has `n` rows. -/
def setSegment (v : List α) (start n : Nat) (w : List α) : Except Error (List α) :=
  if start + n ≤ v.length ∧ w.length = n then .ok (v.take start ++ w ++ v.drop (start + n))
  else .error .eigenAssertion

/-- Specification of a block write: the vector `v` with the entries from position
`start` on replaced by the entries of `w`. -/
def overwrite (v : List α) (start : Nat) (w : List α) : List α :=
  v.take start ++ w ++ v.drop (start + w.length)

/-- Test `std::is_sorted`: no element is smaller than its predecessor. -/
def isSorted [LinearOrder K] : List K → Bool
  | [] => true
  | [_] => true
  | a :: b :: rest => !(decide (b < a)) && isSorted (b :: rest)

/-- Algorithm `std::min_element`: the position of the first smallest element, given by
the element itself; `none` is the end iterator, returned for an empty range. -/
def minElement [LinearOrder K] : List K → Option K
  | [] => none
  | a :: rest => some (rest.foldl (fun smallest x => if x < smallest then x else smallest) a)

/-- Algorithm `std::max_element`: the position of the first largest element, given by
the element itself; `none` is the end iterator, returned for an empty range. -/
def maxElement [LinearOrder K] : List K → Option K
  | [] => none
  | a :: rest => some (rest.foldl (fun largest x => if largest < x then x else largest) a)

/-- Dereference `*it` of an iterator; undefined for the end iterator. -/
def dereference : Option α → Except Error α
  | none => .error .undefinedBehaviour
  | some a => .ok a

/-- Block read `v.segment( start, n )` of `Eigen`, which asserts that the block lies
inside `v`. -/
def getSegment (v : List α) (start n : Nat) : Except Error (List α) :=
  if start + n ≤ v.length then .ok ((v.drop start).take n) else .error .eigenAssertion

/-- Range constructor `std::vector( v.begin( ) + first, v.begin( ) + last )`; undefined
unless both iterators lie inside `v` and the first does not follow the last. -/
def vectorRange (v : List α) (first last : Nat) : Except Error (List α) :=
  if first ≤ last ∧ last ≤ v.length then .ok ((v.drop first).take (last - first))
  else .error .undefinedBehaviour

/-- Sorting `sort( begin, end, std::greater< int >( ) )`. -/
def sortDescending (indices : List Int) : List Int :=
  indices.insertionSort (· ≥ ·)

end Containers

/-- Class `SingleObservationSet`: its data members. -/
structure SingleObservationSet (T S L : Type) where
  observableType_ : ObservableType
  linkEnds_ : LinkDefinition L
  observations_ : List (List S)
  observationTimes_ : List T
  referenceLinkEnd_ : LinkEndType
  observationsDependentVariables_ : List (List S)
  dependentVariableCalculator_ : Option (ObservationDependentVariableCalculator L)
  ancilliarySettings_ : Option Nat
  numberOfObservations_ : Nat
  weightsVector_ : List S

section SingleSet

variable {T S L : Type}

/-- Loop of the constructor over consecutive observation vectors: true when every
vector has as many rows as its predecessor. -/
def observablesOfConsistentSize : List (List S) → Bool
  | [] => true
  | [_] => true
  | a :: b :: rest => (b.length == a.length) && observablesOfConsistentSize (b :: rest)

/-- Loop of the constructor filling `observationsMap`, started from the map so far;
entry `i` is `{ observationTimes_.at( i ), observations_.at( i ) }` (both vectors
have the same size at this point). -/
def fillObservationsMap [LinearOrder T] :
    List T → List (List S) → List (T × List S) → List (T × List S)
  | t :: ts, o :: os, m => fillObservationsMap ts os (multimapInsert t o m)
  | _, _, m => m

/-- Loop of the constructor filling `observationsDependentVariablesMap`: entry `i`
is stored under the key `observationTimes_.at( i )`, read from the time vector
given (in the constructor, the already re-ordered one). -/
def fillDependentVariablesMap [LinearOrder T] :
    List (List S) → List T → StdMap T (List S) → Except Error (StdMap T (List S))
  | [], _, m => .ok m
  | _ :: _, [], _ => .error .outOfRange
  | d :: ds, t :: ts, m => fillDependentVariablesMap ds ts (StdMap.assign t d m)

/-- Check of the constructor on the dependent variable calculator. -/
def checkCalculator [DecidableEq L] (observableType : ObservableType)
    (linkEnds : LinkDefinition L) :
    Option (ObservationDependentVariableCalculator L) → Except Error Unit
  | none => .ok ()
  | some c =>
    if c.observableType_ ≠ observableType then .error .incompatibleCalculatorType
    else if ¬ (c.linkEnds_ = linkEnds) then .error .incompatibleCalculatorLinkEnds
    else .ok ()

/-- Constructor `SingleObservationSet::SingleObservationSet`. -/
def SingleObservationSet.construct [LinearOrder T] [DecidableEq L]
    (observableType : ObservableType) (linkEnds : LinkDefinition L)
    (observations : List (List S)) (observationTimes : List T)
    (referenceLinkEnd : LinkEndType) (observationsDependentVariables : List (List S))
    (dependentVariableCalculator : Option (ObservationDependentVariableCalculator L))
    (ancilliarySettings : Option Nat) : Except Error (SingleObservationSet T S L) :=
  match checkCalculator observableType linkEnds dependentVariableCalculator with
  | .error e => .error e
  | .ok _ =>
    if observations.length ≠ observationTimes.length then .error .inconsistentInputSizes
    else if ¬ observablesOfConsistentSize observations then .error .inconsistentObservableSizes
    else if ¬ isSorted observationTimes then
      let observationsMap := fillObservationsMap observationTimes observations []
      let sortedTimes := createVectorFromMultiMapKeys observationsMap
      let sortedObservations := createVectorFromMultiMapValues observationsMap
      match (if observationsDependentVariables.length > 0 then
              (fillDependentVariablesMap observationsDependentVariables sortedTimes []).map
                createVectorFromMapValues
             else .ok observationsDependentVariables) with
      | .error e => .error e
      | .ok dependentVariables =>
        if sortedObservations.length ≠ observations.length then
          .error .incompatibleAfterTimeOrdering
        else
          .ok { observableType_ := observableType
                linkEnds_ := linkEnds
                observations_ := sortedObservations
                observationTimes_ := sortedTimes
                referenceLinkEnd_ := referenceLinkEnd
                observationsDependentVariables_ := dependentVariables
                dependentVariableCalculator_ := dependentVariableCalculator
                ancilliarySettings_ := ancilliarySettings
                numberOfObservations_ := observations.length
                weightsVector_ := [] }
    else
      .ok { observableType_ := observableType
            linkEnds_ := linkEnds
            observations_ := observations
            observationTimes_ := observationTimes
            referenceLinkEnd_ := referenceLinkEnd
            observationsDependentVariables_ := observationsDependentVariables
            dependentVariableCalculator_ := dependentVariableCalculator
            ancilliarySettings_ := ancilliarySettings
            numberOfObservations_ := observations.length
            weightsVector_ := [] }

/-- Accessor `getNumberOfObservables`. -/
def SingleObservationSet.getNumberOfObservables (s : SingleObservationSet T S L) : Nat :=
  s.numberOfObservations_

/-- Accessor `getWeightsVector`. -/
def SingleObservationSet.getWeightsVector (s : SingleObservationSet T S L) : List S :=
  s.weightsVector_

/-- Method `setWeightsVector`: the outcome of the call and the object after it. -/
def SingleObservationSet.setWeightsVector (s : SingleObservationSet T S L)
    (weightsVector : List S) : Except Error Unit × SingleObservationSet T S L :=
  if s.numberOfObservations_ ≠ 0 then
    match vectorAt s.observations_ 0 with
    | .error e => (.error e, s)
    | .ok first =>
      if weightsVector.length ≠ first.length * s.observations_.length then
        (.error .weightsSizeIncompatible, s)
      else (.ok (), { s with weightsVector_ := weightsVector })
  else if weightsVector.length > 0 then (.error .weightsNoData, s)
  else (.ok (), { s with weightsVector_ := weightsVector })

/-- Loop of `createFilteredObservationSet` erasing the (sorted) indices one by one
from the copies of the times, the observations and the dependent variables. -/
def eraseFilteredEntries :
    List Int → List T × List (List S) × List (List S) →
      Except Error (List T × List (List S) × List (List S))
  | [], state => .ok state
  | i :: rest, (times, observations, dependentVariables) =>
    match vectorErase times i with
    | .error e => .error e
    | .ok times' =>
      match vectorErase observations i with
      | .error e => .error e
      | .ok observations' =>
        if dependentVariables.length > 0 then
          match vectorErase dependentVariables i with
          | .error e => .error e
          | .ok dependentVariables' =>
            eraseFilteredEntries rest (times', observations', dependentVariables')
        else eraseFilteredEntries rest (times', observations', dependentVariables)

/-- Method `createFilteredObservationSet`. -/
def SingleObservationSet.createFilteredObservationSet [LinearOrder T] [DecidableEq L]
    (s : SingleObservationSet T S L) (indices : List Int) :
    Except Error (SingleObservationSet T S L) :=
  match eraseFilteredEntries (sortDescending indices)
      (s.observationTimes_, s.observations_, s.observationsDependentVariables_) with
  | .error e => .error e
  | .ok (filteredObservationTimes, filteredObservations,
      filteredObservationsDependentVariables) =>
    SingleObservationSet.construct s.observableType_ s.linkEnds_ filteredObservations
      filteredObservationTimes s.referenceLinkEnd_ filteredObservationsDependentVariables
      s.dependentVariableCalculator_ s.ancilliarySettings_

/-- Difference `a - b` of two `Eigen` vectors, which asserts that they have the same
number of rows. -/
def eigenSub [Sub S] (a b : List S) : Except Error (List S) :=
  if a.length = b.length then .ok (List.zipWith (· - ·) a b) else .error .eigenAssertion

/-- Loop of `createResidualObservationSet` over the positions `i` of the observed times
that are left. The state is `residuals`. -/
def createResidualLoop [DecidableEq T] [Sub S] (computedTimes : List T)
    (observedData computedData : List (List S)) :
    List T → Nat → List (List S) → Except Error (List (List S))
  | [], _, residuals => .ok residuals
  | observedTime :: rest, i, residuals =>
    match vectorAt computedTimes i with
    | .error e => .error e
    | .ok computedTime =>
      if observedTime ≠ computedTime then .error .residualTimeNotEqual
      else
        match vectorAt observedData i with
        | .error e => .error e
        | .ok observed =>
          match vectorAt computedData i with
          | .error e => .error e
          | .ok computed =>
            match eigenSub observed computed with
            | .error e => .error e
            | .ok residual =>
              createResidualLoop computedTimes observedData computedData rest (i + 1)
                (residuals ++ [residual])

/-- Function `createResidualObservationSet`. -/
def createResidualObservationSet [LinearOrder T] [DecidableEq L] [Sub S]
    (observedObservationSet computedObservationSet : SingleObservationSet T S L) :
    Except Error (SingleObservationSet T S L) :=
  if observedObservationSet.observableType_ ≠ computedObservationSet.observableType_ then
    .error .residualObservableNotEqual
  else if observedObservationSet.referenceLinkEnd_ ≠ computedObservationSet.referenceLinkEnd_
  then .error .residualReferenceLinkEndNotEqual
  else if observedObservationSet.linkEnds_.linkEnds_ ≠
      computedObservationSet.linkEnds_.linkEnds_ then
    .error .residualLinkEndsNotEqual
  else if observedObservationSet.getNumberOfObservables ≠
      computedObservationSet.getNumberOfObservables then
    .error .residualNumberOfObservablesNotEqual
  else
    match createResidualLoop computedObservationSet.observationTimes_
        observedObservationSet.observations_ computedObservationSet.observations_
        observedObservationSet.observationTimes_ 0 [] with
    | .error e => .error e
    | .ok residuals =>
      SingleObservationSet.construct observedObservationSet.observableType_
        observedObservationSet.linkEnds_ residuals observedObservationSet.observationTimes_
        observedObservationSet.referenceLinkEnd_ [] none
        observedObservationSet.ancilliarySettings_

/-- Modelled from the spec: `utilities::getStlVectorSegment` (declared in
`utilities.h`), the `size` entries of a vector from position `start` on. -/
def getStlVectorSegment {α : Type} (v : List α) (start size : Nat) : List α :=
  (v.drop start).take size

/-- First loop of `splitSingleObservationSetIntoArcs`, over the positions `i` from 1 on:
the list holds the times from position `i - 1` on, the state is `rawArcStartIndices`,
which gets the position `i` when the time there exceeds its predecessor by more than
`arcSplitInterval`. -/
def rawArcStartIndicesLoop [LinearOrderedAddCommGroup T] (arcSplitInterval : T) :
    List T → Nat → List Nat → List Nat
  | previous :: current :: rest, i, rawArcStartIndices =>
    rawArcStartIndicesLoop arcSplitInterval (current :: rest) (i + 1)
      (if current - previous > arcSplitInterval then rawArcStartIndices ++ [i]
        else rawArcStartIndices)
  | _, _, rawArcStartIndices => rawArcStartIndices

/-- Second loop of `splitSingleObservationSetIntoArcs`, over the positions `j` from 1
on of `rawArcStartIndices`: the list holds its entries from position `j - 1` on, the
state is `arcSplitIndices`, which gets the start and the size of an arc of more than
`minimumNumberOfObservations` observations. -/
def arcSplitIndicesLoop (minimumNumberOfObservations : Int) :
    List Nat → List (Nat × Nat) → List (Nat × Nat)
  | previous :: current :: rest, arcSplitIndices =>
    arcSplitIndicesLoop minimumNumberOfObservations (current :: rest)
      (if (current : Int) - (previous : Int) > minimumNumberOfObservations then
        arcSplitIndices ++ [(previous, current - previous)]
        else arcSplitIndices)
  | _, arcSplitIndices => arcSplitIndices

/-- Local `arcSplitIndices` of `splitSingleObservationSetIntoArcs`. -/
def arcSplitIndices [LinearOrderedAddCommGroup T] (originalObservationTimes : List T)
    (arcSplitInterval : T) (minimumNumberOfObservations : Int) : List (Nat × Nat) :=
  arcSplitIndicesLoop minimumNumberOfObservations
    (rawArcStartIndicesLoop arcSplitInterval originalObservationTimes 1 [0] ++
      [originalObservationTimes.length]) []

/-- Third loop of `splitSingleObservationSetIntoArcs`, over the arcs that are left. The
state is `splitSingleObervationSet`. -/
def splitSingleObservationSetLoop [LinearOrder T] [DecidableEq L]
    (originalObservationSet : SingleObservationSet T S L) :
    List (Nat × Nat) → List (SingleObservationSet T S L) →
      Except Error (List (SingleObservationSet T S L))
  | [], splitSingleObervationSet => .ok splitSingleObervationSet
  | arc :: rest, splitSingleObervationSet =>
    match SingleObservationSet.construct originalObservationSet.observableType_
        originalObservationSet.linkEnds_
        (getStlVectorSegment originalObservationSet.observations_ arc.1 arc.2)
        (getStlVectorSegment originalObservationSet.observationTimes_ arc.1 arc.2)
        originalObservationSet.referenceLinkEnd_
        (if originalObservationSet.observationsDependentVariables_.length > 0 then
          getStlVectorSegment originalObservationSet.observationsDependentVariables_ arc.1 arc.2
          else [])
        originalObservationSet.dependentVariableCalculator_
        originalObservationSet.ancilliarySettings_ with
    | .error e => .error e
    | .ok set =>
      splitSingleObservationSetLoop originalObservationSet rest
        (splitSingleObervationSet ++ [set])

/-- Function `splitSingleObservationSetIntoArcs`. -/
def splitSingleObservationSetIntoArcs [LinearOrderedAddCommGroup T] [DecidableEq L]
    (originalObservationSet : SingleObservationSet T S L) (arcSplitInterval : T)
    (minimumNumberOfObservations : Int) : Except Error (List (SingleObservationSet T S L)) :=
  splitSingleObservationSetLoop originalObservationSet
    (arcSplitIndices originalObservationSet.observationTimes_ arcSplitInterval
      minimumNumberOfObservations) []

/-- Position `i` of the times follows a gap: the time there exceeds its predecessor by
more than the threshold. -/
def GapBefore [LinearOrderedAddCommGroup T] (threshold : T) (times : List T) (i : Nat) :
    Prop :=
  0 < i ∧ ∃ previous current, times.get? (i - 1) = some previous ∧
    times.get? i = some current ∧ current - previous > threshold

/-- The `size` positions from `start` on are a maximal run of the times: a non-empty
block of positions without a gap inside that starts at the first position or after a
gap and ends at the last position or before a gap. -/
def IsMaximalRun [LinearOrderedAddCommGroup T] (threshold : T) (times : List T)
    (start size : Nat) : Prop :=
  0 < size ∧ start + size ≤ times.length ∧
  (start = 0 ∨ GapBefore threshold times start) ∧
  (start + size = times.length ∨ GapBefore threshold times (start + size)) ∧
  ∀ i, start < i → i < start + size → ¬ GapBefore threshold times i

/-- Class invariant that the constructor establishes and that no method breaks: the
calculator fits the set, the observation count is the number of stored observations and
of stored times, the observation vectors have one size, the times are in non-decreasing
order. -/
structure SingleObservationSet.Invariant [LinearOrder T] [DecidableEq L]
    (s : SingleObservationSet T S L) : Prop where
  calculator :
    checkCalculator s.observableType_ s.linkEnds_ s.dependentVariableCalculator_ = .ok ()
  numberOfObservations : s.numberOfObservations_ = s.observations_.length
  timesLength : s.observationTimes_.length = s.observations_.length
  consistentSize : observablesOfConsistentSize s.observations_ = true
  timesSorted : isSorted s.observationTimes_ = true

/-- Specification of filtering: the entries of a vector whose position, counted from
`offset`, does not occur in `indices`, in their order. -/
def entriesNotAt {α : Type} (indices : List Int) : Nat → List α → List α
  | _, [] => []
  | offset, a :: rest =>
    if (offset : Int) ∈ indices then entriesNotAt indices (offset + 1) rest
    else a :: entriesNotAt indices (offset + 1) rest

end SingleSet

/-- Type `SortedObservationSets`: observable type, then link ends, then the list of
sets. -/
abbrev SortedObservationSets (T S L : Type) :=
  StdMap ObservableType (StdMap L (List (SingleObservationSet T S L)))

/-- Class `ObservationCollection`: its data members. -/
structure ObservationCollection (T S L : Type) where
  observationSetList_ : SortedObservationSets T S L
  concatenatedObservations_ : List S
  concatenatedTimes_ : List T
  concatenatedWeights_ : List S
  concatenatedLinkEndIds_ : List Nat
  concatenatedLinkEndIdNames_ : List L
  linkDefinitionsPerObservable_ : StdMap ObservableType (List (LinkDefinition L))
  linkEndIds_ : StdMap L Nat
  inverseLinkEndIds_ : StdMap Nat L
  observationSetStartAndSize_ : StdMap ObservableType (StdMap L (List (Nat × Nat)))
  concatenatedObservationSetStartAndSize_ : List (Nat × Nat)
  observationSetStartAndSizePerLinkEndIndex_ :
    StdMap ObservableType (StdMap Nat (List (Nat × Nat)))
  observationTypeAndLinkEndStartAndSize_ : StdMap ObservableType (StdMap L (Nat × Nat))
  observationTypeStartAndSize_ : StdMap ObservableType (Nat × Nat)
  totalObservableSize_ : Nat
  totalNumberOfObservables_ : Nat

section Collection

variable {T S L : Type}

/-- Function `createSortedObservationSetList`: every set of the list is appended to
`sortedObservations[ type ][ linkEnds ]`. -/
def createSortedObservationSetList [LinearOrder L]
    (observationSetList : List (SingleObservationSet T S L)) : SortedObservationSets T S L :=
  observationSetList.foldl
    (fun sortedObservations set =>
      StdMap.pushBack set.observableType_ set.linkEnds_.linkEnds_ set sortedObservations)
    []

/-- Sets of a nested mapping in iteration order (observable type, then link ends, then
position in the list), each with the keys it is stored under. -/
def SortedObservationSets.traversal (m : SortedObservationSets T S L) :
    List (ObservableType × L × SingleObservationSet T S L) :=
  m.flatMap (fun typeEntry =>
    typeEntry.2.flatMap (fun linkEndEntry =>
      linkEndEntry.2.map (fun set => (typeEntry.1, linkEndEntry.1, set))))

/-- Object with the members initialised by the constructor's initialiser list: the
nested mapping given, every other container empty. -/
def ObservationCollection.initial (observationSetList : SortedObservationSets T S L) :
    ObservationCollection T S L :=
  { observationSetList_ := observationSetList
    concatenatedObservations_ := []
    concatenatedTimes_ := []
    concatenatedWeights_ := []
    concatenatedLinkEndIds_ := []
    concatenatedLinkEndIdNames_ := []
    linkDefinitionsPerObservable_ := []
    linkEndIds_ := []
    inverseLinkEndIds_ := []
    observationSetStartAndSize_ := []
    concatenatedObservationSetStartAndSize_ := []
    observationSetStartAndSizePerLinkEndIndex_ := []
    observationTypeAndLinkEndStartAndSize_ := []
    observationTypeStartAndSize_ := []
    totalObservableSize_ := 0
    totalNumberOfObservables_ := 0 }

/-- Innermost loop of `setObservationSetIndices`, over the sets of one observable type
and link ends. The state is the object with `currentStartIndex`,
`currentObservableTypeSize` and `currentLinkEndSize`. -/
def setObservationSetIndicesSets [LinearOrder L] (observableSize : Nat)
    (currentObservableType : ObservableType) (currentLinkEnds : L) :
    List (SingleObservationSet T S L) → ObservationCollection T S L × Nat × Nat × Nat →
      ObservationCollection T S L × Nat × Nat × Nat
  | [], state => state
  | set :: rest, (c, currentStartIndex, currentObservableTypeSize, currentLinkEndSize) =>
    setObservationSetIndicesSets observableSize currentObservableType currentLinkEnds rest
      ({ c with
          observationSetStartAndSize_ :=
            StdMap.pushBack currentObservableType currentLinkEnds
              (currentStartIndex, set.getNumberOfObservables * observableSize)
              c.observationSetStartAndSize_
          concatenatedObservationSetStartAndSize_ :=
            c.concatenatedObservationSetStartAndSize_ ++
              [(currentStartIndex, set.getNumberOfObservables * observableSize)]
          totalObservableSize_ :=
            c.totalObservableSize_ + set.getNumberOfObservables * observableSize
          totalNumberOfObservables_ :=
            c.totalNumberOfObservables_ + set.getNumberOfObservables },
        currentStartIndex + set.getNumberOfObservables * observableSize,
        currentObservableTypeSize + set.getNumberOfObservables * observableSize,
        currentLinkEndSize + set.getNumberOfObservables * observableSize)

/-- Middle loop of `setObservationSetIndices`, over the link ends of one observable
type. The state is the object with `currentStartIndex` and
`currentObservableTypeSize`. -/
def setObservationSetIndicesLinkEnds [LinearOrder L] (observableSize : Nat)
    (currentObservableType : ObservableType) :
    List (L × List (SingleObservationSet T S L)) → ObservationCollection T S L × Nat × Nat →
      ObservationCollection T S L × Nat × Nat
  | [], state => state
  | (currentLinkEnds, sets) :: rest, (c, currentStartIndex, currentObservableTypeSize) =>
    let after := setObservationSetIndicesSets observableSize currentObservableType
      currentLinkEnds sets (c, currentStartIndex, currentObservableTypeSize, 0)
    setObservationSetIndicesLinkEnds observableSize currentObservableType rest
      ({ after.1 with
          observationTypeAndLinkEndStartAndSize_ :=
            StdMap.modify []
              (StdMap.assign currentLinkEnds (currentStartIndex, after.2.2.2))
              currentObservableType after.1.observationTypeAndLinkEndStartAndSize_ },
        after.2.1, after.2.2.1)

/-- Outer loop of `setObservationSetIndices`, over the observable types. The state is
the object with `currentStartIndex`. The size of an observable is read from
`getObservableSize` (declared in `observableTypes.h`), a parameter here. -/
def setObservationSetIndicesTypes [LinearOrder L] (getObservableSize : ObservableType → Nat) :
    List (ObservableType × StdMap L (List (SingleObservationSet T S L))) →
      ObservationCollection T S L × Nat → ObservationCollection T S L × Nat
  | [], state => state
  | (currentObservableType, linkEndList) :: rest, (c, currentStartIndex) =>
    let after := setObservationSetIndicesLinkEnds (getObservableSize currentObservableType)
      currentObservableType linkEndList (c, currentStartIndex, 0)
    setObservationSetIndicesTypes getObservableSize rest
      ({ after.1 with
          observationTypeStartAndSize_ :=
            StdMap.assign currentObservableType (currentStartIndex, after.2.2)
              after.1.observationTypeStartAndSize_ },
        after.2.1)

/-- Method `setObservationSetIndices`. -/
def ObservationCollection.setObservationSetIndices [LinearOrder L]
    (getObservableSize : ObservableType → Nat) (c : ObservationCollection T S L) :
    ObservationCollection T S L :=
  (setObservationSetIndicesTypes getObservableSize c.observationSetList_
    ({ c with totalNumberOfObservables_ := 0, totalObservableSize_ := 0 }, 0)).1

/-- Loop over the components `k` of one observation in
`setConcatenatedObservationsAndTimes`; `count` components are still to be written. The
state is the object with `observationCounter`. -/
def setConcatenatedComponents (currentObservationTimes : List T) (j : Nat)
    (currentStationId : Nat) (currentLinkEnds : L) :
    Nat → ObservationCollection T S L × Nat → Except Error (ObservationCollection T S L × Nat)
  | 0, state => .ok state
  | count + 1, (c, observationCounter) =>
    match vectorAt currentObservationTimes j with
    | .error e => .error e
    | .ok time =>
      match vectorSet c.concatenatedTimes_ observationCounter time with
      | .error e => .error e
      | .ok times =>
        match vectorSet c.concatenatedLinkEndIds_ observationCounter currentStationId with
        | .error e => .error e
        | .ok ids =>
          match vectorSet c.concatenatedLinkEndIdNames_ observationCounter currentLinkEnds with
          | .error e => .error e
          | .ok names =>
            setConcatenatedComponents currentObservationTimes j currentStationId
              currentLinkEnds count
              ({ c with
                  concatenatedTimes_ := times
                  concatenatedLinkEndIds_ := ids
                  concatenatedLinkEndIdNames_ := names },
                observationCounter + 1)

/-- Loop over the observations `j` of one set in
`setConcatenatedObservationsAndTimes`. The state is `currentObservables` with the object
and `observationCounter`. -/
def setConcatenatedSamples (observableSize : Nat) (currentObservationTimes : List T)
    (currentStationId : Nat) (currentLinkEnds : L) :
    List (List S) → Nat → List S × ObservationCollection T S L × Nat →
      Except Error (List S × ObservationCollection T S L × Nat)
  | [], _, state => .ok state
  | observation :: rest, j, (currentObservables, state) =>
    match setSegment currentObservables (j * observableSize) observableSize observation with
    | .error e => .error e
    | .ok currentObservables' =>
      match setConcatenatedComponents currentObservationTimes j currentStationId
          currentLinkEnds observableSize state with
      | .error e => .error e
      | .ok state' =>
        setConcatenatedSamples observableSize currentObservationTimes currentStationId
          currentLinkEnds rest (j + 1) (currentObservables', state')

/-- Chained lookup `observationSetStartAndSize_.at( type ).at( linkEnds ).at( i )`. -/
def startAndSizeAt [LinearOrder L] (table : StdMap ObservableType (StdMap L (List (Nat × Nat))))
    (observableType : ObservableType) (linkEnds : L) (i : Nat) : Except Error (Nat × Nat) :=
  match StdMap.at table observableType with
  | .error e => .error e
  | .ok perLinkEnds =>
    match StdMap.at perLinkEnds linkEnds with
    | .error e => .error e
    | .ok entries => vectorAt entries i

/-- Loop over the sets `i` of one observable type and link ends in
`setConcatenatedObservationsAndTimes`. The state is the object with
`observationCounter`. -/
def setConcatenatedSets [LinearOrder L] [Zero S] (observableSize : Nat)
    (currentObservableType : ObservableType) (currentLinkEnds : L)
    (firstLinkDefinition : LinkDefinition L) (currentStationId : Nat) :
    List (SingleObservationSet T S L) → Nat → ObservationCollection T S L × Nat →
      Except Error (ObservationCollection T S L × Nat)
  | [], _, state => .ok state
  | set :: rest, i, (c, observationCounter) =>
    if ¬ (set.linkEnds_ = firstLinkDefinition) then .error .inconsistentLinkDefinitions
    else
      match startAndSizeAt c.observationSetStartAndSize_ currentObservableType
          currentLinkEnds i with
      | .error e => .error e
      | .ok startAndSize =>
        match setConcatenatedSamples observableSize set.observationTimes_ currentStationId
            currentLinkEnds set.observations_ 0
            (List.replicate startAndSize.2 0, c, observationCounter) with
        | .error e => .error e
        | .ok after =>
          match setSegment after.2.1.concatenatedObservations_ startAndSize.1 startAndSize.2
              after.1 with
          | .error e => .error e
          | .ok observations =>
            setConcatenatedSets observableSize currentObservableType currentLinkEnds
              firstLinkDefinition currentStationId rest (i + 1)
              ({ after.2.1 with concatenatedObservations_ := observations }, after.2.2)

/-- Local `firstLinkDefinition` of `setConcatenatedObservationsAndTimes`: the link
definition of the first set, a default constructed one when there is no set. -/
def firstLinkDefinition [Inhabited L] (sets : List (SingleObservationSet T S L)) :
    LinkDefinition L :=
  match sets with
  | [] => ⟨default⟩
  | first :: _ => first.linkEnds_

/-- Steps of `setConcatenatedObservationsAndTimes` for one observable type and link ends
that precede the loop over the sets: the first link definition is recorded and the link
ends get the next free identifier unless they have one. The result is the object with
`currentStationId` and `maximumStationId`. -/
def registerLinkEnds [LinearOrder L] [Inhabited L] (currentObservableType : ObservableType)
    (currentLinkEnds : L) (sets : List (SingleObservationSet T S L))
    (c : ObservationCollection T S L) (maximumStationId : Nat) :
    ObservationCollection T S L × Nat × Nat :=
  let c₁ : ObservationCollection T S L :=
    if sets.length > 0 then
      { c with
          linkDefinitionsPerObservable_ :=
            StdMap.modify [] (fun v => v ++ [firstLinkDefinition sets]) currentObservableType
              c.linkDefinitionsPerObservable_ }
    else c
  if StdMap.count c₁.linkEndIds_ currentLinkEnds = 0 then
    ({ c₁ with
        linkEndIds_ := StdMap.assign currentLinkEnds maximumStationId c₁.linkEndIds_
        inverseLinkEndIds_ :=
          StdMap.assign maximumStationId currentLinkEnds c₁.inverseLinkEndIds_ },
      maximumStationId, maximumStationId + 1)
  else (c₁, (StdMap.find? c₁.linkEndIds_ currentLinkEnds).getD 0, maximumStationId)

/-- Loop over the link ends of one observable type in
`setConcatenatedObservationsAndTimes`. The state is the object with
`observationCounter` and `maximumStationId`. -/
def setConcatenatedLinkEnds [LinearOrder L] [Inhabited L] [Zero S] (observableSize : Nat)
    (currentObservableType : ObservableType) :
    List (L × List (SingleObservationSet T S L)) → ObservationCollection T S L × Nat × Nat →
      Except Error (ObservationCollection T S L × Nat × Nat)
  | [], state => .ok state
  | (currentLinkEnds, sets) :: rest, (c, observationCounter, maximumStationId) =>
    match setConcatenatedSets observableSize currentObservableType currentLinkEnds
        (firstLinkDefinition sets)
        (registerLinkEnds currentObservableType currentLinkEnds sets c maximumStationId).2.1
        sets 0
        ((registerLinkEnds currentObservableType currentLinkEnds sets c maximumStationId).1,
          observationCounter) with
    | .error e => .error e
    | .ok after =>
      setConcatenatedLinkEnds observableSize currentObservableType rest
        (after.1, after.2,
          (registerLinkEnds currentObservableType currentLinkEnds sets c
            maximumStationId).2.2)

/-- Loop over the observable types in `setConcatenatedObservationsAndTimes`. -/
def setConcatenatedTypes [LinearOrder L] [Inhabited L] [Zero S]
    (getObservableSize : ObservableType → Nat) :
    List (ObservableType × StdMap L (List (SingleObservationSet T S L))) →
      ObservationCollection T S L × Nat × Nat →
      Except Error (ObservationCollection T S L × Nat × Nat)
  | [], state => .ok state
  | (currentObservableType, linkEndList) :: rest, state =>
    match setConcatenatedLinkEnds (getObservableSize currentObservableType)
        currentObservableType linkEndList state with
    | .error e => .error e
    | .ok state' => setConcatenatedTypes getObservableSize rest state'

/-- Inner loop that closes `setConcatenatedObservationsAndTimes`: the entries of one
observable type are filed under the identifier `linkEndIds_[ linkEnds ]`, where
`operator[]` inserts the identifier `0` for link ends without one. -/
def setStartAndSizePerLinkEndIndexLinkEnds [LinearOrder L] (observableType : ObservableType) :
    List (L × List (Nat × Nat)) → ObservationCollection T S L → ObservationCollection T S L
  | [], c => c
  | (linkEnds, entries) :: rest, c =>
    setStartAndSizePerLinkEndIndexLinkEnds observableType rest
      { c with
          linkEndIds_ := StdMap.modify 0 id linkEnds c.linkEndIds_
          observationSetStartAndSizePerLinkEndIndex_ :=
            StdMap.modify []
              (StdMap.assign ((StdMap.find? c.linkEndIds_ linkEnds).getD 0) entries)
              observableType c.observationSetStartAndSizePerLinkEndIndex_ }

/-- Outer loop that closes `setConcatenatedObservationsAndTimes`. -/
def setStartAndSizePerLinkEndIndex [LinearOrder L] :
    List (ObservableType × StdMap L (List (Nat × Nat))) → ObservationCollection T S L →
      ObservationCollection T S L
  | [], c => c
  | (observableType, perLinkEnds) :: rest, c =>
    setStartAndSizePerLinkEndIndex rest
      (setStartAndSizePerLinkEndIndexLinkEnds observableType perLinkEnds c)

/-- Method `setConcatenatedObservationsAndTimes`. -/
def ObservationCollection.setConcatenatedObservationsAndTimes [LinearOrder L] [Inhabited L]
    [Inhabited T] [Zero S] (getObservableSize : ObservableType → Nat)
    (c : ObservationCollection T S L) : Except Error (ObservationCollection T S L) :=
  match setConcatenatedTypes getObservableSize c.observationSetList_
      ({ c with
          concatenatedObservations_ := List.replicate c.totalObservableSize_ 0
          concatenatedTimes_ := vectorResize c.concatenatedTimes_ c.totalObservableSize_ default
          concatenatedLinkEndIds_ :=
            vectorResize c.concatenatedLinkEndIds_ c.totalObservableSize_ 0
          concatenatedLinkEndIdNames_ :=
            vectorResize c.concatenatedLinkEndIdNames_ c.totalObservableSize_ default },
        0, 0) with
  | .error e => .error e
  | .ok after =>
    .ok (setStartAndSizePerLinkEndIndex after.1.observationSetStartAndSize_ after.1)

/-- Constructor `ObservationCollection::ObservationCollection` from a nested mapping. -/
def ObservationCollection.construct [LinearOrder L] [Inhabited L] [Inhabited T] [Zero S]
    (getObservableSize : ObservableType → Nat)
    (observationSetList : SortedObservationSets T S L) :
    Except Error (ObservationCollection T S L) :=
  ObservationCollection.setConcatenatedObservationsAndTimes getObservableSize
    (ObservationCollection.setObservationSetIndices getObservableSize
      (ObservationCollection.initial observationSetList))

/-- Constructor `ObservationCollection::ObservationCollection` from a flat list of
sets. -/
def ObservationCollection.constructFromList [LinearOrder L] [Inhabited L] [Inhabited T]
    [Zero S] (getObservableSize : ObservableType → Nat)
    (observationSetList : List (SingleObservationSet T S L)) :
    Except Error (ObservationCollection T S L) :=
  ObservationCollection.construct getObservableSize
    (createSortedObservationSetList observationSetList)

/-- Members that `setObservationSetIndices` computes and that
`setConcatenatedObservationsAndTimes` only reads, with the nested mapping itself. -/
def ObservationCollection.indexMembers (c : ObservationCollection T S L) :
    SortedObservationSets T S L × StdMap ObservableType (StdMap L (List (Nat × Nat))) ×
      List (Nat × Nat) × StdMap ObservableType (StdMap L (Nat × Nat)) ×
      StdMap ObservableType (Nat × Nat) × Nat × Nat :=
  (c.observationSetList_, c.observationSetStartAndSize_,
    c.concatenatedObservationSetStartAndSize_, c.observationTypeAndLinkEndStartAndSize_,
    c.observationTypeStartAndSize_, c.totalObservableSize_, c.totalNumberOfObservables_)

/-- Specification of the index table: consecutive `(start, length)` pairs for the given
lengths, the first pair starting at `start`. -/
def startAndSizeFrom (start : Nat) : List Nat → List (Nat × Nat)
  | [] => []
  | length :: rest => (start, length) :: startAndSizeFrom (start + length) rest

/-- Members that `setConcatenatedObservationsAndTimes` computes and that
`setObservationSetIndices` leaves alone. -/
def ObservationCollection.bufferMembers (c : ObservationCollection T S L) :
    List S × List T × List S × List Nat × List L ×
      StdMap ObservableType (List (LinkDefinition L)) × StdMap L Nat × StdMap Nat L ×
      StdMap ObservableType (StdMap Nat (List (Nat × Nat))) :=
  (c.concatenatedObservations_, c.concatenatedTimes_, c.concatenatedWeights_,
    c.concatenatedLinkEndIds_, c.concatenatedLinkEndIdNames_, c.linkDefinitionsPerObservable_,
    c.linkEndIds_, c.inverseLinkEndIds_, c.observationSetStartAndSizePerLinkEndIndex_)

/-- Specification of the index table with keys: consecutive `(start, length)` pairs for
the given lengths, each under the key of its length, the first pair starting at
`start`. -/
def keyedStartAndSizeFrom {κ : Type} (start : Nat) : List (κ × Nat) → List (κ × Nat × Nat)
  | [] => []
  | (key, length) :: rest =>
    (key, start, length) :: keyedStartAndSizeFrom (start + length) rest

/-- Keys and scalar lengths of the sets of a nested mapping in iteration order: a set
of `n` observations stored under an observable type of size `d` has length `n * d`. -/
def SortedObservationSets.keyedLengths (getObservableSize : ObservableType → Nat)
    (m : SortedObservationSets T S L) : List ((ObservableType × L) × Nat) :=
  m.flatMap (fun typeEntry =>
    typeEntry.2.flatMap (fun linkEndEntry =>
      linkEndEntry.2.map (fun set =>
        ((typeEntry.1, linkEndEntry.1),
          set.getNumberOfObservables * getObservableSize typeEntry.1))))

/-- Effect of a part of `setObservationSetIndices` that runs from the object `c` with
`currentStartIndex = start` to the object `c'` with `currentStartIndex = start'` over
sets with the given keys and lengths. -/
def IndexPassResult [LinearOrder L] (c c' : ObservationCollection T S L) (start start' : Nat)
    (keyed : List ((ObservableType × L) × Nat)) : Prop :=
  c'.observationSetList_ = c.observationSetList_ ∧
  c'.bufferMembers = c.bufferMembers ∧
  c'.concatenatedObservationSetStartAndSize_ =
    c.concatenatedObservationSetStartAndSize_ ++
      (keyedStartAndSizeFrom start keyed).map Prod.snd ∧
  start' = start + (keyed.map Prod.snd).sum ∧
  c'.totalObservableSize_ = c.totalObservableSize_ + (keyed.map Prod.snd).sum ∧
  (StdMap.NestedWF c.observationSetStartAndSize_ →
    StdMap.NestedWF c'.observationSetStartAndSize_ ∧
    ∀ a b, StdMap.entriesAt c'.observationSetStartAndSize_ a b =
      StdMap.entriesAt c.observationSetStartAndSize_ a b ++
        ((keyedStartAndSizeFrom start keyed).filter (fun e => decide (e.1 = (a, b)))).map
          Prod.snd)

/-- Scalar lengths of the sets of one list, for observations of the given size. -/
def setLengths (observableSize : Nat) (sets : List (SingleObservationSet T S L)) : List Nat :=
  sets.map (fun set => set.getNumberOfObservables * observableSize)

/-- Scalar lengths of the sets of one observable type, in iteration order. -/
def linkEndLengths (observableSize : Nat)
    (linkEndList : List (L × List (SingleObservationSet T S L))) : List Nat :=
  linkEndList.flatMap (fun linkEndEntry => setLengths observableSize linkEndEntry.2)

/-- Scalar lengths of the sets of a nested mapping, in iteration order. -/
def typeLengths (getObservableSize : ObservableType → Nat)
    (m : SortedObservationSets T S L) : List Nat :=
  m.flatMap (fun typeEntry => linkEndLengths (getObservableSize typeEntry.1) typeEntry.2)

/-- Specification of the observation buffer: the observations of the sets of one list,
component after component. -/
def expectedObservations (sets : List (SingleObservationSet T S L)) : List S :=
  sets.flatMap (fun set => set.observations_.flatten)

/-- Specification of the time buffer: the times of the sets of one list, each time
once per component of its observation. -/
def expectedTimes (observableSize : Nat) (sets : List (SingleObservationSet T S L)) :
    List T :=
  sets.flatMap (fun set => set.observationTimes_.flatMap (List.replicate observableSize))

/-- Specification of the observation buffer of a collection. -/
def SortedObservationSets.expectedObservations (m : SortedObservationSets T S L) : List S :=
  m.flatMap (fun typeEntry =>
    typeEntry.2.flatMap (fun linkEndEntry => Tudat.expectedObservations linkEndEntry.2))

/-- Specification of the time buffer of a collection. -/
def SortedObservationSets.expectedTimes (getObservableSize : ObservableType → Nat)
    (m : SortedObservationSets T S L) : List T :=
  m.flatMap (fun typeEntry =>
    typeEntry.2.flatMap (fun linkEndEntry =>
      Tudat.expectedTimes (getObservableSize typeEntry.1) linkEndEntry.2))

/-- Specification of the link end identifier buffer of one observable type, read from
the identifier map `ids`: the identifier of the link ends, once per scalar component of
their sets. -/
def expectedLinkEndIds [LinearOrder L] (ids : StdMap L Nat) (observableSize : Nat)
    (linkEndList : List (L × List (SingleObservationSet T S L))) : List Nat :=
  linkEndList.flatMap (fun linkEndEntry =>
    List.replicate (setLengths observableSize linkEndEntry.2).sum
      ((StdMap.find? ids linkEndEntry.1).getD 0))

/-- Specification of the link end identifier buffer of a collection. -/
def SortedObservationSets.expectedLinkEndIds [LinearOrder L] (ids : StdMap L Nat)
    (getObservableSize : ObservableType → Nat) (m : SortedObservationSets T S L) : List Nat :=
  m.flatMap (fun typeEntry =>
    Tudat.expectedLinkEndIds ids (getObservableSize typeEntry.1) typeEntry.2)

/-- Specification of the link ends buffer of one observable type: the link ends, once
per scalar component of their sets. -/
def expectedLinkEndIdNames (observableSize : Nat)
    (linkEndList : List (L × List (SingleObservationSet T S L))) : List L :=
  linkEndList.flatMap (fun linkEndEntry =>
    List.replicate (setLengths observableSize linkEndEntry.2).sum linkEndEntry.1)

/-- Specification of the link ends buffer of a collection. -/
def SortedObservationSets.expectedLinkEndIdNames (getObservableSize : ObservableType → Nat)
    (m : SortedObservationSets T S L) : List L :=
  m.flatMap (fun typeEntry =>
    Tudat.expectedLinkEndIdNames (getObservableSize typeEntry.1) typeEntry.2)

/-- All four flat buffers of the object have `n` entries. -/
def ObservationCollection.BuffersSized (c : ObservationCollection T S L) (n : Nat) : Prop :=
  c.concatenatedObservations_.length = n ∧ c.concatenatedTimes_.length = n ∧
  c.concatenatedLinkEndIds_.length = n ∧ c.concatenatedLinkEndIdNames_.length = n

/-- Effect of a part of `setConcatenatedObservationsAndTimes` that runs from the object
`c` with `observationCounter = counter` to the object `c'` with
`observationCounter = counter'`, over sets of the given lengths filed under the given
link ends: the four buffers are overwritten from `counter` on with the given contents,
the identifiers being read from any map that keeps the bindings of `c'.linkEndIds_`. -/
def BufferPassResult [LinearOrder L] (c c' : ObservationCollection T S L)
    (counter counter' n : Nat) (lengths : List Nat) (observations : List S) (times : List T)
    (ids : StdMap L Nat → List Nat) (names : List L) (keys : List L) : Prop :=
  counter' = counter + lengths.sum ∧ counter' ≤ n ∧
  observations.length = lengths.sum ∧ times.length = lengths.sum ∧
  names.length = lengths.sum ∧ (∀ F, (ids F).length = lengths.sum) ∧
  c'.concatenatedObservations_ = overwrite c.concatenatedObservations_ counter observations ∧
  c'.concatenatedTimes_ = overwrite c.concatenatedTimes_ counter times ∧
  c'.concatenatedLinkEndIdNames_ = overwrite c.concatenatedLinkEndIdNames_ counter names ∧
  StdMap.WF c'.linkEndIds_ ∧ StdMap.Extends c.linkEndIds_ c'.linkEndIds_ ∧
  (∀ k ∈ keys, ∃ v, StdMap.find? c'.linkEndIds_ k = some v) ∧
  (∀ F, StdMap.Extends c'.linkEndIds_ F →
    c'.concatenatedLinkEndIds_ = overwrite c.concatenatedLinkEndIds_ counter (ids F)) ∧
  c'.BuffersSized n ∧ c'.observationSetStartAndSize_ = c.observationSetStartAndSize_

/-- Concatenation, in iteration order, of one block of entries per set of a nested
mapping; the block of a set is computed from the keys the set is stored under. -/
def SortedObservationSets.flatBlocks {α : Type}
    (block : ObservableType → L → SingleObservationSet T S L → List α)
    (m : SortedObservationSets T S L) : List α :=
  m.flatMap (fun typeEntry =>
    typeEntry.2.flatMap (fun linkEndEntry =>
      linkEndEntry.2.flatMap (fun set => block typeEntry.1 linkEndEntry.1 set)))

/-- Accessor `getObservationVector`. -/
def ObservationCollection.getObservationVector (c : ObservationCollection T S L) : List S :=
  c.concatenatedObservations_

/-- Accessor `getConcatenatedTimeVector`. -/
def ObservationCollection.getConcatenatedTimeVector (c : ObservationCollection T S L) :
    List T :=
  c.concatenatedTimes_

/-- Accessor `getConcatenatedLinkEndIds`. -/
def ObservationCollection.getConcatenatedLinkEndIds (c : ObservationCollection T S L) :
    List Nat :=
  c.concatenatedLinkEndIds_

/-- Accessor `getLinkEndIdentifierMap`. -/
def ObservationCollection.getLinkEndIdentifierMap (c : ObservationCollection T S L) :
    StdMap L Nat :=
  c.linkEndIds_

/-- Accessor `getObservationSetStartAndSize`. -/
def ObservationCollection.getObservationSetStartAndSize (c : ObservationCollection T S L) :
    StdMap ObservableType (StdMap L (List (Nat × Nat))) :=
  c.observationSetStartAndSize_

/-- Accessor `getConcatenatedObservationSetStartAndSize`. -/
def ObservationCollection.getConcatenatedObservationSetStartAndSize
    (c : ObservationCollection T S L) : List (Nat × Nat) :=
  c.concatenatedObservationSetStartAndSize_

/-- Accessor `getTotalObservableSize`. -/
def ObservationCollection.getTotalObservableSize (c : ObservationCollection T S L) : Nat :=
  c.totalObservableSize_

/-- Accessor `getObservations`. -/
def ObservationCollection.getObservations (c : ObservationCollection T S L) :
    SortedObservationSets T S L :=
  c.observationSetList_

/-- Accessor `getInverseLinkEndIdentifierMap`. -/
def ObservationCollection.getInverseLinkEndIdentifierMap (c : ObservationCollection T S L) :
    StdMap Nat L :=
  c.inverseLinkEndIds_

/-- Accessor `getConcatenatedLinkEndIdNames`. -/
def ObservationCollection.getConcatenatedLinkEndIdNames (c : ObservationCollection T S L) :
    List L :=
  c.concatenatedLinkEndIdNames_

/-- Link ends with an identifier, in the order in which they got it, after the link ends
`linkEnds` are met: they are added at the end unless they are there. -/
def meetLinkEnds [DecidableEq L] (order : List L) (linkEnds : L) : List L :=
  if linkEnds ∈ order then order else order ++ [linkEnds]

/-- The identifier map and its inverse number the link ends of `order` by their
position. -/
def LinkEndIdsNumbered [LinearOrder L] (ids : StdMap L Nat) (inverse : StdMap Nat L)
    (order : List L) : Prop :=
  StdMap.WF ids ∧ StdMap.WF inverse ∧
  (∀ linkEnds i, StdMap.find? ids linkEnds = some i ↔ order.get? i = some linkEnds) ∧
  (∀ i linkEnds, StdMap.find? inverse i = some linkEnds ↔ order.get? i = some linkEnds)

/-- Link ends keys of a nested mapping, in iteration order. -/
def SortedObservationSets.linkEndsKeys (m : SortedObservationSets T S L) : List L :=
  m.flatMap (fun typeEntry => typeEntry.2.map Prod.fst)

/-- Common part of `getSingleLinkObservations` and `getSingleLinkTimes`: the checks on
the observable type and the link ends, then `startIndex` and the `int`
`numberOfObservables` computed from the first and the last entry of the link ends. -/
def ObservationCollection.getSingleLinkStartAndSize [LinearOrder L]
    (c : ObservationCollection T S L) (observableType : ObservableType)
    (linkEnds : LinkDefinition L) : Except Error (Nat × Int) :=
  if StdMap.count c.observationSetStartAndSize_ observableType = 0 then
    .error .noObservationsOfType
  else
    match StdMap.at c.observationSetStartAndSize_ observableType with
    | .error e => .error e
    | .ok perLinkEnds =>
      if StdMap.count perLinkEnds linkEnds.linkEnds_ = 0 then .error .noObservationsForLinkEnds
      else
        match StdMap.at perLinkEnds linkEnds.linkEnds_ with
        | .error e => .error e
        | .ok combinedIndices =>
          match vectorAt combinedIndices 0 with
          | .error e => .error e
          | .ok first =>
            match vectorAt combinedIndices (combinedIndices.length - 1) with
            | .error e => .error e
            | .ok final => .ok (first.1, ((final.1 : Int) - (first.1 : Int)) + (final.2 : Int))

/-- Method `getSingleLinkObservations`. -/
def ObservationCollection.getSingleLinkObservations [LinearOrder L]
    (c : ObservationCollection T S L) (observableType : ObservableType)
    (linkEnds : LinkDefinition L) : Except Error (List S) :=
  match c.getSingleLinkStartAndSize observableType linkEnds with
  | .error e => .error e
  | .ok (startIndex, numberOfObservables) =>
    if numberOfObservables < 0 then .error .eigenAssertion
    else getSegment c.concatenatedObservations_ startIndex numberOfObservables.toNat

/-- Method `getSingleLinkTimes`. -/
def ObservationCollection.getSingleLinkTimes [LinearOrder L]
    (c : ObservationCollection T S L) (observableType : ObservableType)
    (linkEnds : LinkDefinition L) : Except Error (List T) :=
  match c.getSingleLinkStartAndSize observableType linkEnds with
  | .error e => .error e
  | .ok (startIndex, numberOfObservables) =>
    if numberOfObservables < 0 then .error .undefinedBehaviour
    else vectorRange c.concatenatedTimes_ startIndex (startIndex + numberOfObservables.toNat)

/-- Chained lookup `observationSetList_.at( type ).at( linkEnds ).at( i )`. -/
def observationSetAt [LinearOrder L] (observationSetList : SortedObservationSets T S L)
    (observableType : ObservableType) (linkEnds : L) (i : Nat) :
    Except Error (SingleObservationSet T S L) :=
  match StdMap.at observationSetList observableType with
  | .error e => .error e
  | .ok perLinkEnds =>
    match StdMap.at perLinkEnds linkEnds with
    | .error e => .error e
    | .ok sets => vectorAt sets i

/-- Innermost loop of `getWeightsFromSingleObservationSets`, over the positions `i` of
the sets of one observable type and link ends; the list only counts the positions that
are left. The state is `weightsVector`. -/
def getWeightsSets [LinearOrder L] (c : ObservationCollection T S L)
    (currentObservableType : ObservableType) (currentLinkEnds : L) :
    List (SingleObservationSet T S L) → Nat → List S → Except Error (List S)
  | [], _, weightsVector => .ok weightsVector
  | _ :: rest, i, weightsVector =>
    match startAndSizeAt c.observationSetStartAndSize_ currentObservableType
        currentLinkEnds i with
    | .error e => .error e
    | .ok startAndSize =>
      match observationSetAt c.observationSetList_ currentObservableType currentLinkEnds i with
      | .error e => .error e
      | .ok set =>
        if set.weightsVector_.length = startAndSize.2 then
          match setSegment weightsVector startAndSize.1 startAndSize.2 set.getWeightsVector with
          | .error e => .error e
          | .ok weightsVector' =>
            getWeightsSets c currentObservableType currentLinkEnds rest (i + 1) weightsVector'
        else .error .weightsInconsistent

/-- Middle loop of `getWeightsFromSingleObservationSets`, over the link ends of one
observable type. -/
def getWeightsLinkEnds [LinearOrder L] (c : ObservationCollection T S L)
    (currentObservableType : ObservableType) :
    List (L × List (SingleObservationSet T S L)) → List S → Except Error (List S)
  | [], weightsVector => .ok weightsVector
  | (currentLinkEnds, sets) :: rest, weightsVector =>
    match getWeightsSets c currentObservableType currentLinkEnds sets 0 weightsVector with
    | .error e => .error e
    | .ok weightsVector' => getWeightsLinkEnds c currentObservableType rest weightsVector'

/-- Outer loop of `getWeightsFromSingleObservationSets`, over the observable types. -/
def getWeightsTypes [LinearOrder L] (c : ObservationCollection T S L) :
    List (ObservableType × StdMap L (List (SingleObservationSet T S L))) → List S →
      Except Error (List S)
  | [], weightsVector => .ok weightsVector
  | (currentObservableType, linkEndList) :: rest, weightsVector =>
    match getWeightsLinkEnds c currentObservableType linkEndList weightsVector with
    | .error e => .error e
    | .ok weightsVector' => getWeightsTypes c rest weightsVector'

/-- Method `getWeightsFromSingleObservationSets`. -/
def ObservationCollection.getWeightsFromSingleObservationSets [LinearOrder L] [Zero S]
    (c : ObservationCollection T S L) : Except Error (List S) :=
  getWeightsTypes c c.observationSetList_ (List.replicate c.totalObservableSize_ 0)

/-- Method `getConcatenatedWeightVector`: the outcome of the call and the object after
it. The cache `concatenatedWeights_` is resized before the weights are collected, so it
stays resized when collecting them throws. -/
def ObservationCollection.getConcatenatedWeightVector [LinearOrder L] [Zero S]
    (c : ObservationCollection T S L) : Except Error (List S) × ObservationCollection T S L :=
  if c.concatenatedWeights_.length ≠ c.totalObservableSize_ then
    let resized : ObservationCollection T S L :=
      { c with
          concatenatedWeights_ := vectorResize c.concatenatedWeights_ c.totalObservableSize_ 0 }
    match resized.getWeightsFromSingleObservationSets with
    | .error e => (.error e, resized)
    | .ok temp =>
      if temp.length > 0 then (.ok temp, { resized with concatenatedWeights_ := temp })
      else (.ok resized.concatenatedWeights_, resized)
  else (.ok c.concatenatedWeights_, c)

/-- Specification of the weights buffer: the weights vectors of the sets of one list,
one after the other. -/
def expectedWeights (sets : List (SingleObservationSet T S L)) : List S :=
  sets.flatMap (fun set => set.weightsVector_)

/-- Specification of the weights buffer of a collection. -/
def SortedObservationSets.expectedWeights (m : SortedObservationSets T S L) : List S :=
  m.flatMap (fun typeEntry =>
    typeEntry.2.flatMap (fun linkEndEntry => Tudat.expectedWeights linkEndEntry.2))

/-- Coefficient access `v( i )` of `Eigen`, which asserts that `i` is the position of a
coefficient. -/
def eigenCoeff {α : Type} (v : List α) (i : Nat) : Except Error α :=
  match v.get? i with
  | some x => .ok x
  | none => .error .eigenAssertion

/-- Loop of `getObservationCollectionEntriesToFiler` over the components `k` of the
observation `j`; `count` components are left. The state is `removeObservation`. -/
def entriesToFilterComponents [LinearOrder S] (currentSetResiduals : List S) (filterValue : S)
    (currentObservableSize j : Nat) : Nat → Nat → Bool → Except Error Bool
  | 0, _, removeObservation => .ok removeObservation
  | count + 1, k, removeObservation =>
    match eigenCoeff currentSetResiduals (j * currentObservableSize + k) with
    | .error e => .error e
    | .ok residual =>
      entriesToFilterComponents currentSetResiduals filterValue currentObservableSize j count
        (k + 1) (if residual > filterValue then true else removeObservation)

/-- Loop of `getObservationCollectionEntriesToFiler` over the observations `j` of one
set; `count` observations are left. The state is `indicesToRemove`. -/
def entriesToFilterSamples [LinearOrder S] (currentSetResiduals : List S) (filterValue : S)
    (currentObservableSize : Nat) : Nat → Nat → List Int → Except Error (List Int)
  | 0, _, indicesToRemove => .ok indicesToRemove
  | count + 1, j, indicesToRemove =>
    match entriesToFilterComponents currentSetResiduals filterValue currentObservableSize j
        currentObservableSize 0 false with
    | .error e => .error e
    | .ok removeObservation =>
      entriesToFilterSamples currentSetResiduals filterValue currentObservableSize count (j + 1)
        (if removeObservation then indicesToRemove ++ [(j : Int)] else indicesToRemove)

/-- Loop of `getObservationCollectionEntriesToFiler` over the positions `i` of the sets
of one observable type and link ends; the list only counts the positions that are left.
The state is `currentLinkEndsEntriesToFiler`. -/
def entriesToFilterSets [LinearOrder L] [LinearOrder S] (dataToFiler : ObservationCollection T S L)
    (residualVector : List S) (getObservableSize : ObservableType → Nat)
    (observableType : ObservableType) (filterValue : S) (linkEnds : L) :
    List (SingleObservationSet T S L) → Nat → List (List Int) → Except Error (List (List Int))
  | [], _, currentLinkEndsEntriesToFiler => .ok currentLinkEndsEntriesToFiler
  | _ :: rest, i, currentLinkEndsEntriesToFiler =>
    match observationSetAt dataToFiler.getObservations observableType linkEnds i with
    | .error e => .error e
    | .ok currentObservationSet =>
      match startAndSizeAt dataToFiler.observationSetStartAndSize_ observableType linkEnds i with
      | .error e => .error e
      | .ok fullVectorStartAndSize =>
        match getSegment residualVector fullVectorStartAndSize.1 fullVectorStartAndSize.2 with
        | .error e => .error e
        | .ok currentSetResiduals =>
          if currentSetResiduals.length ≠
              getObservableSize observableType * currentObservationSet.getNumberOfObservables then
            .error .filterSetSizeIncompatible
          else
            match entriesToFilterSamples currentSetResiduals filterValue
                (getObservableSize observableType)
                currentObservationSet.observationTimes_.length 0 [] with
            | .error e => .error e
            | .ok indicesToRemove =>
              entriesToFilterSets dataToFiler residualVector getObservableSize observableType
                filterValue linkEnds rest (i + 1)
                (currentLinkEndsEntriesToFiler ++ [indicesToRemove])

/-- Loop of `getObservationCollectionEntriesToFiler` over the link ends of one
observable type. The state is `currentObservableEntriesToFilter`. -/
def entriesToFilterLinkEnds [LinearOrder L] [LinearOrder S]
    (dataToFiler : ObservationCollection T S L) (residualVector : List S)
    (getObservableSize : ObservableType → Nat) (observableType : ObservableType)
    (filterValue : S) :
    List (L × List (SingleObservationSet T S L)) → List (L × List (List Int)) →
      Except Error (List (L × List (List Int)))
  | [], currentObservableEntriesToFilter => .ok currentObservableEntriesToFilter
  | (linkEnds, sets) :: rest, currentObservableEntriesToFilter =>
    match entriesToFilterSets dataToFiler residualVector getObservableSize observableType
        filterValue linkEnds sets 0 [] with
    | .error e => .error e
    | .ok currentLinkEndsEntriesToFiler =>
      entriesToFilterLinkEnds dataToFiler residualVector getObservableSize observableType
        filterValue rest
        (currentObservableEntriesToFilter ++ [(linkEnds, currentLinkEndsEntriesToFiler)])

/-- Loop of `getObservationCollectionEntriesToFiler` over the observable types. The
state is `filterEntries`. -/
def entriesToFilterTypes [LinearOrder L] [LinearOrder S]
    (dataToFiler : ObservationCollection T S L) (residualVector : List S)
    (getObservableSize : ObservableType → Nat)
    (residualCutoffValuePerObservable : StdMap ObservableType S) :
    List (ObservableType × StdMap L (List (SingleObservationSet T S L))) →
      StdMap ObservableType (List (L × List (List Int))) →
      Except Error (StdMap ObservableType (List (L × List (List Int))))
  | [], filterEntries => .ok filterEntries
  | (observableType, linkEndList) :: rest, filterEntries =>
    match StdMap.at residualCutoffValuePerObservable observableType with
    | .error e => .error e
    | .ok filterValue =>
      match entriesToFilterLinkEnds dataToFiler residualVector getObservableSize observableType
          filterValue linkEndList [] with
      | .error e => .error e
      | .ok currentObservableEntriesToFilter =>
        entriesToFilterTypes dataToFiler residualVector getObservableSize
          residualCutoffValuePerObservable rest
          (StdMap.assign observableType currentObservableEntriesToFilter filterEntries)

/-- Function `getObservationCollectionEntriesToFiler`. -/
def getObservationCollectionEntriesToFiler [LinearOrder L] [LinearOrder S]
    (getObservableSize : ObservableType → Nat) (dataToFiler : ObservationCollection T S L)
    (residualVector : List S) (residualCutoffValuePerObservable : StdMap ObservableType S) :
    Except Error (StdMap ObservableType (List (L × List (List Int)))) :=
  if residualVector.length ≠ dataToFiler.getTotalObservableSize then
    .error .filterInputSizeIncompatible
  else
    entriesToFilterTypes dataToFiler residualVector getObservableSize
      residualCutoffValuePerObservable dataToFiler.getObservations []

/-- Chained lookup `getObservationsReference( ).at( type ).at( linkEnds )`. -/
def observationSetsAt [LinearOrder L] (observationSetList : SortedObservationSets T S L)
    (observableType : ObservableType) (linkEnds : L) :
    Except Error (List (SingleObservationSet T S L)) :=
  match StdMap.at observationSetList observableType with
  | .error e => .error e
  | .ok perLinkEnds => StdMap.at perLinkEnds linkEnds

/-- Innermost loop of `filterData`, over the positions `j` of the sets that are left of
one observable type and link ends. The state is `filteredObservedObservationSets`. -/
def filterDataSets [LinearOrder T] [LinearOrder L] (observableType : ObservableType)
    (currentLinkEnds : L) (linkEndListEntriesToRemove : List (List Int)) :
    List (SingleObservationSet T S L) → Nat → SortedObservationSets T S L →
      Except Error (SortedObservationSets T S L)
  | [], _, filteredObservedObservationSets => .ok filteredObservedObservationSets
  | observedSet :: rest, j, filteredObservedObservationSets =>
    match vectorAt linkEndListEntriesToRemove j with
    | .error e => .error e
    | .ok indices =>
      match observedSet.createFilteredObservationSet indices with
      | .error e => .error e
      | .ok filteredSet =>
        filterDataSets observableType currentLinkEnds linkEndListEntriesToRemove rest (j + 1)
          (StdMap.pushBack observableType currentLinkEnds filteredSet
            filteredObservedObservationSets)

/-- Middle loop of `filterData`, over the pairs of link ends and index lists of one
observable type. -/
def filterDataLinkEnds [LinearOrder T] [LinearOrder L]
    (observationCollection : ObservationCollection T S L) (observableType : ObservableType) :
    List (L × List (List Int)) → SortedObservationSets T S L →
      Except Error (SortedObservationSets T S L)
  | [], filteredObservedObservationSets => .ok filteredObservedObservationSets
  | (currentLinkEnds, linkEndListEntriesToRemove) :: rest, filteredObservedObservationSets =>
    match observationSetsAt observationCollection.getObservations observableType
        currentLinkEnds with
    | .error e => .error e
    | .ok observedSets =>
      if observedSets.length ≠ linkEndListEntriesToRemove.length then
        .error .filterListIncompatible
      else
        match filterDataSets observableType currentLinkEnds linkEndListEntriesToRemove
            observedSets 0 filteredObservedObservationSets with
        | .error e => .error e
        | .ok filteredObservedObservationSets' =>
          filterDataLinkEnds observationCollection observableType rest
            filteredObservedObservationSets'

/-- Outer loop of `filterData`, over the observable types of the filter entries. -/
def filterDataTypes [LinearOrder T] [LinearOrder L]
    (observationCollection : ObservationCollection T S L) :
    List (ObservableType × List (L × List (List Int))) → SortedObservationSets T S L →
      Except Error (SortedObservationSets T S L)
  | [], filteredObservedObservationSets => .ok filteredObservedObservationSets
  | (observableType, entries) :: rest, filteredObservedObservationSets =>
    match filterDataLinkEnds observationCollection observableType entries
        filteredObservedObservationSets with
    | .error e => .error e
    | .ok filteredObservedObservationSets' =>
      filterDataTypes observationCollection rest filteredObservedObservationSets'

/-- Function `filterData`. -/
def filterData [LinearOrder T] [LinearOrder L] [Inhabited L] [Inhabited T] [Zero S]
    (getObservableSize : ObservableType → Nat)
    (observationCollection : ObservationCollection T S L)
    (filterEntries : StdMap ObservableType (List (L × List (List Int)))) :
    Except Error (ObservationCollection T S L) :=
  match filterDataTypes observationCollection filterEntries [] with
  | .error e => .error e
  | .ok filteredObservedObservationSets =>
    ObservationCollection.construct getObservableSize filteredObservedObservationSets

/-- Specification of the filter test: some of the `d` components of the observation
`j` of a set with the given residuals exceeds the cutoff. -/
def exceedsCutoff [LinearOrder S] (residuals : List S) (cutoff : S) (d j : Nat) : Bool :=
  (List.range d).any (fun k =>
    match residuals.get? (j * d + k) with
    | some x => decide (x > cutoff)
    | none => false)

/-- Specification of the index list of a set of `n` observations of size `d` with the
given residuals: the positions of the observations that exceed the cutoff, in
ascending order. -/
def exceedingIndices [LinearOrder S] (residuals : List S) (cutoff : S) (d n : Nat) :
    List Int :=
  ((List.range n).filter (exceedsCutoff residuals cutoff d)).map Int.ofNat

/-- Innermost loop of `createResidualCollection`, over the positions `i` of the observed
sets that are left of one observable type and link ends. The state is
`residualObservationSets`. -/
def createResidualSets [LinearOrder T] [LinearOrder L] [Sub S]
    (computedObservationSets : SortedObservationSets T S L) (observableType : ObservableType)
    (linkEnds : L) :
    List (SingleObservationSet T S L) → Nat → SortedObservationSets T S L →
      Except Error (SortedObservationSets T S L)
  | [], _, residualObservationSets => .ok residualObservationSets
  | observedSet :: rest, i, residualObservationSets =>
    match observationSetAt computedObservationSets observableType linkEnds i with
    | .error e => .error e
    | .ok computedSet =>
      match createResidualObservationSet observedSet computedSet with
      | .error e => .error e
      | .ok residualSet =>
        createResidualSets computedObservationSets observableType linkEnds rest (i + 1)
          (StdMap.pushBack observableType linkEnds residualSet residualObservationSets)

/-- Middle loop of `createResidualCollection`, over the link ends of one observable type
of the observed sets. -/
def createResidualLinkEnds [LinearOrder T] [LinearOrder L] [Sub S]
    (computedObservationSets : SortedObservationSets T S L) (observableType : ObservableType) :
    List (L × List (SingleObservationSet T S L)) → SortedObservationSets T S L →
      Except Error (SortedObservationSets T S L)
  | [], residualObservationSets => .ok residualObservationSets
  | (linkEnds, sets) :: rest, residualObservationSets =>
    match createResidualSets computedObservationSets observableType linkEnds sets 0
        residualObservationSets with
    | .error e => .error e
    | .ok residualObservationSets' =>
      createResidualLinkEnds computedObservationSets observableType rest
        residualObservationSets'

/-- Outer loop of `createResidualCollection`, over the observable types of the observed
sets. -/
def createResidualTypes [LinearOrder T] [LinearOrder L] [Sub S]
    (computedObservationSets : SortedObservationSets T S L) :
    List (ObservableType × StdMap L (List (SingleObservationSet T S L))) →
      SortedObservationSets T S L → Except Error (SortedObservationSets T S L)
  | [], residualObservationSets => .ok residualObservationSets
  | (observableType, linkEndList) :: rest, residualObservationSets =>
    match createResidualLinkEnds computedObservationSets observableType linkEndList
        residualObservationSets with
    | .error e => .error e
    | .ok residualObservationSets' =>
      createResidualTypes computedObservationSets rest residualObservationSets'

/-- Function `createResidualCollection`. -/
def createResidualCollection [LinearOrder T] [LinearOrder L] [Inhabited L] [Inhabited T]
    [Zero S] [Sub S] (getObservableSize : ObservableType → Nat)
    (observedData computedData : ObservationCollection T S L) :
    Except Error (ObservationCollection T S L) :=
  match createResidualTypes computedData.getObservations observedData.getObservations [] with
  | .error e => .error e
  | .ok residualObservationSets =>
    ObservationCollection.construct getObservableSize residualObservationSets

/-- Specification of the residual of an observed and a computed set: the observed set
with every observation replaced by its difference with the computed one, without
dependent variables and weights. -/
def residualSet [Sub S] (observed computed : SingleObservationSet T S L) :
    SingleObservationSet T S L :=
  { observableType_ := observed.observableType_
    linkEnds_ := observed.linkEnds_
    observations_ :=
      List.zipWith (List.zipWith (· - ·)) observed.observations_ computed.observations_
    observationTimes_ := observed.observationTimes_
    referenceLinkEnd_ := observed.referenceLinkEnd_
    observationsDependentVariables_ := []
    dependentVariableCalculator_ := none
    ancilliarySettings_ := observed.ancilliarySettings_
    numberOfObservations_ := observed.observations_.length
    weightsVector_ := [] }

/-- Two sets have the same observable type, reference link end, link ends and
observation times. -/
def SameSampling (a b : SingleObservationSet T S L) : Prop :=
  a.observableType_ = b.observableType_ ∧ a.referenceLinkEnd_ = b.referenceLinkEnd_ ∧
  a.linkEnds_ = b.linkEnds_ ∧ a.observationTimes_ = b.observationTimes_

/-- Two nested mappings are structurally identical with equal sample times: they have
the same observable types, under each type the same link ends, under each link ends
lists of sets of one length, and the sets at one place have the same sampling. -/
def StructurallyIdentical (a b : SortedObservationSets T S L) : Prop :=
  List.Forall₂ (fun p p' => p.1 = p'.1 ∧
    List.Forall₂ (fun q q' => q.1 = q'.1 ∧ List.Forall₂ SameSampling q.2 q'.2) p.2 p'.2) a b

/-- Specification of one entry of the residual mapping in iteration order: the residual
of the sets of two entries, under the keys of the first. -/
def residualEntry [Sub S] (e e' : ObservableType × L × SingleObservationSet T S L) :
    ObservableType × L × SingleObservationSet T S L :=
  (e.1, e.2.1, residualSet e.2.2 e'.2.2)

/-- Two sets that satisfy the class invariant, have the same sampling and hold
observations of the given size. -/
def ResidualCompatible [LinearOrder T] [DecidableEq L] (size : Nat)
    (a b : SingleObservationSet T S L) : Prop :=
  SameSampling a b ∧ a.Invariant ∧ b.Invariant ∧
  (∀ o ∈ a.observations_, o.length = size) ∧ (∀ o ∈ b.observations_, o.length = size)

/-- Accessor `getObservationTypeAndLinkEndStartAndSize`. -/
def ObservationCollection.getObservationTypeAndLinkEndStartAndSize
    (c : ObservationCollection T S L) : StdMap ObservableType (StdMap L (Nat × Nat)) :=
  c.observationTypeAndLinkEndStartAndSize_

/-- Accessor `getObservationTypeStartAndSize`. -/
def ObservationCollection.getObservationTypeStartAndSize (c : ObservationCollection T S L) :
    StdMap ObservableType (Nat × Nat) :=
  c.observationTypeStartAndSize_

/-- Method `getTimeBounds`. -/
def ObservationCollection.getTimeBounds [LinearOrder T] (c : ObservationCollection T S L) :
    Except Error (T × T) :=
  match dereference (minElement c.concatenatedTimes_) with
  | .error e => .error e
  | .ok smallest =>
    match dereference (maxElement c.concatenatedTimes_) with
    | .error e => .error e
    | .ok largest => .ok (smallest, largest)

end Collection

/-- Example of a nested mapping: one set of one observation of size 1 under observable
type 1 and link ends 9, and under observable type 2 one set of one observation of size
2 for link ends 4 and one set of two observations of size 2 for link ends 7. -/
def exampleSortedObservationSets : SortedObservationSets Int Int Nat :=
  [(1, [(9, [⟨1, ⟨9⟩, [[10]], [3], 0, [], none, none, 1, []⟩])]),
   (2, [(4, [⟨2, ⟨4⟩, [[30, 31]], [8], 0, [], none, none, 1, []⟩]),
        (7, [⟨2, ⟨7⟩, [[20, 21], [22, 23]], [5, 6], 0, [], none, none, 2, []⟩])])]

/-- Example of a flat list of sets: the sets of `exampleSortedObservationSets`, the set
of observable type 2 and link ends 7 first, then the set of observable type 1, then the
set of observable type 2 and link ends 4. -/
def exampleObservationSetList : List (SingleObservationSet Int Int Nat) :=
  [⟨2, ⟨7⟩, [[20, 21], [22, 23]], [5, 6], 0, [], none, none, 2, []⟩,
   ⟨1, ⟨9⟩, [[10]], [3], 0, [], none, none, 1, []⟩,
   ⟨2, ⟨4⟩, [[30, 31]], [8], 0, [], none, none, 1, []⟩]

/-- Example of a collection: the one constructed from `exampleSortedObservationSets`
when the size of an observable is the value of its type. -/
def exampleObservationCollection : ObservationCollection Int Int Nat :=
  { observationSetList_ := exampleSortedObservationSets
    concatenatedObservations_ := [10, 30, 31, 20, 21, 22, 23]
    concatenatedTimes_ := [3, 8, 8, 5, 5, 6, 6]
    concatenatedWeights_ := []
    concatenatedLinkEndIds_ := [0, 1, 1, 2, 2, 2, 2]
    concatenatedLinkEndIdNames_ := [9, 4, 4, 7, 7, 7, 7]
    linkDefinitionsPerObservable_ := [(1, [⟨9⟩]), (2, [⟨4⟩, ⟨7⟩])]
    linkEndIds_ := [(4, 1), (7, 2), (9, 0)]
    inverseLinkEndIds_ := [(0, 9), (1, 4), (2, 7)]
    observationSetStartAndSize_ := [(1, [(9, [(0, 1)])]), (2, [(4, [(1, 2)]), (7, [(3, 4)])])]
    concatenatedObservationSetStartAndSize_ := [(0, 1), (1, 2), (3, 4)]
    observationSetStartAndSizePerLinkEndIndex_ :=
      [(1, [(0, [(0, 1)])]), (2, [(1, [(1, 2)]), (2, [(3, 4)])])]
    observationTypeAndLinkEndStartAndSize_ := [(1, [(9, 0, 1)]), (2, [(4, 1, 2), (7, 3, 4)])]
    observationTypeStartAndSize_ := [(1, 0, 1), (2, 1, 6)]
    totalObservableSize_ := 7
    totalNumberOfObservables_ := 4 }

/-- Example of a nested mapping of sets with weights: under observable type 1 and link
ends 9 a set of one observation with the weights `[5]` and a set of two observations
with the weights `[6, 7]`. -/
def exampleWeightedSets : SortedObservationSets Int Int Nat :=
  [(1, [(9, [⟨1, ⟨9⟩, [[10]], [3], 0, [], none, none, 1, [5]⟩,
             ⟨1, ⟨9⟩, [[20], [21]], [4, 5], 0, [], none, none, 2, [6, 7]⟩])])]

/-- Example of a collection of sets with weights: the one constructed from
`exampleWeightedSets` when the size of an observable is the value of its type. -/
def exampleWeightedCollection : ObservationCollection Int Int Nat :=
  { observationSetList_ := exampleWeightedSets
    concatenatedObservations_ := [10, 20, 21]
    concatenatedTimes_ := [3, 4, 5]
    concatenatedWeights_ := []
    concatenatedLinkEndIds_ := [0, 0, 0]
    concatenatedLinkEndIdNames_ := [9, 9, 9]
    linkDefinitionsPerObservable_ := [(1, [⟨9⟩])]
    linkEndIds_ := [(9, 0)]
    inverseLinkEndIds_ := [(0, 9)]
    observationSetStartAndSize_ := [(1, [(9, [(0, 1), (1, 2)])])]
    concatenatedObservationSetStartAndSize_ := [(0, 1), (1, 2)]
    observationSetStartAndSizePerLinkEndIndex_ := [(1, [(0, [(0, 1), (1, 2)])])]
    observationTypeAndLinkEndStartAndSize_ := [(1, [(9, 0, 3)])]
    observationTypeStartAndSize_ := [(1, 0, 3)]
    totalObservableSize_ := 3
    totalNumberOfObservables_ := 3 }

/-- Example of computed sets: the sets of `exampleSortedObservationSets` with other
observations at the same times. -/
def exampleComputedSets : SortedObservationSets Int Int Nat :=
  [(1, [(9, [⟨1, ⟨9⟩, [[1]], [3], 0, [], none, none, 1, []⟩])]),
   (2, [(4, [⟨2, ⟨4⟩, [[2, 3]], [8], 0, [], none, none, 1, []⟩]),
        (7, [⟨2, ⟨7⟩, [[4, 5], [6, 7]], [5, 6], 0, [], none, none, 2, []⟩])])]

/-- Example of a computed collection: the one constructed from `exampleComputedSets`
when the size of an observable is the value of its type. -/
def exampleComputedCollection : ObservationCollection Int Int Nat :=
  { exampleObservationCollection with
    observationSetList_ := exampleComputedSets
    concatenatedObservations_ := [1, 2, 3, 4, 5, 6, 7] }

/-- Example of a nested mapping with link ends that hold no set: the observable type 1
with the link ends 9 and an empty list of sets. -/
def exampleEmptyLinkEndsSets : SortedObservationSets Int Int Nat := [(1, [(9, [])])]

/-- Example of a collection with link ends that hold no set: the one constructed from
`exampleEmptyLinkEndsSets`. -/
def exampleEmptyLinkEndsCollection : ObservationCollection Int Int Nat :=
  { observationSetList_ := exampleEmptyLinkEndsSets
    concatenatedObservations_ := []
    concatenatedTimes_ := []
    concatenatedWeights_ := []
    concatenatedLinkEndIds_ := []
    concatenatedLinkEndIdNames_ := []
    linkDefinitionsPerObservable_ := []
    linkEndIds_ := [(9, 0)]
    inverseLinkEndIds_ := [(0, 9)]
    observationSetStartAndSize_ := []
    concatenatedObservationSetStartAndSize_ := []
    observationSetStartAndSizePerLinkEndIndex_ := []
    observationTypeAndLinkEndStartAndSize_ := [(1, [(9, 0, 0)])]
    observationTypeStartAndSize_ := [(1, 0, 0)]
    totalObservableSize_ := 0
    totalNumberOfObservables_ := 0 }

section GravityField

variable {K : Type}

/-- `Eigen::Matrix3d`: the coefficient at row `i` and column `j`. -/
abbrev Matrix3 (K : Type) := Fin 3 → Fin 3 → K

/-- `Eigen::MatrixXd`: the numbers of rows and columns and the coefficients, which
the code reads and writes through the checked accessors. -/
structure MatrixX (K : Type) where
  rows : Nat
  cols : Nat
  coeff : Nat → Nat → K

/-- Matrix `Eigen::MatrixXd::Zero( rows, cols )`. -/
def MatrixX.zeros [Zero K] (rows cols : Nat) : MatrixX K :=
  { rows := rows, cols := cols, coeff := fun _ _ => 0 }

/-- Statement `m.setZero( )`, which keeps the size. -/
def MatrixX.setZero [Zero K] (m : MatrixX K) : MatrixX K :=
  { m with coeff := fun _ _ => 0 }

/-- Read access `m( i, j )`, with the index assertion of `Eigen`. -/
def MatrixX.get (m : MatrixX K) (i j : Nat) : Except Error K :=
  if i < m.rows ∧ j < m.cols then .ok (m.coeff i j) else .error .eigenAssertion

/-- Write access `m( i, j ) = x`, with the index assertion of `Eigen`. -/
def MatrixX.set (m : MatrixX K) (i j : Nat) (x : K) : Except Error (MatrixX K) :=
  if i < m.rows ∧ j < m.cols then
    .ok { m with coeff := fun a b => if a = i ∧ b = j then x else m.coeff a b }
  else .error .eigenAssertion

/-- Function `getInertiaTensor` of `sphericalHarmonicsGravityField.cpp`, the overload
that takes the five degree-two coefficients. A `double` is an element of the field `K`
(exact arithmetic); `Eigen::Matrix3d::Identity( )` has the coefficient 1 on the
diagonal and 0 elsewhere. -/
def getInertiaTensor [Field K] (c20Coefficient c21Coefficient c22Coefficient s21Coefficient
    s22Coefficient scaledMeanMomentOfInertia bodyMass referenceRadius : K) : Matrix3 K :=
  let scalingConstant := bodyMass * referenceRadius * referenceRadius
  let inertiaTensor : Matrix3 K :=
    ![![c20Coefficient / 3 - 2 * c22Coefficient, -2 * s22Coefficient, -c21Coefficient],
      ![-2 * s22Coefficient, c20Coefficient / 3 + 2 * c22Coefficient, -s21Coefficient],
      ![-c21Coefficient, -s21Coefficient, -2 * c20Coefficient / 3]]
  fun i j =>
    scalingConstant * (inertiaTensor i j + (if i = j then 1 else 0) * scaledMeanMomentOfInertia)

/-- Function `getInertiaTensor` of `sphericalHarmonicsGravityField.cpp`, the overload
that takes the matrices of cosine and sine coefficients. -/
def getInertiaTensorFromMatrices [Field K]
    (unnormalizedCosineCoefficients unnormalizedSineCoefficients : MatrixX K)
    (scaledMeanMomentOfInertia bodyMass referenceRadius : K) : Except Error (Matrix3 K) :=
  match unnormalizedCosineCoefficients.get 2 0 with
  | .error e => .error e
  | .ok c20 =>
    match unnormalizedCosineCoefficients.get 2 1 with
    | .error e => .error e
    | .ok c21 =>
      match unnormalizedCosineCoefficients.get 2 2 with
      | .error e => .error e
      | .ok c22 =>
        match unnormalizedSineCoefficients.get 2 1 with
        | .error e => .error e
        | .ok s21 =>
          match unnormalizedSineCoefficients.get 2 2 with
          | .error e => .error e
          | .ok s22 =>
            .ok (getInertiaTensor c20 c21 c22 s21 s22 scaledMeanMomentOfInertia bodyMass
              referenceRadius)

/-- Function `getDegreeTwoSphericalHarmonicCoefficients` of
`sphericalHarmonicsGravityField.cpp`, the overload that writes into the matrices
`cosineCoefficients` and `sineCoefficients` of the caller; the result holds the two
matrices and `scaledMeanMomentOfInertia` after the call. The constant
`physical_constants::GRAVITATIONAL_CONSTANT` (declared in `physicalConstants.h`) and the
function `basic_mathematics::geodesyNormalizeUnnormalizedCoefficients` (declared in
`legendrePolynomials.h`) are parameters. The literals `0.5` and `0.25` are `1 / 2` and
`1 / 4`. -/
def getDegreeTwoSphericalHarmonicCoefficients [Field K] (GRAVITATIONAL_CONSTANT : K)
    (geodesyNormalizeUnnormalizedCoefficients :
      MatrixX K → MatrixX K → Except Error (MatrixX K × MatrixX K))
    (inertiaTensor : Matrix3 K) (bodyGravitationalParameter referenceRadius : K)
    (useNormalizedCoefficients : Bool) (cosineCoefficients sineCoefficients : MatrixX K) :
    Except Error (MatrixX K × MatrixX K × K) :=
  let scalingTerm :=
    bodyGravitationalParameter * referenceRadius * referenceRadius / GRAVITATIONAL_CONSTANT
  match cosineCoefficients.setZero.set 0 0 1 with
  | .error e => .error e
  | .ok cosine1 =>
    match cosine1.set 2 0
        ((1 / 2 * inertiaTensor 0 0 + 1 / 2 * inertiaTensor 1 1 - inertiaTensor 2 2) /
          scalingTerm) with
    | .error e => .error e
    | .ok cosine2 =>
      match cosine2.set 2 2
          ((-(1 / 4) * inertiaTensor 0 0 + 1 / 4 * inertiaTensor 1 1) / scalingTerm) with
      | .error e => .error e
      | .ok cosine3 =>
        match cosine3.set 2 1 (-inertiaTensor 2 0 / scalingTerm) with
        | .error e => .error e
        | .ok cosine4 =>
          match sineCoefficients.setZero.set 2 1 (-inertiaTensor 2 1 / scalingTerm) with
          | .error e => .error e
          | .ok sine1 =>
            match sine1.set 2 2 (-(1 / 2) * inertiaTensor 1 0 / scalingTerm) with
            | .error e => .error e
            | .ok sine2 =>
              let scaledMeanMomentOfInertia :=
                (inertiaTensor 0 0 + inertiaTensor 1 1 + inertiaTensor 2 2) /
                  (3 * scalingTerm)
              if useNormalizedCoefficients then
                match geodesyNormalizeUnnormalizedCoefficients cosine4 sine2 with
                | .error e => .error e
                | .ok normalized => .ok (normalized.1, normalized.2, scaledMeanMomentOfInertia)
              else .ok (cosine4, sine2, scaledMeanMomentOfInertia)

/-- Function `getDegreeTwoSphericalHarmonicCoefficients` of
`sphericalHarmonicsGravityField.cpp`, the overload that returns a tuple: it allocates
zero matrices of `maximumCoefficientDegree + 1` rows and columns and fills them. -/
def getDegreeTwoSphericalHarmonicCoefficientsTuple [Field K] (GRAVITATIONAL_CONSTANT : K)
    (geodesyNormalizeUnnormalizedCoefficients :
      MatrixX K → MatrixX K → Except Error (MatrixX K × MatrixX K))
    (inertiaTensor : Matrix3 K) (bodyGravitationalParameter referenceRadius : K)
    (maximumCoefficientDegree : Nat) (useNormalizedCoefficients : Bool) :
    Except Error (MatrixX K × MatrixX K × K) :=
  getDegreeTwoSphericalHarmonicCoefficients GRAVITATIONAL_CONSTANT
    geodesyNormalizeUnnormalizedCoefficients inertiaTensor bodyGravitationalParameter
    referenceRadius useNormalizedCoefficients
    (MatrixX.zeros (maximumCoefficientDegree + 1) (maximumCoefficientDegree + 1))
    (MatrixX.zeros (maximumCoefficientDegree + 1) (maximumCoefficientDegree + 1))

/-- Example of a symmetric inertia tensor over the rationals. -/
def exampleInertiaTensor : Matrix3 ℚ :=
  ![![2, 1, 5], ![1, 3, 7], ![5, 7, 4]]

end GravityField

section PatchedConics

/-- Unchecked read `v[ i ]` of a `std::vector`; undefined unless `i` is the position of
an element. -/
def vectorGet {α : Type} (v : List α) (i : Nat) : Except Error α :=
  match v.get? i with
  | some a => .ok a
  | none => .error .undefinedBehaviour

/-- Modelled from the spec: enumeration `transfer_trajectories::TransferLegType`
(declared in `trajectory.h`), with the six departure and swingby variants that
`propagationPatchedConicFullProblem.cpp` names; `other` stands for every further
enumerator. -/
inductive TransferLegType where
  | mga_Departure
  | mga_Swingby
  | mga1DsmPosition_Departure
  | mga1DsmPosition_Swingby
  | mga1DsmVelocity_Departure
  | mga1DsmVelocity_Swingby
  | other
  deriving DecidableEq, Repr

/-- `Eigen::Vector6d` holding a Cartesian state: `segment( 0, 3 )` is the position and
`segment( 3, 3 )` the velocity. -/
abbrev Vector6 (V3 : Type) := V3 × V3

/-- `std::map< double, Eigen::Vector6d >`, a state history. -/
abbrev StateHistory (R V3 : Type) := StdMap R (Vector6 V3)

/-- Modelled from the spec: `simulation_setup::Body` (declared in `body.h`), reduced to
what `getEphemeris( )` and `getGravityFieldModel( )` return: a null pointer is `none`, an
ephemeris is its function `getCartesianState`, a gravity field model is its
gravitational parameter. -/
structure Body (R V3 : Type) where
  ephemeris_ : Option (R → Vector6 V3)
  gravityFieldModel_ : Option R

/-- `simulation_setup::NamedBodyMap`, a `std::unordered_map` from names to bodies; the
pointer stored under a name is not null. -/
abbrev NamedBodyMap (R V3 : Type) := String → Option (Body R V3)

/-- Modelled from the spec: `numerical_integrators::IntegratorSettings` (declared in
`createNumericalIntegrator.h`), reduced to the members that the code writes. -/
structure IntegratorSettings (R : Type) where
  initialTime_ : R
  initialTimeStep_ : R

/-- Modelled from the spec: the classes derived from `PropagationTerminationSettings`
(declared in `propagationTerminationSettings.h`) that the code constructs: termination
at a time, termination on the relative distance of two bodies, and a list of
conditions. -/
inductive PropagationTerminationSettings (R : Type) where
  | time (terminationTime : R)
  | relativeDistance (associatedBody secondaryBody : String) (limitValue : R)
      (useAsLowerLimit : Bool)
  | hybrid (terminationSettings : List (PropagationTerminationSettings R))
      (fulfillSingleCondition : Bool)

/-- Modelled from the spec: `TranslationalStatePropagatorSettings< double >` (declared
in `propagationSettings.h`), the arguments of its constructor; `resetInitialStates`
replaces `initialBodyStates`. -/
structure TranslationalStatePropagatorSettings (R V3 Acc Dep Prp : Type) where
  centralBodies : List String
  accelerationsMap : Acc
  bodiesToIntegrate : List String
  initialBodyStates : Vector6 V3
  terminationSettings : PropagationTerminationSettings R
  propagator : Prp
  dependentVariablesToSave : Option Dep

/-- Pair of propagator settings of one leg: the settings of the backward and of the
forward propagation. -/
abbrev PropagatorSettingsPair (R V3 Acc Dep Prp : Type) :=
  TranslationalStatePropagatorSettings R V3 Acc Dep Prp ×
    TranslationalStatePropagatorSettings R V3 Acc Dep Prp

/-- Modelled from the spec: `transfer_trajectories::Trajectory` (declared in
`trajectory.h`), the arguments of its constructor. -/
structure Trajectory (R V3 : Type) where
  numberOfLegs : Nat
  legTypeVector : List TransferLegType
  ephemerisVector : List (Option (R → Vector6 V3))
  gravitationalParameterVector : List R
  trajectoryVariableVector : List R
  centralBodyGravitationalParameter : R
  minimumPericenterRadiiVector : List R
  semiMajorAxesVector : List R
  eccentricityVector : List R
  includeDepartureDeltaV : Bool
  includeArrivalDeltaV : Bool

/-- Modelled from the spec: the arguments that the constructors of the four leg classes
with a deep space manoeuvre (declared in `departureLegMga1DsmVelocity.h`,
`swingbyLegMga1DsmVelocity.h`, `departureLegMga1DsmPosition.h` and
`swingbyLegMga1DsmPosition.h`) have in common. -/
structure LegArguments (R V3 : Type) where
  departureBodyPosition : V3
  arrivalBodyPosition : V3
  timeOfFlight : R
  departureBodyVelocity : V3
  centralBodyGravitationalParameter : R
  departureBodyGravitationalParameter : R
  trajectoryVariable0 : R
  trajectoryVariable1 : R
  trajectoryVariable2 : R
  trajectoryVariable3 : R

/-- Modelled from the spec: the functions and classes that
`propagationPatchedConicFullProblem.cpp` uses and that other files declare, as
functions that return. A leg class is the function from the arguments of its
constructor to the pair of `velocityBeforeArrival`, which `calculateLeg` returns, and
`velocityAfterDeparture`, which `returnDepartureVariables` returns; a swingby leg takes
in addition the velocity that `pointerToVelocityBeforeArrival` points to. -/
structure ExternalFunctions (R V3 Acc Dep Prp : Type) where
  maneuvers : Trajectory R V3 → List V3 × List R
  departureLegMga1DsmVelocity : LegArguments R V3 → R → R → V3 × V3
  swingbyLegMga1DsmVelocity : LegArguments R V3 → V3 → V3 × V3
  departureLegMga1DsmPosition : LegArguments R V3 → R → R → V3 × V3
  swingbyLegMga1DsmPosition : LegArguments R V3 → V3 → R → V3 × V3
  propagateLambertTargeterAndFullProblem : R → R → NamedBodyMap R V3 → String →
    PropagatorSettingsPair R V3 Acc Dep Prp → IntegratorSettings R → List String → R →
    V3 → V3 → StateHistory R V3 × StateHistory R V3
  convertCartesianToKeplerianElements : Vector6 V3 → R → Vector6 V3
  propagateKeplerOrbit : Vector6 V3 → R → R → Vector6 V3
  convertKeplerianToCartesianElements : Vector6 V3 → R → Vector6 V3
  getEquationsOfMotionNumericalSolution : NamedBodyMap R V3 → IntegratorSettings R →
    TranslationalStatePropagatorSettings R V3 Acc Dep Prp → StateHistory R V3
  norm : V3 → R
  semiMajorAxis : Vector6 V3 → R
  computeSphereOfInfluence : R → R → R → R
  computeKeplerOrbitalPeriod : R → R → R → R
  computeSynodicPeriod : R → R → R

variable {R V3 Acc Dep Prp : Type}

/-- Access `bodyMap[ name ]`, followed by a member access: `operator[]` inserts a null
pointer under a name that the map does not hold, and the code dereferences it. -/
def bodyMapIndex (bodyMap : NamedBodyMap R V3) (name : String) :
    Except Error (Body R V3) :=
  match bodyMap name with
  | some body => .ok body
  | none => .error .undefinedBehaviour

/-- Access `bodyMap.at( name )`. -/
def bodyMapAt (bodyMap : NamedBodyMap R V3) (name : String) : Except Error (Body R V3) :=
  match bodyMap name with
  | some body => .ok body
  | none => .error .outOfRange

/-- Expression `body->getGravityFieldModel( )->getGravitationalParameter( )`. -/
def Body.getGravitationalParameter (body : Body R V3) : Except Error R :=
  match body.gravityFieldModel_ with
  | some gravitationalParameter => .ok gravitationalParameter
  | none => .error .undefinedBehaviour

/-- Expression `body->getEphemeris( )->getCartesianState( time )`. -/
def Body.getCartesianState (body : Body R V3) (time : R) : Except Error (Vector6 V3) :=
  match body.ephemeris_ with
  | some ephemeris => .ok (ephemeris time)
  | none => .error .undefinedBehaviour

/-- Loop of `createTransferTrajectoryObject` over the transfer bodies: the ephemeris of
a body that the map holds is appended to `ephemerisVector`, and its gravitational
parameter is written to `gravitationalParameterVector`, which is zero at the position of
a body that the map does not hold. -/
def createTransferTrajectoryBodies [Zero R] (bodyMap : NamedBodyMap R V3) :
    List String → Except Error (List (Option (R → Vector6 V3)) × List R)
  | [] => .ok ([], [])
  | name :: rest =>
    match bodyMap name with
    | none =>
      match createTransferTrajectoryBodies bodyMap rest with
      | .error e => .error e
      | .ok (ephemerisVector, gravitationalParameterVector) =>
        .ok (ephemerisVector, 0 :: gravitationalParameterVector)
    | some body =>
      match body.getGravitationalParameter with
      | .error e => .error e
      | .ok gravitationalParameter =>
        match createTransferTrajectoryBodies bodyMap rest with
        | .error e => .error e
        | .ok (ephemerisVector, gravitationalParameterVector) =>
          .ok (body.ephemeris_ :: ephemerisVector,
            gravitationalParameter :: gravitationalParameterVector)

/-- Function `createTransferTrajectoryObject`. -/
def createTransferTrajectoryObject [Zero R] (bodyMap : NamedBodyMap R V3)
    (transferBodyOrder : List String) (centralBody : String)
    (transferLegTypes : List TransferLegType)
    (trajectoryIndependentVariables minimumPericenterRadii : List R)
    (includeDepartureDeltaV : Bool) (departureSemiMajorAxis departureEccentricity : R)
    (includeArrivalDeltaV : Bool) (arrivalSemiMajorAxis arrivalEccentricity : R) :
    Except Error (Trajectory R V3) :=
  match createTransferTrajectoryBodies bodyMap transferBodyOrder with
  | .error e => .error e
  | .ok (ephemerisVector, gravitationalParameterVector) =>
    match bodyMap centralBody with
    | none => .error .centralBodyNotFound
    | some body =>
      match body.getGravitationalParameter with
      | .error e => .error e
      | .ok centralBodyGravitationalParameter =>
        .ok { numberOfLegs := transferBodyOrder.length
              legTypeVector := transferLegTypes
              ephemerisVector := ephemerisVector
              gravitationalParameterVector := gravitationalParameterVector
              trajectoryVariableVector := trajectoryIndependentVariables
              centralBodyGravitationalParameter := centralBodyGravitationalParameter
              minimumPericenterRadiiVector := minimumPericenterRadii
              semiMajorAxesVector := [departureSemiMajorAxis, arrivalSemiMajorAxis]
              eccentricityVector := [departureEccentricity, arrivalEccentricity]
              includeDepartureDeltaV := includeDepartureDeltaV
              includeArrivalDeltaV := includeArrivalDeltaV }

/-- Function `propagateMgaWithoutDsmAndFullProblem`: the patched conics result and the
full problem result of a leg without deep space manoeuvre. -/
def propagateMgaWithoutDsmAndFullProblem (env : ExternalFunctions R V3 Acc Dep Prp)
    (bodyMap : NamedBodyMap R V3) (departureAndArrivalBodies : List String)
    (centralBody : String) (cartesianPositionAtDeparture cartesianPositionAtArrival : V3)
    (initialTime timeOfFlight : R)
    (propagatorSettings : PropagatorSettingsPair R V3 Acc Dep Prp)
    (integratorSettings : IntegratorSettings R) :
    Except Error (StateHistory R V3 × StateHistory R V3) :=
  match bodyMapIndex bodyMap centralBody with
  | .error e => .error e
  | .ok central =>
    match central.getGravitationalParameter with
    | .error e => .error e
    | .ok centralBodyGravitationalParameter =>
      .ok (env.propagateLambertTargeterAndFullProblem timeOfFlight initialTime bodyMap
        centralBody propagatorSettings { integratorSettings with initialTime_ := initialTime }
        departureAndArrivalBodies centralBodyGravitationalParameter
        cartesianPositionAtDeparture cartesianPositionAtArrival)

/-- Loops of `propagateKeplerianOrbitLegAndFullProblem` over a state history of the
full problem: for every epoch the state on the Keplerian orbit and the state of the
full problem are stored under the epoch. -/
def storeKeplerianAndFullProblem [LinearOrder R] (keplerianState : R → Vector6 V3) :
    List (R × Vector6 V3) → StateHistory R V3 × StateHistory R V3 →
      StateHistory R V3 × StateHistory R V3
  | [], results => results
  | (epoch, state) :: rest, (keplerianOrbitResult, fullProblemResult) =>
    storeKeplerianAndFullProblem keplerianState rest
      (StdMap.assign epoch (keplerianState epoch) keplerianOrbitResult,
        StdMap.assign epoch state fullProblemResult)

/-- Function `propagateKeplerianOrbitLegAndFullProblem`. The arguments
`centralBodyGravitationalParameter` and `cartesianPositionAtDeparture` are `none` when
the value handed over is a NaN or holds a NaN, which the code tests by comparing the
value with itself. The integrator settings are handed to the two simulations with the
initial time at half the time of flight, the second with the opposite time step. -/
def propagateKeplerianOrbitLegAndFullProblem [LinearOrderedField R]
    (env : ExternalFunctions R V3 Acc Dep Prp) (timeOfFlight initialTime : R)
    (bodyMap : NamedBodyMap R V3) (centralBody : String)
    (departureAndArrivalBodies : List String) (velocityAfterDeparture : V3)
    (propagatorSettings : PropagatorSettingsPair R V3 Acc Dep Prp)
    (integratorSettings : IntegratorSettings R) (centralBodyGravitationalParameter : Option R)
    (cartesianPositionAtDeparture : Option V3) :
    Except Error (StateHistory R V3 × StateHistory R V3) :=
  let gravitationalParameter : Except Error R :=
    match centralBodyGravitationalParameter with
    | some value => .ok value
    | none =>
      match bodyMapAt bodyMap centralBody with
      | .error e => .error e
      | .ok central => central.getGravitationalParameter
  match gravitationalParameter with
  | .error e => .error e
  | .ok gravitationalParameterCentralBody =>
    let halvedTimeOfFlight := timeOfFlight / 2
    let position : Except Error V3 :=
      match cartesianPositionAtDeparture with
      | some value => .ok value
      | none =>
        match vectorAt departureAndArrivalBodies 0 with
        | .error e => .error e
        | .ok departureBody =>
          match bodyMapAt bodyMap departureBody with
          | .error e => .error e
          | .ok body =>
            match body.ephemeris_ with
            | none => .error .ephemerisNotDefinedDeparture
            | some ephemeris => .ok (ephemeris initialTime).1
    match position with
    | .error e => .error e
    | .ok cartesianPositionAtDepartureForPatchedConics =>
      let cartesianStateAtDeparture : Vector6 V3 :=
        (cartesianPositionAtDepartureForPatchedConics, velocityAfterDeparture)
      let keplerianStateAtDeparture := env.convertCartesianToKeplerianElements
        cartesianStateAtDeparture gravitationalParameterCentralBody
      let keplerianStateAtHalvedTimeOfFlight := env.propagateKeplerOrbit
        keplerianStateAtDeparture halvedTimeOfFlight gravitationalParameterCentralBody
      let initialStatePropagation := env.convertKeplerianToCartesianElements
        keplerianStateAtHalvedTimeOfFlight gravitationalParameterCentralBody
      let keplerianState : R → Vector6 V3 := fun epoch =>
        env.convertKeplerianToCartesianElements
          (env.propagateKeplerOrbit
            (env.convertCartesianToKeplerianElements initialStatePropagation
              gravitationalParameterCentralBody)
            (epoch - (initialTime + halvedTimeOfFlight)) gravitationalParameterCentralBody)
          gravitationalParameterCentralBody
      let stateHistoryFullProblemForwardPropagation :=
        env.getEquationsOfMotionNumericalSolution bodyMap
          { integratorSettings with initialTime_ := initialTime + halvedTimeOfFlight }
          { propagatorSettings.2 with initialBodyStates := initialStatePropagation }
      let stateHistoryFullProblemBackwardPropagation :=
        env.getEquationsOfMotionNumericalSolution bodyMap
          { initialTime_ := initialTime + halvedTimeOfFlight
            initialTimeStep_ := -integratorSettings.initialTimeStep_ }
          { propagatorSettings.1 with initialBodyStates := initialStatePropagation }
      .ok (storeKeplerianAndFullProblem keplerianState
        stateHistoryFullProblemBackwardPropagation
        (storeKeplerianAndFullProblem keplerianState
          stateHistoryFullProblemForwardPropagation ([], [])))

/-- Result of the functions that propagate a leg with a deep space manoeuvre: the two
velocities and the four state histories that they write through their reference
arguments. -/
structure DsmLegResult (R V3 : Type) where
  velocityAfterDeparture : V3
  velocityBeforeArrival : V3
  patchedConicsResultFromDepartureToDsm : StateHistory R V3
  fullProblemResultFromDepartureToDsm : StateHistory R V3
  patchedConicsResultFromDsmToArrival : StateHistory R V3
  fullProblemResultFromDsmToArrival : StateHistory R V3

/-- The arguments of the leg constructors that the functions with a deep space
manoeuvre compute alike: the velocity of the departure body from its ephemeris, the
gravitational parameters of the central body and of the departure body, and the four
trajectory variables, each read without a check. In the call of the constructor the
ephemeris is read first. -/
def dsmLegArguments [Sub R] (bodyMap : NamedBodyMap R V3)
    (departureAndArrivalBodies : List String) (centralBody : String)
    (cartesianPositionAtDeparture cartesianPositionAtArrival : V3)
    (initialTime timeArrival : R) (trajectoryVariableVector : List R) :
    Except Error (LegArguments R V3) :=
  match vectorGet departureAndArrivalBodies 0 with
  | .error e => .error e
  | .ok departureBody =>
    match bodyMapIndex bodyMap departureBody with
    | .error e => .error e
    | .ok departure =>
      match departure.getCartesianState initialTime with
      | .error e => .error e
      | .ok departureState =>
        match bodyMapIndex bodyMap centralBody with
        | .error e => .error e
        | .ok central =>
          match central.getGravitationalParameter with
          | .error e => .error e
          | .ok centralBodyGravitationalParameter =>
            match departure.getGravitationalParameter with
            | .error e => .error e
            | .ok departureBodyGravitationalParameter =>
              match vectorGet trajectoryVariableVector 0 with
              | .error e => .error e
              | .ok variable0 =>
                match vectorGet trajectoryVariableVector 1 with
                | .error e => .error e
                | .ok variable1 =>
                  match vectorGet trajectoryVariableVector 2 with
                  | .error e => .error e
                  | .ok variable2 =>
                    match vectorGet trajectoryVariableVector 3 with
                    | .error e => .error e
                    | .ok variable3 =>
                      .ok { departureBodyPosition := cartesianPositionAtDeparture
                            arrivalBodyPosition := cartesianPositionAtArrival
                            timeOfFlight := timeArrival - initialTime
                            departureBodyVelocity := departureState.2
                            centralBodyGravitationalParameter :=
                              centralBodyGravitationalParameter
                            departureBodyGravitationalParameter :=
                              departureBodyGravitationalParameter
                            trajectoryVariable0 := variable0
                            trajectoryVariable1 := variable1
                            trajectoryVariable2 := variable2
                            trajectoryVariable3 := variable3 }

/-- Function `propagateMga1DsmVelocityAndFullProblem`. The arguments
`velocityAfterDeparture` and `velocityBeforeArrival` are the values that the two
references hold at the call; the result holds their values at the return. -/
def propagateMga1DsmVelocityAndFullProblem [LinearOrderedField R]
    (env : ExternalFunctions R V3 Acc Dep Prp) (bodyMap : NamedBodyMap R V3)
    (departureAndArrivalBodies : List String) (dsm centralBody : String)
    (cartesianPositionAtDeparture cartesianPositionDSM cartesianPositionAtArrival : V3)
    (initialTime timeDsm timeArrival : R) (legType : TransferLegType)
    (trajectoryVariableVector : List R) (semiMajorAxis eccentricity : R)
    (velocityAfterDeparture velocityBeforeArrival : V3)
    (propagatorSettingsBeforeDsm propagatorSettingsAfterDsm :
      PropagatorSettingsPair R V3 Acc Dep Prp)
    (integratorSettings : IntegratorSettings R) : Except Error (DsmLegResult R V3) :=
  let velocities : Except Error (V3 × V3) :=
    if legType = .mga1DsmVelocity_Departure then
      match dsmLegArguments bodyMap departureAndArrivalBodies centralBody
          cartesianPositionAtDeparture cartesianPositionAtArrival initialTime timeArrival
          trajectoryVariableVector with
      | .error e => .error e
      | .ok arguments =>
        .ok ((env.departureLegMga1DsmVelocity arguments semiMajorAxis eccentricity).2,
          (env.departureLegMga1DsmVelocity arguments semiMajorAxis eccentricity).1)
    else if legType = .mga1DsmVelocity_Swingby then
      match dsmLegArguments bodyMap departureAndArrivalBodies centralBody
          cartesianPositionAtDeparture cartesianPositionAtArrival initialTime timeArrival
          trajectoryVariableVector with
      | .error e => .error e
      | .ok arguments =>
        .ok ((env.swingbyLegMga1DsmVelocity arguments velocityBeforeArrival).2,
          (env.swingbyLegMga1DsmVelocity arguments velocityBeforeArrival).1)
    else .ok (velocityAfterDeparture, velocityBeforeArrival)
  match velocities with
  | .error e => .error e
  | .ok (newVelocityAfterDeparture, newVelocityBeforeArrival) =>
    match vectorGet departureAndArrivalBodies 0 with
    | .error e => .error e
    | .ok departureBody =>
      match bodyMapIndex bodyMap centralBody with
      | .error e => .error e
      | .ok central =>
        match central.getGravitationalParameter with
        | .error e => .error e
        | .ok centralBodyGravitationalParameter =>
          match propagateKeplerianOrbitLegAndFullProblem env (timeDsm - initialTime)
              initialTime bodyMap centralBody [departureBody, dsm] newVelocityAfterDeparture
              propagatorSettingsBeforeDsm
              { integratorSettings with initialTime_ := initialTime }
              (some centralBodyGravitationalParameter)
              (some cartesianPositionAtDeparture) with
          | .error e => .error e
          | .ok fromDepartureToDsm =>
            match vectorGet departureAndArrivalBodies 1 with
            | .error e => .error e
            | .ok arrivalBody =>
              .ok { velocityAfterDeparture := newVelocityAfterDeparture
                    velocityBeforeArrival := newVelocityBeforeArrival
                    patchedConicsResultFromDepartureToDsm := fromDepartureToDsm.1
                    fullProblemResultFromDepartureToDsm := fromDepartureToDsm.2
                    patchedConicsResultFromDsmToArrival :=
                      (env.propagateLambertTargeterAndFullProblem (timeArrival - timeDsm)
                        timeDsm bodyMap centralBody propagatorSettingsAfterDsm
                        { integratorSettings with initialTime_ := timeDsm }
                        [dsm, arrivalBody] centralBodyGravitationalParameter
                        cartesianPositionDSM cartesianPositionAtArrival).1
                    fullProblemResultFromDsmToArrival :=
                      (env.propagateLambertTargeterAndFullProblem (timeArrival - timeDsm)
                        timeDsm bodyMap centralBody propagatorSettingsAfterDsm
                        { integratorSettings with initialTime_ := timeDsm }
                        [dsm, arrivalBody] centralBodyGravitationalParameter
                        cartesianPositionDSM cartesianPositionAtArrival).2 }

/-- Function `propagateMga1DsmPositionAndFullProblem`. The arguments
`velocityAfterDeparture` and `velocityBeforeArrival` are the values that the two
references hold at the call; the result holds their values at the return. -/
def propagateMga1DsmPositionAndFullProblem [LinearOrderedField R]
    (env : ExternalFunctions R V3 Acc Dep Prp) (bodyMap : NamedBodyMap R V3)
    (departureAndArrivalBodies : List String) (dsm centralBody : String)
    (cartesianPositionAtDeparture cartesianPositionDSM cartesianPositionAtArrival : V3)
    (initialTime timeDsm timeArrival : R) (legType : TransferLegType)
    (trajectoryVariableVector : List R)
    (minimumPericenterRadius semiMajorAxis eccentricity : R)
    (velocityAfterDeparture velocityBeforeArrival : V3)
    (propagatorSettingsBeforeDsm propagatorSettingsAfterDsm :
      PropagatorSettingsPair R V3 Acc Dep Prp)
    (integratorSettings : IntegratorSettings R) : Except Error (DsmLegResult R V3) :=
  let afterDeparture : Except Error (V3 × V3) :=
    if legType = .mga1DsmPosition_Departure then
      match dsmLegArguments bodyMap departureAndArrivalBodies centralBody
          cartesianPositionAtDeparture cartesianPositionAtArrival initialTime timeArrival
          trajectoryVariableVector with
      | .error e => .error e
      | .ok arguments =>
        .ok ((env.departureLegMga1DsmPosition arguments semiMajorAxis eccentricity).2,
          (env.departureLegMga1DsmPosition arguments semiMajorAxis eccentricity).1)
    else .ok (velocityAfterDeparture, velocityBeforeArrival)
  match afterDeparture with
  | .error e => .error e
  | .ok (velocityAfterDeparture1, velocityBeforeArrival1) =>
    let afterSwingby : Except Error (V3 × V3) :=
      if legType = .mga1DsmPosition_Swingby then
        match dsmLegArguments bodyMap departureAndArrivalBodies centralBody
            cartesianPositionAtDeparture cartesianPositionAtArrival initialTime timeArrival
            trajectoryVariableVector with
        | .error e => .error e
        | .ok arguments =>
          .ok ((env.swingbyLegMga1DsmPosition arguments velocityBeforeArrival1
              minimumPericenterRadius).2,
            (env.swingbyLegMga1DsmPosition arguments velocityBeforeArrival1
              minimumPericenterRadius).1)
      else .ok (velocityAfterDeparture1, velocityBeforeArrival1)
    match afterSwingby with
    | .error e => .error e
    | .ok (newVelocityAfterDeparture, newVelocityBeforeArrival) =>
      match vectorGet departureAndArrivalBodies 0 with
      | .error e => .error e
      | .ok departureBody =>
        match bodyMapIndex bodyMap centralBody with
        | .error e => .error e
        | .ok central =>
          match central.getGravitationalParameter with
          | .error e => .error e
          | .ok centralBodyGravitationalParameter =>
            match vectorGet departureAndArrivalBodies 1 with
            | .error e => .error e
            | .ok arrivalBody =>
              .ok { velocityAfterDeparture := newVelocityAfterDeparture
                    velocityBeforeArrival := newVelocityBeforeArrival
                    patchedConicsResultFromDepartureToDsm :=
                      (env.propagateLambertTargeterAndFullProblem (timeDsm - initialTime)
                        initialTime bodyMap centralBody propagatorSettingsBeforeDsm
                        { integratorSettings with initialTime_ := initialTime }
                        [departureBody, dsm] centralBodyGravitationalParameter
                        cartesianPositionAtDeparture cartesianPositionDSM).1
                    fullProblemResultFromDepartureToDsm :=
                      (env.propagateLambertTargeterAndFullProblem (timeDsm - initialTime)
                        initialTime bodyMap centralBody propagatorSettingsBeforeDsm
                        { integratorSettings with initialTime_ := initialTime }
                        [departureBody, dsm] centralBodyGravitationalParameter
                        cartesianPositionAtDeparture cartesianPositionDSM).2
                    patchedConicsResultFromDsmToArrival :=
                      (env.propagateLambertTargeterAndFullProblem (timeArrival - timeDsm)
                        timeDsm bodyMap centralBody propagatorSettingsAfterDsm
                        { integratorSettings with initialTime_ := timeDsm }
                        [dsm, arrivalBody] centralBodyGravitationalParameter
                        cartesianPositionDSM cartesianPositionAtArrival).1
                    fullProblemResultFromDsmToArrival :=
                      (env.propagateLambertTargeterAndFullProblem (timeArrival - timeDsm)
                        timeDsm bodyMap centralBody propagatorSettingsAfterDsm
                        { integratorSettings with initialTime_ := timeDsm }
                        [dsm, arrivalBody] centralBodyGravitationalParameter
                        cartesianPositionDSM cartesianPositionAtArrival).2 }

/-- Loop of `fullPropagationPatchedConicsTrajectory` that builds
`bodiesAndManoeuvresOrder`, from the leg `i` on for `count` legs. The state is the list
with `counterDSMs`. -/
def bodiesAndManoeuvresOrderLoop (transferBodyOrder : List String)
    (legTypeVector : List TransferLegType) :
    Nat → Nat → List String × Nat → Except Error (List String × Nat)
  | 0, _, state => .ok state
  | count + 1, i, (bodiesAndManoeuvresOrder, counterDSMs) =>
    match vectorGet transferBodyOrder i with
    | .error e => .error e
    | .ok body =>
      match vectorGet legTypeVector i with
      | .error e => .error e
      | .ok legType =>
        if legType ≠ .mga_Departure ∧ legType ≠ .mga_Swingby then
          bodiesAndManoeuvresOrderLoop transferBodyOrder legTypeVector count (i + 1)
            (bodiesAndManoeuvresOrder ++ [body, "DSM" ++ toString counterDSMs],
              counterDSMs + 1)
        else
          bodiesAndManoeuvresOrderLoop transferBodyOrder legTypeVector count (i + 1)
            (bodiesAndManoeuvresOrder ++ [body], counterDSMs)

/-- Locals and results of the loop over the legs in
`fullPropagationPatchedConicsTrajectory`. -/
structure LegLoopState (R V3 : Type) where
  counterLegs : Nat
  counterLegWithDSM : Nat
  velocityAfterDeparture : V3
  velocityBeforeArrival : V3
  patchedConicsResultForEachLeg : StdMap Nat (StateHistory R V3)
  fullProblemResultForEachLeg : StdMap Nat (StateHistory R V3)

/-- Inputs of `fullPropagationPatchedConicsTrajectory` that its loop over the legs
reads, with the vectors that the trajectory object and the first loop return. -/
structure LegLoopInput (R V3 Acc Dep Prp : Type) where
  bodyMap : NamedBodyMap R V3
  patchedConicCentralBody : String
  legTypeVector : List TransferLegType
  trajectoryVariableVector : List R
  minimumPericenterRadiiVector : List R
  semiMajorAxesVector : List R
  eccentricitiesVector : List R
  propagatorSettings : List (PropagatorSettingsPair R V3 Acc Dep Prp)
  integratorSettings : IntegratorSettings R
  positionVector : List V3
  timeVector : List R
  bodiesAndManoeuvresOrder : List String

/-- Reads and call of the block of the loop body for a leg without deep space
manoeuvre, at the value `counterLegs` of the leg counter: the patched conics result and
the full problem result of the leg. -/
def legWithoutDsmResults [LinearOrderedField R] (env : ExternalFunctions R V3 Acc Dep Prp)
    (input : LegLoopInput R V3 Acc Dep Prp) (counterLegs : Nat) :
    Except Error (StateHistory R V3 × StateHistory R V3) :=
  match vectorGet input.bodiesAndManoeuvresOrder counterLegs with
  | .error e => .error e
  | .ok departureBody =>
    match vectorGet input.bodiesAndManoeuvresOrder (counterLegs + 1) with
    | .error e => .error e
    | .ok arrivalBody =>
      match vectorGet input.positionVector counterLegs with
      | .error e => .error e
      | .ok positionAtDeparture =>
        match vectorGet input.positionVector (counterLegs + 1) with
        | .error e => .error e
        | .ok positionAtArrival =>
          match vectorGet input.timeVector counterLegs with
          | .error e => .error e
          | .ok initialTime =>
            match vectorGet input.timeVector (counterLegs + 1) with
            | .error e => .error e
            | .ok finalTime =>
              match vectorGet input.propagatorSettings counterLegs with
              | .error e => .error e
              | .ok settings =>
                propagateMgaWithoutDsmAndFullProblem env input.bodyMap
                  [departureBody, arrivalBody] input.patchedConicCentralBody
                  positionAtDeparture positionAtArrival initialTime
                  (finalTime - initialTime) settings input.integratorSettings

/-- Block of the loop body for a leg without deep space manoeuvre: the results of the
leg are stored under `counterLegs`, which is then incremented. -/
def legWithoutDsm [LinearOrderedField R] (env : ExternalFunctions R V3 Acc Dep Prp)
    (input : LegLoopInput R V3 Acc Dep Prp) (state : LegLoopState R V3) :
    Except Error (LegLoopState R V3) :=
  match legWithoutDsmResults env input state.counterLegs with
  | .error e => .error e
  | .ok results =>
    .ok { state with
          patchedConicsResultForEachLeg :=
            StdMap.assign state.counterLegs results.1 state.patchedConicsResultForEachLeg
          fullProblemResultForEachLeg :=
            StdMap.assign state.counterLegs results.2 state.fullProblemResultForEachLeg
          counterLegs := state.counterLegs + 1 }

/-- Reads that the two blocks of the loop body for a leg with a deep space manoeuvre
have in common, in the order of the source: the names of the departure and arrival
bodies, the four trajectory variables of the leg, the name of the manoeuvre, the three
positions and the three epochs. -/
structure DsmLegReads (R V3 : Type) where
  departureAndArrivalBodies : List String
  trajectoryVariableVectorLeg : List R
  dsm : String
  positionAtDeparture : V3
  positionDsm : V3
  positionAtArrival : V3
  initialTime : R
  timeDsm : R
  timeArrival : R

/-- The reads of a block for a leg with a deep space manoeuvre, each without a check. -/
def dsmLegReads (input : LegLoopInput R V3 Acc Dep Prp) (state : LegLoopState R V3) :
    Except Error (DsmLegReads R V3) :=
  let numberOfLegs := input.legTypeVector.length
  match vectorGet input.bodiesAndManoeuvresOrder state.counterLegs with
  | .error e => .error e
  | .ok departureBody =>
    match vectorGet input.bodiesAndManoeuvresOrder (state.counterLegs + 2) with
    | .error e => .error e
    | .ok arrivalBody =>
      match vectorGet input.trajectoryVariableVector
          (numberOfLegs + 1 + state.counterLegWithDSM * 4) with
      | .error e => .error e
      | .ok variable0 =>
        match vectorGet input.trajectoryVariableVector
            (numberOfLegs + 2 + state.counterLegWithDSM * 4) with
        | .error e => .error e
        | .ok variable1 =>
          match vectorGet input.trajectoryVariableVector
              (numberOfLegs + 3 + state.counterLegWithDSM * 4) with
          | .error e => .error e
          | .ok variable2 =>
            match vectorGet input.trajectoryVariableVector
                (numberOfLegs + 4 + state.counterLegWithDSM * 4) with
            | .error e => .error e
            | .ok variable3 =>
              match vectorGet input.bodiesAndManoeuvresOrder (state.counterLegs + 1) with
              | .error e => .error e
              | .ok dsm =>
                match vectorGet input.positionVector state.counterLegs with
                | .error e => .error e
                | .ok positionAtDeparture =>
                  match vectorGet input.positionVector (state.counterLegs + 1) with
                  | .error e => .error e
                  | .ok positionDsm =>
                    match vectorGet input.positionVector (state.counterLegs + 2) with
                    | .error e => .error e
                    | .ok positionAtArrival =>
                      match vectorGet input.timeVector state.counterLegs with
                      | .error e => .error e
                      | .ok initialTime =>
                        match vectorGet input.timeVector (state.counterLegs + 1) with
                        | .error e => .error e
                        | .ok timeDsm =>
                          match vectorGet input.timeVector (state.counterLegs + 2) with
                          | .error e => .error e
                          | .ok timeArrival =>
                            .ok { departureAndArrivalBodies := [departureBody, arrivalBody]
                                  trajectoryVariableVectorLeg :=
                                    [variable0, variable1, variable2, variable3]
                                  dsm := dsm
                                  positionAtDeparture := positionAtDeparture
                                  positionDsm := positionDsm
                                  positionAtArrival := positionAtArrival
                                  initialTime := initialTime
                                  timeDsm := timeDsm
                                  timeArrival := timeArrival }

/-- Statements of a block for a leg with a deep space manoeuvre after the call of the
propagation function: the results of the two parts of the leg are stored under two
consecutive values of `counterLegs`. -/
def storeDsmLegResult (state : LegLoopState R V3) (result : DsmLegResult R V3) :
    LegLoopState R V3 :=
  { counterLegs := state.counterLegs + 1 + 1
    counterLegWithDSM := state.counterLegWithDSM + 1
    velocityAfterDeparture := result.velocityAfterDeparture
    velocityBeforeArrival := result.velocityBeforeArrival
    patchedConicsResultForEachLeg :=
      StdMap.assign (state.counterLegs + 1) result.patchedConicsResultFromDsmToArrival
        (StdMap.assign state.counterLegs result.patchedConicsResultFromDepartureToDsm
          state.patchedConicsResultForEachLeg)
    fullProblemResultForEachLeg :=
      StdMap.assign (state.counterLegs + 1) result.fullProblemResultFromDsmToArrival
        (StdMap.assign state.counterLegs result.fullProblemResultFromDepartureToDsm
          state.fullProblemResultForEachLeg) }

/-- Reads and call of the block of the loop body for a leg with a deep space manoeuvre
in the velocity formulation. -/
def legWithDsmVelocityResult [LinearOrderedField R]
    (env : ExternalFunctions R V3 Acc Dep Prp) (input : LegLoopInput R V3 Acc Dep Prp)
    (legType : TransferLegType) (state : LegLoopState R V3) :
    Except Error (DsmLegResult R V3) :=
  match dsmLegReads input state with
  | .error e => .error e
  | .ok reads =>
    match vectorGet input.semiMajorAxesVector 0 with
    | .error e => .error e
    | .ok semiMajorAxis =>
      match vectorGet input.eccentricitiesVector 0 with
      | .error e => .error e
      | .ok eccentricity =>
        match vectorGet input.propagatorSettings state.counterLegs with
        | .error e => .error e
        | .ok settingsBeforeDsm =>
          match vectorGet input.propagatorSettings (state.counterLegs + 1) with
          | .error e => .error e
          | .ok settingsAfterDsm =>
            propagateMga1DsmVelocityAndFullProblem env input.bodyMap
              reads.departureAndArrivalBodies reads.dsm input.patchedConicCentralBody
              reads.positionAtDeparture reads.positionDsm reads.positionAtArrival
              reads.initialTime reads.timeDsm reads.timeArrival legType
              reads.trajectoryVariableVectorLeg semiMajorAxis eccentricity
              state.velocityAfterDeparture state.velocityBeforeArrival settingsBeforeDsm
              settingsAfterDsm input.integratorSettings

/-- Block of the loop body for a leg with a deep space manoeuvre in the velocity
formulation. -/
def legWithDsmVelocity [LinearOrderedField R] (env : ExternalFunctions R V3 Acc Dep Prp)
    (input : LegLoopInput R V3 Acc Dep Prp) (legType : TransferLegType)
    (state : LegLoopState R V3) : Except Error (LegLoopState R V3) :=
  match legWithDsmVelocityResult env input legType state with
  | .error e => .error e
  | .ok result => .ok (storeDsmLegResult state result)

/-- Reads and call of the block of the loop body for the leg `i` with a deep space
manoeuvre in the position formulation. -/
def legWithDsmPositionResult [LinearOrderedField R]
    (env : ExternalFunctions R V3 Acc Dep Prp) (input : LegLoopInput R V3 Acc Dep Prp)
    (i : Nat) (legType : TransferLegType) (state : LegLoopState R V3) :
    Except Error (DsmLegResult R V3) :=
  match dsmLegReads input state with
  | .error e => .error e
  | .ok reads =>
    match vectorGet input.minimumPericenterRadiiVector i with
    | .error e => .error e
    | .ok minimumPericenterRadius =>
      match vectorGet input.semiMajorAxesVector 0 with
      | .error e => .error e
      | .ok semiMajorAxis =>
        match vectorGet input.eccentricitiesVector 0 with
        | .error e => .error e
        | .ok eccentricity =>
          match vectorGet input.propagatorSettings state.counterLegs with
          | .error e => .error e
          | .ok settingsBeforeDsm =>
            match vectorGet input.propagatorSettings (state.counterLegs + 1) with
            | .error e => .error e
            | .ok settingsAfterDsm =>
              propagateMga1DsmPositionAndFullProblem env input.bodyMap
                reads.departureAndArrivalBodies reads.dsm input.patchedConicCentralBody
                reads.positionAtDeparture reads.positionDsm reads.positionAtArrival
                reads.initialTime reads.timeDsm reads.timeArrival legType
                reads.trajectoryVariableVectorLeg minimumPericenterRadius semiMajorAxis
                eccentricity state.velocityAfterDeparture state.velocityBeforeArrival
                settingsBeforeDsm settingsAfterDsm input.integratorSettings

/-- Block of the loop body for the leg `i` with a deep space manoeuvre in the position
formulation. -/
def legWithDsmPosition [LinearOrderedField R] (env : ExternalFunctions R V3 Acc Dep Prp)
    (input : LegLoopInput R V3 Acc Dep Prp) (i : Nat) (legType : TransferLegType)
    (state : LegLoopState R V3) : Except Error (LegLoopState R V3) :=
  match legWithDsmPositionResult env input i legType state with
  | .error e => .error e
  | .ok result => .ok (storeDsmLegResult state result)

/-- Body of the loop over the legs in `fullPropagationPatchedConicsTrajectory`: three
blocks, each under its own test of the type of the leg `i`. -/
def legLoopBody [LinearOrderedField R] (env : ExternalFunctions R V3 Acc Dep Prp)
    (input : LegLoopInput R V3 Acc Dep Prp) (i : Nat) (state : LegLoopState R V3) :
    Except Error (LegLoopState R V3) :=
  match vectorGet input.legTypeVector i with
  | .error e => .error e
  | .ok legType =>
    match (if legType = .mga_Departure ∨ legType = .mga_Swingby then
        legWithoutDsm env input state else .ok state) with
    | .error e => .error e
    | .ok state1 =>
      match (if legType = .mga1DsmVelocity_Departure ∨ legType = .mga1DsmVelocity_Swingby then
          legWithDsmVelocity env input legType state1 else .ok state1) with
      | .error e => .error e
      | .ok state2 =>
        if legType = .mga1DsmPosition_Departure ∨ legType = .mga1DsmPosition_Swingby then
          legWithDsmPosition env input i legType state2
        else .ok state2

/-- Loop over the legs in `fullPropagationPatchedConicsTrajectory`, from the leg `i`
on for `count` legs. -/
def legLoop [LinearOrderedField R] (env : ExternalFunctions R V3 Acc Dep Prp)
    (input : LegLoopInput R V3 Acc Dep Prp) :
    Nat → Nat → LegLoopState R V3 → Except Error (LegLoopState R V3)
  | 0, _, state => .ok state
  | count + 1, i, state =>
    match legLoopBody env input i state with
    | .error e => .error e
    | .ok next => legLoop env input count (i + 1) next

/-- Function `fullPropagationPatchedConicsTrajectory`, the overload that takes the
propagator settings of the legs; the result holds `patchedConicsResultForEachLeg` and
`fullProblemResultForEachLeg` after the call. The locals `velocityAfterDeparture` and
`velocityBeforeArrival` are declared without an initialiser: the values that they hold
then are the arguments `uninitialisedVelocityAfterDeparture` and
`uninitialisedVelocityBeforeArrival`. -/
def fullPropagationPatchedConicsTrajectory [LinearOrderedField R]
    (env : ExternalFunctions R V3 Acc Dep Prp)
    (uninitialisedVelocityAfterDeparture uninitialisedVelocityBeforeArrival : V3)
    (bodyMap : NamedBodyMap R V3) (transferBodyOrder : List String)
    (patchedConicCentralBody : String) (legTypeVector : List TransferLegType)
    (trajectoryVariableVector minimumPericenterRadiiVector semiMajorAxesVector
      eccentricitiesVector : List R)
    (propagatorSettings : List (PropagatorSettingsPair R V3 Acc Dep Prp))
    (integratorSettings : IntegratorSettings R) :
    Except Error (StdMap Nat (StateHistory R V3) × StdMap Nat (StateHistory R V3)) :=
  let numberOfLegs := legTypeVector.length
  match vectorGet semiMajorAxesVector 0 with
  | .error e => .error e
  | .ok departureSemiMajorAxis =>
    match vectorGet eccentricitiesVector 0 with
    | .error e => .error e
    | .ok departureEccentricity =>
      match vectorGet semiMajorAxesVector 1 with
      | .error e => .error e
      | .ok arrivalSemiMajorAxis =>
        match vectorGet eccentricitiesVector 1 with
        | .error e => .error e
        | .ok arrivalEccentricity =>
          match createTransferTrajectoryObject bodyMap transferBodyOrder
              patchedConicCentralBody legTypeVector trajectoryVariableVector
              minimumPericenterRadiiVector true departureSemiMajorAxis departureEccentricity
              true arrivalSemiMajorAxis arrivalEccentricity with
          | .error e => .error e
          | .ok trajectory =>
            match bodiesAndManoeuvresOrderLoop transferBodyOrder legTypeVector numberOfLegs 0
                ([], 1) with
            | .error e => .error e
            | .ok bodiesAndManoeuvres =>
              match legLoop env
                  { bodyMap := bodyMap
                    patchedConicCentralBody := patchedConicCentralBody
                    legTypeVector := legTypeVector
                    trajectoryVariableVector := trajectoryVariableVector
                    minimumPericenterRadiiVector := minimumPericenterRadiiVector
                    semiMajorAxesVector := semiMajorAxesVector
                    eccentricitiesVector := eccentricitiesVector
                    propagatorSettings := propagatorSettings
                    integratorSettings := integratorSettings
                    positionVector := (env.maneuvers trajectory).1
                    timeVector := (env.maneuvers trajectory).2
                    bodiesAndManoeuvresOrder := bodiesAndManoeuvres.1 }
                  (numberOfLegs - 1) 0
                  { counterLegs := 0
                    counterLegWithDSM := 0
                    velocityAfterDeparture := uninitialisedVelocityAfterDeparture
                    velocityBeforeArrival := uninitialisedVelocityBeforeArrival
                    patchedConicsResultForEachLeg := []
                    fullProblemResultForEachLeg := [] } with
              | .error e => .error e
              | .ok final =>
                .ok (final.patchedConicsResultForEachLeg, final.fullProblemResultForEachLeg)

end PatchedConics

section PatchedConicsSettings

variable {R V3 Acc Dep Prp : Type}

/-- Function `getSingleLegSphereOfInfluenceTerminationSettings`: the pair of the
termination settings of the backward and of the forward propagation. -/
def getSingleLegSphereOfInfluenceTerminationSettings [LinearOrderedField R] [Sub V3]
    (env : ExternalFunctions R V3 Acc Dep Prp) (bodyMap : NamedBodyMap R V3)
    (bodyToPropagate centralBody departureBody arrivalBody : String)
    (initialTimeCurrentLeg finalTimeCurrentLeg : R) :
    Except Error (PropagationTerminationSettings R × PropagationTerminationSettings R) :=
  match bodyMapAt bodyMap departureBody with
  | .error e => .error e
  | .ok departure =>
    match departure.ephemeris_ with
    | none => .error .ephemerisNotDefinedDeparture
    | some departureEphemeris =>
      let cartesianPositionAtDeparture := (departureEphemeris initialTimeCurrentLeg).1
      match bodyMapAt bodyMap arrivalBody with
      | .error e => .error e
      | .ok arrival =>
        match arrival.ephemeris_ with
        | none => .error .ephemerisNotDefinedArrival
        | some arrivalEphemeris =>
          let cartesianPositionAtArrival := (arrivalEphemeris finalTimeCurrentLeg).1
          match bodyMapAt bodyMap centralBody with
          | .error e => .error e
          | .ok central =>
            match central.getGravitationalParameter with
            | .error e => .error e
            | .ok gravitationalParameterCentralBody =>
              match departure.getGravitationalParameter with
              | .error e => .error e
              | .ok gravitationalParameterDepartureBody =>
                match arrival.getGravitationalParameter with
                | .error e => .error e
                | .ok gravitationalParameterArrivalBody =>
                  match central.getCartesianState initialTimeCurrentLeg with
                  | .error e => .error e
                  | .ok centralStateAtDeparture =>
                    match central.getCartesianState finalTimeCurrentLeg with
                    | .error e => .error e
                    | .ok centralStateAtArrival =>
                      let distanceDepartureToCentralBodies :=
                        env.norm (centralStateAtDeparture.1 - cartesianPositionAtDeparture)
                      let distanceArrivalToCentralBodies :=
                        env.norm (centralStateAtArrival.1 - cartesianPositionAtArrival)
                      let radiusSphereOfInfluenceDeparture :=
                        env.computeSphereOfInfluence distanceDepartureToCentralBodies
                          gravitationalParameterDepartureBody gravitationalParameterCentralBody
                      let radiusSphereOfInfluenceArrival :=
                        env.computeSphereOfInfluence distanceArrivalToCentralBodies
                          gravitationalParameterArrivalBody gravitationalParameterCentralBody
                      let orbitalPeriodDepartureBody :=
                        env.computeKeplerOrbitalPeriod
                          (env.semiMajorAxis (env.convertCartesianToKeplerianElements
                            (departureEphemeris initialTimeCurrentLeg)
                            gravitationalParameterCentralBody))
                          gravitationalParameterCentralBody gravitationalParameterDepartureBody
                      let orbitalPeriodArrivalBody :=
                        env.computeKeplerOrbitalPeriod
                          (env.semiMajorAxis (env.convertCartesianToKeplerianElements
                            (arrivalEphemeris initialTimeCurrentLeg)
                            gravitationalParameterCentralBody))
                          gravitationalParameterCentralBody gravitationalParameterArrivalBody
                      let synodicPeriod :=
                        if orbitalPeriodDepartureBody < orbitalPeriodArrivalBody then
                          env.computeSynodicPeriod orbitalPeriodDepartureBody
                            orbitalPeriodArrivalBody
                        else
                          env.computeSynodicPeriod orbitalPeriodArrivalBody
                            orbitalPeriodDepartureBody
                      .ok (.hybrid
                          [.relativeDistance bodyToPropagate departureBody
                              radiusSphereOfInfluenceDeparture false,
                            .time (2 * synodicPeriod)] true,
                        .hybrid
                          [.relativeDistance bodyToPropagate arrivalBody
                              radiusSphereOfInfluenceArrival false,
                            .time (2 * synodicPeriod)] true)

/-- Expression `( ( trajectoryVariableVector.size( ) - 1 - numberOfLegs ) / 4.0 ) +
numberOfLegs` converted to `int`: the difference is unsigned and wraps around when the
vector holds fewer than `numberOfLegs + 1` values, and the conversion of the quotient,
then out of the range of `int`, is undefined. -/
def numberOfLegsIncludingDsm (trajectoryVariableVectorSize numberOfLegs : Nat) :
    Except Error Nat :=
  if trajectoryVariableVectorSize < 1 + numberOfLegs then .error .undefinedBehaviour
  else .ok ((trajectoryVariableVectorSize - 1 - numberOfLegs) / 4 + numberOfLegs)

/-- Loop of `getPatchedConicPropagatorSettings` over the legs of a trajectory with deep
space manoeuvres, from the leg `i` on for `count` legs. -/
def terminationSettingsWithDsmLoop (timeVector : List R) :
    Nat → Nat → List (PropagationTerminationSettings R × PropagationTerminationSettings R) →
      Except Error (List (PropagationTerminationSettings R × PropagationTerminationSettings R))
  | 0, _, terminationSettings => .ok terminationSettings
  | count + 1, i, terminationSettings =>
    match vectorGet timeVector i with
    | .error e => .error e
    | .ok initialTimeCurrentLeg =>
      match vectorGet timeVector (i + 1) with
      | .error e => .error e
      | .ok finalTimeCurrentLeg =>
        terminationSettingsWithDsmLoop timeVector count (i + 1)
          (terminationSettings ++ [(.time initialTimeCurrentLeg, .time finalTimeCurrentLeg)])

/-- The two assignments at the head of the loop body for a trajectory without deep
space manoeuvres, `initialTimeCurrentLeg = timeVector[ i ]` and
`initialTimeCurrentLeg = timeVector[ i + 1 ]`: the values of `initialTimeCurrentLeg`
and `finalTimeCurrentLeg` after them. -/
def legTimesWithoutDsm (timeVector : List R) (i : Nat) (finalTimeCurrentLeg : R) :
    Except Error (R × R) :=
  match vectorGet timeVector i with
  | .error e => .error e
  | .ok _ =>
    match vectorGet timeVector (i + 1) with
    | .error e => .error e
    | .ok initialTimeCurrentLeg => .ok (initialTimeCurrentLeg, finalTimeCurrentLeg)

/-- Loop of `getPatchedConicPropagatorSettings` over the legs of a trajectory without
deep space manoeuvres, from the leg `i` on for `count` legs. The state is the list with
`finalTimeCurrentLeg`. -/
def terminationSettingsWithoutDsmLoop [LinearOrderedField R] [Sub V3]
    (env : ExternalFunctions R V3 Acc Dep Prp) (bodyMap : NamedBodyMap R V3)
    (bodyToPropagate centralBody : String) (transferBodyOrder : List String)
    (timeVector : List R) (terminationSphereOfInfluence : Bool) (finalTimeCurrentLeg : R) :
    Nat → Nat → List (PropagationTerminationSettings R × PropagationTerminationSettings R) →
      Except Error (List (PropagationTerminationSettings R × PropagationTerminationSettings R))
  | 0, _, terminationSettings => .ok terminationSettings
  | count + 1, i, terminationSettings =>
    match legTimesWithoutDsm timeVector i finalTimeCurrentLeg with
    | .error e => .error e
    | .ok times =>
      if terminationSphereOfInfluence = true then
        match vectorAt transferBodyOrder i with
        | .error e => .error e
        | .ok departureBody =>
          match vectorAt transferBodyOrder (i + 1) with
          | .error e => .error e
          | .ok arrivalBody =>
            match getSingleLegSphereOfInfluenceTerminationSettings env bodyMap
                bodyToPropagate centralBody departureBody arrivalBody times.1 times.2 with
            | .error e => .error e
            | .ok settings =>
              terminationSettingsWithoutDsmLoop env bodyMap bodyToPropagate centralBody
                transferBodyOrder timeVector terminationSphereOfInfluence
                finalTimeCurrentLeg count (i + 1) (terminationSettings ++ [settings])
      else
        terminationSettingsWithoutDsmLoop env bodyMap bodyToPropagate centralBody
          transferBodyOrder timeVector terminationSphereOfInfluence finalTimeCurrentLeg
          count (i + 1) (terminationSettings ++ [(.time times.1, .time times.2)])

/-- Expression `( dependentVariablesToSave.size( ) != 0 ) ? dependentVariablesToSave.at(
i ) : nullptr`. -/
def currentDependentVariablesToSave (dependentVariablesToSave : List (Option Dep))
    (i : Nat) : Except Error (Option Dep) :=
  if dependentVariablesToSave.length ≠ 0 then vectorAt dependentVariablesToSave i
  else .ok none

/-- Pair of propagator settings that `getPatchedConicPropagatorSettings` appends for
the leg `i` with the termination settings at `counterLegsIncludingDsm`. -/
def legPropagatorSettings (accelerationMap : List Acc) (centralBody bodyToPropagate : String)
    (initialState : Vector6 V3)
    (terminationSettings :
      List (PropagationTerminationSettings R × PropagationTerminationSettings R))
    (dependentVariablesToSave : List (Option Dep)) (propagator : Prp)
    (i counterLegsIncludingDsm : Nat) :
    Except Error (PropagatorSettingsPair R V3 Acc Dep Prp) :=
  match currentDependentVariablesToSave dependentVariablesToSave i with
  | .error e => .error e
  | .ok dependentVariables =>
    match vectorGet accelerationMap i with
    | .error e => .error e
    | .ok accelerations =>
      match vectorGet terminationSettings counterLegsIncludingDsm with
      | .error e => .error e
      | .ok termination =>
        .ok ({ centralBodies := [centralBody]
               accelerationsMap := accelerations
               bodiesToIntegrate := [bodyToPropagate]
               initialBodyStates := initialState
               terminationSettings := termination.1
               propagator := propagator
               dependentVariablesToSave := dependentVariables },
             { centralBodies := [centralBody]
               accelerationsMap := accelerations
               bodiesToIntegrate := [bodyToPropagate]
               initialBodyStates := initialState
               terminationSettings := termination.2
               propagator := propagator
               dependentVariablesToSave := dependentVariables })

/-- Last loop of `getPatchedConicPropagatorSettings`, from the leg `i` on for `count`
legs. The state is the list with `counterLegsIncludingDsm`. -/
def propagatorSettingsLoop (accelerationMap : List Acc) (centralBody bodyToPropagate : String)
    (legTypeVector : List TransferLegType) (initialState : Vector6 V3)
    (terminationSettings :
      List (PropagationTerminationSettings R × PropagationTerminationSettings R))
    (dependentVariablesToSave : List (Option Dep)) (propagator : Prp) :
    Nat → Nat → List (PropagatorSettingsPair R V3 Acc Dep Prp) × Nat →
      Except Error (List (PropagatorSettingsPair R V3 Acc Dep Prp) × Nat)
  | 0, _, state => .ok state
  | count + 1, i, (propagatorSettings, counterLegsIncludingDsm) =>
    match legPropagatorSettings accelerationMap centralBody bodyToPropagate initialState
        terminationSettings dependentVariablesToSave propagator i
        counterLegsIncludingDsm with
    | .error e => .error e
    | .ok first =>
      match vectorGet legTypeVector i with
      | .error e => .error e
      | .ok legType =>
        if ¬ (legType = .mga_Departure ∨ legType = .mga_Swingby) then
          match legPropagatorSettings accelerationMap centralBody bodyToPropagate
              initialState terminationSettings dependentVariablesToSave propagator i
              (counterLegsIncludingDsm + 1) with
          | .error e => .error e
          | .ok second =>
            propagatorSettingsLoop accelerationMap centralBody bodyToPropagate legTypeVector
              initialState terminationSettings dependentVariablesToSave propagator count
              (i + 1) (propagatorSettings ++ [first, second], counterLegsIncludingDsm + 1 + 1)
        else
          propagatorSettingsLoop accelerationMap centralBody bodyToPropagate legTypeVector
            initialState terminationSettings dependentVariablesToSave propagator count
            (i + 1) (propagatorSettings ++ [first], counterLegsIncludingDsm + 1)

/-- Termination settings of the legs in `getPatchedConicPropagatorSettings`: the branch
for a trajectory with deep space manoeuvres and the branch for one without. -/
def patchedConicTerminationSettings [LinearOrderedField R] [Sub V3]
    (env : ExternalFunctions R V3 Acc Dep Prp) (uninitialisedFinalTimeCurrentLeg : R)
    (bodyMap : NamedBodyMap R V3) (transferBodyOrder : List String)
    (centralBody bodyToPropagate : String) (timeVector : List R)
    (numberOfLegs legsIncludingDsm : Nat) (terminationSphereOfInfluence : Bool) :
    Except Error (List (PropagationTerminationSettings R × PropagationTerminationSettings R)) :=
  if legsIncludingDsm ≠ numberOfLegs then
    terminationSettingsWithDsmLoop timeVector (legsIncludingDsm - 1) 0 []
  else
    terminationSettingsWithoutDsmLoop env bodyMap bodyToPropagate centralBody
      transferBodyOrder timeVector terminationSphereOfInfluence
      uninitialisedFinalTimeCurrentLeg (numberOfLegs - 1) 0 []

/-- Function `getPatchedConicPropagatorSettings`. The locals `finalTimeCurrentLeg` and
`initialState` are declared without an initialiser: the values that they hold then are
the arguments `uninitialisedFinalTimeCurrentLeg` and `uninitialisedInitialState`. -/
def getPatchedConicPropagatorSettings [LinearOrderedField R] [Sub V3]
    (env : ExternalFunctions R V3 Acc Dep Prp) (uninitialisedFinalTimeCurrentLeg : R)
    (uninitialisedInitialState : Vector6 V3) (bodyMap : NamedBodyMap R V3)
    (accelerationMap : List Acc) (transferBodyOrder : List String)
    (centralBody bodyToPropagate : String) (legTypeVector : List TransferLegType)
    (trajectoryVariableVector minimumPericenterRadiiVector semiMajorAxesVector
      eccentricitiesVector : List R)
    (terminationSphereOfInfluence : Bool) (dependentVariablesToSave : List (Option Dep))
    (propagator : Prp) : Except Error (List (PropagatorSettingsPair R V3 Acc Dep Prp)) :=
  match vectorGet semiMajorAxesVector 0 with
  | .error e => .error e
  | .ok departureSemiMajorAxis =>
    match vectorGet eccentricitiesVector 0 with
    | .error e => .error e
    | .ok departureEccentricity =>
      match vectorGet semiMajorAxesVector 1 with
      | .error e => .error e
      | .ok arrivalSemiMajorAxis =>
        match vectorGet eccentricitiesVector 1 with
        | .error e => .error e
        | .ok arrivalEccentricity =>
          match createTransferTrajectoryObject bodyMap transferBodyOrder centralBody
              legTypeVector trajectoryVariableVector minimumPericenterRadiiVector true
              departureSemiMajorAxis departureEccentricity true arrivalSemiMajorAxis
              arrivalEccentricity with
          | .error e => .error e
          | .ok trajectory =>
            match numberOfLegsIncludingDsm trajectoryVariableVector.length
                legTypeVector.length with
            | .error e => .error e
            | .ok legsIncludingDsm =>
              match patchedConicTerminationSettings env uninitialisedFinalTimeCurrentLeg
                  bodyMap transferBodyOrder centralBody bodyToPropagate
                  (env.maneuvers trajectory).2 legTypeVector.length legsIncludingDsm
                  terminationSphereOfInfluence with
              | .error e => .error e
              | .ok terminationSettings =>
                match propagatorSettingsLoop accelerationMap centralBody bodyToPropagate
                    legTypeVector uninitialisedInitialState terminationSettings
                    dependentVariablesToSave propagator (legTypeVector.length - 1) 0
                    ([], 0) with
                | .error e => .error e
                | .ok result => .ok result.1

/-- Function `fullPropagationPatchedConicsTrajectory`, the overload that takes one
acceleration map for each leg and computes the propagator settings. -/
def fullPropagationPatchedConicsTrajectoryFromAccelerations [LinearOrderedField R] [Sub V3]
    (env : ExternalFunctions R V3 Acc Dep Prp) (uninitialisedFinalTimeCurrentLeg : R)
    (uninitialisedInitialState : Vector6 V3)
    (uninitialisedVelocityAfterDeparture uninitialisedVelocityBeforeArrival : V3)
    (bodyMap : NamedBodyMap R V3) (accelerationMap : List Acc)
    (transferBodyOrder : List String) (centralBody bodyToPropagate : String)
    (legTypeVector : List TransferLegType)
    (trajectoryVariableVector minimumPericenterRadiiVector semiMajorAxesVector
      eccentricitiesVector : List R)
    (integratorSettings : IntegratorSettings R) (terminationSphereOfInfluence : Bool)
    (dependentVariablesToSave : List (Option Dep)) (propagator : Prp) :
    Except Error (StdMap Nat (StateHistory R V3) × StdMap Nat (StateHistory R V3)) :=
  match getPatchedConicPropagatorSettings env uninitialisedFinalTimeCurrentLeg
      uninitialisedInitialState bodyMap accelerationMap transferBodyOrder centralBody
      bodyToPropagate legTypeVector trajectoryVariableVector minimumPericenterRadiiVector
      semiMajorAxesVector eccentricitiesVector terminationSphereOfInfluence
      dependentVariablesToSave propagator with
  | .error e => .error e
  | .ok propagatorSettings =>
    fullPropagationPatchedConicsTrajectory env uninitialisedVelocityAfterDeparture
      uninitialisedVelocityBeforeArrival bodyMap transferBodyOrder centralBody legTypeVector
      trajectoryVariableVector minimumPericenterRadiiVector semiMajorAxesVector
      eccentricitiesVector propagatorSettings integratorSettings

end PatchedConicsSettings

section PatchedConicsSpecification

variable {R V3 Acc Dep Prp : Type}

/-- Number of values of the leg counter that the loop of
`fullPropagationPatchedConicsTrajectory` uses for a leg of the given type: one for a
leg without deep space manoeuvre, two for a leg with one, none for a further
enumerator. -/
def TransferLegType.subLegs : TransferLegType → Nat
  | .mga_Departure => 1
  | .mga_Swingby => 1
  | .mga1DsmPosition_Departure => 2
  | .mga1DsmPosition_Swingby => 2
  | .mga1DsmVelocity_Departure => 2
  | .mga1DsmVelocity_Swingby => 2
  | .other => 0

end PatchedConicsSpecification

section PatchedConicsExamples

/-- Example of external functions over the rationals, a vector being one rational: the
trajectory has the manoeuvre points `0, …, 6` at the epochs `0, 10, …, 60`; a
departure leg with a manoeuvre returns the velocity of the departure body plus 1 before
the arrival and plus 2 after the departure; a swingby leg returns the velocity that it
is handed plus 1 before the arrival, and the velocity that it is handed after the
departure; a Lambert propagation returns the two end positions at the two epochs of the
leg; the conversions of elements are identities, a Kepler orbit stays at its state, and
a simulation returns its initial state at its initial time. -/
def exampleExternalFunctions : ExternalFunctions ℚ ℚ Unit Unit Unit :=
  { maneuvers := fun _ => ([0, 1, 2, 3, 4, 5, 6], [0, 10, 20, 30, 40, 50, 60])
    departureLegMga1DsmVelocity := fun arguments _ _ =>
      (arguments.departureBodyVelocity + 1, arguments.departureBodyVelocity + 2)
    swingbyLegMga1DsmVelocity := fun _ velocityBeforeArrival =>
      (velocityBeforeArrival + 1, velocityBeforeArrival)
    departureLegMga1DsmPosition := fun arguments _ _ =>
      (arguments.departureBodyVelocity + 1, arguments.departureBodyVelocity + 2)
    swingbyLegMga1DsmPosition := fun _ velocityBeforeArrival _ =>
      (velocityBeforeArrival + 1, velocityBeforeArrival)
    propagateLambertTargeterAndFullProblem :=
      fun timeOfFlight initialTime _ _ _ _ _ _ positionAtDeparture positionAtArrival =>
        ([(initialTime, (positionAtDeparture, 0)),
            (initialTime + timeOfFlight, (positionAtArrival, 0))],
          [(initialTime, (positionAtDeparture, 0)),
            (initialTime + timeOfFlight, (positionAtArrival, 0))])
    convertCartesianToKeplerianElements := fun state _ => state
    propagateKeplerOrbit := fun state _ _ => state
    convertKeplerianToCartesianElements := fun state _ => state
    getEquationsOfMotionNumericalSolution := fun _ integratorSettings propagatorSettings =>
      [(integratorSettings.initialTime_, propagatorSettings.initialBodyStates)]
    norm := fun vector => vector
    semiMajorAxis := fun state => state.1
    computeSphereOfInfluence := fun distance _ _ => distance
    computeKeplerOrbitalPeriod := fun semiMajorAxis _ _ => semiMajorAxis
    computeSynodicPeriod := fun period1 period2 => period1 + period2 }

/-- Example of a body map: the bodies `Sun`, `Earth`, `Venus` and `Mars`, each with the
gravitational parameter 1 and an ephemeris that gives the position `time` and the
velocity 7, and the body `Moon` with the gravitational parameter 1 and no ephemeris. -/
def exampleBodyMap : NamedBodyMap ℚ ℚ := fun name =>
  if name = "Sun" ∨ name = "Earth" ∨ name = "Venus" ∨ name = "Mars" then
    some { ephemeris_ := some (fun time => (time, 7)), gravityFieldModel_ := some 1 }
  else if name = "Moon" then some { ephemeris_ := none, gravityFieldModel_ := some 1 }
  else none

/-- Example of propagator settings: termination at the epoch 0. -/
def examplePropagatorSettings : PropagatorSettingsPair ℚ ℚ Unit Unit Unit :=
  ({ centralBodies := ["Sun"]
     accelerationsMap := ()
     bodiesToIntegrate := ["Vehicle"]
     initialBodyStates := (0, 0)
     terminationSettings := .time 0
     propagator := ()
     dependentVariablesToSave := none },
   { centralBodies := ["Sun"]
     accelerationsMap := ()
     bodiesToIntegrate := ["Vehicle"]
     initialBodyStates := (0, 0)
     terminationSettings := .time 0
     propagator := ()
     dependentVariablesToSave := none })

/-- Example of integrator settings. -/
def exampleIntegratorSettings : IntegratorSettings ℚ :=
  { initialTime_ := 0, initialTimeStep_ := 1 }

end PatchedConicsExamples

section PatchedConicsHistories

variable {R V3 Acc Dep Prp : Type}

end PatchedConicsHistories

section PatchedConicsInvariants

variable {R V3 : Type}

end PatchedConicsInvariants

section FilterObservedAndComputed

variable {T S L : Type}

/-- Function `filterObservedAndComputedData`: the outcome of the call and the two output
arguments `observedFilteredDataCollection` and `computedFilteredDataCollection` after
it, which are references to shared pointers that may hold nothing. The cast of the
residuals to `double` is the identity on the scalar type `S`. -/
def filterObservedAndComputedData [LinearOrder T] [LinearOrder L] [Inhabited L]
    [Inhabited T] [Zero S] [LinearOrder S] [Sub S]
    (getObservableSize : ObservableType → Nat)
    (observedDataCollection computedDataCollection : ObservationCollection T S L)
    (observedFilteredDataCollection computedFilteredDataCollection :
      Option (ObservationCollection T S L))
    (residualCutoffValuePerObservable : StdMap ObservableType S) :
    Except Error Unit × Option (ObservationCollection T S L) ×
      Option (ObservationCollection T S L) :=
  match eigenSub observedDataCollection.getObservationVector
      computedDataCollection.getObservationVector with
  | .error e => (.error e, observedFilteredDataCollection, computedFilteredDataCollection)
  | .ok residualVector =>
    match getObservationCollectionEntriesToFiler getObservableSize observedDataCollection
        residualVector residualCutoffValuePerObservable with
    | .error e => (.error e, observedFilteredDataCollection, computedFilteredDataCollection)
    | .ok filterEntries =>
      match filterData getObservableSize observedDataCollection filterEntries with
      | .error e => (.error e, observedFilteredDataCollection, computedFilteredDataCollection)
      | .ok observedFiltered =>
        match filterData getObservableSize computedDataCollection filterEntries with
        | .error e => (.error e, some observedFiltered, computedFilteredDataCollection)
        | .ok computedFiltered => (.ok (), some observedFiltered, some computedFiltered)

/-- Two sets hold the same number of observations at the same times. -/
def SameSamples (a b : SingleObservationSet T S L) : Prop :=
  a.getNumberOfObservables = b.getNumberOfObservables ∧
  a.observationTimes_ = b.observationTimes_

/-- Two nested mappings have identical structure: they have the same observable types,
under each type the same link ends, under each link ends as many sets, and the sets at
one place hold the same number of observations at the same times. -/
def IdenticalStructure (a b : SortedObservationSets T S L) : Prop :=
  List.Forall₂ (fun p p' => p.1 = p'.1 ∧
    List.Forall₂ (fun q q' => q.1 = q'.1 ∧ List.Forall₂ SameSamples q.2 q'.2) p.2 p'.2) a b

/-- Specification of the positions that a filter retains of `n` samples: the positions
that do not occur in `indices`, in ascending order. -/
def retainedIndices (indices : List Int) (n : Nat) : List Nat :=
  (List.range n).filter (fun i => decide ((i : Int) ∉ indices))

end FilterObservedAndComputed

/-- Example of observed sets with fewer dependent variable vectors than observations:
under the observable type 1 and the link ends 9 one set of the observations 10 and 50 at
the times 1 and 2 with the one dependent variable vector `[7]`. -/
def exampleShortDependentSets : SortedObservationSets Int Int Nat :=
  [(1, [(9, [⟨1, ⟨9⟩, [[10], [50]], [1, 2], 0, [[7]], none, none, 2, []⟩])])]

/-- Example of computed sets for `exampleShortDependentSets`: one set of the
observations 0 and 0 at the same times, without dependent variables. -/
def exampleShortDependentComputedSets : SortedObservationSets Int Int Nat :=
  [(1, [(9, [⟨1, ⟨9⟩, [[0], [0]], [1, 2], 0, [], none, none, 2, []⟩])])]

/-! ## Theorems -/

section ContainerLemmas

variable {K V : Type} [LinearOrder K]

theorem isSorted_iff (l : List K) : isSorted l = true ↔ l.Sorted (· ≤ ·) := by
  induction l with
  | nil => simp [isSorted]
  | cons a rest ih =>
    cases rest with
    | nil => simp [isSorted]
    | cons b rest' =>
      simp only [isSorted, Bool.and_eq_true, Bool.not_eq_true', decide_eq_false_iff_not, not_lt,
        ih, List.sorted_cons_cons]

theorem multimapInsert_perm (k : K) (v : V) (l : List (K × V)) :
    (multimapInsert k v l).Perm ((k, v) :: l) := by
  induction l with
  | nil => simp [multimapInsert]
  | cons p rest ih =>
    obtain ⟨k', v'⟩ := p
    unfold multimapInsert
    split
    · exact List.Perm.refl _
    · exact (List.Perm.cons _ ih).trans (List.Perm.swap _ _ _)

theorem multimapInsert_sorted (k : K) (v : V) (l : List (K × V))
    (h : (l.map Prod.fst).Sorted (· ≤ ·)) :
    ((multimapInsert k v l).map Prod.fst).Sorted (· ≤ ·) := by
  induction l with
  | nil => simp [multimapInsert]
  | cons p rest ih =>
    obtain ⟨k', v'⟩ := p
    simp only [List.map_cons, List.sorted_cons] at h
    unfold multimapInsert
    split
    · rename_i hlt
      simp only [List.map_cons, List.sorted_cons, List.mem_cons, forall_eq_or_imp]
      exact ⟨⟨le_of_lt hlt, fun b hb => le_trans (le_of_lt hlt) (h.1 b hb)⟩, h.1, h.2⟩
    · rename_i hlt
      simp only [List.map_cons, List.sorted_cons]
      refine ⟨?_, ih h.2⟩
      intro b hb
      have hb' : b ∈ ((k, v) :: rest).map Prod.fst :=
        ((multimapInsert_perm k v rest).map Prod.fst).subset hb
      simp only [List.map_cons, List.mem_cons] at hb'
      rcases hb' with rfl | hb'
      · exact not_lt.mp hlt
      · exact h.1 b hb'

theorem filter_key_eq_nil_of_lt (x : K) (l : List (K × V))
    (h : ∀ b ∈ l.map Prod.fst, x < b) :
    l.filter (fun p => decide (p.1 = x)) = [] := by
  rw [List.filter_eq_nil_iff]
  intro p hp
  have := h p.1 (List.mem_map_of_mem _ hp)
  simp [ne_of_gt this]

theorem multimapInsert_filter (k : K) (v : V) (x : K) (l : List (K × V))
    (h : (l.map Prod.fst).Sorted (· ≤ ·)) :
    (multimapInsert k v l).filter (fun p => decide (p.1 = x)) =
      l.filter (fun p => decide (p.1 = x)) ++ (if k = x then [(k, v)] else []) := by
  induction l with
  | nil => by_cases hk : k = x <;> simp [multimapInsert, hk]
  | cons p rest ih =>
    obtain ⟨k', v'⟩ := p
    simp only [List.map_cons, List.sorted_cons] at h
    unfold multimapInsert
    split
    · rename_i hlt
      by_cases hk : k = x
      · subst hk
        have hnil : ((k', v') :: rest).filter (fun p => decide (p.1 = k)) = [] := by
          apply filter_key_eq_nil_of_lt
          intro b hb
          simp only [List.map_cons, List.mem_cons] at hb
          rcases hb with rfl | hb
          · exact hlt
          · exact lt_of_lt_of_le hlt (h.1 b hb)
        rw [List.filter_cons, hnil]
        simp
      · rw [List.filter_cons]
        simp [hk]
    · rw [List.filter_cons, ih h.2, List.filter_cons]
      split <;> simp

end ContainerLemmas

section SingleSetLemmas

variable {T S L : Type} [LinearOrder T]

theorem fillObservationsMap_perm (ts : List T) (os : List (List S)) (m : List (T × List S)) :
    (fillObservationsMap ts os m).Perm (m ++ ts.zip os) := by
  induction ts generalizing os m with
  | nil => simp [fillObservationsMap]
  | cons t ts ih =>
    cases os with
    | nil => simp [fillObservationsMap]
    | cons o os =>
      simp only [fillObservationsMap, List.zip_cons_cons]
      refine (ih os _).trans ?_
      refine ((multimapInsert_perm t o m).append_right _).trans ?_
      simpa using (@List.perm_middle _ (t, o) m (ts.zip os)).symm

theorem fillObservationsMap_sorted (ts : List T) (os : List (List S)) (m : List (T × List S))
    (h : (m.map Prod.fst).Sorted (· ≤ ·)) :
    ((fillObservationsMap ts os m).map Prod.fst).Sorted (· ≤ ·) := by
  induction ts generalizing os m with
  | nil => simpa [fillObservationsMap] using h
  | cons t ts ih =>
    cases os with
    | nil => simpa [fillObservationsMap] using h
    | cons o os =>
      simp only [fillObservationsMap]
      exact ih os _ (multimapInsert_sorted t o m h)

theorem fillObservationsMap_filter (x : T) (ts : List T) (os : List (List S))
    (m : List (T × List S)) (h : (m.map Prod.fst).Sorted (· ≤ ·)) :
    (fillObservationsMap ts os m).filter (fun p => decide (p.1 = x)) =
      m.filter (fun p => decide (p.1 = x)) ++ (ts.zip os).filter (fun p => decide (p.1 = x)) := by
  induction ts generalizing os m with
  | nil => simp [fillObservationsMap]
  | cons t ts ih =>
    cases os with
    | nil => simp [fillObservationsMap]
    | cons o os =>
      simp only [fillObservationsMap, List.zip_cons_cons]
      rw [ih os _ (multimapInsert_sorted t o m h), multimapInsert_filter t o x m h,
        List.filter_cons]
      by_cases hk : t = x <;> simp [hk]

theorem zip_map_fst_snd {α β : Type} (l : List (α × β)) :
    (l.map Prod.fst).zip (l.map Prod.snd) = l := by
  induction l with
  | nil => rfl
  | cons p rest ih => simp [ih]

theorem fillObservationsMap_length (ts : List T) (os : List (List S)) (m : List (T × List S))
    (h : os.length = ts.length) : (fillObservationsMap ts os m).length = m.length + os.length := by
  have := (fillObservationsMap_perm ts os m).length_eq
  simp only [List.length_append, List.length_zip] at this
  omega

/-- Inversion of a successful construction: the checks passed and the members are the
arguments, re-ordered through `observationsMap` when the times were not sorted. -/
theorem SingleObservationSet.construct_ok_inv [DecidableEq L] {observableType : ObservableType}
    {linkEnds : LinkDefinition L} {observations : List (List S)} {observationTimes : List T}
    {referenceLinkEnd : LinkEndType} {observationsDependentVariables : List (List S)}
    {dependentVariableCalculator : Option (ObservationDependentVariableCalculator L)}
    {ancilliarySettings : Option Nat} {s : SingleObservationSet T S L}
    (h : SingleObservationSet.construct observableType linkEnds observations observationTimes
      referenceLinkEnd observationsDependentVariables dependentVariableCalculator
      ancilliarySettings = .ok s) :
    checkCalculator observableType linkEnds dependentVariableCalculator = .ok () ∧
    observations.length = observationTimes.length ∧
    observablesOfConsistentSize observations = true ∧
    s.observableType_ = observableType ∧ s.linkEnds_ = linkEnds ∧
    s.referenceLinkEnd_ = referenceLinkEnd ∧
    s.dependentVariableCalculator_ = dependentVariableCalculator ∧
    s.ancilliarySettings_ = ancilliarySettings ∧
    s.numberOfObservations_ = observations.length ∧ s.weightsVector_ = [] ∧
    ((isSorted observationTimes = true ∧ s.observations_ = observations ∧
        s.observationTimes_ = observationTimes ∧
        s.observationsDependentVariables_ = observationsDependentVariables) ∨
      (isSorted observationTimes = false ∧
        s.observationTimes_ = (fillObservationsMap observationTimes observations []).map Prod.fst ∧
        s.observations_ = (fillObservationsMap observationTimes observations []).map Prod.snd ∧
        (if observationsDependentVariables.length > 0 then
            (fillDependentVariablesMap observationsDependentVariables
              ((fillObservationsMap observationTimes observations []).map Prod.fst) []).map
              createVectorFromMapValues
          else .ok observationsDependentVariables) =
          .ok s.observationsDependentVariables_)) := by
  unfold SingleObservationSet.construct at h
  split at h
  · exact absurd h (by simp)
  · rename_i u hc
    split at h
    · exact absurd h (by simp)
    · rename_i hlen
      split at h
      · exact absurd h (by simp)
      · rename_i hcons
        simp only [ne_eq, Decidable.not_not] at hlen
        simp only [Bool.not_eq_true, Bool.not_eq_false] at hcons
        split at h
        · rename_i hns
          simp only [createVectorFromMultiMapKeys, createVectorFromMultiMapValues] at h
          split at h
          · exact absurd h (by simp)
          · rename_i deps hdeps
            split at h
            · exact absurd h (by simp)
            · simp only [Except.ok.injEq] at h
              subst h
              simp only [Bool.not_eq_true] at hns
              exact ⟨hc, hlen, hcons, rfl, rfl, rfl, rfl, rfl, rfl, rfl,
                Or.inr ⟨hns, rfl, rfl, hdeps⟩⟩
        · rename_i hs
          simp only [Bool.not_eq_true, Bool.not_eq_false] at hs
          simp only [Except.ok.injEq] at h
          subst h
          exact ⟨hc, hlen, hcons, rfl, rfl, rfl, rfl, rfl, rfl, rfl, Or.inl ⟨hs, rfl, rfl, rfl⟩⟩

theorem fillDependentVariablesMap_isOk_iff (ds : List (List S)) (ts : List T)
    (m : StdMap T (List S)) :
    (∃ r, fillDependentVariablesMap ds ts m = .ok r) ↔ ds.length ≤ ts.length := by
  induction ds generalizing ts m with
  | nil => simp [fillDependentVariablesMap]
  | cons d ds ih =>
    cases ts with
    | nil => simp [fillDependentVariablesMap]
    | cons t ts =>
      simp only [fillDependentVariablesMap, List.length_cons, Nat.add_le_add_iff_right]
      exact ih ts _

theorem fillDependentVariablesMap_error (ds : List (List S)) (ts : List T)
    (m : StdMap T (List S)) (e : Error) (h : fillDependentVariablesMap ds ts m = .error e) :
    e = .outOfRange := by
  induction ds generalizing ts m with
  | nil => simp [fillDependentVariablesMap] at h
  | cons d ds ih =>
    cases ts with
    | nil =>
      simp only [fillDependentVariablesMap, Except.error.injEq] at h
      exact h.symm
    | cons t ts =>
      simp only [fillDependentVariablesMap] at h
      exact ih ts _ h

theorem observablesOfConsistentSize_iff (os : List (List S)) :
    observablesOfConsistentSize os = true ↔ ∀ a ∈ os, ∀ b ∈ os, a.length = b.length := by
  induction os with
  | nil => simp [observablesOfConsistentSize]
  | cons a rest ih =>
    cases rest with
    | nil => simp [observablesOfConsistentSize]
    | cons b rest' =>
      simp only [observablesOfConsistentSize, Bool.and_eq_true, beq_iff_eq, ih]
      constructor
      · rintro ⟨hab, hall⟩ x hx y hy
        have hb : ∀ z ∈ b :: rest', z.length = a.length := fun z hz =>
          (hall z hz b (List.mem_cons_self _ _)).trans hab
        have ha : ∀ z ∈ a :: b :: rest', z.length = a.length := by
          intro z hz
          rcases List.mem_cons.mp hz with rfl | hz
          · rfl
          · exact hb z hz
        exact (ha x hx).trans (ha y hy).symm
      · intro hall
        refine ⟨hall b (by simp) a (by simp), fun x hx y hy => hall x ?_ y ?_⟩
        · exact List.mem_cons_of_mem _ hx
        · exact List.mem_cons_of_mem _ hy

theorem checkCalculator_ok_iff [DecidableEq L] (observableType : ObservableType)
    (linkEnds : LinkDefinition L)
    (calculator : Option (ObservationDependentVariableCalculator L)) :
    checkCalculator observableType linkEnds calculator = .ok () ↔
      ∀ c, calculator = some c → c.observableType_ = observableType ∧ c.linkEnds_ = linkEnds := by
  cases calculator with
  | none => simp [checkCalculator]
  | some c =>
    simp only [checkCalculator, ne_eq, ite_not, Option.some.injEq, forall_eq']
    by_cases h1 : c.observableType_ = observableType
    · by_cases h2 : c.linkEnds_ = linkEnds <;> simp [h1, h2]
    · simp [h1]

end SingleSetLemmas

section SingleSetClaims

variable {T S L : Type} [LinearOrder T] [DecidableEq L]

/-- C3: a successfully constructed set stores the stable sort by time of the input
pairs (time, observation): the stored times are non-decreasing, the stored pairs are a
permutation of the input pairs, the pairs of every single time value keep their input
order, an input with non-decreasing times is stored unchanged, and the stored times
and observations have the same length. -/
theorem SingleObservationSet.construct_stable_sort (observableType : ObservableType)
    (linkEnds : LinkDefinition L) (observations : List (List S)) (observationTimes : List T)
    (referenceLinkEnd : LinkEndType) (observationsDependentVariables : List (List S))
    (dependentVariableCalculator : Option (ObservationDependentVariableCalculator L))
    (ancilliarySettings : Option Nat) (s : SingleObservationSet T S L)
    (h : SingleObservationSet.construct observableType linkEnds observations observationTimes
      referenceLinkEnd observationsDependentVariables dependentVariableCalculator
      ancilliarySettings = .ok s) :
    s.observationTimes_.Sorted (· ≤ ·) ∧
    s.observationTimes_.length = s.observations_.length ∧
    (s.observationTimes_.zip s.observations_).Perm (observationTimes.zip observations) ∧
    (∀ x : T, (s.observationTimes_.zip s.observations_).filter (fun p => decide (p.1 = x)) =
      (observationTimes.zip observations).filter (fun p => decide (p.1 = x))) ∧
    (observationTimes.Sorted (· ≤ ·) →
      s.observationTimes_ = observationTimes ∧ s.observations_ = observations) := by
  obtain ⟨-, hlen, -, -, -, -, -, -, -, -, hcase⟩ := SingleObservationSet.construct_ok_inv h
  rcases hcase with ⟨hs, ho, ht, -⟩ | ⟨hns, ht, ho, -⟩
  · rw [ho, ht]
    exact ⟨(isSorted_iff _).mp hs, hlen.symm, List.Perm.refl _, fun _ => rfl, fun _ => ⟨rfl, rfl⟩⟩
  · rw [ho, ht, zip_map_fst_snd]
    refine ⟨?_, by simp, ?_, ?_, ?_⟩
    · exact fillObservationsMap_sorted _ _ _ (by simp)
    · simpa using fillObservationsMap_perm observationTimes observations []
    · intro x
      simpa using fillObservationsMap_filter x observationTimes observations [] (by simp)
    · intro hsorted
      rw [(isSorted_iff _).mpr hsorted] at hns
      exact absurd hns (by simp)

/-- Witness of C3: times `3, 1, 1` with observations `30, 10, 11` are stored as
`1, 1, 3` with `10, 11, 30`. -/
theorem SingleObservationSet.construct_stable_sort_witness :
    SingleObservationSet.construct (T := Int) (S := Int) (L := Nat) 1 ⟨7⟩ [[30], [10], [11]]
        [3, 1, 1] 0 [] none none =
      .ok ⟨1, ⟨7⟩, [[10], [11], [30]], [1, 1, 3], 0, [], none, none, 3, []⟩ ∧
    ([1, 1, 3] : List Int).Sorted (· ≤ ·) ∧
    ([1, 1, 3] : List Int).length = ([[10], [11], [30]] : List (List Int)).length ∧
    (([1, 1, 3] : List Int).zip [[10], [11], [30]]).Perm
      (([3, 1, 1] : List Int).zip ([[30], [10], [11]] : List (List Int))) ∧
    (∀ x : Int, (([1, 1, 3] : List Int).zip ([[10], [11], [30]] : List (List Int))).filter
        (fun p => decide (p.1 = x)) =
      (([3, 1, 1] : List Int).zip ([[30], [10], [11]] : List (List Int))).filter
        (fun p => decide (p.1 = x))) ∧
    (([3, 1, 1] : List Int).Sorted (· ≤ ·) →
      ([1, 1, 3] : List Int) = [3, 1, 1] ∧
        ([[10], [11], [30]] : List (List Int)) = [[30], [10], [11]]) :=
  ⟨rfl, SingleObservationSet.construct_stable_sort 1 (⟨7⟩ : LinkDefinition Nat)
    [[30], [10], [11]] ([3, 1, 1] : List Int) 0 [] none none
    ⟨1, ⟨7⟩, [[10], [11], [30]], [1, 1, 3], 0, [], none, none, 3, []⟩ rfl⟩

/-- C4 (failing input): built from times `2, 1`, observations `20, 10` and dependent
variables `200, 100`, the set stores times `1, 2` and observations `10, 20` but
dependent variables `200, 100`: the stored triple `(1, 10, 200)` is no input triple, so
no permutation of the input indices gives the stored times, observations and dependent
variables at once. -/
theorem SingleObservationSet.construct_dependent_variables_not_reordered :
    ∃ s : SingleObservationSet Int Int Nat,
      SingleObservationSet.construct 1 ⟨7⟩ [[20], [10]] [2, 1] 0 [[200], [100]] none none =
        .ok s ∧
      s.observationTimes_ = [1, 2] ∧ s.observations_ = [[10], [20]] ∧
      s.observationsDependentVariables_ = [[200], [100]] ∧
      ¬ ∃ p : Fin 2 → Fin 2, ∀ i : Fin 2,
        s.observationTimes_.get? i = ([2, 1] : List Int).get? (p i) ∧
        s.observations_.get? i = ([[20], [10]] : List (List Int)).get? (p i) ∧
        s.observationsDependentVariables_.get? i =
          ([[200], [100]] : List (List Int)).get? (p i) := by
  refine ⟨⟨1, ⟨7⟩, [[10], [20]], [1, 2], 0, [[200], [100]], none, none, 2, []⟩, rfl, rfl, rfl,
    rfl, ?_⟩
  rintro ⟨p, hp⟩
  have h0 := hp 0
  revert h0
  generalize p 0 = q
  revert q
  decide

/-- C5 (counterexample): with non-decreasing times, two observations and one dependent
variable vector the construction succeeds and stores one dependent variable vector,
which is neither zero nor the number of observations. -/
theorem SingleObservationSet.construct_dependent_variable_count_counterexample :
    ∃ s : SingleObservationSet Int Int Nat,
      SingleObservationSet.construct 1 ⟨7⟩ [[10], [20]] [1, 2] 0 [[100]] none none = .ok s ∧
      ¬ (s.observationsDependentVariables_.length = 0 ∨
        s.observationsDependentVariables_.length = s.observations_.length) :=
  ⟨⟨1, ⟨7⟩, [[10], [20]], [1, 2], 0, [[100]], none, none, 2, []⟩, rfl, by decide⟩

/-- C5 (amended): a successfully constructed set stores as many observations as times
and as `getNumberOfObservables( )` returns; it stores no dependent variables when none
are given, and when the times are given in non-decreasing order it stores the
dependent variables as given, so that their number is zero or the number of
observations when the number given is. -/
theorem SingleObservationSet.construct_sizes (observableType : ObservableType)
    (linkEnds : LinkDefinition L) (observations : List (List S)) (observationTimes : List T)
    (referenceLinkEnd : LinkEndType) (observationsDependentVariables : List (List S))
    (dependentVariableCalculator : Option (ObservationDependentVariableCalculator L))
    (ancilliarySettings : Option Nat) (s : SingleObservationSet T S L)
    (h : SingleObservationSet.construct observableType linkEnds observations observationTimes
      referenceLinkEnd observationsDependentVariables dependentVariableCalculator
      ancilliarySettings = .ok s) :
    s.observations_.length = s.observationTimes_.length ∧
    s.observations_.length = s.getNumberOfObservables ∧
    (observationsDependentVariables = [] → s.observationsDependentVariables_ = []) ∧
    (observationTimes.Sorted (· ≤ ·) →
      s.observationsDependentVariables_ = observationsDependentVariables ∧
      ((observationsDependentVariables.length = 0 ∨
          observationsDependentVariables.length = observations.length) →
        (s.observationsDependentVariables_.length = 0 ∨
          s.observationsDependentVariables_.length = s.observations_.length))) := by
  obtain ⟨-, hlen, -, -, -, -, -, -, hn, -, hcase⟩ := SingleObservationSet.construct_ok_inv h
  rcases hcase with ⟨hs, ho, ht, hd⟩ | ⟨hns, ht, ho, hd⟩
  · rw [ho, ht, hd]
    exact ⟨hlen, by simp [SingleObservationSet.getNumberOfObservables, hn],
      fun h0 => h0, fun _ => ⟨rfl, fun h0 => h0⟩⟩
  · refine ⟨by simp [ho, ht], ?_, ?_, ?_⟩
    · simp [SingleObservationSet.getNumberOfObservables, hn, ho,
        fillObservationsMap_length _ _ _ hlen]
    · intro h0
      subst h0
      simpa using hd.symm
    · intro hsorted
      rw [(isSorted_iff _).mpr hsorted] at hns
      exact absurd hns (by simp)

/-- Witness of C5 (amended): two observations at times `1, 2` with two dependent
variable vectors. -/
theorem SingleObservationSet.construct_sizes_witness :
    SingleObservationSet.construct (T := Int) (S := Int) (L := Nat) 1 ⟨7⟩ [[10], [20]]
        [1, 2] 0 [[100], [200]] none none =
      .ok ⟨1, ⟨7⟩, [[10], [20]], [1, 2], 0, [[100], [200]], none, none, 2, []⟩ ∧
    ([[10], [20]] : List (List Int)).length = ([1, 2] : List Int).length ∧
    ([[10], [20]] : List (List Int)).length = 2 ∧
    (([[100], [200]] : List (List Int)) = [] → ([[100], [200]] : List (List Int)) = []) ∧
    (([1, 2] : List Int).Sorted (· ≤ ·) →
      ([[100], [200]] : List (List Int)) = [[100], [200]] ∧
      ((([[100], [200]] : List (List Int)).length = 0 ∨
          ([[100], [200]] : List (List Int)).length = ([[10], [20]] : List (List Int)).length) →
        (([[100], [200]] : List (List Int)).length = 0 ∨
          ([[100], [200]] : List (List Int)).length =
            ([[10], [20]] : List (List Int)).length))) :=
  ⟨rfl, SingleObservationSet.construct_sizes 1 (⟨7⟩ : LinkDefinition Nat)
    [[10], [20]] ([1, 2] : List Int) 0 [[100], [200]] none none
    ⟨1, ⟨7⟩, [[10], [20]], [1, 2], 0, [[100], [200]], none, none, 2, []⟩ rfl⟩

/-- C6 (counterexample): with times `2, 1`, two observations of one component, three
dependent variable vectors and no calculator, the construction fails although the
observation and time counts agree and all observation vectors have the same size. -/
theorem SingleObservationSet.construct_failure_counterexample :
    (∃ e, SingleObservationSet.construct (T := Int) (S := Int) (L := Nat) 1 ⟨7⟩ [[20], [10]]
        [2, 1] 0 [[1], [2], [3]] none none = .error e) ∧
    ¬ ((∃ c : ObservationDependentVariableCalculator Nat,
          (none : Option (ObservationDependentVariableCalculator Nat)) = some c ∧
            (c.observableType_ ≠ 1 ∨ c.linkEnds_ ≠ ⟨7⟩)) ∨
        ([[20], [10]] : List (List Int)).length ≠ ([2, 1] : List Int).length ∨
        ∃ a ∈ ([[20], [10]] : List (List Int)), ∃ b ∈ ([[20], [10]] : List (List Int)),
          a.length ≠ b.length) :=
  ⟨⟨.outOfRange, rfl⟩, by simp⟩

/-- C6 (amended): the construction fails if and only if a calculator is supplied whose
observable type or link ends differ from the set's, or the numbers of observations and
times differ, or two observation vectors have different sizes, or the times are not in
non-decreasing order and more dependent variable vectors than times are given; the
error raised after the time ordering is never returned. -/
theorem SingleObservationSet.construct_fails_iff (observableType : ObservableType)
    (linkEnds : LinkDefinition L) (observations : List (List S)) (observationTimes : List T)
    (referenceLinkEnd : LinkEndType) (observationsDependentVariables : List (List S))
    (dependentVariableCalculator : Option (ObservationDependentVariableCalculator L))
    (ancilliarySettings : Option Nat) :
    ((∃ e, SingleObservationSet.construct observableType linkEnds observations observationTimes
        referenceLinkEnd observationsDependentVariables dependentVariableCalculator
        ancilliarySettings = .error e) ↔
      ((∃ c, dependentVariableCalculator = some c ∧
          (c.observableType_ ≠ observableType ∨ c.linkEnds_ ≠ linkEnds)) ∨
        observations.length ≠ observationTimes.length ∨
        (∃ a ∈ observations, ∃ b ∈ observations, a.length ≠ b.length) ∨
        (¬ observationTimes.Sorted (· ≤ ·) ∧
          observationTimes.length < observationsDependentVariables.length))) ∧
    SingleObservationSet.construct observableType linkEnds observations observationTimes
        referenceLinkEnd observationsDependentVariables dependentVariableCalculator
        ancilliarySettings ≠ .error .incompatibleAfterTimeOrdering := by
  have hcalc := checkCalculator_ok_iff observableType linkEnds dependentVariableCalculator
  have hcons := observablesOfConsistentSize_iff observations
  have hsort := isSorted_iff observationTimes
  unfold SingleObservationSet.construct
  cases hc : checkCalculator observableType linkEnds dependentVariableCalculator with
  | error e =>
    have hne : ¬ ∀ c, dependentVariableCalculator = some c →
        c.observableType_ = observableType ∧ c.linkEnds_ = linkEnds := by
      rw [← hcalc, hc]; simp
    have hex : ∃ c, dependentVariableCalculator = some c ∧
        (c.observableType_ ≠ observableType ∨ c.linkEnds_ ≠ linkEnds) := by
      by_contra hcon
      apply hne
      intro c hc'
      by_contra hcc
      exact hcon ⟨c, hc', by tauto⟩
    refine ⟨⟨fun _ => Or.inl hex, fun _ => ⟨e, rfl⟩⟩, ?_⟩
    cases dependentVariableCalculator with
    | none => simp [checkCalculator] at hc
    | some c =>
      simp only [checkCalculator] at hc
      split at hc
      · simp only [Except.error.injEq] at hc; subst hc; simp
      · split at hc
        · simp only [Except.error.injEq] at hc; subst hc; simp
        · simp at hc
  | ok u =>
    have hokc : ¬ ∃ c, dependentVariableCalculator = some c ∧
        (c.observableType_ ≠ observableType ∨ c.linkEnds_ ≠ linkEnds) := by
      rintro ⟨c, hc', hcc⟩
      have := (hcalc.mp hc) c hc'
      tauto
    simp only []
    by_cases hlen : observations.length = observationTimes.length
    · by_cases hco : observablesOfConsistentSize observations = true
      · have hall := hcons.mp hco
        have hno : ¬ ∃ a ∈ observations, ∃ b ∈ observations, a.length ≠ b.length := by
          rintro ⟨a, ha, b, hb, hab⟩
          exact hab (hall a ha b hb)
        by_cases hs : isSorted observationTimes = true
        · have hsd := hsort.mp hs
          simp [hlen, hco, hs, hokc, hno, hsd]
        · have hsd : ¬ observationTimes.Sorted (· ≤ ·) := fun hh => hs (hsort.mpr hh)
          have hmaplen : (List.map Prod.snd
              (fillObservationsMap observationTimes observations [])).length =
              observationTimes.length := by
            simp [fillObservationsMap_length _ _ _ hlen, hlen]
          simp only [hlen, hco, hs, ne_eq, not_true_eq_false, if_false, not_false_eq_true,
            if_true, createVectorFromMultiMapKeys, createVectorFromMultiMapValues, hmaplen,
            hokc, hno, hsd, true_and, false_or]
          by_cases hd : observationsDependentVariables.length > 0
          · simp only [hd, if_true]
            cases hf : fillDependentVariablesMap observationsDependentVariables
                (List.map Prod.fst (fillObservationsMap observationTimes observations [])) [] with
            | error e =>
              have he := fillDependentVariablesMap_error _ _ _ _ hf
              have hnot : ¬ observationsDependentVariables.length ≤
                  (List.map Prod.fst
                    (fillObservationsMap observationTimes observations [])).length := by
                rw [← fillDependentVariablesMap_isOk_iff (S := S) _ _ []]
                rintro ⟨r, hr⟩
                rw [hf] at hr
                exact absurd hr (by simp)
              simp only [List.length_map, fillObservationsMap_length _ _ _ hlen,
                List.length_nil, zero_add, hlen, not_le] at hnot
              subst he
              simp [Except.map, hnot]
            | ok r =>
              have hle : observationsDependentVariables.length ≤
                  (List.map Prod.fst
                    (fillObservationsMap observationTimes observations [])).length :=
                (fillDependentVariablesMap_isOk_iff (S := S) _ _ []).mp ⟨r, hf⟩
              simp only [List.length_map, fillObservationsMap_length _ _ _ hlen,
                List.length_nil, zero_add, hlen] at hle
              simp [Except.map, not_lt.mpr hle]
          · have h0 : observationsDependentVariables.length = 0 := by omega
            simp [hd, h0]
      · have hex : ∃ a ∈ observations, ∃ b ∈ observations, a.length ≠ b.length := by
          by_contra hcon
          apply hco
          rw [hcons]
          intro a ha b hb
          by_contra hab
          exact hcon ⟨a, ha, b, hb, hab⟩
        simp [hlen, hco, hex]
    · simp [hlen]

end SingleSetClaims

section SingleSetWeights

variable {T S L : Type}

/-- C7: on a set of `n` observations of `d` components each, `setWeightsVector( w )`
fails if and only if the length of `w` differs from `n * d` (on an empty set: if and
only if `w` is not empty); after a success `getWeightsVector( )` returns `w`, and
after a failure the object, its weights included, is as before. -/
theorem SingleObservationSet.setWeightsVector_spec (s : SingleObservationSet T S L)
    (w : List S) (n d : Nat) (hn : s.numberOfObservations_ = n)
    (hlen : s.observations_.length = n) (hd : ∀ o ∈ s.observations_, o.length = d) :
    ((∃ e, (s.setWeightsVector w).1 = .error e) ↔ w.length ≠ n * d) ∧
    (n = 0 → ((∃ e, (s.setWeightsVector w).1 = .error e) ↔ w ≠ [])) ∧
    ((s.setWeightsVector w).1 = .ok () → (s.setWeightsVector w).2.getWeightsVector = w) ∧
    ((∃ e, (s.setWeightsVector w).1 = .error e) → (s.setWeightsVector w).2 = s) := by
  unfold SingleObservationSet.setWeightsVector
  by_cases h0 : n = 0
  · subst h0
    simp only [hn, ne_eq, not_true_eq_false, if_false, zero_mul, forall_true_left]
    by_cases hw : w.length > 0
    · have hw' : w ≠ [] := by
        intro h; subst h; simp at hw
      have hw'' : ¬ w.length = 0 := by omega
      simp [hw, hw', hw'']
    · have hw' : w = [] := by
        cases w with
        | nil => rfl
        | cons a l => simp at hw
      subst hw'
      simp [SingleObservationSet.getWeightsVector]
  · cases hobs : s.observations_ with
    | nil => rw [hobs] at hlen; simp at hlen; omega
    | cons first rest =>
      have hfirst : first.length = d := hd first (by rw [hobs]; simp)
      have hlen' : (first :: rest).length = n := by rw [← hobs]; exact hlen
      simp only [hn, ne_eq, h0, not_false_eq_true, if_true, vectorAt, List.get?_cons_zero,
        hfirst, hlen', Nat.mul_comm d n, false_imp_iff, true_and]
      by_cases hw : w.length = n * d
      · simp [hw, SingleObservationSet.getWeightsVector]
      · simp [hw]

/-- Witness of C7: a set of two observations of one component and two weights. -/
theorem SingleObservationSet.setWeightsVector_spec_witness :
    ((∃ e, ((⟨1, ⟨7⟩, [[10], [20]], [1, 2], 0, [], none, none, 2, []⟩ :
        SingleObservationSet Int Int Nat).setWeightsVector [5, 6]).1 = .error e) ↔
      ([5, 6] : List Int).length ≠ 2 * 1) ∧
    (2 = 0 → ((∃ e, ((⟨1, ⟨7⟩, [[10], [20]], [1, 2], 0, [], none, none, 2, []⟩ :
        SingleObservationSet Int Int Nat).setWeightsVector [5, 6]).1 = .error e) ↔
      ([5, 6] : List Int) ≠ [])) ∧
    (((⟨1, ⟨7⟩, [[10], [20]], [1, 2], 0, [], none, none, 2, []⟩ :
        SingleObservationSet Int Int Nat).setWeightsVector [5, 6]).1 = .ok () →
      ((⟨1, ⟨7⟩, [[10], [20]], [1, 2], 0, [], none, none, 2, []⟩ :
        SingleObservationSet Int Int Nat).setWeightsVector [5, 6]).2.getWeightsVector =
        [5, 6]) ∧
    ((∃ e, ((⟨1, ⟨7⟩, [[10], [20]], [1, 2], 0, [], none, none, 2, []⟩ :
        SingleObservationSet Int Int Nat).setWeightsVector [5, 6]).1 = .error e) →
      ((⟨1, ⟨7⟩, [[10], [20]], [1, 2], 0, [], none, none, 2, []⟩ :
        SingleObservationSet Int Int Nat).setWeightsVector [5, 6]).2 =
        ⟨1, ⟨7⟩, [[10], [20]], [1, 2], 0, [], none, none, 2, []⟩) :=
  SingleObservationSet.setWeightsVector_spec
    (⟨1, ⟨7⟩, [[10], [20]], [1, 2], 0, [], none, none, 2, []⟩ :
      SingleObservationSet Int Int Nat) [5, 6] 2 1 rfl rfl (by decide)

end SingleSetWeights

section FilterLemmas

variable {α : Type}

theorem entriesNotAt_append (indices : List Int) (k : Nat) (a b : List α) :
    entriesNotAt indices k (a ++ b) =
      entriesNotAt indices k a ++ entriesNotAt indices (k + a.length) b := by
  induction a generalizing k with
  | nil => simp [entriesNotAt]
  | cons x rest ih =>
    have hk : k + (rest.length + 1) = k + 1 + rest.length := by omega
    simp only [List.cons_append, entriesNotAt, List.length_cons, hk]
    split <;> simp [ih (k + 1)]

theorem entriesNotAt_of_lt (indices : List Int) (k : Nat) (l : List α)
    (h : ∀ i ∈ indices, i < (k : Int)) : entriesNotAt indices k l = l := by
  induction l generalizing k with
  | nil => simp [entriesNotAt]
  | cons x rest ih =>
    have hk : (k : Int) ∉ indices := fun hmem => lt_irrefl _ (h _ hmem)
    simp only [entriesNotAt, hk, if_false]
    rw [ih (k + 1) (fun i hi => by have := h i hi; push_cast; omega)]

theorem entriesNotAt_cons_of_le (d : Int) (indices : List Int) (k : Nat) (l : List α)
    (h : ((k + l.length : Nat) : Int) ≤ d) :
    entriesNotAt (d :: indices) k l = entriesNotAt indices k l := by
  induction l generalizing k with
  | nil => simp [entriesNotAt]
  | cons x rest ih =>
    have hk : (k : Int) ≠ d := by
      simp only [List.length_cons] at h
      push_cast at h
      omega
    have hrest : ((k + 1 + rest.length : Nat) : Int) ≤ d := by
      simp only [List.length_cons] at h
      push_cast at h ⊢
      omega
    simp only [entriesNotAt, List.mem_cons, hk, false_or, ih (k + 1) hrest]

theorem entriesNotAt_congr (a b : List Int) (k : Nat) (l : List α)
    (h : ∀ i, i ∈ a ↔ i ∈ b) : entriesNotAt a k l = entriesNotAt b k l := by
  induction l generalizing k with
  | nil => simp [entriesNotAt]
  | cons x rest ih => simp only [entriesNotAt, h, ih]

theorem entriesNotAt_sublist (indices : List Int) (k : Nat) (l : List α) :
    (entriesNotAt indices k l).Sublist l := by
  induction l generalizing k with
  | nil => simp [entriesNotAt]
  | cons x rest ih =>
    simp only [entriesNotAt]
    split
    · exact (ih (k + 1)).cons _
    · exact (ih (k + 1)).cons₂ _

/-- Erasing the entry at the largest index first leaves the entries that the remaining
indices select. -/
theorem entriesNotAt_cons_eraseIdx (d : Int) (indices : List Int) (l : List α)
    (hd : 0 ≤ d ∧ d < (l.length : Int)) (hlt : ∀ i ∈ indices, i < d) :
    entriesNotAt (d :: indices) 0 l = entriesNotAt indices 0 (l.eraseIdx d.toNat) := by
  obtain ⟨n, rfl⟩ := Int.eq_ofNat_of_zero_le hd.1
  have hn : n < l.length := by exact_mod_cast hd.2
  simp only [Int.toNat_ofNat]
  have hsplit : l = l.take n ++ l.get ⟨n, hn⟩ :: l.drop (n + 1) := by
    rw [List.get_eq_getElem, List.getElem_cons_drop, List.take_append_drop]
  have htake : (l.take n).length = n := by simp [List.length_take, Nat.le_of_lt hn]
  rw [List.eraseIdx_eq_take_drop_succ]
  conv_lhs => rw [hsplit]
  rw [entriesNotAt_append, entriesNotAt_append, htake]
  simp only [Nat.zero_add]
  congr 1
  · exact entriesNotAt_cons_of_le _ _ _ _ (by simp [htake])
  · have hmem : (n : Int) ∈ (n : Int) :: indices := List.mem_cons_self _ _
    simp only [entriesNotAt, hmem, if_true]
    rw [entriesNotAt_of_lt, entriesNotAt_of_lt]
    · intro i hi
      exact hlt i hi
    · intro i hi
      rcases List.mem_cons.mp hi with rfl | hi
      · push_cast; omega
      · have := hlt i hi
        push_cast; omega

theorem vectorErase_ok (l : List α) (d : Int) (hd : 0 ≤ d ∧ d < (l.length : Int)) :
    vectorErase l d = .ok (l.eraseIdx d.toNat) := by
  simp [vectorErase, hd]

theorem vectorErase_length (l l' : List α) (d : Int) (h : vectorErase l d = .ok l') :
    l'.length + 1 = l.length := by
  unfold vectorErase at h
  split at h
  · rename_i hd
    simp only [Except.ok.injEq] at h
    subst h
    have : d.toNat < l.length := by omega
    rw [List.length_eraseIdx, if_pos this]
    omega
  · simp at h

theorem sortDescending_mem (indices : List Int) (i : Int) :
    i ∈ sortDescending indices ↔ i ∈ indices :=
  (List.perm_insertionSort _ indices).mem_iff

theorem sortDescending_length (indices : List Int) :
    (sortDescending indices).length = indices.length :=
  List.length_insertionSort _ indices

theorem sortDescending_strict (indices : List Int) (h : indices.Nodup) :
    (sortDescending indices).Sorted (· > ·) := by
  have hsorted : (sortDescending indices).Sorted (· ≥ ·) := List.sorted_insertionSort _ indices
  have hnodup : (sortDescending indices).Nodup :=
    (List.perm_insertionSort _ indices).nodup_iff.mpr h
  exact (List.Pairwise.and hsorted hnodup).imp (fun ⟨hge, hne⟩ => lt_of_le_of_ne hge (Ne.symm hne))

theorem entriesNotAt_nil_indices (k : Nat) (l : List α) : entriesNotAt [] k l = l :=
  entriesNotAt_of_lt [] k l (fun _ hi => absurd hi (List.not_mem_nil _))

theorem entriesNotAt_length_eq {β : Type} (indices : List Int) (k : Nat) (a : List α)
    (b : List β) (h : a.length = b.length) :
    (entriesNotAt indices k a).length = (entriesNotAt indices k b).length := by
  induction a generalizing k b with
  | nil =>
    cases b with
    | nil => simp [entriesNotAt]
    | cons y b => simp at h
  | cons x a ih =>
    cases b with
    | nil => simp at h
    | cons y b =>
      simp only [List.length_cons, Nat.add_right_cancel_iff] at h
      simp only [entriesNotAt]
      split <;> simp [ih (k + 1) b h]

theorem entriesNotAt_length_sorted (ds : List Int) (hs : ds.Sorted (· > ·)) (l : List α)
    (hv : ∀ i ∈ ds, 0 ≤ i ∧ i < (l.length : Int)) :
    (entriesNotAt ds 0 l).length + ds.length = l.length := by
  induction ds generalizing l with
  | nil => simp [entriesNotAt_nil_indices]
  | cons d ds ih =>
    have hd := hv d (List.mem_cons_self _ _)
    have hlt : ∀ i ∈ ds, i < d := fun i hi => List.rel_of_sorted_cons hs i hi
    have hlen : (l.eraseIdx d.toNat).length + 1 = l.length :=
      vectorErase_length l _ d (vectorErase_ok l d hd)
    rw [entriesNotAt_cons_eraseIdx d ds l hd hlt, List.length_cons]
    have := ih hs.of_cons (l.eraseIdx d.toNat) (fun i hi => by
      have h1 := hv i (List.mem_cons_of_mem _ hi)
      have h2 := hlt i hi
      constructor
      · exact h1.1
      · omega)
    omega

end FilterLemmas

section FilterSetLemmas

variable {T S L : Type}

theorem eraseFilteredEntries_sorted (ds : List Int) (hs : ds.Sorted (· > ·))
    (ts : List T) (os deps : List (List S))
    (hv : ∀ i ∈ ds, 0 ≤ i ∧ i < (ts.length : Int)) (hos : os.length = ts.length)
    (hdeps : deps.length = 0 ∨ deps.length = ts.length) :
    eraseFilteredEntries ds (ts, os, deps) =
      .ok (entriesNotAt ds 0 ts, entriesNotAt ds 0 os, entriesNotAt ds 0 deps) := by
  induction ds generalizing ts os deps with
  | nil => simp [eraseFilteredEntries, entriesNotAt_nil_indices]
  | cons d ds ih =>
    have hd := hv d (List.mem_cons_self _ _)
    have hlt : ∀ i ∈ ds, i < d := fun i hi => List.rel_of_sorted_cons hs i hi
    have hdo : 0 ≤ d ∧ d < (os.length : Int) := by rw [hos]; exact hd
    have hlenT : (ts.eraseIdx d.toNat).length + 1 = ts.length :=
      vectorErase_length ts _ d (vectorErase_ok ts d hd)
    have hlenO : (os.eraseIdx d.toNat).length + 1 = os.length :=
      vectorErase_length os _ d (vectorErase_ok os d hdo)
    have hv' : ∀ i ∈ ds, 0 ≤ i ∧ i < ((ts.eraseIdx d.toNat).length : Int) := by
      intro i hi
      have h1 := hv i (List.mem_cons_of_mem _ hi)
      have h2 := hlt i hi
      constructor
      · exact h1.1
      · omega
    simp only [eraseFilteredEntries, vectorErase_ok ts d hd, vectorErase_ok os d hdo]
    rw [entriesNotAt_cons_eraseIdx d ds ts hd hlt, entriesNotAt_cons_eraseIdx d ds os hdo hlt]
    rcases hdeps with h0 | hN
    · have hnil : deps = [] := List.length_eq_zero.mp h0
      subst hnil
      simp only [List.length_nil, gt_iff_lt, lt_self_iff_false, if_false]
      rw [ih hs.of_cons _ _ [] hv' (by omega) (Or.inl List.length_nil)]
      simp [entriesNotAt]
    · have hdd : 0 ≤ d ∧ d < (deps.length : Int) := by rw [hN]; exact hd
      have hpos : deps.length > 0 := by omega
      have hlenD : (deps.eraseIdx d.toNat).length + 1 = deps.length :=
        vectorErase_length deps _ d (vectorErase_ok deps d hdd)
      simp only [hpos, if_true, vectorErase_ok deps d hdd]
      rw [entriesNotAt_cons_eraseIdx d ds deps hdd hlt]
      exact ih hs.of_cons _ _ _ hv' (by omega) (Or.inr (by omega))

theorem eraseFilteredEntries_length (ds : List Int) (ts ts' : List T)
    (os os' deps deps' : List (List S))
    (h : eraseFilteredEntries ds (ts, os, deps) = .ok (ts', os', deps')) :
    ts'.length + ds.length = ts.length ∧ os'.length + ds.length = os.length := by
  induction ds generalizing ts os deps with
  | nil =>
    simp only [eraseFilteredEntries, Except.ok.injEq, Prod.mk.injEq] at h
    obtain ⟨rfl, rfl, rfl⟩ := h
    simp
  | cons d ds ih =>
    simp only [eraseFilteredEntries] at h
    split at h
    · simp at h
    · rename_i ts1 hts
      split at h
      · simp at h
      · rename_i os1 hos
        have h1 := vectorErase_length _ _ _ hts
        have h2 := vectorErase_length _ _ _ hos
        split at h
        · split at h
          · simp at h
          · have := ih _ _ _ h
            simp only [List.length_cons]
            omega
        · have := ih _ _ _ h
          simp only [List.length_cons]
          omega

theorem isSorted_sublist [LinearOrder T] (a b : List T) (hab : a.Sublist b)
    (h : isSorted b = true) : isSorted a = true :=
  (isSorted_iff a).mpr (((isSorted_iff b).mp h).sublist hab)

theorem observablesOfConsistentSize_sublist (a b : List (List S)) (hab : a.Sublist b)
    (h : observablesOfConsistentSize b = true) : observablesOfConsistentSize a = true := by
  rw [observablesOfConsistentSize_iff] at h ⊢
  exact fun x hx y hy => h x (hab.subset hx) y (hab.subset hy)

/-- With the checks passed and the times in order the constructor stores its arguments. -/
theorem SingleObservationSet.construct_of_sorted [LinearOrder T] [DecidableEq L]
    (observableType : ObservableType) (linkEnds : LinkDefinition L)
    (observations : List (List S)) (observationTimes : List T)
    (referenceLinkEnd : LinkEndType) (observationsDependentVariables : List (List S))
    (dependentVariableCalculator : Option (ObservationDependentVariableCalculator L))
    (ancilliarySettings : Option Nat)
    (hc : checkCalculator observableType linkEnds dependentVariableCalculator = .ok ())
    (hlen : observations.length = observationTimes.length)
    (hcons : observablesOfConsistentSize observations = true)
    (hs : isSorted observationTimes = true) :
    SingleObservationSet.construct observableType linkEnds observations observationTimes
      referenceLinkEnd observationsDependentVariables dependentVariableCalculator
      ancilliarySettings =
    .ok ⟨observableType, linkEnds, observations, observationTimes, referenceLinkEnd,
      observationsDependentVariables, dependentVariableCalculator, ancilliarySettings,
      observations.length, []⟩ := by
  simp [SingleObservationSet.construct, hc, hlen, hcons, hs]

/-- The constructor establishes the class invariant. -/
theorem SingleObservationSet.construct_invariant [LinearOrder T] [DecidableEq L]
    {observableType : ObservableType}
    {linkEnds : LinkDefinition L} {observations : List (List S)} {observationTimes : List T}
    {referenceLinkEnd : LinkEndType} {observationsDependentVariables : List (List S)}
    {dependentVariableCalculator : Option (ObservationDependentVariableCalculator L)}
    {ancilliarySettings : Option Nat} {s : SingleObservationSet T S L}
    (h : SingleObservationSet.construct observableType linkEnds observations observationTimes
      referenceLinkEnd observationsDependentVariables dependentVariableCalculator
      ancilliarySettings = .ok s) : s.Invariant := by
  obtain ⟨hc, hlen, hcons, hty, hle, -, hcalc, -, hn, -, hcase⟩ :=
    SingleObservationSet.construct_ok_inv h
  rcases hcase with ⟨hs, ho, ht, -⟩ | ⟨-, ht, ho, -⟩
  · exact ⟨by rw [hty, hle, hcalc]; exact hc, by rw [hn, ho], by rw [ht, ho, hlen],
      by rw [ho]; exact hcons, by rw [ht]; exact hs⟩
  · refine ⟨by rw [hty, hle, hcalc]; exact hc, ?_, by rw [ht, ho]; simp, ?_, ?_⟩
    · rw [hn, ho]; simp [fillObservationsMap_length _ _ _ hlen]
    · rw [ho, observablesOfConsistentSize_iff]
      rw [observablesOfConsistentSize_iff] at hcons
      have hsub : ∀ x ∈ (fillObservationsMap observationTimes observations []).map Prod.snd,
          x ∈ observations := by
        intro x hx
        have hx' := ((fillObservationsMap_perm observationTimes observations []).map
          Prod.snd).subset hx
        simp only [List.nil_append] at hx'
        obtain ⟨p, hp, rfl⟩ := List.mem_map.mp hx'
        exact (List.of_mem_zip hp).2
      exact fun x hx y hy => hcons x (hsub x hx) y (hsub y hy)
    · rw [ht, isSorted_iff]
      exact fillObservationsMap_sorted _ _ _ (by simp)

end FilterSetLemmas


section FilterClaims

variable {T S L : Type} [LinearOrder T] [DecidableEq L]

/-- C8: on a set of `N` samples that satisfies the class invariant and holds no or `N`
dependent variable vectors, `createFilteredObservationSet` with `m` distinct valid
indices, in any order, returns a set of `N - m` samples whose observations, times and
dependent variables are the original entries at the positions that are not in the
list, in their original order, with the other members of the original set; the
original set is a value that the call does not alter. -/
theorem SingleObservationSet.createFilteredObservationSet_spec (s : SingleObservationSet T S L)
    (hs : s.Invariant) (indices : List Int) (hnodup : indices.Nodup)
    (hvalid : ∀ i ∈ indices, 0 ≤ i ∧ i < (s.getNumberOfObservables : Int))
    (hdeps : s.observationsDependentVariables_.length = 0 ∨
      s.observationsDependentVariables_.length = s.getNumberOfObservables) :
    ∃ s', s.createFilteredObservationSet indices = .ok s' ∧
      s'.getNumberOfObservables + indices.length = s.getNumberOfObservables ∧
      s'.observations_ = entriesNotAt indices 0 s.observations_ ∧
      s'.observationTimes_ = entriesNotAt indices 0 s.observationTimes_ ∧
      s'.observationsDependentVariables_ =
        entriesNotAt indices 0 s.observationsDependentVariables_ ∧
      s'.observableType_ = s.observableType_ ∧ s'.linkEnds_ = s.linkEnds_ ∧
      s'.referenceLinkEnd_ = s.referenceLinkEnd_ ∧
      s'.dependentVariableCalculator_ = s.dependentVariableCalculator_ ∧
      s'.ancilliarySettings_ = s.ancilliarySettings_ := by
  obtain ⟨hcalc, hnum, htl, hcons, hsorted⟩ := hs
  simp only [SingleObservationSet.getNumberOfObservables, hnum] at hvalid hdeps ⊢
  have hstrict := sortDescending_strict indices hnodup
  have hmem := sortDescending_mem indices
  have hv : ∀ i ∈ sortDescending indices, 0 ≤ i ∧ i < (s.observationTimes_.length : Int) := by
    intro i hi
    rw [htl]
    exact hvalid i ((hmem i).mp hi)
  have hloop := eraseFilteredEntries_sorted (sortDescending indices) hstrict
    s.observationTimes_ s.observations_ s.observationsDependentVariables_ hv htl.symm
    (by rw [htl]; exact hdeps)
  rw [entriesNotAt_congr _ indices 0 s.observationTimes_ hmem,
    entriesNotAt_congr _ indices 0 s.observations_ hmem,
    entriesNotAt_congr _ indices 0 s.observationsDependentVariables_ hmem] at hloop
  have hcount : (entriesNotAt indices 0 s.observations_).length + indices.length =
      s.observations_.length := by
    rw [← entriesNotAt_congr _ indices 0 s.observations_ hmem, ← sortDescending_length indices]
    exact entriesNotAt_length_sorted _ hstrict _ (fun i hi => hvalid i ((hmem i).mp hi))
  have hconstruct := SingleObservationSet.construct_of_sorted s.observableType_ s.linkEnds_
    (entriesNotAt indices 0 s.observations_) (entriesNotAt indices 0 s.observationTimes_)
    s.referenceLinkEnd_ (entriesNotAt indices 0 s.observationsDependentVariables_)
    s.dependentVariableCalculator_ s.ancilliarySettings_ hcalc
    (entriesNotAt_length_eq indices 0 _ _ htl.symm)
    (observablesOfConsistentSize_sublist _ _ (entriesNotAt_sublist indices 0 _) hcons)
    (isSorted_sublist _ _ (entriesNotAt_sublist indices 0 _) hsorted)
  refine ⟨⟨s.observableType_, s.linkEnds_, entriesNotAt indices 0 s.observations_,
    entriesNotAt indices 0 s.observationTimes_, s.referenceLinkEnd_,
    entriesNotAt indices 0 s.observationsDependentVariables_, s.dependentVariableCalculator_,
    s.ancilliarySettings_, (entriesNotAt indices 0 s.observations_).length, []⟩,
    ?_, ?_, rfl, rfl, rfl, rfl, rfl, rfl, rfl, rfl⟩
  · unfold SingleObservationSet.createFilteredObservationSet
    rw [hloop]
    exact hconstruct
  · exact hcount

/-- Witness of C8: removing the samples `2` and `0` of a set of three samples. -/
theorem SingleObservationSet.createFilteredObservationSet_spec_witness :
    ∃ s', (⟨1, ⟨7⟩, [[10], [20], [30]], [1, 2, 3], 0, [[5], [6], [7]], none, none, 3, []⟩ :
        SingleObservationSet Int Int Nat).createFilteredObservationSet [2, 0] = .ok s' ∧
      s'.getNumberOfObservables + ([2, 0] : List Int).length = 3 ∧
      s'.observations_ = entriesNotAt [2, 0] 0 [[10], [20], [30]] ∧
      s'.observationTimes_ = entriesNotAt [2, 0] 0 [1, 2, 3] ∧
      s'.observationsDependentVariables_ = entriesNotAt [2, 0] 0 [[5], [6], [7]] ∧
      s'.observableType_ = 1 ∧ s'.linkEnds_ = ⟨7⟩ ∧ s'.referenceLinkEnd_ = 0 ∧
      s'.dependentVariableCalculator_ = none ∧ s'.ancilliarySettings_ = none :=
  SingleObservationSet.createFilteredObservationSet_spec
    (⟨1, ⟨7⟩, [[10], [20], [30]], [1, 2, 3], 0, [[5], [6], [7]], none, none, 3, []⟩ :
      SingleObservationSet Int Int Nat)
    ⟨rfl, rfl, rfl, rfl, by decide⟩ [2, 0] (by decide) (by decide) (Or.inr rfl)

/-- C9 (counterexample): on a set of three samples the index list `1, 1` removes the
samples `1` and `2`, while the list `1` without the repetition removes sample `1`
only. -/
theorem SingleObservationSet.createFilteredObservationSet_duplicate_counterexample :
    ∃ s₁ s₂ : SingleObservationSet Int Int Nat,
      (⟨1, ⟨7⟩, [[10], [20], [30]], [1, 2, 3], 0, [], none, none, 3, []⟩ :
        SingleObservationSet Int Int Nat).createFilteredObservationSet [1, 1] = .ok s₁ ∧
      (⟨1, ⟨7⟩, [[10], [20], [30]], [1, 2, 3], 0, [], none, none, 3, []⟩ :
        SingleObservationSet Int Int Nat).createFilteredObservationSet [1] = .ok s₂ ∧
      s₁.observations_ = [[10]] ∧ s₂.observations_ = [[10], [30]] ∧
      s₁.observations_ ≠ s₂.observations_ :=
  ⟨⟨1, ⟨7⟩, [[10]], [1], 0, [], none, none, 1, []⟩,
    ⟨1, ⟨7⟩, [[10], [30]], [1, 3], 0, [], none, none, 2, []⟩, rfl, rfl, rfl, rfl, by decide⟩

/-- C9 (amended): `createFilteredObservationSet` removes one sample for each entry of the
index list, repeated entries included: a result for a list of `m` entries has `m`
samples less than the original set, so for a list in which some index occurs more than
once it has fewer samples than the result for the list without the repetitions. -/
theorem SingleObservationSet.createFilteredObservationSet_one_per_entry
    (s : SingleObservationSet T S L) (indices : List Int) (s' : SingleObservationSet T S L)
    (h : s.createFilteredObservationSet indices = .ok s') :
    s'.observations_.length + indices.length = s.observations_.length ∧
    s'.observationTimes_.length + indices.length = s.observationTimes_.length ∧
    (¬ indices.Nodup → ∀ s'', s.createFilteredObservationSet indices.dedup = .ok s'' →
      s'.observations_.length < s''.observations_.length) := by
  have key : ∀ (l : List Int) (r : SingleObservationSet T S L),
      s.createFilteredObservationSet l = .ok r →
      r.observations_.length + l.length = s.observations_.length ∧
      r.observationTimes_.length + l.length = s.observationTimes_.length := by
    intro l r hr
    unfold SingleObservationSet.createFilteredObservationSet at hr
    split at hr
    · simp at hr
    · rename_i ts os deps hloop
      have hlen := eraseFilteredEntries_length _ _ _ _ _ _ _ hloop
      rw [sortDescending_length] at hlen
      have hsizes := SingleObservationSet.construct_ok_inv hr
      obtain ⟨-, hl, -, -, -, -, -, -, -, -, hcase⟩ := hsizes
      rcases hcase with ⟨-, ho, ht, -⟩ | ⟨-, ht, ho, -⟩
      · rw [ho, ht]; exact ⟨hlen.2, hlen.1⟩
      · rw [ho, ht]
        simp only [List.length_map, fillObservationsMap_length _ _ _ hl, List.length_nil,
          zero_add]
        exact ⟨hlen.2, by rw [hl]; exact hlen.1⟩
  refine ⟨(key indices s' h).1, (key indices s' h).2, ?_⟩
  intro hdup s'' h''
  have h1 := (key indices s' h).1
  have h2 := (key indices.dedup s'' h'').1
  have hlt : indices.dedup.length < indices.length := by
    rcases Nat.lt_or_ge indices.dedup.length indices.length with hlt | hge
    · exact hlt
    · exact absurd (List.dedup_eq_self.mp
        ((List.dedup_sublist indices).eq_of_length_le hge)) hdup
  omega

/-- Witness of C9 (amended): the index list `1, 1` on a set of three samples. -/
theorem SingleObservationSet.createFilteredObservationSet_one_per_entry_witness :
    ([[10]] : List (List Int)).length + ([1, 1] : List Int).length =
      ([[10], [20], [30]] : List (List Int)).length ∧
    ([1] : List Int).length + ([1, 1] : List Int).length = ([1, 2, 3] : List Int).length ∧
    (¬ ([1, 1] : List Int).Nodup → ∀ s'',
      (⟨1, ⟨7⟩, [[10], [20], [30]], [1, 2, 3], 0, [], none, none, 3, []⟩ :
        SingleObservationSet Int Int Nat).createFilteredObservationSet
          ([1, 1] : List Int).dedup = .ok s'' →
      ([[10]] : List (List Int)).length < s''.observations_.length) :=
  SingleObservationSet.createFilteredObservationSet_one_per_entry
    (⟨1, ⟨7⟩, [[10], [20], [30]], [1, 2, 3], 0, [], none, none, 3, []⟩ :
      SingleObservationSet Int Int Nat) [1, 1]
    ⟨1, ⟨7⟩, [[10]], [1], 0, [], none, none, 1, []⟩ rfl

end FilterClaims

section StdMapLemmas

variable {K V : Type} [LinearOrder K]

theorem StdMap.find?_eq_none_of_lt (m : StdMap K V) (k : K)
    (h : ∀ x ∈ m.map Prod.fst, k < x) : StdMap.find? m k = none := by
  induction m with
  | nil => rfl
  | cons p rest ih =>
    obtain ⟨k', v⟩ := p
    simp only [List.map_cons, List.mem_cons, forall_eq_or_imp] at h
    simp only [StdMap.find?, ne_of_gt h.1, if_false]
    exact ih h.2

theorem StdMap.keys_modify (dflt : V) (f : V → V) (k : K) (m : StdMap K V) (x : K) :
    x ∈ (StdMap.modify dflt f k m).map Prod.fst ↔ x = k ∨ x ∈ m.map Prod.fst := by
  induction m with
  | nil => simp [StdMap.modify]
  | cons p rest ih =>
    obtain ⟨k', v⟩ := p
    unfold StdMap.modify
    split
    · simp
    · split
      · simp only [List.map_cons, List.mem_cons, ih]
        tauto
      · rename_i h1 h2
        have hk : k' = k := le_antisymm (not_lt.mp h1) (not_lt.mp h2)
        subst hk
        simp

theorem StdMap.modify_WF (dflt : V) (f : V → V) (k : K) (m : StdMap K V) (h : StdMap.WF m) :
    StdMap.WF (StdMap.modify dflt f k m) := by
  unfold StdMap.WF at h ⊢
  induction m with
  | nil => simp [StdMap.modify]
  | cons p rest ih =>
    obtain ⟨k', v⟩ := p
    simp only [List.map_cons, List.sorted_cons] at h
    unfold StdMap.modify
    split
    · rename_i hlt
      simp only [List.map_cons, List.sorted_cons, List.mem_cons, forall_eq_or_imp]
      exact ⟨⟨hlt, fun b hb => lt_trans hlt (h.1 b hb)⟩, h.1, h.2⟩
    · split
      · rename_i h1 h2
        simp only [List.map_cons, List.sorted_cons]
        refine ⟨?_, ih h.2⟩
        intro b hb
        rcases (StdMap.keys_modify dflt f k rest b).mp hb with rfl | hb
        · exact h2
        · exact h.1 b hb
      · simp only [List.map_cons, List.sorted_cons]
        exact h

theorem StdMap.find?_modify_self (dflt : V) (f : V → V) (k : K) (m : StdMap K V)
    (h : StdMap.WF m) :
    StdMap.find? (StdMap.modify dflt f k m) k = some (f ((StdMap.find? m k).getD dflt)) := by
  unfold StdMap.WF at h
  induction m with
  | nil => simp [StdMap.modify, StdMap.find?]
  | cons p rest ih =>
    obtain ⟨k', v⟩ := p
    simp only [List.map_cons, List.sorted_cons] at h
    unfold StdMap.modify
    split
    · rename_i hlt
      have hnone : StdMap.find? ((k', v) :: rest) k = none := by
        apply StdMap.find?_eq_none_of_lt
        intro x hx
        simp only [List.map_cons, List.mem_cons] at hx
        rcases hx with rfl | hx
        · exact hlt
        · exact lt_trans hlt (h.1 x hx)
      rw [hnone]
      simp [StdMap.find?]
    · split
      · rename_i h1 h2
        simp only [StdMap.find?, ne_of_lt h2, if_false]
        exact ih h.2
      · rename_i h1 h2
        have hk : k' = k := le_antisymm (not_lt.mp h1) (not_lt.mp h2)
        subst hk
        simp [StdMap.find?]

theorem StdMap.find?_modify_ne (dflt : V) (f : V → V) (k k' : K) (m : StdMap K V)
    (hne : k' ≠ k) :
    StdMap.find? (StdMap.modify dflt f k m) k' = StdMap.find? m k' := by
  induction m with
  | nil => simp [StdMap.modify, StdMap.find?, Ne.symm hne]
  | cons p rest ih =>
    obtain ⟨k₀, v⟩ := p
    unfold StdMap.modify
    split
    · simp [StdMap.find?, Ne.symm hne]
    · split
      · simp only [StdMap.find?, ih]
      · rename_i h1 h2
        have hk : k₀ = k := le_antisymm (not_lt.mp h1) (not_lt.mp h2)
        subst hk
        simp [StdMap.find?, Ne.symm hne]

theorem StdMap.mem_modify (dflt : V) (f : V → V) (k : K) (m : StdMap K V) (p : K × V)
    (hp : p ∈ StdMap.modify dflt f k m) :
    p ∈ m ∨ (p.1 = k ∧ (p.2 = f dflt ∨ ∃ v, (k, v) ∈ m ∧ p.2 = f v)) := by
  induction m with
  | nil =>
    simp only [StdMap.modify, List.mem_singleton] at hp
    subst hp
    exact Or.inr ⟨rfl, Or.inl rfl⟩
  | cons q rest ih =>
    obtain ⟨k₀, v⟩ := q
    unfold StdMap.modify at hp
    split at hp
    · rcases List.mem_cons.mp hp with rfl | hp
      · exact Or.inr ⟨rfl, Or.inl rfl⟩
      · exact Or.inl hp
    · split at hp
      · rcases List.mem_cons.mp hp with rfl | hp
        · exact Or.inl (List.mem_cons_self _ _)
        · rcases ih hp with h | ⟨h1, h2⟩
          · exact Or.inl (List.mem_cons_of_mem _ h)
          · refine Or.inr ⟨h1, ?_⟩
            rcases h2 with h2 | ⟨w, hw, h2⟩
            · exact Or.inl h2
            · exact Or.inr ⟨w, List.mem_cons_of_mem _ hw, h2⟩
      · rename_i h1 h2
        have hk : k₀ = k := le_antisymm (not_lt.mp h1) (not_lt.mp h2)
        subst hk
        rcases List.mem_cons.mp hp with rfl | hp
        · exact Or.inr ⟨rfl, Or.inr ⟨v, List.mem_cons_self _ _, rfl⟩⟩
        · exact Or.inl (List.mem_cons_of_mem _ hp)

theorem StdMap.find?_of_mem (m : StdMap K V) (h : StdMap.WF m) (p : K × V) (hp : p ∈ m) :
    StdMap.find? m p.1 = some p.2 := by
  unfold StdMap.WF at h
  induction m with
  | nil => simp at hp
  | cons q rest ih =>
    obtain ⟨k₀, v⟩ := q
    simp only [List.map_cons, List.sorted_cons] at h
    rcases List.mem_cons.mp hp with rfl | hp
    · simp [StdMap.find?]
    · have hlt : k₀ < p.1 := h.1 p.1 (List.mem_map_of_mem _ hp)
      simp only [StdMap.find?, ne_of_lt hlt, if_false]
      exact ih h.2 hp

theorem StdMap.mem_of_find? (m : StdMap K V) (k : K) (v : V)
    (h : StdMap.find? m k = some v) : (k, v) ∈ m := by
  induction m with
  | nil => simp [StdMap.find?] at h
  | cons q rest ih =>
    obtain ⟨k₀, v₀⟩ := q
    simp only [StdMap.find?] at h
    split at h
    · rename_i hk
      simp only [Option.some.injEq] at h
      subst hk h
      exact List.mem_cons_self _ _
    · exact List.mem_cons_of_mem _ (ih h)

end StdMapLemmas

section NestedMapLemmas

variable {K₁ K₂ V : Type} [LinearOrder K₁] [LinearOrder K₂]

theorem StdMap.NestedWF_nil : StdMap.NestedWF ([] : StdMap K₁ (StdMap K₂ V)) :=
  ⟨by simp [StdMap.WF], fun p hp => absurd hp (List.not_mem_nil _)⟩

theorem StdMap.find?_getD_WF (m : StdMap K₁ (StdMap K₂ V)) (h : StdMap.NestedWF m) (k : K₁) :
    StdMap.WF ((StdMap.find? m k).getD []) := by
  cases hf : StdMap.find? m k with
  | none => simp [StdMap.WF]
  | some inner => exact h.2 _ (StdMap.mem_of_find? m k inner hf)

theorem StdMap.pushBack_NestedWF (k₁ : K₁) (k₂ : K₂) (x : V)
    (m : StdMap K₁ (StdMap K₂ (List V))) (h : StdMap.NestedWF m) :
    StdMap.NestedWF (StdMap.pushBack k₁ k₂ x m) := by
  refine ⟨StdMap.modify_WF _ _ _ _ h.1, ?_⟩
  intro p hp
  rcases StdMap.mem_modify _ _ _ _ p hp with hmem | ⟨-, hnew | ⟨v, hv, hnew⟩⟩
  · exact h.2 p hmem
  · rw [hnew]
    exact StdMap.modify_WF _ _ _ _ (by simp [StdMap.WF])
  · rw [hnew]
    exact StdMap.modify_WF _ _ _ _ (h.2 _ hv)

theorem StdMap.entriesAt_pushBack (k₁ : K₁) (k₂ : K₂) (x : V)
    (m : StdMap K₁ (StdMap K₂ (List V))) (h : StdMap.NestedWF m) (a : K₁) (b : K₂) :
    StdMap.entriesAt (StdMap.pushBack k₁ k₂ x m) a b =
      if a = k₁ ∧ b = k₂ then StdMap.entriesAt m k₁ k₂ ++ [x] else StdMap.entriesAt m a b := by
  unfold StdMap.entriesAt StdMap.pushBack
  by_cases ha : a = k₁
  · subst ha
    rw [StdMap.find?_modify_self _ _ _ _ h.1]
    simp only [Option.getD_some, true_and]
    by_cases hb : b = k₂
    · subst hb
      rw [StdMap.find?_modify_self _ _ _ _ (StdMap.find?_getD_WF m h a)]
      simp
    · rw [StdMap.find?_modify_ne _ _ _ _ _ hb]
      simp [hb]
  · rw [StdMap.find?_modify_ne _ _ _ _ _ ha]
    simp [ha]

end NestedMapLemmas

section SortedListLemmas

variable {T S L : Type} [LinearOrder L]

theorem createSortedObservationSetList_fold_NestedWF (l : List (SingleObservationSet T S L))
    (acc : SortedObservationSets T S L) (h : StdMap.NestedWF acc) :
    StdMap.NestedWF (l.foldl (fun sortedObservations set =>
      StdMap.pushBack set.observableType_ set.linkEnds_.linkEnds_ set sortedObservations)
      acc) := by
  induction l generalizing acc with
  | nil => exact h
  | cons x rest ih => exact ih _ (StdMap.pushBack_NestedWF _ _ _ _ h)

theorem createSortedObservationSetList_fold_entriesAt (l : List (SingleObservationSet T S L))
    (acc : SortedObservationSets T S L) (h : StdMap.NestedWF acc) (ty : ObservableType)
    (le : L) :
    StdMap.entriesAt (l.foldl (fun sortedObservations set =>
      StdMap.pushBack set.observableType_ set.linkEnds_.linkEnds_ set sortedObservations)
      acc) ty le =
    StdMap.entriesAt acc ty le ++
      l.filter (fun set => decide (set.observableType_ = ty ∧ set.linkEnds_.linkEnds_ = le)) := by
  induction l generalizing acc with
  | nil => simp
  | cons x rest ih =>
    simp only [List.foldl_cons]
    rw [ih _ (StdMap.pushBack_NestedWF _ _ _ _ h), StdMap.entriesAt_pushBack _ _ _ _ h,
      List.filter_cons]
    by_cases hk : x.observableType_ = ty ∧ x.linkEnds_.linkEnds_ = le
    · obtain ⟨h1, h2⟩ := hk
      subst h1 h2
      simp
    · have hk' : ¬ (ty = x.observableType_ ∧ le = x.linkEnds_.linkEnds_) := by
        rintro ⟨h1, h2⟩
        exact hk ⟨h1.symm, h2.symm⟩
      simp [hk, hk']

theorem createSortedObservationSetList_fold_keys (l : List (SingleObservationSet T S L))
    (acc : SortedObservationSets T S L)
    (h : ∀ p ∈ acc, ∀ q ∈ p.2, q.2 ≠ [] ∧
      ∀ set ∈ q.2, set.observableType_ = p.1 ∧ set.linkEnds_.linkEnds_ = q.1) :
    ∀ p ∈ l.foldl (fun sortedObservations set =>
        StdMap.pushBack set.observableType_ set.linkEnds_.linkEnds_ set sortedObservations)
        acc,
      ∀ q ∈ p.2, q.2 ≠ [] ∧
        ∀ set ∈ q.2, set.observableType_ = p.1 ∧ set.linkEnds_.linkEnds_ = q.1 := by
  induction l generalizing acc with
  | nil => exact h
  | cons x rest ih =>
    simp only [List.foldl_cons]
    apply ih
    intro p hp q hq
    have inner : ∀ (old : StdMap L (List (SingleObservationSet T S L))),
        (∀ r ∈ old, r.2 ≠ [] ∧ ∀ set ∈ r.2,
          set.observableType_ = x.observableType_ ∧ set.linkEnds_.linkEnds_ = r.1) →
        ∀ r ∈ StdMap.modify [] (fun v => v ++ [x]) x.linkEnds_.linkEnds_ old,
          r.2 ≠ [] ∧ ∀ set ∈ r.2,
            set.observableType_ = x.observableType_ ∧ set.linkEnds_.linkEnds_ = r.1 := by
      intro old hold r hr
      rcases StdMap.mem_modify _ _ _ _ r hr with hmem | ⟨hk, hnew | ⟨v, hv, hnew⟩⟩
      · exact hold r hmem
      · rw [hnew, hk]
        simp
      · rw [hnew, hk]
        refine ⟨by simp, ?_⟩
        intro set hset
        rcases List.mem_append.mp hset with hset | hset
        · exact (hold _ hv).2 set hset
        · simp only [List.mem_singleton] at hset
          subst hset
          exact ⟨rfl, rfl⟩
    rcases StdMap.mem_modify _ _ _ _ p hp with hmem | ⟨hk, hnew | ⟨v, hv, hnew⟩⟩
    · exact h p hmem q hq
    · rw [hnew] at hq
      rw [hk]
      exact inner [] (fun r hr => absurd hr (List.not_mem_nil _)) q hq
    · rw [hnew] at hq
      rw [hk]
      exact inner v (fun r hr => h _ hv r hr) q hq

theorem StdMap.entriesAt_of_mem {K₁ K₂ V : Type} [LinearOrder K₁] [LinearOrder K₂]
    (m : StdMap K₁ (StdMap K₂ (List V))) (h : StdMap.NestedWF m)
    (p : K₁ × StdMap K₂ (List V)) (hp : p ∈ m) (q : K₂ × List V) (hq : q ∈ p.2) :
    StdMap.entriesAt m p.1 q.1 = q.2 := by
  unfold StdMap.entriesAt
  rw [StdMap.find?_of_mem m h.1 p hp]
  simp only [Option.getD_some]
  rw [StdMap.find?_of_mem p.2 (h.2 p hp) q hq]
  rfl

theorem startAndSizeFrom_append (start : Nat) (a b : List Nat) :
    startAndSizeFrom start (a ++ b) =
      startAndSizeFrom start a ++ startAndSizeFrom (start + a.sum) b := by
  induction a generalizing start with
  | nil => simp [startAndSizeFrom]
  | cons x rest ih =>
    have h := ih (start + x)
    rw [Nat.add_assoc] at h
    rw [List.cons_append, startAndSizeFrom, h, List.sum_cons]
    rfl

theorem startAndSizeFrom_length (start : Nat) (a : List Nat) :
    (startAndSizeFrom start a).length = a.length := by
  induction a generalizing start with
  | nil => rfl
  | cons x rest ih => simp [startAndSizeFrom, ih]

theorem startAndSizeFrom_map_snd (start : Nat) (a : List Nat) :
    (startAndSizeFrom start a).map Prod.snd = a := by
  induction a generalizing start with
  | nil => rfl
  | cons x rest ih => simp [startAndSizeFrom, ih]

theorem startAndSizeFrom_get? (start : Nat) (a : List Nat) (k : Nat) :
    (startAndSizeFrom start a).get? k =
      (a.get? k).map (fun length => (start + (a.take k).sum, length)) := by
  induction a generalizing start k with
  | nil => simp [startAndSizeFrom]
  | cons x rest ih =>
    cases k with
    | zero => simp [startAndSizeFrom]
    | succ k =>
      simp only [startAndSizeFrom, List.get?_cons_succ, ih, List.take_succ_cons, List.sum_cons,
        Nat.add_assoc]

end SortedListLemmas

section FrameLemmas

variable {T S L : Type}

theorem setConcatenatedComponents_indexMembers (times : List T) (j stationId : Nat)
    (linkEnds : L) (count : Nat) (state state' : ObservationCollection T S L × Nat)
    (h : setConcatenatedComponents times j stationId linkEnds count state = .ok state') :
    state'.1.indexMembers = state.1.indexMembers := by
  induction count generalizing state with
  | zero =>
    simp only [setConcatenatedComponents, Except.ok.injEq] at h
    rw [h]
  | succ count ih =>
    obtain ⟨c, counter⟩ := state
    simp only [setConcatenatedComponents] at h
    split at h
    · simp at h
    · split at h
      · simp at h
      · split at h
        · simp at h
        · split at h
          · simp at h
          · rw [ih _ h]
            rfl

theorem setConcatenatedSamples_indexMembers (observableSize : Nat) (times : List T)
    (stationId : Nat) (linkEnds : L) (observations : List (List S)) (j : Nat)
    (state state' : List S × ObservationCollection T S L × Nat)
    (h : setConcatenatedSamples observableSize times stationId linkEnds observations j state =
      .ok state') :
    state'.2.1.indexMembers = state.2.1.indexMembers := by
  induction observations generalizing j state with
  | nil =>
    simp only [setConcatenatedSamples, Except.ok.injEq] at h
    rw [h]
  | cons o rest ih =>
    obtain ⟨current, st⟩ := state
    simp only [setConcatenatedSamples] at h
    split at h
    · simp at h
    · split at h
      · simp at h
      · rename_i st' hst
        rw [ih _ _ h]
        exact setConcatenatedComponents_indexMembers _ _ _ _ _ _ _ hst

theorem setConcatenatedSets_indexMembers [LinearOrder L] [Zero S] (observableSize : Nat)
    (ty : ObservableType) (linkEnds : L) (first : LinkDefinition L) (stationId : Nat)
    (sets : List (SingleObservationSet T S L)) (i : Nat)
    (state state' : ObservationCollection T S L × Nat)
    (h : setConcatenatedSets observableSize ty linkEnds first stationId sets i state =
      .ok state') :
    state'.1.indexMembers = state.1.indexMembers := by
  induction sets generalizing i state with
  | nil =>
    simp only [setConcatenatedSets, Except.ok.injEq] at h
    rw [h]
  | cons set rest ih =>
    obtain ⟨c, counter⟩ := state
    simp only [setConcatenatedSets] at h
    split at h
    · simp at h
    · split at h
      · simp at h
      · split at h
        · simp at h
        · rename_i after hafter
          split at h
          · simp at h
          · rw [ih _ _ h]
            exact setConcatenatedSamples_indexMembers _ _ _ _ _ _ _ _ hafter

theorem setConcatenatedLinkEnds_indexMembers [LinearOrder L] [Inhabited L] [Zero S]
    (observableSize : Nat) (ty : ObservableType)
    (linkEndList : List (L × List (SingleObservationSet T S L)))
    (state state' : ObservationCollection T S L × Nat × Nat)
    (h : setConcatenatedLinkEnds observableSize ty linkEndList state = .ok state') :
    state'.1.indexMembers = state.1.indexMembers := by
  induction linkEndList generalizing state with
  | nil =>
    simp only [setConcatenatedLinkEnds, Except.ok.injEq] at h
    rw [h]
  | cons entry rest ih =>
    obtain ⟨linkEnds, sets⟩ := entry
    obtain ⟨c, counter, maximumStationId⟩ := state
    simp only [setConcatenatedLinkEnds] at h
    split at h
    · simp at h
    · rename_i after hafter
      rw [ih _ h]
      simp only []
      rw [setConcatenatedSets_indexMembers _ _ _ _ _ _ _ _ _ hafter]
      simp only [registerLinkEnds]
      split <;> split <;> rfl

theorem setConcatenatedTypes_indexMembers [LinearOrder L] [Inhabited L] [Zero S]
    (getObservableSize : ObservableType → Nat)
    (m : List (ObservableType × StdMap L (List (SingleObservationSet T S L))))
    (state state' : ObservationCollection T S L × Nat × Nat)
    (h : setConcatenatedTypes getObservableSize m state = .ok state') :
    state'.1.indexMembers = state.1.indexMembers := by
  induction m generalizing state with
  | nil =>
    simp only [setConcatenatedTypes, Except.ok.injEq] at h
    rw [h]
  | cons entry rest ih =>
    obtain ⟨ty, linkEndList⟩ := entry
    simp only [setConcatenatedTypes] at h
    split at h
    · simp at h
    · rename_i st hst
      rw [ih _ h]
      exact setConcatenatedLinkEnds_indexMembers _ _ _ _ _ hst

theorem setStartAndSizePerLinkEndIndexLinkEnds_indexMembers [LinearOrder L]
    (ty : ObservableType) (entries : List (L × List (Nat × Nat)))
    (c : ObservationCollection T S L) :
    (setStartAndSizePerLinkEndIndexLinkEnds ty entries c).indexMembers = c.indexMembers := by
  induction entries generalizing c with
  | nil => rfl
  | cons entry rest ih =>
    obtain ⟨linkEnds, v⟩ := entry
    simp only [setStartAndSizePerLinkEndIndexLinkEnds]
    rw [ih]
    rfl

theorem setStartAndSizePerLinkEndIndex_indexMembers [LinearOrder L]
    (table : List (ObservableType × StdMap L (List (Nat × Nat))))
    (c : ObservationCollection T S L) :
    (setStartAndSizePerLinkEndIndex table c).indexMembers = c.indexMembers := by
  induction table generalizing c with
  | nil => rfl
  | cons entry rest ih =>
    obtain ⟨ty, perLinkEnds⟩ := entry
    simp only [setStartAndSizePerLinkEndIndex]
    rw [ih]
    exact setStartAndSizePerLinkEndIndexLinkEnds_indexMembers _ _ _

/-- The second pass of the constructor leaves the index tables of the first pass as
they are. -/
theorem ObservationCollection.construct_indexMembers [LinearOrder L] [Inhabited L]
    [Inhabited T] [Zero S] (getObservableSize : ObservableType → Nat)
    (m : SortedObservationSets T S L) (c : ObservationCollection T S L)
    (h : ObservationCollection.construct getObservableSize m = .ok c) :
    c.indexMembers =
      (ObservationCollection.setObservationSetIndices getObservableSize
        (ObservationCollection.initial m)).indexMembers := by
  unfold ObservationCollection.construct
    ObservationCollection.setConcatenatedObservationsAndTimes at h
  split at h
  · simp at h
  · rename_i after hafter
    simp only [Except.ok.injEq] at h
    rw [← h, setStartAndSizePerLinkEndIndex_indexMembers,
      setConcatenatedTypes_indexMembers _ _ _ _ hafter]
    rfl

end FrameLemmas

section IndexPassLemmas

variable {T S L : Type} [LinearOrder L]

theorem keyedStartAndSizeFrom_append {κ : Type} (start : Nat) (a b : List (κ × Nat)) :
    keyedStartAndSizeFrom start (a ++ b) =
      keyedStartAndSizeFrom start a ++
        keyedStartAndSizeFrom (start + (a.map Prod.snd).sum) b := by
  induction a generalizing start with
  | nil => simp [keyedStartAndSizeFrom]
  | cons x rest ih =>
    obtain ⟨key, length⟩ := x
    have h := ih (start + length)
    rw [Nat.add_assoc] at h
    rw [List.cons_append, keyedStartAndSizeFrom, h, List.map_cons, List.sum_cons]
    rfl

theorem keyedStartAndSizeFrom_map_snd {κ : Type} (start : Nat) (a : List (κ × Nat)) :
    (keyedStartAndSizeFrom start a).map Prod.snd = startAndSizeFrom start (a.map Prod.snd) := by
  induction a generalizing start with
  | nil => rfl
  | cons x rest ih =>
    obtain ⟨key, length⟩ := x
    simp [keyedStartAndSizeFrom, startAndSizeFrom, ih]

theorem IndexPassResult_of_eq (c c' : ObservationCollection T S L) (start : Nat)
    (h1 : c'.observationSetList_ = c.observationSetList_)
    (h2 : c'.bufferMembers = c.bufferMembers)
    (h3 : c'.concatenatedObservationSetStartAndSize_ = c.concatenatedObservationSetStartAndSize_)
    (h4 : c'.totalObservableSize_ = c.totalObservableSize_)
    (h5 : c'.observationSetStartAndSize_ = c.observationSetStartAndSize_) :
    IndexPassResult c c' start start [] := by
  refine ⟨h1, h2, by simp [keyedStartAndSizeFrom, h3], by simp, by simp [h4], ?_⟩
  intro hwf
  rw [h5]
  exact ⟨hwf, fun a b => by simp [keyedStartAndSizeFrom]⟩

theorem IndexPassResult_trans (c c' c'' : ObservationCollection T S L)
    (start start' start'' : Nat) (k₁ k₂ : List ((ObservableType × L) × Nat))
    (h₁ : IndexPassResult c c' start start' k₁) (h₂ : IndexPassResult c' c'' start' start'' k₂) :
    IndexPassResult c c'' start start'' (k₁ ++ k₂) := by
  obtain ⟨a1, a2, a3, a4, a5, a6⟩ := h₁
  obtain ⟨b1, b2, b3, b4, b5, b6⟩ := h₂
  subst a4
  refine ⟨b1.trans a1, b2.trans a2, ?_, ?_, ?_, ?_⟩
  · rw [b3, a3, keyedStartAndSizeFrom_append]
    simp
  · rw [b4]
    simp [Nat.add_assoc]
  · rw [b5, a5]
    simp [Nat.add_assoc]
  · intro hwf
    obtain ⟨hwf', hent'⟩ := a6 hwf
    obtain ⟨hwf'', hent''⟩ := b6 hwf'
    refine ⟨hwf'', fun a b => ?_⟩
    rw [hent'', hent', keyedStartAndSizeFrom_append]
    simp

theorem IndexPassResult_single (c : ObservationCollection T S L) (start : Nat)
    (ty : ObservableType) (le : L) (n length : Nat) :
    IndexPassResult c
      { c with
        observationSetStartAndSize_ :=
          StdMap.pushBack ty le (start, length) c.observationSetStartAndSize_
        concatenatedObservationSetStartAndSize_ :=
          c.concatenatedObservationSetStartAndSize_ ++ [(start, length)]
        totalObservableSize_ := c.totalObservableSize_ + length
        totalNumberOfObservables_ := c.totalNumberOfObservables_ + n }
      start (start + length) [((ty, le), length)] := by
  refine ⟨rfl, rfl, by simp [keyedStartAndSizeFrom], by simp, by simp, ?_⟩
  intro hwf
  refine ⟨StdMap.pushBack_NestedWF _ _ _ _ hwf, fun a b => ?_⟩
  simp only [StdMap.entriesAt_pushBack _ _ _ _ hwf, keyedStartAndSizeFrom, List.filter_cons,
    List.filter_nil, Prod.mk.injEq]
  by_cases hk : a = ty ∧ b = le
  · obtain ⟨rfl, rfl⟩ := hk
    simp
  · have hk' : ¬ (ty = a ∧ le = b) := fun h => hk ⟨h.1.symm, h.2.symm⟩
    simp [hk, hk']

theorem setObservationSetIndicesSets_result (observableSize : Nat) (ty : ObservableType)
    (le : L) (sets : List (SingleObservationSet T S L)) (c : ObservationCollection T S L)
    (start typeSize linkEndSize : Nat) :
    IndexPassResult c
      (setObservationSetIndicesSets observableSize ty le sets
        (c, start, typeSize, linkEndSize)).1 start
      (setObservationSetIndicesSets observableSize ty le sets
        (c, start, typeSize, linkEndSize)).2.1
      (sets.map (fun set => ((ty, le), set.getNumberOfObservables * observableSize))) := by
  induction sets generalizing c start typeSize linkEndSize with
  | nil => exact IndexPassResult_of_eq _ _ _ rfl rfl rfl rfl rfl
  | cons set rest ih =>
    simp only [setObservationSetIndicesSets, List.map_cons]
    exact IndexPassResult_trans _ _ _ _ _ _ [_] _
      (IndexPassResult_single c start ty le set.getNumberOfObservables _) (ih _ _ _ _)

theorem setObservationSetIndicesLinkEnds_result (observableSize : Nat) (ty : ObservableType)
    (linkEndList : List (L × List (SingleObservationSet T S L)))
    (c : ObservationCollection T S L) (start typeSize : Nat) :
    IndexPassResult c
      (setObservationSetIndicesLinkEnds observableSize ty linkEndList (c, start, typeSize)).1
      start
      (setObservationSetIndicesLinkEnds observableSize ty linkEndList
        (c, start, typeSize)).2.1
      (linkEndList.flatMap (fun linkEndEntry =>
        linkEndEntry.2.map
          (fun set => ((ty, linkEndEntry.1), set.getNumberOfObservables * observableSize)))) := by
  induction linkEndList generalizing c start typeSize with
  | nil => exact IndexPassResult_of_eq _ _ _ rfl rfl rfl rfl rfl
  | cons entry rest ih =>
    obtain ⟨le, sets⟩ := entry
    simp only [setObservationSetIndicesLinkEnds, List.flatMap_cons]
    refine IndexPassResult_trans _ _ _ _ _ _ _ _ ?_ (ih _ _ _)
    have h := IndexPassResult_trans _ _ _ _ _ _ _ []
      (setObservationSetIndicesSets_result observableSize ty le sets c start typeSize 0)
      (IndexPassResult_of_eq _ _ _ rfl rfl rfl rfl rfl)
    simpa using h

theorem setObservationSetIndicesTypes_result (getObservableSize : ObservableType → Nat)
    (m : SortedObservationSets T S L) (c : ObservationCollection T S L) (start : Nat) :
    IndexPassResult c (setObservationSetIndicesTypes getObservableSize m (c, start)).1 start
      (setObservationSetIndicesTypes getObservableSize m (c, start)).2
      (SortedObservationSets.keyedLengths getObservableSize m) := by
  induction m generalizing c start with
  | nil => exact IndexPassResult_of_eq _ _ _ rfl rfl rfl rfl rfl
  | cons entry rest ih =>
    obtain ⟨ty, linkEndList⟩ := entry
    simp only [setObservationSetIndicesTypes, SortedObservationSets.keyedLengths,
      List.flatMap_cons]
    refine IndexPassResult_trans _ _ _ _ _ _ _ _ ?_ (ih _ _)
    have h := IndexPassResult_trans _ _ _ _ _ _ _ []
      (setObservationSetIndicesLinkEnds_result (getObservableSize ty) ty linkEndList c start 0)
      (IndexPassResult_of_eq _ _ _ rfl rfl rfl rfl rfl)
    simpa using h

/-- Result of the first pass of the constructor on the initial object. -/
theorem ObservationCollection.setObservationSetIndices_result
    (getObservableSize : ObservableType → Nat) (m : SortedObservationSets T S L) :
    IndexPassResult (ObservationCollection.initial m)
      (ObservationCollection.setObservationSetIndices getObservableSize
        (ObservationCollection.initial m)) 0
      (setObservationSetIndicesTypes getObservableSize m
        (ObservationCollection.initial m, 0)).2
      (SortedObservationSets.keyedLengths getObservableSize m) :=
  setObservationSetIndicesTypes_result getObservableSize m (ObservationCollection.initial m) 0

end IndexPassLemmas

section TraversalLemmas

variable {T S L : Type}

theorem SortedObservationSets.keyedLengths_eq_map (getObservableSize : ObservableType → Nat)
    (m : SortedObservationSets T S L) :
    SortedObservationSets.keyedLengths getObservableSize m =
      (SortedObservationSets.traversal m).map (fun x =>
        ((x.1, x.2.1), x.2.2.getNumberOfObservables * getObservableSize x.1)) := by
  simp only [SortedObservationSets.keyedLengths, SortedObservationSets.traversal,
    List.map_flatMap, List.map_map]
  rfl

theorem SortedObservationSets.mem_traversal (m : SortedObservationSets T S L)
    (x : ObservableType × L × SingleObservationSet T S L)
    (hx : x ∈ SortedObservationSets.traversal m) :
    ∃ p ∈ m, ∃ q ∈ p.2, x.2.2 ∈ q.2 ∧ x.1 = p.1 ∧ x.2.1 = q.1 := by
  simp only [SortedObservationSets.traversal, List.mem_flatMap, List.mem_map] at hx
  obtain ⟨p, hp, q, hq, set, hset, rfl⟩ := hx
  exact ⟨p, hp, q, hq, hset, rfl, rfl⟩

theorem startAndSizeFrom_consecutive (start : Nat) (a : List Nat) (k : Nat) (p q : Nat × Nat)
    (hp : (startAndSizeFrom start a).get? k = some p)
    (hq : (startAndSizeFrom start a).get? (k + 1) = some q) : q.1 = p.1 + p.2 := by
  induction a generalizing start k with
  | nil => simp [startAndSizeFrom] at hp
  | cons x rest ih =>
    cases k with
    | zero =>
      cases rest with
      | nil => simp [startAndSizeFrom] at hq
      | cons y rest' =>
        simp only [startAndSizeFrom, List.get?_cons_zero, List.get?_cons_succ,
          Option.some.injEq] at hp hq
        subst hp hq
        rfl
    | succ k =>
      simp only [startAndSizeFrom, List.get?_cons_succ] at hp hq
      exact ih _ _ hp hq

/-- The collection holds the nested mapping it was constructed from. -/
theorem ObservationCollection.construct_observationSetList [LinearOrder L] [Inhabited L]
    [Inhabited T] [Zero S] (getObservableSize : ObservableType → Nat)
    (m : SortedObservationSets T S L) (c : ObservationCollection T S L)
    (h : ObservationCollection.construct getObservableSize m = .ok c) :
    c.observationSetList_ = m := by
  have h1 := congrArg Prod.fst
    (ObservationCollection.construct_indexMembers getObservableSize m c h)
  have h2 := (ObservationCollection.setObservationSetIndices_result getObservableSize m).1
  exact h1.trans h2

/-- The concatenated index table and the total size of a collection, in closed form. -/
theorem ObservationCollection.construct_concatenatedStartAndSize [LinearOrder L]
    [Inhabited L] [Inhabited T] [Zero S] (getObservableSize : ObservableType → Nat)
    (m : SortedObservationSets T S L) (c : ObservationCollection T S L)
    (h : ObservationCollection.construct getObservableSize m = .ok c) :
    c.concatenatedObservationSetStartAndSize_ =
      startAndSizeFrom 0 ((SortedObservationSets.traversal m).map
        (fun x => x.2.2.getNumberOfObservables * getObservableSize x.1)) ∧
    c.totalObservableSize_ = ((SortedObservationSets.traversal m).map
        (fun x => x.2.2.getNumberOfObservables * getObservableSize x.1)).sum := by
  have hframe := ObservationCollection.construct_indexMembers getObservableSize m c h
  have h1 : c.concatenatedObservationSetStartAndSize_ =
      (ObservationCollection.setObservationSetIndices getObservableSize
        (ObservationCollection.initial m)).concatenatedObservationSetStartAndSize_ :=
    congrArg (fun t => t.2.2.1) hframe
  have h2 : c.totalObservableSize_ =
      (ObservationCollection.setObservationSetIndices getObservableSize
        (ObservationCollection.initial m)).totalObservableSize_ :=
    congrArg (fun t => t.2.2.2.2.2.1) hframe
  obtain ⟨-, -, r3, -, r5, -⟩ :=
    ObservationCollection.setObservationSetIndices_result getObservableSize m
  have hmap : (SortedObservationSets.keyedLengths getObservableSize m).map Prod.snd =
      (SortedObservationSets.traversal m).map
        (fun x => x.2.2.getNumberOfObservables * getObservableSize x.1) := by
    rw [SortedObservationSets.keyedLengths_eq_map, List.map_map]
    rfl
  constructor
  · rw [h1, r3, keyedStartAndSizeFrom_map_snd, hmap]
    rfl
  · rw [h2, r5, hmap]
    simp [ObservationCollection.initial]

end TraversalLemmas

section CollectionClaims

variable {T S L : Type} [LinearOrder L] [Inhabited L] [Inhabited T] [Zero S]

/-- C1: in every collection constructed from a nested mapping, the (start, length)
pairs of `getConcatenatedObservationSetStartAndSize( )` are one per set in traversal
order; the first start is 0, every next start is the previous start plus the previous
length, the length of a set is its observation count times `getObservableSize` of the
observable type it is stored under, and the lengths sum to `getTotalObservableSize( )`;
in a nested mapping made from a flat list every set is stored under its own observable
type and link ends. -/
theorem ObservationCollection.index_consistency (getObservableSize : ObservableType → Nat)
    (m : SortedObservationSets T S L) (c : ObservationCollection T S L)
    (h : ObservationCollection.construct getObservableSize m = .ok c) :
    c.getConcatenatedObservationSetStartAndSize.length =
      (SortedObservationSets.traversal m).length ∧
    (∀ p, c.getConcatenatedObservationSetStartAndSize.get? 0 = some p → p.1 = 0) ∧
    (∀ k p q, c.getConcatenatedObservationSetStartAndSize.get? k = some p →
      c.getConcatenatedObservationSetStartAndSize.get? (k + 1) = some q → q.1 = p.1 + p.2) ∧
    (∀ k p x, c.getConcatenatedObservationSetStartAndSize.get? k = some p →
      (SortedObservationSets.traversal m).get? k = some x →
      p.2 = x.2.2.getNumberOfObservables * getObservableSize x.1) ∧
    (c.getConcatenatedObservationSetStartAndSize.map Prod.snd).sum =
      c.getTotalObservableSize ∧
    (∀ l : List (SingleObservationSet T S L), m = createSortedObservationSetList l →
      ∀ x ∈ SortedObservationSets.traversal m,
        x.2.2.observableType_ = x.1 ∧ x.2.2.linkEnds_.linkEnds_ = x.2.1) := by
  obtain ⟨htable, htotal⟩ :=
    ObservationCollection.construct_concatenatedStartAndSize getObservableSize m c h
  simp only [ObservationCollection.getConcatenatedObservationSetStartAndSize,
    ObservationCollection.getTotalObservableSize, htable, htotal]
  refine ⟨by simp [startAndSizeFrom_length], ?_, ?_, ?_, ?_, ?_⟩
  · intro p hp
    rw [startAndSizeFrom_get?] at hp
    cases hget : List.get? (List.map (fun x => x.2.2.getNumberOfObservables *
        getObservableSize x.1) (SortedObservationSets.traversal m)) 0 with
    | none => rw [hget] at hp; simp at hp
    | some v =>
      rw [hget] at hp
      simp only [Option.map_some', List.take_zero, List.sum_nil, Option.some.injEq] at hp
      rw [← hp]
      rfl
  · intro k p q hp hq
    exact startAndSizeFrom_consecutive _ _ _ _ _ hp hq
  · intro k p x hp hx
    rw [startAndSizeFrom_get?] at hp
    simp only [List.get?_eq_getElem?, List.getElem?_map] at hp hx
    rw [hx] at hp
    simp only [Option.map_some', Option.some.injEq] at hp
    rw [← hp]
  · rw [startAndSizeFrom_map_snd]
  · intro l hl x hx
    obtain ⟨p, hp, q, hq, hset, h1, h2⟩ := SortedObservationSets.mem_traversal m x hx
    have hkeys := createSortedObservationSetList_fold_keys l []
      (fun p hp => absurd hp (List.not_mem_nil _))
    rw [hl] at hp
    have := (hkeys p hp q hq).2 x.2.2 hset
    rw [h1, h2]
    exact this

/-- The example collection is the collection constructed from the example mapping. -/
theorem exampleObservationCollection_constructed :
    ObservationCollection.construct (fun ty => ty) exampleSortedObservationSets =
      .ok exampleObservationCollection := rfl

/-- Witness of C1: the example collection of three sets under two observable types. -/
theorem ObservationCollection.index_consistency_witness :
    ObservationCollection.construct (fun ty => ty) exampleSortedObservationSets =
      .ok exampleObservationCollection ∧
    exampleObservationCollection.getConcatenatedObservationSetStartAndSize =
      [(0, 1), (1, 2), (3, 4)] ∧
    exampleObservationCollection.getTotalObservableSize = 7 ∧
    (∀ k p q,
      exampleObservationCollection.getConcatenatedObservationSetStartAndSize.get? k = some p →
      exampleObservationCollection.getConcatenatedObservationSetStartAndSize.get? (k + 1) =
        some q →
      q.1 = p.1 + p.2) :=
  ⟨exampleObservationCollection_constructed, rfl, rfl,
    (ObservationCollection.index_consistency (fun ty => ty) exampleSortedObservationSets
      exampleObservationCollection exampleObservationCollection_constructed).2.2.1⟩

/-- The example collection is the collection constructed from the example list. -/
theorem exampleObservationCollection_constructedFromList :
    ObservationCollection.constructFromList (fun ty => ty) exampleObservationSetList =
      .ok exampleObservationCollection := rfl

/-- C10 (counterexample): the example list holds a set of observable type 2 before a
set of observable type 1, and under type 2 the link ends 7 before the link ends 4; the
collection constructed from it traverses type 1 before type 2 and, under type 2, link
ends 4 before link ends 7, and its observation vector ends with the observations of the
first set of the list. -/
theorem ObservationCollection.constructFromList_order_counterexample :
    ObservationCollection.constructFromList (fun ty => ty) exampleObservationSetList =
      .ok exampleObservationCollection ∧
    exampleObservationSetList.map (fun set => (set.observableType_, set.linkEnds_.linkEnds_)) =
      [(2, 7), (1, 9), (2, 4)] ∧
    (SortedObservationSets.traversal exampleObservationCollection.getObservations).map
      (fun x => (x.1, x.2.1)) = [(1, 9), (2, 4), (2, 7)] ∧
    exampleObservationCollection.getObservationVector = [10, 30, 31, 20, 21, 22, 23] :=
  ⟨exampleObservationCollection_constructedFromList, rfl, rfl, rfl⟩

/-- C10 (amended): a collection constructed from a flat list of sets traverses the
observable types in ascending order of their value and, within one type, the link ends
in ascending order of the link ends key, whatever their order in the list; under one
observable type and link ends it stores the sets of the list with that type and those
link ends, in their order in the list, and it has a key only where there is such a
set. -/
theorem ObservationCollection.constructFromList_key_order
    (getObservableSize : ObservableType → Nat) (l : List (SingleObservationSet T S L))
    (c : ObservationCollection T S L)
    (h : ObservationCollection.constructFromList getObservableSize l = .ok c) :
    (c.getObservations.map Prod.fst).Sorted (· < ·) ∧
    (∀ p ∈ c.getObservations, (p.2.map Prod.fst).Sorted (· < ·)) ∧
    (∀ ty le, StdMap.entriesAt c.getObservations ty le =
      l.filter (fun set => decide (set.observableType_ = ty ∧ set.linkEnds_.linkEnds_ = le))) ∧
    (∀ p ∈ c.getObservations, ∀ q ∈ p.2, q.2 ≠ [] ∧
      q.2 = l.filter
        (fun set => decide (set.observableType_ = p.1 ∧ set.linkEnds_.linkEnds_ = q.1))) := by
  have hlist : c.getObservations = createSortedObservationSetList l :=
    ObservationCollection.construct_observationSetList getObservableSize _ c h
  have hwf : StdMap.NestedWF (createSortedObservationSetList l) :=
    createSortedObservationSetList_fold_NestedWF l [] StdMap.NestedWF_nil
  have hent : ∀ ty le, StdMap.entriesAt (createSortedObservationSetList l) ty le =
      l.filter (fun set => decide (set.observableType_ = ty ∧ set.linkEnds_.linkEnds_ = le)) := by
    intro ty le
    have := createSortedObservationSetList_fold_entriesAt l [] StdMap.NestedWF_nil ty le
    simpa [StdMap.entriesAt, StdMap.find?] using this
  have hkeys := createSortedObservationSetList_fold_keys l []
    (fun p hp => absurd hp (List.not_mem_nil _))
  rw [hlist]
  refine ⟨hwf.1, hwf.2, hent, ?_⟩
  intro p hp q hq
  refine ⟨(hkeys p hp q hq).1, ?_⟩
  rw [← hent p.1 q.1]
  exact (StdMap.entriesAt_of_mem _ hwf p hp q hq).symm

/-- Witness of C10 (amended): the example list and the example collection. -/
theorem ObservationCollection.constructFromList_key_order_witness :
    (exampleObservationCollection.getObservations.map Prod.fst).Sorted (· < ·) ∧
    (∀ p ∈ exampleObservationCollection.getObservations,
      (p.2.map Prod.fst).Sorted (· < ·)) ∧
    (∀ ty le, StdMap.entriesAt exampleObservationCollection.getObservations ty le =
      exampleObservationSetList.filter
        (fun set => decide (set.observableType_ = ty ∧ set.linkEnds_.linkEnds_ = le))) ∧
    (∀ p ∈ exampleObservationCollection.getObservations, ∀ q ∈ p.2, q.2 ≠ [] ∧
      q.2 = exampleObservationSetList.filter
        (fun set => decide (set.observableType_ = p.1 ∧ set.linkEnds_.linkEnds_ = q.1))) :=
  ObservationCollection.constructFromList_key_order (fun ty => ty) exampleObservationSetList
    exampleObservationCollection exampleObservationCollection_constructedFromList

end CollectionClaims

section OverwriteLemmas

variable {α : Type}

theorem overwrite_nil (v : List α) (start : Nat) : overwrite v start [] = v := by
  simp [overwrite]

theorem overwrite_length (v : List α) (start : Nat) (w : List α)
    (h : start + w.length ≤ v.length) : (overwrite v start w).length = v.length := by
  simp only [overwrite, List.length_append, List.length_take, List.length_drop]
  omega

theorem overwrite_overwrite (v : List α) (start : Nat) (w₁ w₂ : List α)
    (h : start + w₁.length ≤ v.length) :
    overwrite (overwrite v start w₁) (start + w₁.length) w₂ = overwrite v start (w₁ ++ w₂) := by
  have hlen : (v.take start ++ w₁).length = start + w₁.length := by
    simp only [List.length_append, List.length_take]
    omega
  have htake : (overwrite v start w₁).take (start + w₁.length) = v.take start ++ w₁ := by
    unfold overwrite
    rw [← hlen, List.take_left']
    rfl
  have hdrop : (overwrite v start w₁).drop (start + w₁.length + w₂.length) =
      v.drop (start + (w₁ ++ w₂).length) := by
    unfold overwrite
    rw [← hlen, List.drop_append, List.drop_drop, hlen, List.length_append]
    congr 1
    omega
  unfold overwrite at htake hdrop ⊢
  rw [htake, hdrop]
  simp

theorem overwrite_all (v w : List α) (h : w.length = v.length) : overwrite v 0 w = w := by
  simp [overwrite, h]

theorem overwrite_get?_inside (v : List α) (start : Nat) (w : List α) (q : Nat)
    (h : start ≤ v.length) (hq : q < w.length) :
    (overwrite v start w).get? (start + q) = w.get? q := by
  have hlen : (v.take start).length = start := by
    simp only [List.length_take]
    omega
  simp only [overwrite, List.get?_eq_getElem?, List.append_assoc]
  rw [List.getElem?_append_right (by omega), hlen, Nat.add_sub_cancel_left,
    List.getElem?_append_left hq]

theorem vectorSet_eq_ok (v v' : List α) (i : Nat) (x : α) (h : vectorSet v i x = .ok v') :
    i + 1 ≤ v.length ∧ v' = overwrite v i [x] := by
  unfold vectorSet at h
  split at h
  · rename_i hi
    simp only [Except.ok.injEq] at h
    refine ⟨hi, ?_⟩
    rw [← h]
    unfold overwrite
    rw [List.set_eq_take_append_cons_drop, if_pos hi]
    simp
  · simp at h

theorem setSegment_eq_ok (v v' : List α) (start n : Nat) (w : List α)
    (h : setSegment v start n w = .ok v') :
    start + n ≤ v.length ∧ w.length = n ∧ v' = overwrite v start w := by
  unfold setSegment at h
  split at h
  · rename_i hc
    simp only [Except.ok.injEq] at h
    refine ⟨hc.1, hc.2, ?_⟩
    rw [← h, overwrite, hc.2]
  · simp at h

theorem length_flatten_of_length_eq (l : List (List α)) (n : Nat)
    (h : ∀ o ∈ l, o.length = n) : l.flatten.length = l.length * n := by
  induction l with
  | nil => simp
  | cons o rest ih =>
    simp only [List.flatten_cons, List.length_append, List.length_cons,
      h o (List.mem_cons_self _ _), ih (fun x hx => h x (List.mem_cons_of_mem _ hx))]
    rw [Nat.add_mul, Nat.one_mul, Nat.add_comm]

theorem length_flatMap_replicate {β : Type} (l : List β) (n : Nat) :
    (l.flatMap (List.replicate n)).length = l.length * n := by
  induction l with
  | nil => simp
  | cons o rest ih =>
    simp only [List.flatMap_cons, List.length_append, List.length_replicate, List.length_cons, ih]
    rw [Nat.add_mul, Nat.one_mul, Nat.add_comm]

end OverwriteLemmas

section BufferLoopLemmas

variable {T S L : Type}

theorem ObservationCollection.BuffersSized_update (c : ObservationCollection T S L) (n : Nat)
    (h : c.BuffersSized n) (counter : Nat) (o : List S) (t : List T) (i : List Nat)
    (names : List L) (ho : counter + o.length ≤ n) (ht : counter + t.length ≤ n)
    (hi : counter + i.length ≤ n) (hn : counter + names.length ≤ n) :
    ObservationCollection.BuffersSized
      { c with
        concatenatedObservations_ := overwrite c.concatenatedObservations_ counter o
        concatenatedTimes_ := overwrite c.concatenatedTimes_ counter t
        concatenatedLinkEndIds_ := overwrite c.concatenatedLinkEndIds_ counter i
        concatenatedLinkEndIdNames_ := overwrite c.concatenatedLinkEndIdNames_ counter names }
      n := by
  obtain ⟨h1, h2, h3, h4⟩ := h
  refine ⟨?_, ?_, ?_, ?_⟩
  · show (overwrite c.concatenatedObservations_ counter o).length = n
    rw [overwrite_length _ _ _ (by omega), h1]
  · show (overwrite c.concatenatedTimes_ counter t).length = n
    rw [overwrite_length _ _ _ (by omega), h2]
  · show (overwrite c.concatenatedLinkEndIds_ counter i).length = n
    rw [overwrite_length _ _ _ (by omega), h3]
  · show (overwrite c.concatenatedLinkEndIdNames_ counter names).length = n
    rw [overwrite_length _ _ _ (by omega), h4]

theorem setConcatenatedComponents_result (times : List T) (j stationId : Nat) (le : L) (t : T)
    (ht : times.get? j = some t) (count : Nat) (c : ObservationCollection T S L)
    (counter n : Nat) (state' : ObservationCollection T S L × Nat)
    (hsized : c.BuffersSized n) (hc : counter ≤ n)
    (h : setConcatenatedComponents times j stationId le count (c, counter) = .ok state') :
    state'.2 = counter + count ∧ counter + count ≤ n ∧
    state'.1 =
      { c with
        concatenatedTimes_ :=
          overwrite c.concatenatedTimes_ counter (List.replicate count t)
        concatenatedLinkEndIds_ :=
          overwrite c.concatenatedLinkEndIds_ counter (List.replicate count stationId)
        concatenatedLinkEndIdNames_ :=
          overwrite c.concatenatedLinkEndIdNames_ counter (List.replicate count le) } := by
  induction count generalizing c counter with
  | zero =>
    simp only [setConcatenatedComponents, Except.ok.injEq] at h
    subst h
    simp [overwrite_nil, hc]
  | succ count ih =>
    simp only [setConcatenatedComponents, vectorAt, ht] at h
    split at h
    · simp at h
    · rename_i times1 h1
      split at h
      · simp at h
      · rename_i ids1 h2
        split at h
        · simp at h
        · rename_i names1 h3
          obtain ⟨b1, e1⟩ := vectorSet_eq_ok _ _ _ _ h1
          obtain ⟨b2, e2⟩ := vectorSet_eq_ok _ _ _ _ h2
          obtain ⟨b3, e3⟩ := vectorSet_eq_ok _ _ _ _ h3
          subst e1 e2 e3
          obtain ⟨s1, s2, s3, s4⟩ := hsized
          have hsized' : ObservationCollection.BuffersSized
              { c with
                concatenatedTimes_ := overwrite c.concatenatedTimes_ counter [t]
                concatenatedLinkEndIds_ := overwrite c.concatenatedLinkEndIds_ counter [stationId]
                concatenatedLinkEndIdNames_ :=
                  overwrite c.concatenatedLinkEndIdNames_ counter [le] } n := by
            refine ⟨s1, ?_, ?_, ?_⟩
            · show (overwrite c.concatenatedTimes_ counter [t]).length = n
              rw [overwrite_length _ _ _ (by simpa using b1), s2]
            · show (overwrite c.concatenatedLinkEndIds_ counter [stationId]).length = n
              rw [overwrite_length _ _ _ (by simpa using b2), s3]
            · show (overwrite c.concatenatedLinkEndIdNames_ counter [le]).length = n
              rw [overwrite_length _ _ _ (by simpa using b3), s4]
          obtain ⟨r1, r2, r3⟩ := ih _ (counter + 1) hsized' (by omega) h
          have o1 := overwrite_overwrite c.concatenatedTimes_ counter [t]
            (List.replicate count t) (by simpa using b1)
          have o2 := overwrite_overwrite c.concatenatedLinkEndIds_ counter [stationId]
            (List.replicate count stationId) (by simpa using b2)
          have o3 := overwrite_overwrite c.concatenatedLinkEndIdNames_ counter [le]
            (List.replicate count le) (by simpa using b3)
          simp only [List.length_singleton, List.singleton_append] at o1 o2 o3
          refine ⟨by omega, by omega, ?_⟩
          rw [r3]
          simp only [o1, o2, o3, List.replicate_succ]

theorem setConcatenatedSamples_result (size : Nat) (times : List T) (stationId : Nat)
    (le : L) (observations : List (List S)) (j : Nat) (current : List S)
    (c : ObservationCollection T S L) (counter n : Nat)
    (state' : List S × ObservationCollection T S L × Nat)
    (htimes : (times.drop j).length = observations.length)
    (hsized : c.BuffersSized n) (hc : counter ≤ n)
    (h : setConcatenatedSamples size times stationId le observations j
      (current, c, counter) = .ok state') :
    (∀ o ∈ observations, o.length = size) ∧
    state'.1 = overwrite current (j * size) observations.flatten ∧
    state'.2.2 = counter + observations.length * size ∧
    counter + observations.length * size ≤ n ∧
    state'.2.1 =
      { c with
        concatenatedTimes_ :=
          overwrite c.concatenatedTimes_ counter
            ((times.drop j).flatMap (List.replicate size))
        concatenatedLinkEndIds_ :=
          overwrite c.concatenatedLinkEndIds_ counter
            (List.replicate (observations.length * size) stationId)
        concatenatedLinkEndIdNames_ :=
          overwrite c.concatenatedLinkEndIdNames_ counter
            (List.replicate (observations.length * size) le) } := by
  induction observations generalizing j current c counter with
  | nil =>
    simp only [setConcatenatedSamples, Except.ok.injEq] at h
    subst h
    have hnil : times.drop j = [] := List.length_eq_zero.mp (by simpa using htimes)
    simp [overwrite_nil, hc, hnil]
  | cons o rest ih =>
    simp only [setConcatenatedSamples] at h
    split at h
    · simp at h
    · rename_i current1 hseg
      split at h
      · simp at h
      · rename_i st1 hcomp
        obtain ⟨bseg, hlen, eseg⟩ := setSegment_eq_ok _ _ _ _ _ hseg
        subst eseg
        have hj : j < times.length := by
          simp only [List.length_drop, List.length_cons] at htimes
          omega
        have hdrop : times.drop j = times[j] :: times.drop (j + 1) :=
          List.drop_eq_getElem_cons hj
        have hget : times.get? j = some times[j] := by
          simp [List.getElem?_eq_getElem hj]
        obtain ⟨c1, e1, f1⟩ :=
          setConcatenatedComponents_result times j stationId le times[j] hget size c counter n
            st1 hsized hc hcomp
        obtain ⟨s1, s2, s3, s4⟩ := hsized
        have hsized1 : st1.1.BuffersSized n := by
          rw [f1]
          refine ⟨s1, ?_, ?_, ?_⟩
          · show (overwrite c.concatenatedTimes_ counter _).length = n
            rw [overwrite_length _ _ _ (by simpa [s2] using e1), s2]
          · show (overwrite c.concatenatedLinkEndIds_ counter _).length = n
            rw [overwrite_length _ _ _ (by simpa [s3] using e1), s3]
          · show (overwrite c.concatenatedLinkEndIdNames_ counter _).length = n
            rw [overwrite_length _ _ _ (by simpa [s4] using e1), s4]
        have htimes' : (times.drop (j + 1)).length = rest.length := by
          simp only [List.length_drop, List.length_cons] at htimes ⊢
          omega
        have hst1 : st1 = (st1.1, st1.2) := rfl
        rw [hst1, c1] at h
        obtain ⟨r1, r2, r3, r4, r5⟩ :=
          ih (j + 1) _ st1.1 (counter + size) htimes' hsized1 (by omega) h
        have ocur := overwrite_overwrite current (j * size) o rest.flatten (by omega)
        rw [hlen] at ocur
        have hjs : (j + 1) * size = j * size + size := by rw [Nat.add_mul, Nat.one_mul]
        have o1 := overwrite_overwrite c.concatenatedTimes_ counter
          (List.replicate size times[j]) ((times.drop (j + 1)).flatMap (List.replicate size))
          (by simpa [s2] using e1)
        have o2 := overwrite_overwrite c.concatenatedLinkEndIds_ counter
          (List.replicate size stationId) (List.replicate (rest.length * size) stationId)
          (by simpa [s3] using e1)
        have o3 := overwrite_overwrite c.concatenatedLinkEndIdNames_ counter
          (List.replicate size le) (List.replicate (rest.length * size) le)
          (by simpa [s4] using e1)
        simp only [List.length_replicate, List.append_replicate_replicate] at o1 o2 o3
        have hmul : (rest.length + 1) * size = size + rest.length * size := by
          rw [Nat.add_mul, Nat.one_mul, Nat.add_comm]
        refine ⟨?_, ?_, ?_, ?_, ?_⟩
        · intro x hx
          rcases List.mem_cons.mp hx with rfl | hx
          · exact hlen
          · exact r1 x hx
        · rw [r2, hjs, List.flatten_cons, ocur]
        · rw [r3, List.length_cons, hmul]
          omega
        · rw [List.length_cons, hmul]
          omega
        · rw [r5, f1, hdrop, List.flatMap_cons, List.length_cons, hmul]
          dsimp only
          rw [o1, o2, o3]

theorem setConcatenatedSets_result [LinearOrder L] [Zero S] (size : Nat)
    (ty : ObservableType) (le : L) (first : LinkDefinition L) (stationId : Nat)
    (sets : List (SingleObservationSet T S L)) (i : Nat) (c : ObservationCollection T S L)
    (counter n : Nat) (state' : ObservationCollection T S L × Nat)
    (hlookup : ∀ r set, sets.get? r = some set →
      startAndSizeAt c.observationSetStartAndSize_ ty le (i + r) =
        .ok (counter + (setLengths size (sets.take r)).sum,
          set.getNumberOfObservables * size))
    (hvalid : ∀ set ∈ sets, set.numberOfObservations_ = set.observations_.length ∧
      set.observationTimes_.length = set.observations_.length)
    (hsized : c.BuffersSized n) (hc : counter ≤ n)
    (h : setConcatenatedSets size ty le first stationId sets i (c, counter) = .ok state') :
    (∀ set ∈ sets, ∀ o ∈ set.observations_, o.length = size) ∧
    state'.2 = counter + (setLengths size sets).sum ∧
    counter + (setLengths size sets).sum ≤ n ∧
    state'.1 =
      { c with
        concatenatedObservations_ :=
          overwrite c.concatenatedObservations_ counter (expectedObservations sets)
        concatenatedTimes_ :=
          overwrite c.concatenatedTimes_ counter (expectedTimes size sets)
        concatenatedLinkEndIds_ :=
          overwrite c.concatenatedLinkEndIds_ counter
            (List.replicate (setLengths size sets).sum stationId)
        concatenatedLinkEndIdNames_ :=
          overwrite c.concatenatedLinkEndIdNames_ counter
            (List.replicate (setLengths size sets).sum le) } := by
  induction sets generalizing i c counter with
  | nil =>
    simp only [setConcatenatedSets, Except.ok.injEq] at h
    subst h
    simp [setLengths, expectedObservations, expectedTimes, overwrite_nil, hc]
  | cons set rest ih =>
    have hl0 := hlookup 0 set rfl
    simp only [Nat.add_zero, List.take_zero, setLengths, List.map_nil, List.sum_nil] at hl0
    obtain ⟨hnum, htl⟩ := hvalid set (List.mem_cons_self _ _)
    simp only [setConcatenatedSets, hl0] at h
    split at h
    · simp at h
    · split at h
      · simp at h
      · rename_i after hafter
        split at h
        · simp at h
        · rename_i observations hseg
          obtain ⟨a1, a2, a3, a4, a5⟩ :=
            setConcatenatedSamples_result size set.observationTimes_ stationId le
              set.observations_ 0 _ c counter n after (by simpa using htl) hsized hc hafter
          have hflat : set.observations_.flatten.length =
              set.getNumberOfObservables * size := by
            rw [length_flatten_of_length_eq _ size a1, SingleObservationSet.getNumberOfObservables,
              hnum]
          have hcur : after.1 = set.observations_.flatten := by
            rw [a2, Nat.zero_mul]
            exact overwrite_all _ _ (by simp [hflat])
          obtain ⟨b1, -, b3⟩ := setSegment_eq_ok _ _ _ _ _ hseg
          rw [hcur] at b3
          have hobs : after.2.1.concatenatedObservations_ = c.concatenatedObservations_ := by
            rw [a5]
          rw [hobs] at b3 b1
          subst b3
          obtain ⟨s1, s2, s3, s4⟩ := hsized
          have hlen : set.getNumberOfObservables * size = set.observations_.length * size := by
            rw [SingleObservationSet.getNumberOfObservables, hnum]
          have htimesLen : (set.observationTimes_.flatMap (List.replicate size)).length =
              set.observations_.length * size := by
            rw [length_flatMap_replicate, htl]
          have hsized1 : ObservationCollection.BuffersSized
              { after.2.1 with
                concatenatedObservations_ :=
                  overwrite c.concatenatedObservations_ counter set.observations_.flatten } n := by
            rw [a5]
            refine ⟨?_, ?_, ?_, ?_⟩
            · show (overwrite c.concatenatedObservations_ counter _).length = n
              rw [overwrite_length _ _ _ (by rw [hflat]; exact b1), s1]
            · show (overwrite c.concatenatedTimes_ counter _).length = n
              rw [overwrite_length _ _ _ (by
                rw [List.drop_zero, htimesLen, s2]; exact a4), s2]
            · show (overwrite c.concatenatedLinkEndIds_ counter _).length = n
              rw [overwrite_length _ _ _ (by simpa [s3] using a4), s3]
            · show (overwrite c.concatenatedLinkEndIdNames_ counter _).length = n
              rw [overwrite_length _ _ _ (by simpa [s4] using a4), s4]
          have htable : ({ after.2.1 with
                concatenatedObservations_ :=
                  overwrite c.concatenatedObservations_ counter set.observations_.flatten } :
              ObservationCollection T S L).observationSetStartAndSize_ =
              c.observationSetStartAndSize_ := by
            rw [a5]
          have hlookup' : ∀ r set', rest.get? r = some set' →
              startAndSizeAt ({ after.2.1 with
                concatenatedObservations_ :=
                  overwrite c.concatenatedObservations_ counter set.observations_.flatten } :
                ObservationCollection T S L).observationSetStartAndSize_ ty le (i + 1 + r) =
              .ok (after.2.2 + (setLengths size (rest.take r)).sum,
                set'.getNumberOfObservables * size) := by
            intro r set' hr
            have := hlookup (r + 1) set' (by simpa using hr)
            rw [htable, a3, ← hlen]
            simp only [List.take_succ_cons, setLengths, List.map_cons, List.sum_cons] at this ⊢
            rw [Nat.add_assoc i 1 r, Nat.add_comm 1 r, Nat.add_assoc counter]
            exact this
          obtain ⟨r1, r2, r3, r4⟩ := ih (i + 1) _ after.2.2 hlookup'
            (fun x hx => hvalid x (List.mem_cons_of_mem _ hx)) hsized1
            (by rw [a3]; exact a4) h
          have hsum : (setLengths size (set :: rest)).sum =
              set.observations_.length * size + (setLengths size rest).sum := by
            simp only [setLengths, List.map_cons, List.sum_cons]
            rw [hlen]
          have o0 := overwrite_overwrite c.concatenatedObservations_ counter
            set.observations_.flatten (expectedObservations rest) (by rw [hflat]; exact b1)
          have o1 := overwrite_overwrite c.concatenatedTimes_ counter
            (set.observationTimes_.flatMap (List.replicate size)) (expectedTimes size rest)
            (by rw [htimesLen, s2]; exact a4)
          have o2 := overwrite_overwrite c.concatenatedLinkEndIds_ counter
            (List.replicate (set.observations_.length * size) stationId)
            (List.replicate (setLengths size rest).sum stationId)
            (by simpa [s3] using a4)
          have o3 := overwrite_overwrite c.concatenatedLinkEndIdNames_ counter
            (List.replicate (set.observations_.length * size) le)
            (List.replicate (setLengths size rest).sum le)
            (by simpa [s4] using a4)
          rw [hflat, hlen] at o0
          rw [htimesLen] at o1
          simp only [List.length_replicate, List.append_replicate_replicate] at o2 o3
          refine ⟨?_, ?_, ?_, ?_⟩
          · intro x hx
            rcases List.mem_cons.mp hx with rfl | hx
            · exact a1
            · exact r1 x hx
          · rw [r2, a3, hsum, Nat.add_assoc]
          · rw [hsum, ← Nat.add_assoc, ← a3]
            exact r3
          · rw [r4, a5, a3, hsum]
            dsimp only
            rw [List.drop_zero, o0, o1, o2, o3]
            rfl

theorem StdMap.Extends_refl {K V : Type} [LinearOrder K] (a : StdMap K V) :
    StdMap.Extends a a := fun _ _ h => h

theorem StdMap.Extends_trans {K V : Type} [LinearOrder K] {a b c : StdMap K V}
    (h₁ : StdMap.Extends a b) (h₂ : StdMap.Extends b c) : StdMap.Extends a c :=
  fun k v h => h₂ k v (h₁ k v h)

/-- Step of `setConcatenatedObservationsAndTimes` that gives link ends without an
identifier the next free one: the map stays well formed, keeps its bindings and binds
the link ends to `currentStationId`. -/
theorem linkEndIds_step {K : Type} [LinearOrder K] (ids : StdMap K Nat) (le : K)
    (maximumStationId : Nat) (hwf : StdMap.WF ids) :
    StdMap.WF (if StdMap.count ids le = 0 then StdMap.assign le maximumStationId ids
      else ids) ∧
    StdMap.Extends ids (if StdMap.count ids le = 0 then StdMap.assign le maximumStationId ids
      else ids) ∧
    StdMap.find? (if StdMap.count ids le = 0 then StdMap.assign le maximumStationId ids
      else ids) le =
      some (if StdMap.count ids le = 0 then maximumStationId
        else (StdMap.find? ids le).getD 0) := by
  cases hf : StdMap.find? ids le with
  | none =>
    have hcount : StdMap.count ids le = 0 := by simp [StdMap.count, hf]
    simp only [hcount, if_true]
    refine ⟨StdMap.modify_WF _ _ _ _ hwf, ?_, ?_⟩
    · intro k v hk
      by_cases hkl : k = le
      · subst hkl
        rw [hf] at hk
        simp at hk
      · unfold StdMap.assign
        rw [StdMap.find?_modify_ne _ _ _ _ _ hkl]
        exact hk
    · unfold StdMap.assign
      rw [StdMap.find?_modify_self _ _ _ _ hwf]
  | some v =>
    have hcount : ¬ StdMap.count ids le = 0 := by simp [StdMap.count, hf]
    simp only [hcount, if_false]
    exact ⟨hwf, StdMap.Extends_refl _, by simp [hf]⟩

theorem expectedObservations_length (size : Nat) (sets : List (SingleObservationSet T S L))
    (hvalid : ∀ set ∈ sets, set.numberOfObservations_ = set.observations_.length ∧
      set.observationTimes_.length = set.observations_.length)
    (hsize : ∀ set ∈ sets, ∀ o ∈ set.observations_, o.length = size) :
    (expectedObservations sets).length = (setLengths size sets).sum := by
  induction sets with
  | nil => rfl
  | cons set rest ih =>
    simp only [expectedObservations, setLengths, List.flatMap_cons, List.length_append,
      List.map_cons, List.sum_cons] at ih ⊢
    rw [ih (fun x hx => hvalid x (List.mem_cons_of_mem _ hx))
        (fun x hx => hsize x (List.mem_cons_of_mem _ hx)),
      length_flatten_of_length_eq _ size (hsize set (List.mem_cons_self _ _)),
      SingleObservationSet.getNumberOfObservables, (hvalid set (List.mem_cons_self _ _)).1]

theorem expectedTimes_length (size : Nat) (sets : List (SingleObservationSet T S L))
    (hvalid : ∀ set ∈ sets, set.numberOfObservations_ = set.observations_.length ∧
      set.observationTimes_.length = set.observations_.length) :
    (expectedTimes size sets).length = (setLengths size sets).sum := by
  induction sets with
  | nil => rfl
  | cons set rest ih =>
    simp only [expectedTimes, setLengths, List.flatMap_cons, List.length_append,
      List.map_cons, List.sum_cons] at ih ⊢
    rw [ih (fun x hx => hvalid x (List.mem_cons_of_mem _ hx)), length_flatMap_replicate,
      SingleObservationSet.getNumberOfObservables, (hvalid set (List.mem_cons_self _ _)).1,
      (hvalid set (List.mem_cons_self _ _)).2]

theorem BufferPassResult_nil [LinearOrder L] (c c' : ObservationCollection T S L)
    (counter n : Nat) (hsized : c.BuffersSized n) (hc : counter ≤ n)
    (hwf : StdMap.WF c.linkEndIds_) (ids : StdMap L Nat → List Nat) (hids : ∀ F, ids F = [])
    (h1 : c'.concatenatedObservations_ = c.concatenatedObservations_)
    (h2 : c'.concatenatedTimes_ = c.concatenatedTimes_)
    (h3 : c'.concatenatedLinkEndIds_ = c.concatenatedLinkEndIds_)
    (h4 : c'.concatenatedLinkEndIdNames_ = c.concatenatedLinkEndIdNames_)
    (h5 : c'.linkEndIds_ = c.linkEndIds_)
    (h6 : c'.observationSetStartAndSize_ = c.observationSetStartAndSize_) :
    BufferPassResult c c' counter counter n [] [] [] ids [] [] := by
  obtain ⟨s1, s2, s3, s4⟩ := hsized
  refine ⟨by simp, hc, rfl, rfl, rfl, fun F => by simp [hids F], ?_, ?_, ?_, ?_, ?_, ?_, ?_,
    ?_, h6⟩
  · rw [h1, overwrite_nil]
  · rw [h2, overwrite_nil]
  · rw [h4, overwrite_nil]
  · rw [h5]; exact hwf
  · rw [h5]; exact StdMap.Extends_refl _
  · intro k hk
    exact absurd hk (List.not_mem_nil _)
  · intro F _
    rw [h3, hids F, overwrite_nil]
  · exact ⟨by rw [h1, s1], by rw [h2, s2], by rw [h3, s3], by rw [h4, s4]⟩

theorem BufferPassResult_trans [LinearOrder L] (c c' c'' : ObservationCollection T S L)
    (counter counter' counter'' n : Nat) (l₁ l₂ : List Nat) (o₁ o₂ : List S) (t₁ t₂ : List T)
    (i₁ i₂ : StdMap L Nat → List Nat) (n₁ n₂ : List L) (k₁ k₂ : List L)
    (hsized : c.BuffersSized n)
    (h₁ : BufferPassResult c c' counter counter' n l₁ o₁ t₁ i₁ n₁ k₁)
    (h₂ : BufferPassResult c' c'' counter' counter'' n l₂ o₂ t₂ i₂ n₂ k₂) :
    BufferPassResult c c'' counter counter'' n (l₁ ++ l₂) (o₁ ++ o₂) (t₁ ++ t₂)
      (fun F => i₁ F ++ i₂ F) (n₁ ++ n₂) (k₁ ++ k₂) := by
  obtain ⟨a1, a2, a3, a4, a5, a6, a7, a8, a9, a10, a11, a12, a13, a14, a15⟩ := h₁
  obtain ⟨b1, b2, b3, b4, b5, b6, b7, b8, b9, b10, b11, b12, b13, b14, b15⟩ := h₂
  obtain ⟨s1, s2, s3, s4⟩ := hsized
  subst a1
  refine ⟨by rw [b1, List.sum_append, Nat.add_assoc], b2,
    by rw [List.length_append, a3, b3, List.sum_append],
    by rw [List.length_append, a4, b4, List.sum_append],
    by rw [List.length_append, a5, b5, List.sum_append],
    fun F => by rw [List.length_append, a6, b6, List.sum_append], ?_, ?_, ?_, b10,
    StdMap.Extends_trans a11 b11, ?_, ?_, b14, b15.trans a15⟩
  · rw [b7, a7, ← a3, overwrite_overwrite _ _ _ _ (by rw [a3, s1]; exact a2)]
  · rw [b8, a8, ← a4, overwrite_overwrite _ _ _ _ (by rw [a4, s2]; exact a2)]
  · rw [b9, a9, ← a5, overwrite_overwrite _ _ _ _ (by rw [a5, s4]; exact a2)]
  · intro k hk
    rcases List.mem_append.mp hk with hk | hk
    · obtain ⟨v, hv⟩ := a12 k hk
      exact ⟨v, b11 k v hv⟩
    · exact b12 k hk
  · intro F hF
    rw [b13 F hF, a13 F (StdMap.Extends_trans b11 hF), ← a6 F,
      overwrite_overwrite _ _ _ _ (by rw [a6 F, s3]; exact a2)]

theorem registerLinkEnds_result [LinearOrder L] [Inhabited L] (ty : ObservableType) (le : L)
    (sets : List (SingleObservationSet T S L)) (c : ObservationCollection T S L)
    (maximumStationId : Nat) (hwf : StdMap.WF c.linkEndIds_) :
    (registerLinkEnds ty le sets c maximumStationId).1.concatenatedObservations_ =
      c.concatenatedObservations_ ∧
    (registerLinkEnds ty le sets c maximumStationId).1.concatenatedTimes_ =
      c.concatenatedTimes_ ∧
    (registerLinkEnds ty le sets c maximumStationId).1.concatenatedLinkEndIds_ =
      c.concatenatedLinkEndIds_ ∧
    (registerLinkEnds ty le sets c maximumStationId).1.concatenatedLinkEndIdNames_ =
      c.concatenatedLinkEndIdNames_ ∧
    (registerLinkEnds ty le sets c maximumStationId).1.observationSetStartAndSize_ =
      c.observationSetStartAndSize_ ∧
    StdMap.WF (registerLinkEnds ty le sets c maximumStationId).1.linkEndIds_ ∧
    StdMap.Extends c.linkEndIds_ (registerLinkEnds ty le sets c maximumStationId).1.linkEndIds_ ∧
    StdMap.find? (registerLinkEnds ty le sets c maximumStationId).1.linkEndIds_ le =
      some (registerLinkEnds ty le sets c maximumStationId).2.1 := by
  obtain ⟨w1, w2, w3⟩ := linkEndIds_step c.linkEndIds_ le maximumStationId hwf
  have hids : (if sets.length > 0 then
      ({ c with
          linkDefinitionsPerObservable_ :=
            StdMap.modify [] (fun v => v ++ [firstLinkDefinition sets]) ty
              c.linkDefinitionsPerObservable_ } : ObservationCollection T S L)
      else c).linkEndIds_ = c.linkEndIds_ := by
    split <;> rfl
  unfold registerLinkEnds
  simp only [hids]
  by_cases hcount : StdMap.count c.linkEndIds_ le = 0
  · simp only [hcount, if_true] at w1 w2 w3 ⊢
    refine ⟨?_, ?_, ?_, ?_, ?_, w1, w2, w3⟩ <;> (split <;> rfl)
  · simp only [hcount, if_false] at w1 w2 w3 ⊢
    rw [hids]
    refine ⟨?_, ?_, ?_, ?_, ?_, w1, w2, w3⟩ <;> (split <;> rfl)

theorem setConcatenatedLinkEnds_result [LinearOrder L] [Inhabited L] [Zero S] (size : Nat)
    (ty : ObservableType) (list : List (L × List (SingleObservationSet T S L)))
    (c : ObservationCollection T S L) (counter maximumStationId n : Nat)
    (state' : ObservationCollection T S L × Nat × Nat)
    (hlookup : ∀ pre q post, list = pre ++ q :: post → ∀ r set, q.2.get? r = some set →
      startAndSizeAt c.observationSetStartAndSize_ ty q.1 r =
        .ok (counter + (linkEndLengths size pre).sum + (setLengths size (q.2.take r)).sum,
          set.getNumberOfObservables * size))
    (hvalid : ∀ q ∈ list, ∀ set ∈ q.2,
      set.numberOfObservations_ = set.observations_.length ∧
      set.observationTimes_.length = set.observations_.length)
    (hsized : c.BuffersSized n) (hc : counter ≤ n) (hwf : StdMap.WF c.linkEndIds_)
    (h : setConcatenatedLinkEnds size ty list (c, counter, maximumStationId) = .ok state') :
    BufferPassResult c state'.1 counter state'.2.1 n (linkEndLengths size list)
      (list.flatMap (fun q => expectedObservations q.2))
      (list.flatMap (fun q => expectedTimes size q.2))
      (fun F => expectedLinkEndIds F size list)
      (expectedLinkEndIdNames size list) (list.map Prod.fst) := by
  induction list generalizing c counter maximumStationId with
  | nil =>
    simp only [setConcatenatedLinkEnds, Except.ok.injEq] at h
    subst h
    exact BufferPassResult_nil _ _ _ _ hsized hc hwf _ (fun F => rfl) rfl rfl rfl rfl rfl rfl
  | cons entry rest ih =>
    obtain ⟨le, sets⟩ := entry
    simp only [setConcatenatedLinkEnds] at h
    split at h
    · simp at h
    · rename_i after hafter
      obtain ⟨g1, g2, g3, g4, g5, g6, g7, g8⟩ :=
        registerLinkEnds_result ty le sets c maximumStationId hwf
      have hvalidSets := hvalid (le, sets) (List.mem_cons_self _ _)
      have hsizedReg : (registerLinkEnds ty le sets c maximumStationId).1.BuffersSized n := by
        obtain ⟨s1, s2, s3, s4⟩ := hsized
        exact ⟨by rw [g1, s1], by rw [g2, s2], by rw [g3, s3], by rw [g4, s4]⟩
      have hlookupSets : ∀ r set, sets.get? r = some set →
          startAndSizeAt (registerLinkEnds ty le sets c
            maximumStationId).1.observationSetStartAndSize_ ty le (0 + r) =
          .ok (counter + (setLengths size (sets.take r)).sum,
            set.getNumberOfObservables * size) := by
        intro r set hr
        have := hlookup [] (le, sets) rest rfl r set hr
        rw [g5, Nat.zero_add]
        simpa [linkEndLengths] using this
      obtain ⟨r1, r2, r3, r4⟩ := setConcatenatedSets_result size ty le _ _ sets 0 _ counter n
        after hlookupSets hvalidSets hsizedReg hc hafter
      have hstep : BufferPassResult c after.1 counter after.2 n (setLengths size sets)
          (expectedObservations sets) (expectedTimes size sets)
          (fun F => List.replicate (setLengths size sets).sum ((StdMap.find? F le).getD 0))
          (List.replicate (setLengths size sets).sum le) [le] := by
        have hsizedAfter : after.1.BuffersSized n := by
          have := setConcatenatedSets_indexMembers _ _ _ _ _ _ _ _ _ hafter
          rw [r4]
          obtain ⟨s1, s2, s3, s4⟩ := hsizedReg
          refine ⟨?_, ?_, ?_, ?_⟩
          · show (overwrite _ counter _).length = n
            rw [overwrite_length _ _ _ (by
              rw [expectedObservations_length size sets hvalidSets r1, s1]; exact r3), s1]
          · show (overwrite _ counter _).length = n
            rw [overwrite_length _ _ _ (by
              rw [expectedTimes_length size sets hvalidSets, s2]; exact r3), s2]
          · show (overwrite _ counter _).length = n
            rw [overwrite_length _ _ _ (by simpa [s3] using r3), s3]
          · show (overwrite _ counter _).length = n
            rw [overwrite_length _ _ _ (by simpa [s4] using r3), s4]
        refine ⟨r2, by rw [r2]; exact r3, expectedObservations_length size sets hvalidSets r1,
          expectedTimes_length size sets hvalidSets, by simp, fun F => by simp, ?_, ?_, ?_, ?_,
          ?_, ?_, ?_, hsizedAfter, ?_⟩
        · rw [r4]; exact congrArg (fun b => overwrite b counter _) g1
        · rw [r4]; exact congrArg (fun b => overwrite b counter _) g2
        · rw [r4]; exact congrArg (fun b => overwrite b counter _) g4
        · rw [r4]; exact g6
        · rw [r4]; exact g7
        · intro k hk
          simp only [List.mem_singleton] at hk
          subst hk
          rw [r4]
          exact ⟨_, g8⟩
        · intro F hF
          have hfind : StdMap.find? F le =
              some (registerLinkEnds ty le sets c maximumStationId).2.1 := by
            apply hF
            rw [r4]
            exact g8
          rw [r4]
          dsimp only
          rw [hfind, g3]
          rfl
        · rw [r4]; exact g5
      have k10 := hstep.2.2.2.2.2.2.2.2.2.1
      have k14 := hstep.2.2.2.2.2.2.2.2.2.2.2.2.2.1
      have k15 := hstep.2.2.2.2.2.2.2.2.2.2.2.2.2.2
      have hlookupRest : ∀ pre q post, rest = pre ++ q :: post → ∀ r set,
          q.2.get? r = some set →
          startAndSizeAt after.1.observationSetStartAndSize_ ty q.1 r =
            .ok (after.2 + (linkEndLengths size pre).sum + (setLengths size (q.2.take r)).sum,
              set.getNumberOfObservables * size) := by
        intro pre q post hrest r set hr
        have := hlookup ((le, sets) :: pre) q post (by rw [hrest]; rfl) r set hr
        rw [k15, r2]
        simpa [linkEndLengths, Nat.add_assoc] using this
      have hrestResult := ih after.1 after.2 _ hlookupRest
        (fun q hq => hvalid q (List.mem_cons_of_mem _ hq)) k14 (by rw [r2]; exact r3) k10 h
      exact BufferPassResult_trans _ _ _ _ _ _ _ _ _ _ _ _ _ _ _ _ _ _ _ hsized hstep
        hrestResult

theorem setConcatenatedTypes_result [LinearOrder L] [Inhabited L] [Zero S]
    (getObservableSize : ObservableType → Nat) (m : SortedObservationSets T S L)
    (c : ObservationCollection T S L) (counter maximumStationId n : Nat)
    (state' : ObservationCollection T S L × Nat × Nat)
    (hlookup : ∀ preM p postM, m = preM ++ p :: postM →
      ∀ pre q post, p.2 = pre ++ q :: post → ∀ r set, q.2.get? r = some set →
      startAndSizeAt c.observationSetStartAndSize_ p.1 q.1 r =
        .ok (counter + (typeLengths getObservableSize preM).sum +
            (linkEndLengths (getObservableSize p.1) pre).sum +
            (setLengths (getObservableSize p.1) (q.2.take r)).sum,
          set.getNumberOfObservables * getObservableSize p.1))
    (hvalid : ∀ p ∈ m, ∀ q ∈ p.2, ∀ set ∈ q.2,
      set.numberOfObservations_ = set.observations_.length ∧
      set.observationTimes_.length = set.observations_.length)
    (hsized : c.BuffersSized n) (hc : counter ≤ n) (hwf : StdMap.WF c.linkEndIds_)
    (h : setConcatenatedTypes getObservableSize m (c, counter, maximumStationId) =
      .ok state') :
    BufferPassResult c state'.1 counter state'.2.1 n (typeLengths getObservableSize m)
      (SortedObservationSets.expectedObservations m)
      (SortedObservationSets.expectedTimes getObservableSize m)
      (fun F => SortedObservationSets.expectedLinkEndIds F getObservableSize m)
      (SortedObservationSets.expectedLinkEndIdNames getObservableSize m)
      (m.flatMap (fun p => p.2.map Prod.fst)) := by
  induction m generalizing c counter maximumStationId with
  | nil =>
    simp only [setConcatenatedTypes, Except.ok.injEq] at h
    subst h
    exact BufferPassResult_nil _ _ _ _ hsized hc hwf _ (fun F => rfl) rfl rfl rfl rfl rfl rfl
  | cons entry rest ih =>
    obtain ⟨ty, list⟩ := entry
    simp only [setConcatenatedTypes] at h
    split at h
    · simp at h
    · rename_i after hafter
      have hlookupList : ∀ pre q post, list = pre ++ q :: post → ∀ r set,
          q.2.get? r = some set →
          startAndSizeAt c.observationSetStartAndSize_ ty q.1 r =
            .ok (counter + (linkEndLengths (getObservableSize ty) pre).sum +
                (setLengths (getObservableSize ty) (q.2.take r)).sum,
              set.getNumberOfObservables * getObservableSize ty) := by
        intro pre q post hlist r set hr
        have := hlookup [] (ty, list) rest rfl pre q post hlist r set hr
        simpa [typeLengths] using this
      have hstep := setConcatenatedLinkEnds_result (getObservableSize ty) ty list c counter
        maximumStationId n after hlookupList (hvalid (ty, list) (List.mem_cons_self _ _))
        hsized hc hwf hafter
      have k1 := hstep.1
      have k2 := hstep.2.1
      have k10 := hstep.2.2.2.2.2.2.2.2.2.1
      have k14 := hstep.2.2.2.2.2.2.2.2.2.2.2.2.2.1
      have k15 := hstep.2.2.2.2.2.2.2.2.2.2.2.2.2.2
      have hlookupRest : ∀ preM p postM, rest = preM ++ p :: postM →
          ∀ pre q post, p.2 = pre ++ q :: post → ∀ r set, q.2.get? r = some set →
          startAndSizeAt after.1.observationSetStartAndSize_ p.1 q.1 r =
            .ok (after.2.1 + (typeLengths getObservableSize preM).sum +
                (linkEndLengths (getObservableSize p.1) pre).sum +
                (setLengths (getObservableSize p.1) (q.2.take r)).sum,
              set.getNumberOfObservables * getObservableSize p.1) := by
        intro preM p postM hrest pre q post hp r set hr
        have := hlookup ((ty, list) :: preM) p postM (by rw [hrest]; rfl) pre q post hp r set hr
        rw [k15, k1]
        simpa [typeLengths, Nat.add_assoc] using this
      have hafterEq : after = (after.1, after.2.1, after.2.2) := rfl
      rw [hafterEq] at h
      have hrestResult := ih after.1 after.2.1 after.2.2 hlookupRest
        (fun p hp => hvalid p (List.mem_cons_of_mem _ hp)) k14 k2 k10 h
      exact BufferPassResult_trans _ _ _ _ _ _ _ _ _ _ _ _ _ _ _ _ _ _ _ hsized hstep
        hrestResult

end BufferLoopLemmas

section LookupLemmas

variable {T S L : Type} [LinearOrder L]

theorem startAndSizeAt_of_entriesAt (table : StdMap ObservableType (StdMap L (List (Nat × Nat))))
    (ty : ObservableType) (le : L) (r : Nat) (x : Nat × Nat)
    (h : (StdMap.entriesAt table ty le).get? r = some x) :
    startAndSizeAt table ty le r = .ok x := by
  unfold StdMap.entriesAt at h
  unfold startAndSizeAt StdMap.at
  cases h1 : StdMap.find? table ty with
  | none => rw [h1] at h; simp [StdMap.find?] at h
  | some inner =>
    rw [h1] at h
    simp only [Option.getD_some] at h
    cases h2 : StdMap.find? inner le with
    | none => rw [h2] at h; simp at h
    | some entries =>
      rw [h2] at h
      simp only [Option.getD_some] at h
      simp only [vectorAt, h2, h]

theorem keyedStartAndSizeFrom_filter_none {κ : Type} [DecidableEq κ] (start : Nat)
    (a : List (κ × Nat)) (key : κ) (h : ∀ x ∈ a, x.1 ≠ key) :
    (keyedStartAndSizeFrom start a).filter (fun e => decide (e.1 = key)) = [] := by
  induction a generalizing start with
  | nil => rfl
  | cons x rest ih =>
    obtain ⟨k, length⟩ := x
    have hk : k ≠ key := h (k, length) (List.mem_cons_self _ _)
    simp only [keyedStartAndSizeFrom, List.filter_cons, hk, decide_False, Bool.false_eq_true,
      if_false]
    exact ih _ (fun x hx => h x (List.mem_cons_of_mem _ hx))

theorem keyedStartAndSizeFrom_filter_all {κ : Type} [DecidableEq κ] (start : Nat)
    (a : List (κ × Nat)) (key : κ) (h : ∀ x ∈ a, x.1 = key) :
    ((keyedStartAndSizeFrom start a).filter (fun e => decide (e.1 = key))).map Prod.snd =
      startAndSizeFrom start (a.map Prod.snd) := by
  induction a generalizing start with
  | nil => rfl
  | cons x rest ih =>
    obtain ⟨k, length⟩ := x
    have hk : k = key := h (k, length) (List.mem_cons_self _ _)
    simp only [keyedStartAndSizeFrom, List.filter_cons, hk, decide_True, if_true, List.map_cons,
      startAndSizeFrom]
    rw [ih _ (fun x hx => h x (List.mem_cons_of_mem _ hx))]

theorem StdMap.ne_of_WF_append {K V : Type} [LinearOrder K] (pre post : StdMap K V)
    (p : K × V) (h : StdMap.WF (pre ++ p :: post)) :
    ∀ x ∈ pre ++ post, x.1 ≠ p.1 := by
  unfold StdMap.WF at h
  have hnodup : ((pre ++ p :: post).map Prod.fst).Nodup := h.nodup
  rw [List.map_append, List.map_cons, List.nodup_middle, List.nodup_cons] at hnodup
  intro x hx hxp
  apply hnodup.1
  rw [← hxp, ← List.map_append]
  exact List.mem_map_of_mem _ hx

theorem keyedStartAndSizeFrom_filter_middle {κ : Type} [DecidableEq κ] (start : Nat)
    (k₁ k₂ k₃ : List (κ × Nat)) (key : κ) (h₁ : ∀ x ∈ k₁, x.1 ≠ key)
    (h₂ : ∀ x ∈ k₂, x.1 = key) (h₃ : ∀ x ∈ k₃, x.1 ≠ key) :
    ((keyedStartAndSizeFrom start (k₁ ++ k₂ ++ k₃)).filter
      (fun e => decide (e.1 = key))).map Prod.snd =
      startAndSizeFrom (start + (k₁.map Prod.snd).sum) (k₂.map Prod.snd) := by
  rw [keyedStartAndSizeFrom_append, keyedStartAndSizeFrom_append, List.filter_append,
    List.filter_append, keyedStartAndSizeFrom_filter_none _ _ _ h₁,
    keyedStartAndSizeFrom_filter_none _ _ _ h₃, List.nil_append, List.append_nil,
    keyedStartAndSizeFrom_filter_all _ _ _ h₂]

theorem SortedObservationSets.keyedLengths_map_snd {T S L : Type}
    (getObservableSize : ObservableType → Nat) (m : SortedObservationSets T S L) :
    (SortedObservationSets.keyedLengths getObservableSize m).map Prod.snd =
      typeLengths getObservableSize m := by
  simp only [SortedObservationSets.keyedLengths, typeLengths, linkEndLengths, setLengths,
    List.map_flatMap, List.map_map]
  rfl

/-- After the first pass of the constructor on a well formed nested mapping, the entry
of a set in `observationSetStartAndSize_` holds the sum of the lengths of the sets that
precede it in iteration order, and its own length. -/
theorem ObservationCollection.setObservationSetIndices_lookup
    (getObservableSize : ObservableType → Nat) (m : SortedObservationSets T S L)
    (hwf : StdMap.NestedWF m) (preM : SortedObservationSets T S L)
    (p : ObservableType × StdMap L (List (SingleObservationSet T S L)))
    (postM : SortedObservationSets T S L) (hm : m = preM ++ p :: postM)
    (pre : StdMap L (List (SingleObservationSet T S L)))
    (q : L × List (SingleObservationSet T S L))
    (post : StdMap L (List (SingleObservationSet T S L))) (hp : p.2 = pre ++ q :: post)
    (r : Nat) (set : SingleObservationSet T S L) (hr : q.2.get? r = some set) :
    startAndSizeAt (ObservationCollection.setObservationSetIndices getObservableSize
        (ObservationCollection.initial m)).observationSetStartAndSize_ p.1 q.1 r =
      .ok (0 + (typeLengths getObservableSize preM).sum +
          (linkEndLengths (getObservableSize p.1) pre).sum +
          (setLengths (getObservableSize p.1) (q.2.take r)).sum,
        set.getNumberOfObservables * getObservableSize p.1) := by
  obtain ⟨-, -, -, -, -, r6⟩ :=
    ObservationCollection.setObservationSetIndices_result getObservableSize m
  obtain ⟨-, hent⟩ := r6 StdMap.NestedWF_nil
  apply startAndSizeAt_of_entriesAt
  rw [hent p.1 q.1]
  have hpm : p ∈ m := by rw [hm]; simp
  have hneM := StdMap.ne_of_WF_append preM postM p (by rw [← hm]; exact hwf.1)
  have hneP := StdMap.ne_of_WF_append pre post q (by rw [← hp]; exact hwf.2 p hpm)
  have hsplit : SortedObservationSets.keyedLengths getObservableSize m =
      (SortedObservationSets.keyedLengths getObservableSize preM ++
        pre.flatMap (fun linkEndEntry => linkEndEntry.2.map (fun set =>
          ((p.1, linkEndEntry.1), set.getNumberOfObservables * getObservableSize p.1)))) ++
      q.2.map (fun set => ((p.1, q.1), set.getNumberOfObservables * getObservableSize p.1)) ++
      (post.flatMap (fun linkEndEntry => linkEndEntry.2.map (fun set =>
          ((p.1, linkEndEntry.1), set.getNumberOfObservables * getObservableSize p.1))) ++
        SortedObservationSets.keyedLengths getObservableSize postM) := by
    rw [hm]
    simp only [SortedObservationSets.keyedLengths, List.flatMap_append, List.flatMap_cons, hp,
      List.append_assoc]
  have h₁ : ∀ x ∈ SortedObservationSets.keyedLengths getObservableSize preM ++
      pre.flatMap (fun linkEndEntry => linkEndEntry.2.map (fun set =>
        ((p.1, linkEndEntry.1), set.getNumberOfObservables * getObservableSize p.1))),
      x.1 ≠ (p.1, q.1) := by
    intro x hx hkey
    rcases List.mem_append.mp hx with hx | hx
    · simp only [SortedObservationSets.keyedLengths, List.mem_flatMap, List.mem_map] at hx
      obtain ⟨a, ha, b, -, s, -, rfl⟩ := hx
      simp only [Prod.mk.injEq] at hkey
      exact hneM a (List.mem_append_left _ ha) hkey.1
    · simp only [List.mem_flatMap, List.mem_map] at hx
      obtain ⟨b, hb, s, -, rfl⟩ := hx
      simp only [Prod.mk.injEq, true_and] at hkey
      exact hneP b (List.mem_append_left _ hb) hkey
  have h₃ : ∀ x ∈ post.flatMap (fun linkEndEntry => linkEndEntry.2.map (fun set =>
        ((p.1, linkEndEntry.1), set.getNumberOfObservables * getObservableSize p.1))) ++
      SortedObservationSets.keyedLengths getObservableSize postM,
      x.1 ≠ (p.1, q.1) := by
    intro x hx hkey
    rcases List.mem_append.mp hx with hx | hx
    · simp only [List.mem_flatMap, List.mem_map] at hx
      obtain ⟨b, hb, s, -, rfl⟩ := hx
      simp only [Prod.mk.injEq, true_and] at hkey
      exact hneP b (List.mem_append_right _ hb) hkey
    · simp only [SortedObservationSets.keyedLengths, List.mem_flatMap, List.mem_map] at hx
      obtain ⟨a, ha, b, -, s, -, rfl⟩ := hx
      simp only [Prod.mk.injEq] at hkey
      exact hneM a (List.mem_append_right _ ha) hkey.1
  have h₂ : ∀ x ∈ q.2.map (fun set =>
      ((p.1, q.1), set.getNumberOfObservables * getObservableSize p.1)),
      x.1 = (p.1, q.1) := by
    intro x hx
    simp only [List.mem_map] at hx
    obtain ⟨s, -, rfl⟩ := hx
    rfl
  have hentNil : StdMap.entriesAt
      (ObservationCollection.initial m).observationSetStartAndSize_ p.1 q.1 = [] := rfl
  rw [hentNil, List.nil_append, hsplit, keyedStartAndSizeFrom_filter_middle 0 _ _ _ _ h₁ h₂ h₃,
    startAndSizeFrom_get?]
  have hsum : ((SortedObservationSets.keyedLengths getObservableSize preM ++
      pre.flatMap (fun linkEndEntry => linkEndEntry.2.map (fun set =>
        ((p.1, linkEndEntry.1), set.getNumberOfObservables * getObservableSize p.1)))).map
      Prod.snd).sum =
      (typeLengths getObservableSize preM).sum +
        (linkEndLengths (getObservableSize p.1) pre).sum := by
    rw [List.map_append, List.sum_append, SortedObservationSets.keyedLengths_map_snd]
    congr 2
    simp only [linkEndLengths, setLengths, List.map_flatMap, List.map_map]
    rfl
  rw [hsum]
  simp only [List.get?_eq_getElem?, List.getElem?_map, List.map_map] at hr ⊢
  rw [hr]
  simp [Function.comp_def, setLengths, List.map_take, Nat.add_assoc]

end LookupLemmas


section AssemblyLemmas

variable {T S L : Type} [LinearOrder L]

theorem StdMap.Extends_modify_id {K : Type} [LinearOrder K] (ids : StdMap K Nat) (le : K)
    (hwf : StdMap.WF ids) : StdMap.Extends ids (StdMap.modify 0 id le ids) := by
  intro k v hk
  by_cases hkl : k = le
  · subst hkl
    rw [StdMap.find?_modify_self _ _ _ _ hwf, hk]
    rfl
  · rw [StdMap.find?_modify_ne _ _ _ _ _ hkl]
    exact hk

theorem setStartAndSizePerLinkEndIndexLinkEnds_buffers (ty : ObservableType)
    (entries : List (L × List (Nat × Nat))) (c : ObservationCollection T S L)
    (hwf : StdMap.WF c.linkEndIds_) :
    (setStartAndSizePerLinkEndIndexLinkEnds ty entries c).concatenatedObservations_ =
      c.concatenatedObservations_ ∧
    (setStartAndSizePerLinkEndIndexLinkEnds ty entries c).concatenatedTimes_ =
      c.concatenatedTimes_ ∧
    (setStartAndSizePerLinkEndIndexLinkEnds ty entries c).concatenatedLinkEndIds_ =
      c.concatenatedLinkEndIds_ ∧
    (setStartAndSizePerLinkEndIndexLinkEnds ty entries c).concatenatedLinkEndIdNames_ =
      c.concatenatedLinkEndIdNames_ ∧
    StdMap.WF (setStartAndSizePerLinkEndIndexLinkEnds ty entries c).linkEndIds_ ∧
    StdMap.Extends c.linkEndIds_
      (setStartAndSizePerLinkEndIndexLinkEnds ty entries c).linkEndIds_ := by
  induction entries generalizing c with
  | nil => exact ⟨rfl, rfl, rfl, rfl, hwf, StdMap.Extends_refl _⟩
  | cons entry rest ih =>
    obtain ⟨le, v⟩ := entry
    simp only [setStartAndSizePerLinkEndIndexLinkEnds]
    obtain ⟨a1, a2, a3, a4, a5, a6⟩ := ih
      { c with
        linkEndIds_ := StdMap.modify 0 id le c.linkEndIds_
        observationSetStartAndSizePerLinkEndIndex_ :=
          StdMap.modify []
            (StdMap.assign ((StdMap.find? c.linkEndIds_ le).getD 0) v) ty
            c.observationSetStartAndSizePerLinkEndIndex_ }
      (StdMap.modify_WF _ _ _ _ hwf)
    exact ⟨a1, a2, a3, a4, a5, StdMap.Extends_trans (StdMap.Extends_modify_id _ le hwf) a6⟩

theorem setStartAndSizePerLinkEndIndex_buffers
    (table : List (ObservableType × StdMap L (List (Nat × Nat))))
    (c : ObservationCollection T S L) (hwf : StdMap.WF c.linkEndIds_) :
    (setStartAndSizePerLinkEndIndex table c).concatenatedObservations_ =
      c.concatenatedObservations_ ∧
    (setStartAndSizePerLinkEndIndex table c).concatenatedTimes_ = c.concatenatedTimes_ ∧
    (setStartAndSizePerLinkEndIndex table c).concatenatedLinkEndIds_ =
      c.concatenatedLinkEndIds_ ∧
    (setStartAndSizePerLinkEndIndex table c).concatenatedLinkEndIdNames_ =
      c.concatenatedLinkEndIdNames_ ∧
    StdMap.WF (setStartAndSizePerLinkEndIndex table c).linkEndIds_ ∧
    StdMap.Extends c.linkEndIds_ (setStartAndSizePerLinkEndIndex table c).linkEndIds_ := by
  induction table generalizing c with
  | nil => exact ⟨rfl, rfl, rfl, rfl, hwf, StdMap.Extends_refl _⟩
  | cons entry rest ih =>
    obtain ⟨ty, perLinkEnds⟩ := entry
    simp only [setStartAndSizePerLinkEndIndex]
    obtain ⟨b1, b2, b3, b4, b5, b6⟩ :=
      setStartAndSizePerLinkEndIndexLinkEnds_buffers ty perLinkEnds c hwf
    obtain ⟨a1, a2, a3, a4, a5, a6⟩ := ih _ b5
    exact ⟨a1.trans b1, a2.trans b2, a3.trans b3, a4.trans b4, a5, StdMap.Extends_trans b6 a6⟩

/-- The flat buffers of a collection constructed from a well formed nested mapping of
sets that satisfy their class invariant, in closed form. -/
theorem ObservationCollection.construct_buffers [Inhabited L] [Inhabited T] [Zero S]
    (getObservableSize : ObservableType → Nat) (m : SortedObservationSets T S L)
    (c : ObservationCollection T S L)
    (h : ObservationCollection.construct getObservableSize m = .ok c)
    (hwf : StdMap.NestedWF m)
    (hvalid : ∀ p ∈ m, ∀ q ∈ p.2, ∀ set ∈ q.2,
      set.numberOfObservations_ = set.observations_.length ∧
      set.observationTimes_.length = set.observations_.length) :
    c.concatenatedObservations_ = SortedObservationSets.expectedObservations m ∧
    c.concatenatedTimes_ = SortedObservationSets.expectedTimes getObservableSize m ∧
    c.concatenatedLinkEndIds_ =
      SortedObservationSets.expectedLinkEndIds c.linkEndIds_ getObservableSize m ∧
    c.concatenatedLinkEndIdNames_ =
      SortedObservationSets.expectedLinkEndIdNames getObservableSize m ∧
    (∀ k ∈ m.flatMap (fun p => p.2.map Prod.fst), ∃ v, StdMap.find? c.linkEndIds_ k = some v) ∧
    c.totalObservableSize_ = (typeLengths getObservableSize m).sum ∧
    c.observationSetStartAndSize_ =
      (ObservationCollection.setObservationSetIndices getObservableSize
        (ObservationCollection.initial m)).observationSetStartAndSize_ := by
  have hframe := ObservationCollection.construct_indexMembers getObservableSize m c h
  have htable : c.observationSetStartAndSize_ =
      (ObservationCollection.setObservationSetIndices getObservableSize
        (ObservationCollection.initial m)).observationSetStartAndSize_ :=
    congrArg (fun t => t.2.1) hframe
  have htotalc : c.totalObservableSize_ =
      (ObservationCollection.setObservationSetIndices getObservableSize
        (ObservationCollection.initial m)).totalObservableSize_ :=
    congrArg (fun t => t.2.2.2.2.2.1) hframe
  obtain ⟨f1, f2, -, -, f5, -⟩ :=
    ObservationCollection.setObservationSetIndices_result getObservableSize m
  have htotal : (ObservationCollection.setObservationSetIndices getObservableSize
      (ObservationCollection.initial m)).totalObservableSize_ =
      (typeLengths getObservableSize m).sum := by
    rw [f5, SortedObservationSets.keyedLengths_map_snd]
    simp [ObservationCollection.initial]
  have g2 : (ObservationCollection.setObservationSetIndices getObservableSize
      (ObservationCollection.initial m)).concatenatedTimes_ = [] :=
    congrArg (fun t => t.2.1) f2
  have g3 : (ObservationCollection.setObservationSetIndices getObservableSize
      (ObservationCollection.initial m)).concatenatedLinkEndIds_ = [] :=
    congrArg (fun t => t.2.2.2.1) f2
  have g4 : (ObservationCollection.setObservationSetIndices getObservableSize
      (ObservationCollection.initial m)).concatenatedLinkEndIdNames_ = [] :=
    congrArg (fun t => t.2.2.2.2.1) f2
  have g5 : (ObservationCollection.setObservationSetIndices getObservableSize
      (ObservationCollection.initial m)).linkEndIds_ = [] :=
    congrArg (fun t => t.2.2.2.2.2.2.1) f2
  have f1' : (ObservationCollection.setObservationSetIndices getObservableSize
      (ObservationCollection.initial m)).observationSetList_ = m := f1
  unfold ObservationCollection.construct
    ObservationCollection.setConcatenatedObservationsAndTimes at h
  generalize hc₂ : ({ ObservationCollection.setObservationSetIndices getObservableSize
        (ObservationCollection.initial m) with
      concatenatedObservations_ :=
        List.replicate (ObservationCollection.setObservationSetIndices getObservableSize
          (ObservationCollection.initial m)).totalObservableSize_ 0
      concatenatedTimes_ :=
        vectorResize (ObservationCollection.setObservationSetIndices getObservableSize
          (ObservationCollection.initial m)).concatenatedTimes_
          (ObservationCollection.setObservationSetIndices getObservableSize
            (ObservationCollection.initial m)).totalObservableSize_ default
      concatenatedLinkEndIds_ :=
        vectorResize (ObservationCollection.setObservationSetIndices getObservableSize
          (ObservationCollection.initial m)).concatenatedLinkEndIds_
          (ObservationCollection.setObservationSetIndices getObservableSize
            (ObservationCollection.initial m)).totalObservableSize_ 0
      concatenatedLinkEndIdNames_ :=
        vectorResize (ObservationCollection.setObservationSetIndices getObservableSize
          (ObservationCollection.initial m)).concatenatedLinkEndIdNames_
          (ObservationCollection.setObservationSetIndices getObservableSize
            (ObservationCollection.initial m)).totalObservableSize_ default } :
      ObservationCollection T S L) = c₂ at h
  have e1 : c₂.concatenatedObservations_ =
      List.replicate (typeLengths getObservableSize m).sum 0 := by
    rw [← hc₂, ← htotal]
  have e2 : c₂.concatenatedTimes_ =
      List.replicate (typeLengths getObservableSize m).sum default := by
    rw [← hc₂, ← htotal]
    show vectorResize _ _ _ = _
    rw [g2]
    simp [vectorResize]
  have e3 : c₂.concatenatedLinkEndIds_ =
      List.replicate (typeLengths getObservableSize m).sum 0 := by
    rw [← hc₂, ← htotal]
    show vectorResize _ _ _ = _
    rw [g3]
    simp [vectorResize]
  have e4 : c₂.concatenatedLinkEndIdNames_ =
      List.replicate (typeLengths getObservableSize m).sum default := by
    rw [← hc₂, ← htotal]
    show vectorResize _ _ _ = _
    rw [g4]
    simp [vectorResize]
  have e5 : c₂.linkEndIds_ = [] := by
    rw [← hc₂]
    exact g5
  have e6 : c₂.observationSetStartAndSize_ =
      (ObservationCollection.setObservationSetIndices getObservableSize
        (ObservationCollection.initial m)).observationSetStartAndSize_ := by
    rw [← hc₂]
  rw [f1'] at h
  split at h
  · simp at h
  · rename_i after hafter
    simp only [Except.ok.injEq] at h
    have hresult := setConcatenatedTypes_result getObservableSize m c₂ 0 0
      (typeLengths getObservableSize m).sum after
      (fun preM p postM hm pre q post hp r set hr => by
        rw [e6]
        exact ObservationCollection.setObservationSetIndices_lookup getObservableSize m hwf
          preM p postM hm pre q post hp r set hr)
      hvalid
      ⟨by rw [e1]; simp, by rw [e2]; simp, by rw [e3]; simp, by rw [e4]; simp⟩
      (Nat.zero_le _) (by rw [e5]; simp [StdMap.WF]) hafter
    obtain ⟨-, -, k3, k4, k5, k6, k7, k8, k9, k10, -, k12, k13, -, -⟩ := hresult
    obtain ⟨b1, b2, b3, b4, b5, b6⟩ :=
      setStartAndSizePerLinkEndIndex_buffers after.1.observationSetStartAndSize_ after.1 k10
    rw [h] at b1 b2 b3 b4 b5 b6
    refine ⟨?_, ?_, ?_, ?_, ?_, htotalc.trans htotal, htable⟩
    · rw [b1, k7, e1]
      exact overwrite_all _ _ (by simp [k3])
    · rw [b2, k8, e2]
      exact overwrite_all _ _ (by simp [k4])
    · rw [b3, k13 _ b6, e3]
      exact overwrite_all _ _ (by simp [k6])
    · rw [b4, k9, e4]
      exact overwrite_all _ _ (by simp [k5])
    · intro k hk
      obtain ⟨v, hv⟩ := k12 k hk
      exact ⟨v, b6 k v hv⟩

end AssemblyLemmas

section ReadoutLemmas

variable {T S L α : Type}

theorem get?_append_middle (a b c : List α) (x : Nat) (hx : x < b.length) :
    (a ++ b ++ c).get? (a.length + x) = b.get? x := by
  simp only [List.get?_eq_getElem?, List.append_assoc]
  rw [List.getElem?_append_right (by omega), Nat.add_sub_cancel_left,
    List.getElem?_append_left hx]

theorem flatBlocks_sets_length (size : Nat) (block : SingleObservationSet T S L → List α)
    (sets : List (SingleObservationSet T S L))
    (h : ∀ set ∈ sets, (block set).length = set.getNumberOfObservables * size) :
    (sets.flatMap block).length = (setLengths size sets).sum := by
  induction sets with
  | nil => rfl
  | cons set rest ih =>
    simp only [List.flatMap_cons, List.length_append, setLengths, List.map_cons, List.sum_cons,
      h set (List.mem_cons_self _ _)]
    rw [ih (fun x hx => h x (List.mem_cons_of_mem _ hx))]
    rfl

theorem flatBlocks_linkEnds_length (size : Nat)
    (block : L → SingleObservationSet T S L → List α)
    (list : List (L × List (SingleObservationSet T S L)))
    (h : ∀ q ∈ list, ∀ set ∈ q.2, (block q.1 set).length = set.getNumberOfObservables * size) :
    (list.flatMap (fun q => q.2.flatMap (block q.1))).length =
      (linkEndLengths size list).sum := by
  induction list with
  | nil => rfl
  | cons q rest ih =>
    simp only [List.flatMap_cons, List.length_append, linkEndLengths, List.sum_append]
    rw [flatBlocks_sets_length size (block q.1) q.2 (h q (List.mem_cons_self _ _))]
    have := ih (fun x hx => h x (List.mem_cons_of_mem _ hx))
    simp only [linkEndLengths] at this
    rw [this]

theorem SortedObservationSets.flatBlocks_length (getObservableSize : ObservableType → Nat)
    (block : ObservableType → L → SingleObservationSet T S L → List α)
    (m : SortedObservationSets T S L)
    (h : ∀ p ∈ m, ∀ q ∈ p.2, ∀ set ∈ q.2,
      (block p.1 q.1 set).length = set.getNumberOfObservables * getObservableSize p.1) :
    (SortedObservationSets.flatBlocks block m).length =
      (typeLengths getObservableSize m).sum := by
  induction m with
  | nil => rfl
  | cons p rest ih =>
    simp only [SortedObservationSets.flatBlocks, List.flatMap_cons, List.length_append,
      typeLengths, List.sum_append]
    rw [flatBlocks_linkEnds_length (getObservableSize p.1) (block p.1) p.2
      (h p (List.mem_cons_self _ _))]
    have := ih (fun x hx => h x (List.mem_cons_of_mem _ hx))
    simp only [SortedObservationSets.flatBlocks, typeLengths] at this
    rw [this]

/-- Position of the block of a set in the concatenation of all blocks. -/
theorem SortedObservationSets.flatBlocks_get? (getObservableSize : ObservableType → Nat)
    (block : ObservableType → L → SingleObservationSet T S L → List α)
    (m : SortedObservationSets T S L)
    (h : ∀ p ∈ m, ∀ q ∈ p.2, ∀ set ∈ q.2,
      (block p.1 q.1 set).length = set.getNumberOfObservables * getObservableSize p.1)
    (preM : SortedObservationSets T S L)
    (p : ObservableType × StdMap L (List (SingleObservationSet T S L)))
    (postM : SortedObservationSets T S L) (hm : m = preM ++ p :: postM)
    (pre : StdMap L (List (SingleObservationSet T S L)))
    (q : L × List (SingleObservationSet T S L))
    (post : StdMap L (List (SingleObservationSet T S L))) (hp : p.2 = pre ++ q :: post)
    (i : Nat) (set : SingleObservationSet T S L) (hi : q.2.get? i = some set)
    (x : Nat) (hx : x < (block p.1 q.1 set).length) :
    (SortedObservationSets.flatBlocks block m).get?
      (0 + (typeLengths getObservableSize preM).sum +
        (linkEndLengths (getObservableSize p.1) pre).sum +
        (setLengths (getObservableSize p.1) (q.2.take i)).sum + x) =
      (block p.1 q.1 set).get? x := by
  have hpm : p ∈ m := by rw [hm]; simp
  have hqp : q ∈ p.2 := by rw [hp]; simp
  have hilt : i < q.2.length := by
    by_contra hcon
    rw [List.get?_eq_getElem?, List.getElem?_eq_none (by omega)] at hi
    simp at hi
  have hsets : q.2 = q.2.take i ++ set :: q.2.drop (i + 1) := by
    have hget : q.2[i] = set := by
      rw [List.get?_eq_getElem?, List.getElem?_eq_getElem hilt] at hi
      exact Option.some.inj hi
    rw [← hget, List.getElem_cons_drop, List.take_append_drop]
  have hl1 : (SortedObservationSets.flatBlocks block preM).length =
      (typeLengths getObservableSize preM).sum :=
    SortedObservationSets.flatBlocks_length getObservableSize block preM
      (fun a ha => h a (by rw [hm]; exact List.mem_append_left _ ha))
  have hl2 : (pre.flatMap (fun e => e.2.flatMap (block p.1 e.1))).length =
      (linkEndLengths (getObservableSize p.1) pre).sum :=
    flatBlocks_linkEnds_length (getObservableSize p.1) (block p.1) pre
      (fun e he => h p hpm e (by rw [hp]; exact List.mem_append_left _ he))
  have hl3 : ((q.2.take i).flatMap (block p.1 q.1)).length =
      (setLengths (getObservableSize p.1) (q.2.take i)).sum :=
    flatBlocks_sets_length (getObservableSize p.1) (block p.1 q.1) (q.2.take i)
      (fun e he => h p hpm q hqp e (List.mem_of_mem_take he))
  have hsplit : SortedObservationSets.flatBlocks block m =
      (SortedObservationSets.flatBlocks block preM ++
        pre.flatMap (fun e => e.2.flatMap (block p.1 e.1)) ++
        (q.2.take i).flatMap (block p.1 q.1)) ++
      block p.1 q.1 set ++
      ((q.2.drop (i + 1)).flatMap (block p.1 q.1) ++
        post.flatMap (fun e => e.2.flatMap (block p.1 e.1)) ++
        SortedObservationSets.flatBlocks block postM) := by
    rw [hm]
    simp only [SortedObservationSets.flatBlocks, List.flatMap_append, List.flatMap_cons, hp,
      List.append_assoc]
    conv_lhs => rw [hsets]
    simp only [List.flatMap_append, List.flatMap_cons, List.append_assoc]
  have hlen : (SortedObservationSets.flatBlocks block preM ++
        pre.flatMap (fun e => e.2.flatMap (block p.1 e.1)) ++
        (q.2.take i).flatMap (block p.1 q.1)).length =
      0 + (typeLengths getObservableSize preM).sum +
        (linkEndLengths (getObservableSize p.1) pre).sum +
        (setLengths (getObservableSize p.1) (q.2.take i)).sum := by
    rw [List.length_append, List.length_append, hl1, hl2, hl3, Nat.zero_add]
  rw [hsplit, ← hlen]
  exact get?_append_middle _ _ _ x hx

theorem flatten_get?_of_length_eq (l : List (List α)) (n j k : Nat) (o : List α)
    (h : ∀ x ∈ l, x.length = n) (hj : l.get? j = some o) (hk : k < n) :
    l.flatten.get? (j * n + k) = o.get? k := by
  induction l generalizing j with
  | nil => simp at hj
  | cons a rest ih =>
    have ha : a.length = n := h a (List.mem_cons_self _ _)
    cases j with
    | zero =>
      simp only [List.get?_cons_zero, Option.some.injEq] at hj
      subst hj
      simp only [List.flatten_cons, Nat.zero_mul, Nat.zero_add, List.get?_eq_getElem?]
      rw [List.getElem?_append_left (by omega)]
    | succ j =>
      simp only [List.get?_cons_succ] at hj
      have := ih j (fun x hx => h x (List.mem_cons_of_mem _ hx)) hj
      simp only [List.flatten_cons, List.get?_eq_getElem?] at this ⊢
      rw [List.getElem?_append_right (by rw [ha, Nat.add_mul]; omega), ← this]
      congr 1
      rw [ha, Nat.add_mul]
      omega

theorem flatMap_replicate_get? (l : List α) (n j k : Nat) (t : α) (hj : l.get? j = some t)
    (hk : k < n) : (l.flatMap (List.replicate n)).get? (j * n + k) = some t := by
  induction l generalizing j with
  | nil => simp at hj
  | cons a rest ih =>
    cases j with
    | zero =>
      simp only [List.get?_cons_zero, Option.some.injEq] at hj
      subst hj
      simp only [List.flatMap_cons, Nat.zero_mul, Nat.zero_add, List.get?_eq_getElem?]
      rw [List.getElem?_append_left (by simpa using hk)]
      simp [hk]
    | succ j =>
      simp only [List.get?_cons_succ] at hj
      have := ih j hj
      simp only [List.flatMap_cons, List.get?_eq_getElem?] at this ⊢
      rw [List.getElem?_append_right (by rw [List.length_replicate, Nat.add_mul]; omega),
        ← this]
      congr 1
      rw [List.length_replicate, Nat.add_mul]
      omega

theorem replicate_sum_eq_flatMap (size : Nat) (v : α)
    (sets : List (SingleObservationSet T S L)) :
    List.replicate (setLengths size sets).sum v =
      sets.flatMap (fun set => List.replicate (set.getNumberOfObservables * size) v) := by
  induction sets with
  | nil => rfl
  | cons set rest ih =>
    simp only [setLengths, List.map_cons, List.sum_cons, List.flatMap_cons] at ih ⊢
    rw [← ih, List.append_replicate_replicate]

theorem mul_add_lt_mul (j k n size : Nat) (hj : j < n) (hk : k < size) :
    j * size + k < n * size := by
  have h1 : (j + 1) * size ≤ n * size := Nat.mul_le_mul_right size hj
  rw [Nat.add_mul, Nat.one_mul] at h1
  omega

end ReadoutLemmas

section FlatBlockLemmas

variable {T S L : Type} [LinearOrder L]

theorem SortedObservationSets.expectedLinkEndIds_eq_flatBlocks (ids : StdMap L Nat)
    (getObservableSize : ObservableType → Nat) (m : SortedObservationSets T S L) :
    SortedObservationSets.expectedLinkEndIds ids getObservableSize m =
      SortedObservationSets.flatBlocks (fun ty le set =>
        List.replicate (set.getNumberOfObservables * getObservableSize ty)
          ((StdMap.find? ids le).getD 0)) m := by
  simp only [SortedObservationSets.expectedLinkEndIds, Tudat.expectedLinkEndIds,
    SortedObservationSets.flatBlocks, replicate_sum_eq_flatMap]

end FlatBlockLemmas

section CollectionLayoutClaims

variable {T S L : Type} [LinearOrder L] [Inhabited L] [Inhabited T] [Zero S]

/-- C2: in a collection constructed from a well formed nested mapping of sets that
satisfy their class invariant and whose observation vectors have
`getObservableSize( type )` components, every set has a table entry `(start, length)`
with `length` its observation count times the observable size, and for every sample
`j` of the set and every component `k` below the observable size the position
`start + j * size + k` of `getObservationVector( )` holds component `k` of observation
`j`, of `getConcatenatedTimeVector( )` holds time `j`, and of
`getConcatenatedLinkEndIds( )` holds the identifier that `getLinkEndIdentifierMap( )`
gives to the link ends the set is stored under. -/
theorem ObservationCollection.concatenated_layout (getObservableSize : ObservableType → Nat)
    (m : SortedObservationSets T S L) (c : ObservationCollection T S L)
    (h : ObservationCollection.construct getObservableSize m = .ok c)
    (hwf : StdMap.NestedWF m)
    (hvalid : ∀ p ∈ m, ∀ q ∈ p.2, ∀ set ∈ q.2,
      set.numberOfObservations_ = set.observations_.length ∧
      set.observationTimes_.length = set.observations_.length)
    (hsize : ∀ p ∈ m, ∀ q ∈ p.2, ∀ set ∈ q.2, ∀ o ∈ set.observations_,
      o.length = getObservableSize p.1)
    (p : ObservableType × StdMap L (List (SingleObservationSet T S L))) (hp : p ∈ m)
    (q : L × List (SingleObservationSet T S L)) (hq : q ∈ p.2)
    (i : Nat) (set : SingleObservationSet T S L) (hi : q.2.get? i = some set) :
    ∃ start,
      startAndSizeAt c.getObservationSetStartAndSize p.1 q.1 i =
        .ok (start, set.getNumberOfObservables * getObservableSize p.1) ∧
      ∀ j k, j < set.getNumberOfObservables → k < getObservableSize p.1 →
        (∃ o x, set.observations_.get? j = some o ∧ o.get? k = some x ∧
          c.getObservationVector.get? (start + j * getObservableSize p.1 + k) = some x) ∧
        (∃ t, set.observationTimes_.get? j = some t ∧
          c.getConcatenatedTimeVector.get? (start + j * getObservableSize p.1 + k) = some t) ∧
        (∃ id, StdMap.find? c.getLinkEndIdentifierMap q.1 = some id ∧
          c.getConcatenatedLinkEndIds.get? (start + j * getObservableSize p.1 + k) =
            some id) := by
  obtain ⟨b1, b2, b3, -, b5, -, b7⟩ :=
    ObservationCollection.construct_buffers getObservableSize m c h hwf hvalid
  obtain ⟨preM, postM, hm⟩ := List.append_of_mem hp
  obtain ⟨pre, post, hpq⟩ := List.append_of_mem hq
  have hset : set ∈ q.2 := List.get?_mem hi
  obtain ⟨hnum, htl⟩ := hvalid p hp q hq set hset
  have hsz := hsize p hp q hq set hset
  refine ⟨0 + (typeLengths getObservableSize preM).sum +
      (linkEndLengths (getObservableSize p.1) pre).sum +
      (setLengths (getObservableSize p.1) (q.2.take i)).sum, ?_, ?_⟩
  · simp only [ObservationCollection.getObservationSetStartAndSize]
    rw [b7]
    exact ObservationCollection.setObservationSetIndices_lookup getObservableSize m hwf preM p
      postM hm pre q post hpq i set hi
  · intro j k hj hk
    simp only [SingleObservationSet.getNumberOfObservables] at hj
    have hjk : j * getObservableSize p.1 + k <
        set.getNumberOfObservables * getObservableSize p.1 :=
      mul_add_lt_mul j k _ _ hj hk
    have hjo : j < set.observations_.length := by rw [← hnum]; exact hj
    have hjt : j < set.observationTimes_.length := by rw [htl]; exact hjo
    refine ⟨?_, ?_, ?_⟩
    · have hblock : ∀ a ∈ m, ∀ b ∈ a.2, ∀ s ∈ b.2,
          s.observations_.flatten.length =
            s.getNumberOfObservables * getObservableSize a.1 := by
        intro a ha b hb s hs
        rw [length_flatten_of_length_eq _ _ (hsize a ha b hb s hs),
          SingleObservationSet.getNumberOfObservables, (hvalid a ha b hb s hs).1]
      have hread := SortedObservationSets.flatBlocks_get? getObservableSize
        (fun _ _ s => s.observations_.flatten) m hblock preM p
        postM hm pre q post hpq i set hi (j * getObservableSize p.1 + k)
        (by
          show _ < set.observations_.flatten.length
          rw [hblock p hp q hq set hset]
          exact hjk)
      have hoj : set.observations_.get? j = some set.observations_[j] := by
        simp [List.getElem?_eq_getElem hjo]
      have hkk : k < (set.observations_[j]).length := by
        rw [hsz _ (List.getElem_mem _)]
        exact hk
      refine ⟨set.observations_[j], (set.observations_[j])[k], hoj, ?_, ?_⟩
      · simp [List.getElem?_eq_getElem hkk]
      · simp only [ObservationCollection.getObservationVector]
        rw [b1, Nat.add_assoc]
        show (SortedObservationSets.flatBlocks
          (fun _ _ s => s.observations_.flatten) m).get? _ = _
        rw [hread, flatten_get?_of_length_eq _ _ _ _ _ hsz hoj hk]
        simp [List.getElem?_eq_getElem hkk]
    · have hblock : ∀ a ∈ m, ∀ b ∈ a.2, ∀ s ∈ b.2,
          (s.observationTimes_.flatMap (List.replicate (getObservableSize a.1))).length =
            s.getNumberOfObservables * getObservableSize a.1 := by
        intro a ha b hb s hs
        rw [length_flatMap_replicate, SingleObservationSet.getNumberOfObservables,
          (hvalid a ha b hb s hs).1, (hvalid a ha b hb s hs).2]
      have hread := SortedObservationSets.flatBlocks_get? getObservableSize
        (fun ty _ s => s.observationTimes_.flatMap (List.replicate (getObservableSize ty)))
        m hblock preM p postM hm pre q post hpq i set hi (j * getObservableSize p.1 + k)
        (by
          show _ < (set.observationTimes_.flatMap _).length
          rw [hblock p hp q hq set hset]
          exact hjk)
      have htj : set.observationTimes_.get? j = some set.observationTimes_[j] := by
        simp [List.getElem?_eq_getElem hjt]
      refine ⟨set.observationTimes_[j], htj, ?_⟩
      simp only [ObservationCollection.getConcatenatedTimeVector]
      rw [b2, Nat.add_assoc]
      show (SortedObservationSets.flatBlocks
        (fun ty _ s => s.observationTimes_.flatMap (List.replicate (getObservableSize ty)))
        m).get? _ = _
      rw [hread]
      exact flatMap_replicate_get? _ _ _ _ _ htj hk
    · have hkey : q.1 ∈ m.flatMap (fun a => a.2.map Prod.fst) :=
        List.mem_flatMap.mpr ⟨p, hp, List.mem_map_of_mem _ hq⟩
      obtain ⟨id, hid⟩ := b5 q.1 hkey
      have hblock : ∀ a ∈ m, ∀ b ∈ a.2, ∀ s ∈ b.2,
          (List.replicate (s.getNumberOfObservables * getObservableSize a.1)
              ((StdMap.find? c.linkEndIds_ b.1).getD 0)).length =
            s.getNumberOfObservables * getObservableSize a.1 := by
        intro a ha b hb s hs
        simp
      have hread := SortedObservationSets.flatBlocks_get? getObservableSize
        (fun ty le s => List.replicate (s.getNumberOfObservables * getObservableSize ty)
          ((StdMap.find? c.linkEndIds_ le).getD 0))
        m hblock preM p postM hm pre q post hpq i set hi (j * getObservableSize p.1 + k)
        (by
          show _ < (List.replicate _ _).length
          rw [List.length_replicate]
          exact hjk)
      refine ⟨id, hid, ?_⟩
      simp only [ObservationCollection.getConcatenatedLinkEndIds]
      rw [b3, Nat.add_assoc, SortedObservationSets.expectedLinkEndIds_eq_flatBlocks, hread]
      simp [hid, hjk]

/-- Witness of C2: the first set under observable type 2 of the example collection. -/
theorem ObservationCollection.concatenated_layout_witness :
    ∃ start,
      startAndSizeAt exampleObservationCollection.getObservationSetStartAndSize 2 4 0 =
        .ok (start, 1 * 2) ∧
      ∀ j k, j < 1 → k < 2 →
        (∃ o x, ([[30, 31]] : List (List Int)).get? j = some o ∧ o.get? k = some x ∧
          exampleObservationCollection.getObservationVector.get? (start + j * 2 + k) =
            some x) ∧
        (∃ t, ([8] : List Int).get? j = some t ∧
          exampleObservationCollection.getConcatenatedTimeVector.get? (start + j * 2 + k) =
            some t) ∧
        (∃ id, StdMap.find? exampleObservationCollection.getLinkEndIdentifierMap 4 = some id ∧
          exampleObservationCollection.getConcatenatedLinkEndIds.get? (start + j * 2 + k) =
            some id) :=
  ObservationCollection.concatenated_layout (fun ty => ty) exampleSortedObservationSets
    exampleObservationCollection exampleObservationCollection_constructed
    ⟨by simp [StdMap.WF, exampleSortedObservationSets],
      by simp [StdMap.WF, exampleSortedObservationSets]⟩
    (by
      simp [exampleSortedObservationSets]
      rintro a b (⟨rfl, rfl⟩ | ⟨rfl, rfl⟩) <;> simp)
    (by
      simp [exampleSortedObservationSets]
      rintro a b (⟨rfl, rfl⟩ | ⟨rfl, rfl⟩) <;> simp)
    (2, [(4, [⟨2, ⟨4⟩, [[30, 31]], [8], 0, [], none, none, 1, []⟩]),
         (7, [⟨2, ⟨7⟩, [[20, 21], [22, 23]], [5, 6], 0, [], none, none, 2, []⟩])])
    (by simp [exampleSortedObservationSets])
    (4, [⟨2, ⟨4⟩, [[30, 31]], [8], 0, [], none, none, 1, []⟩]) (by simp)
    0 ⟨2, ⟨4⟩, [[30, 31]], [8], 0, [], none, none, 1, []⟩ rfl

end CollectionLayoutClaims

section TimeBoundsClaims

variable {T S L : Type} [LinearOrder T]

theorem minElement_fold (rest : List T) (a : T) :
    rest.foldl (fun smallest x => if x < smallest then x else smallest) a ∈ a :: rest ∧
    ∀ t ∈ a :: rest, rest.foldl (fun smallest x => if x < smallest then x else smallest) a ≤ t := by
  induction rest generalizing a with
  | nil => simp
  | cons b rest ih =>
    simp only [List.foldl_cons]
    obtain ⟨h1, h2⟩ := ih (if b < a then b else a)
    constructor
    · rcases List.mem_cons.mp h1 with h | h
      · rw [h]
        split <;> simp
      · simp [h]
    · intro t ht
      have hle := h2 _ (List.mem_cons_self _ _)
      rcases List.mem_cons.mp ht with rfl | ht
      · refine le_trans hle ?_
        split
        · rename_i hlt
          exact le_of_lt hlt
        · exact le_refl _
      · rcases List.mem_cons.mp ht with rfl | ht
        · refine le_trans hle ?_
          split
          · exact le_refl _
          · rename_i hlt
            exact not_lt.mp hlt
        · exact h2 t (List.mem_cons_of_mem _ ht)

theorem maxElement_fold (rest : List T) (a : T) :
    rest.foldl (fun largest x => if largest < x then x else largest) a ∈ a :: rest ∧
    ∀ t ∈ a :: rest, t ≤ rest.foldl (fun largest x => if largest < x then x else largest) a := by
  induction rest generalizing a with
  | nil => simp
  | cons b rest ih =>
    simp only [List.foldl_cons]
    obtain ⟨h1, h2⟩ := ih (if a < b then b else a)
    constructor
    · rcases List.mem_cons.mp h1 with h | h
      · rw [h]
        split <;> simp
      · simp [h]
    · intro t ht
      have hle := h2 _ (List.mem_cons_self _ _)
      rcases List.mem_cons.mp ht with rfl | ht
      · refine le_trans ?_ hle
        split
        · rename_i hlt
          exact le_of_lt hlt
        · exact le_refl _
      · rcases List.mem_cons.mp ht with rfl | ht
        · refine le_trans ?_ hle
          split
          · exact le_refl _
          · rename_i hlt
            exact not_lt.mp hlt
        · exact h2 t (List.mem_cons_of_mem _ ht)

/-- On a non-empty time buffer `getTimeBounds` returns the smallest and the largest of
the concatenated times. -/
theorem ObservationCollection.getTimeBounds_of_ne_nil (c : ObservationCollection T S L)
    (h : c.concatenatedTimes_ ≠ []) :
    ∃ smallest largest, c.getTimeBounds = .ok (smallest, largest) ∧
      smallest ∈ c.getConcatenatedTimeVector ∧ largest ∈ c.getConcatenatedTimeVector ∧
      ∀ t ∈ c.getConcatenatedTimeVector, smallest ≤ t ∧ t ≤ largest := by
  unfold ObservationCollection.getTimeBounds ObservationCollection.getConcatenatedTimeVector
  cases hts : c.concatenatedTimes_ with
  | nil => exact absurd hts h
  | cons a rest =>
    obtain ⟨m1, m2⟩ := minElement_fold rest a
    obtain ⟨n1, n2⟩ := maxElement_fold rest a
    exact ⟨_, _, rfl, m1, n1, fun t ht => ⟨m2 t ht, n2 t ht⟩⟩

/-- On an empty time buffer `getTimeBounds` dereferences the end iterator. -/
theorem ObservationCollection.getTimeBounds_of_nil (c : ObservationCollection T S L)
    (h : c.concatenatedTimes_ = []) : c.getTimeBounds = .error .undefinedBehaviour := by
  unfold ObservationCollection.getTimeBounds
  rw [h]
  rfl

/-- C12, at the failing input: the collection constructed from the empty nested mapping
(the default argument of the constructor) has an empty time buffer, and `getTimeBounds`
on it dereferences the end iterator that `std::min_element` returns for an empty range,
which is undefined behaviour and raises no exception; the claim requires an error. -/
theorem ObservationCollection.getTimeBounds_empty_collection :
    ∃ c : ObservationCollection Int Int Nat,
      ObservationCollection.construct (fun ty => ty) [] = .ok c ∧
      c.getConcatenatedTimeVector = [] ∧
      c.getTimeBounds = .error .undefinedBehaviour ∧
      Error.isException .undefinedBehaviour = false :=
  ⟨_, rfl, rfl, rfl, rfl⟩

end TimeBoundsClaims

section LinkEndIdLemmas

variable {T S L : Type} [LinearOrder L]

theorem StdMap.count_eq_zero_iff {K V : Type} [LinearOrder K] (m : StdMap K V) (k : K) :
    StdMap.count m k = 0 ↔ StdMap.find? m k = none := by
  unfold StdMap.count
  cases StdMap.find? m k <;> simp

theorem get?_append_singleton {α : Type} (l : List α) (a b : α) (i : Nat) :
    (l ++ [a]).get? i = some b ↔ l.get? i = some b ∨ (i = l.length ∧ a = b) := by
  simp only [List.get?_eq_getElem?]
  rcases Nat.lt_trichotomy i l.length with h | h | h
  · rw [List.getElem?_append_left h]
    constructor
    · exact Or.inl
    · rintro (h' | ⟨h', -⟩)
      · exact h'
      · omega
  · subst h
    rw [List.getElem?_append_right (le_refl _)]
    simp
  · rw [List.getElem?_append_right (le_of_lt h)]
    have h1 : l[i]? = none := List.getElem?_eq_none (le_of_lt h)
    have h2 : [a][i - l.length]? = none := List.getElem?_eq_none (by simp; omega)
    rw [h1, h2]
    constructor
    · intro h'
      simp at h'
    · rintro (h' | ⟨h', -⟩)
      · simp at h'
      · omega

/-- Step of `setConcatenatedObservationsAndTimes` on the identifier maps: link ends
that have no identifier get the next free one, which is the number of link ends met
before. -/
theorem LinkEndIdsNumbered_step (ids : StdMap L Nat) (inverse : StdMap Nat L) (order : List L)
    (le : L) (h : LinkEndIdsNumbered ids inverse order) :
    LinkEndIdsNumbered
      (if StdMap.count ids le = 0 then StdMap.assign le order.length ids else ids)
      (if StdMap.count ids le = 0 then StdMap.assign order.length le inverse else inverse)
      (meetLinkEnds order le) := by
  obtain ⟨w1, w2, w3, w4⟩ := h
  cases hf : StdMap.find? ids le with
  | some v =>
    have hcount : ¬ StdMap.count ids le = 0 := by
      rw [StdMap.count_eq_zero_iff, hf]
      simp
    have hmem : le ∈ order := List.get?_mem ((w3 le v).mp hf)
    simp only [hcount, if_false, meetLinkEnds, hmem, if_true]
    exact ⟨w1, w2, w3, w4⟩
  | none =>
    have hcount : StdMap.count ids le = 0 := (StdMap.count_eq_zero_iff _ _).mpr hf
    have hmem : le ∉ order := by
      intro hmem
      obtain ⟨i, hi⟩ := List.mem_iff_get?.mp hmem
      rw [(w3 le i).mpr hi] at hf
      simp at hf
    have hnone : order.get? order.length = none := by simp
    simp only [hcount, if_true, meetLinkEnds, hmem, if_false]
    refine ⟨StdMap.modify_WF _ _ _ _ w1, StdMap.modify_WF _ _ _ _ w2, ?_, ?_⟩
    · intro le' i
      rw [get?_append_singleton]
      unfold StdMap.assign
      by_cases hle : le' = le
      · subst hle
        rw [StdMap.find?_modify_self _ _ _ _ w1]
        constructor
        · intro hi
          simp only [Option.some.injEq] at hi
          exact Or.inr ⟨hi.symm, rfl⟩
        · rintro (hi | ⟨hi, -⟩)
          · exact absurd (List.get?_mem hi) hmem
          · rw [hi]
      · rw [StdMap.find?_modify_ne _ _ _ _ _ hle, w3]
        constructor
        · exact Or.inl
        · rintro (hi | ⟨-, hi⟩)
          · exact hi
          · exact absurd hi.symm hle
    · intro i le'
      rw [get?_append_singleton]
      unfold StdMap.assign
      by_cases hi : i = order.length
      · subst hi
        rw [StdMap.find?_modify_self _ _ _ _ w2, hnone]
        constructor
        · intro h'
          simp only [Option.some.injEq] at h'
          exact Or.inr ⟨rfl, h'⟩
        · rintro (h' | ⟨-, h'⟩)
          · simp at h'
          · rw [h']
      · rw [StdMap.find?_modify_ne _ _ _ _ _ hi, w4]
        constructor
        · exact Or.inl
        · rintro (h' | ⟨h', -⟩)
          · exact h'
          · exact absurd h' hi

end LinkEndIdLemmas

section LinkEndIdLoopLemmas

variable {T S L : Type}

theorem setConcatenatedComponents_linkEndIds (times : List T) (j stationId : Nat)
    (linkEnds : L) (count : Nat) (state state' : ObservationCollection T S L × Nat)
    (h : setConcatenatedComponents times j stationId linkEnds count state = .ok state') :
    state'.1.linkEndIds_ = state.1.linkEndIds_ ∧
    state'.1.inverseLinkEndIds_ = state.1.inverseLinkEndIds_ := by
  induction count generalizing state with
  | zero =>
    simp only [setConcatenatedComponents, Except.ok.injEq] at h
    rw [h]
    exact ⟨rfl, rfl⟩
  | succ count ih =>
    obtain ⟨c, counter⟩ := state
    simp only [setConcatenatedComponents] at h
    split at h
    · simp at h
    · split at h
      · simp at h
      · split at h
        · simp at h
        · split at h
          · simp at h
          · have hrest := ih _ h
            exact hrest

theorem setConcatenatedSamples_linkEndIds (observableSize : Nat) (times : List T)
    (stationId : Nat) (linkEnds : L) (observations : List (List S)) (j : Nat)
    (state state' : List S × ObservationCollection T S L × Nat)
    (h : setConcatenatedSamples observableSize times stationId linkEnds observations j state =
      .ok state') :
    state'.2.1.linkEndIds_ = state.2.1.linkEndIds_ ∧
    state'.2.1.inverseLinkEndIds_ = state.2.1.inverseLinkEndIds_ := by
  induction observations generalizing j state with
  | nil =>
    simp only [setConcatenatedSamples, Except.ok.injEq] at h
    rw [h]
    exact ⟨rfl, rfl⟩
  | cons o rest ih =>
    obtain ⟨current, st⟩ := state
    simp only [setConcatenatedSamples] at h
    split at h
    · simp at h
    · split at h
      · simp at h
      · rename_i st' hst
        obtain ⟨a1, a2⟩ := ih _ _ h
        obtain ⟨b1, b2⟩ := setConcatenatedComponents_linkEndIds _ _ _ _ _ _ _ hst
        exact ⟨a1.trans b1, a2.trans b2⟩

theorem setConcatenatedSets_linkEndIds [LinearOrder L] [Zero S] (observableSize : Nat)
    (ty : ObservableType) (linkEnds : L) (first : LinkDefinition L) (stationId : Nat)
    (sets : List (SingleObservationSet T S L)) (i : Nat)
    (state state' : ObservationCollection T S L × Nat)
    (h : setConcatenatedSets observableSize ty linkEnds first stationId sets i state =
      .ok state') :
    state'.1.linkEndIds_ = state.1.linkEndIds_ ∧
    state'.1.inverseLinkEndIds_ = state.1.inverseLinkEndIds_ := by
  induction sets generalizing i state with
  | nil =>
    simp only [setConcatenatedSets, Except.ok.injEq] at h
    rw [h]
    exact ⟨rfl, rfl⟩
  | cons set rest ih =>
    obtain ⟨c, counter⟩ := state
    simp only [setConcatenatedSets] at h
    split at h
    · simp at h
    · split at h
      · simp at h
      · split at h
        · simp at h
        · rename_i after hafter
          split at h
          · simp at h
          · obtain ⟨a1, a2⟩ := ih _ _ h
            obtain ⟨b1, b2⟩ := setConcatenatedSamples_linkEndIds _ _ _ _ _ _ _ _ hafter
            exact ⟨a1.trans b1, a2.trans b2⟩

theorem registerLinkEnds_numbered [LinearOrder L] [Inhabited L] (ty : ObservableType) (le : L)
    (sets : List (SingleObservationSet T S L)) (c : ObservationCollection T S L)
    (order : List L) (h : LinkEndIdsNumbered c.linkEndIds_ c.inverseLinkEndIds_ order) :
    LinkEndIdsNumbered (registerLinkEnds ty le sets c order.length).1.linkEndIds_
      (registerLinkEnds ty le sets c order.length).1.inverseLinkEndIds_
      (meetLinkEnds order le) ∧
    (registerLinkEnds ty le sets c order.length).2.2 = (meetLinkEnds order le).length := by
  have hstep := LinkEndIdsNumbered_step _ _ _ le h
  have hids : (if sets.length > 0 then
      ({ c with
          linkDefinitionsPerObservable_ :=
            StdMap.modify [] (fun v => v ++ [firstLinkDefinition sets]) ty
              c.linkDefinitionsPerObservable_ } : ObservationCollection T S L)
      else c).linkEndIds_ = c.linkEndIds_ := by
    split <;> rfl
  have hinv : (if sets.length > 0 then
      ({ c with
          linkDefinitionsPerObservable_ :=
            StdMap.modify [] (fun v => v ++ [firstLinkDefinition sets]) ty
              c.linkDefinitionsPerObservable_ } : ObservationCollection T S L)
      else c).inverseLinkEndIds_ = c.inverseLinkEndIds_ := by
    split <;> rfl
  unfold registerLinkEnds
  simp only [hids, hinv]
  by_cases hcount : StdMap.count c.linkEndIds_ le = 0
  · have hmem : le ∉ order := by
      intro hmem
      obtain ⟨i, hi⟩ := List.mem_iff_get?.mp hmem
      rw [StdMap.count_eq_zero_iff, (h.2.2.1 le i).mpr hi] at hcount
      simp at hcount
    simp only [hcount, if_true] at hstep ⊢
    refine ⟨hstep, ?_⟩
    simp [meetLinkEnds, hmem]
  · have hmem : le ∈ order := by
      rw [StdMap.count_eq_zero_iff] at hcount
      cases hf : StdMap.find? c.linkEndIds_ le with
      | none => exact absurd hf hcount
      | some v => exact List.get?_mem ((h.2.2.1 le v).mp hf)
    simp only [hcount, if_false] at hstep ⊢
    rw [hids, hinv]
    refine ⟨hstep, ?_⟩
    simp [meetLinkEnds, hmem]

theorem setConcatenatedLinkEnds_numbered [LinearOrder L] [Inhabited L] [Zero S] (size : Nat)
    (ty : ObservableType) (list : List (L × List (SingleObservationSet T S L)))
    (c : ObservationCollection T S L) (counter : Nat) (order : List L)
    (state' : ObservationCollection T S L × Nat × Nat)
    (hnumbered : LinkEndIdsNumbered c.linkEndIds_ c.inverseLinkEndIds_ order)
    (h : setConcatenatedLinkEnds size ty list (c, counter, order.length) = .ok state') :
    LinkEndIdsNumbered state'.1.linkEndIds_ state'.1.inverseLinkEndIds_
      ((list.map Prod.fst).foldl meetLinkEnds order) ∧
    state'.2.2 = ((list.map Prod.fst).foldl meetLinkEnds order).length := by
  induction list generalizing c counter order with
  | nil =>
    simp only [setConcatenatedLinkEnds, Except.ok.injEq] at h
    subst h
    exact ⟨hnumbered, rfl⟩
  | cons entry rest ih =>
    obtain ⟨le, sets⟩ := entry
    simp only [setConcatenatedLinkEnds] at h
    split at h
    · simp at h
    · rename_i after hafter
      obtain ⟨g1, g2⟩ := registerLinkEnds_numbered ty le sets c order hnumbered
      obtain ⟨f1, f2⟩ := setConcatenatedSets_linkEndIds _ _ _ _ _ _ _ _ _ hafter
      rw [g2] at h
      simp only [List.map_cons, List.foldl_cons]
      apply ih after.1 after.2 (meetLinkEnds order le) _ h
      rw [f1, f2]
      exact g1

theorem setConcatenatedTypes_numbered [LinearOrder L] [Inhabited L] [Zero S]
    (getObservableSize : ObservableType → Nat) (m : SortedObservationSets T S L)
    (c : ObservationCollection T S L) (counter : Nat) (order : List L)
    (state' : ObservationCollection T S L × Nat × Nat)
    (hnumbered : LinkEndIdsNumbered c.linkEndIds_ c.inverseLinkEndIds_ order)
    (h : setConcatenatedTypes getObservableSize m (c, counter, order.length) = .ok state') :
    LinkEndIdsNumbered state'.1.linkEndIds_ state'.1.inverseLinkEndIds_
      ((SortedObservationSets.linkEndsKeys m).foldl meetLinkEnds order) ∧
    state'.2.2 = ((SortedObservationSets.linkEndsKeys m).foldl meetLinkEnds order).length := by
  induction m generalizing c counter order with
  | nil =>
    simp only [setConcatenatedTypes, Except.ok.injEq] at h
    subst h
    exact ⟨hnumbered, rfl⟩
  | cons entry rest ih =>
    obtain ⟨ty, list⟩ := entry
    simp only [setConcatenatedTypes] at h
    split at h
    · simp at h
    · rename_i after hafter
      obtain ⟨g1, g2⟩ := setConcatenatedLinkEnds_numbered _ ty list c counter order after
        hnumbered hafter
      have hafterEq : after = (after.1, after.2.1, after.2.2) := rfl
      rw [hafterEq, g2] at h
      simp only [SortedObservationSets.linkEndsKeys, List.flatMap_cons, List.foldl_append]
      exact ih after.1 after.2.1 _ g1 h

end LinkEndIdLoopLemmas

section LinkEndIdClaims

variable {T S L : Type} [LinearOrder L]

/-- The link ends met one after the other are the distinct elements of the list, in the
order of their first occurrence. -/
theorem foldl_meetLinkEnds_spec {α : Type} [DecidableEq α] (keys : List α) :
    (∀ x, x ∈ keys.foldl meetLinkEnds [] ↔ x ∈ keys) ∧
    ((keys.foldl meetLinkEnds []).map (fun x => keys.indexOf x)).Sorted (· < ·) := by
  induction keys using List.reverseRecOn with
  | nil => simp
  | append_singleton pre k ih =>
    obtain ⟨ih1, ih2⟩ := ih
    rw [List.foldl_append, List.foldl_cons, List.foldl_nil]
    have hmap : (pre.foldl meetLinkEnds []).map (fun x => (pre ++ [k]).indexOf x) =
        (pre.foldl meetLinkEnds []).map (fun x => pre.indexOf x) :=
      List.map_congr_left (fun x hx => List.indexOf_append_of_mem ((ih1 x).mp hx))
    by_cases hk : k ∈ pre.foldl meetLinkEnds []
    · simp only [meetLinkEnds, hk, if_true]
      refine ⟨?_, by rw [hmap]; exact ih2⟩
      intro x
      rw [ih1, List.mem_append, List.mem_singleton]
      constructor
      · exact Or.inl
      · rintro (hx | rfl)
        · exact hx
        · exact (ih1 x).mp hk
    · simp only [meetLinkEnds, hk, if_false]
      refine ⟨?_, ?_⟩
      · intro x
        rw [List.mem_append, List.mem_append, ih1]
      · have hkpre : k ∉ pre := fun h => hk ((ih1 k).mpr h)
        rw [List.map_append, hmap]
        unfold List.Sorted
        rw [List.pairwise_append]
        refine ⟨ih2, by simp, ?_⟩
        intro a ha b hb
        simp only [List.map_cons, List.map_nil, List.mem_singleton] at hb
        rw [hb, List.indexOf_append_of_not_mem hkpre, List.indexOf_cons_self, Nat.add_zero]
        obtain ⟨x, hx, rfl⟩ := List.mem_map.mp ha
        exact List.indexOf_lt_length.mpr ((ih1 x).mp hx)

theorem StdMap.pushBack_keys {K₁ K₂ V : Type} [LinearOrder K₁] [LinearOrder K₂]
    (Q : K₁ → K₂ → Prop) (k₁ : K₁) (k₂ : K₂) (x : V) (m : StdMap K₁ (StdMap K₂ (List V)))
    (hm : ∀ p ∈ m, ∀ q ∈ p.2, q.2 ≠ [] ∧ Q p.1 q.1) (hQ : Q k₁ k₂) :
    ∀ p ∈ StdMap.pushBack k₁ k₂ x m, ∀ q ∈ p.2, q.2 ≠ [] ∧ Q p.1 q.1 := by
  intro p hp q hq
  have inner : ∀ (old : StdMap K₂ (List V)), (∀ r ∈ old, r.2 ≠ [] ∧ Q k₁ r.1) →
      ∀ r ∈ StdMap.modify [] (fun v => v ++ [x]) k₂ old, r.2 ≠ [] ∧ Q k₁ r.1 := by
    intro old hold r hr
    rcases StdMap.mem_modify _ _ _ _ r hr with hmem | ⟨hk, hnew | ⟨v, -, hnew⟩⟩
    · exact hold r hmem
    · rw [hnew, hk]
      exact ⟨by simp, hQ⟩
    · rw [hnew, hk]
      exact ⟨by simp, hQ⟩
  rcases StdMap.mem_modify _ _ _ _ p hp with hmem | ⟨hk, hnew | ⟨v, hv, hnew⟩⟩
  · exact hm p hmem q hq
  · rw [hnew] at hq
    rw [hk]
    exact inner [] (fun r hr => absurd hr (List.not_mem_nil _)) q hq
  · rw [hnew] at hq
    rw [hk]
    exact inner v (fun r hr => hm _ hv r hr) q hq

theorem setObservationSetIndicesSets_keys (Q : ObservableType → L → Prop) (size : Nat)
    (ty : ObservableType) (le : L) (sets : List (SingleObservationSet T S L))
    (state : ObservationCollection T S L × Nat × Nat × Nat)
    (h : ∀ p ∈ state.1.observationSetStartAndSize_, ∀ q ∈ p.2, q.2 ≠ [] ∧ Q p.1 q.1)
    (hQ : Q ty le) :
    ∀ p ∈ (setObservationSetIndicesSets size ty le sets state).1.observationSetStartAndSize_,
      ∀ q ∈ p.2, q.2 ≠ [] ∧ Q p.1 q.1 := by
  induction sets generalizing state with
  | nil => exact h
  | cons set rest ih =>
    obtain ⟨c, a, b, d⟩ := state
    simp only [setObservationSetIndicesSets]
    apply ih
    exact StdMap.pushBack_keys Q ty le _ _ h hQ

theorem setObservationSetIndicesLinkEnds_keys (Q : ObservableType → L → Prop) (size : Nat)
    (ty : ObservableType) (list : List (L × List (SingleObservationSet T S L)))
    (state : ObservationCollection T S L × Nat × Nat)
    (h : ∀ p ∈ state.1.observationSetStartAndSize_, ∀ q ∈ p.2, q.2 ≠ [] ∧ Q p.1 q.1)
    (hQ : ∀ q ∈ list, Q ty q.1) :
    ∀ p ∈ (setObservationSetIndicesLinkEnds size ty list state).1.observationSetStartAndSize_,
      ∀ q ∈ p.2, q.2 ≠ [] ∧ Q p.1 q.1 := by
  induction list generalizing state with
  | nil => exact h
  | cons entry rest ih =>
    obtain ⟨le, sets⟩ := entry
    obtain ⟨c, a, b⟩ := state
    simp only [setObservationSetIndicesLinkEnds]
    apply ih _ _ (fun q hq => hQ q (List.mem_cons_of_mem _ hq))
    exact setObservationSetIndicesSets_keys Q size ty le sets _ h
      (hQ (le, sets) (List.mem_cons_self _ _))

theorem setObservationSetIndicesTypes_keys (Q : ObservableType → L → Prop)
    (getObservableSize : ObservableType → Nat) (m : SortedObservationSets T S L)
    (state : ObservationCollection T S L × Nat)
    (h : ∀ p ∈ state.1.observationSetStartAndSize_, ∀ q ∈ p.2, q.2 ≠ [] ∧ Q p.1 q.1)
    (hQ : ∀ p ∈ m, ∀ q ∈ p.2, Q p.1 q.1) :
    ∀ p ∈ (setObservationSetIndicesTypes getObservableSize m state).1.observationSetStartAndSize_,
      ∀ q ∈ p.2, q.2 ≠ [] ∧ Q p.1 q.1 := by
  induction m generalizing state with
  | nil => exact h
  | cons entry rest ih =>
    obtain ⟨ty, list⟩ := entry
    obtain ⟨c, a⟩ := state
    simp only [setObservationSetIndicesTypes]
    apply ih _ _ (fun p hp => hQ p (List.mem_cons_of_mem _ hp))
    exact setObservationSetIndicesLinkEnds_keys Q _ ty list _ h
      (hQ (ty, list) (List.mem_cons_self _ _))

/-- Every vector of `observationSetStartAndSize_` is non-empty and is stored under keys
of the nested mapping. -/
theorem ObservationCollection.setObservationSetIndices_keys
    (getObservableSize : ObservableType → Nat) (m : SortedObservationSets T S L) :
    ∀ p ∈ (ObservationCollection.setObservationSetIndices getObservableSize
        (ObservationCollection.initial m)).observationSetStartAndSize_,
      ∀ q ∈ p.2, q.2 ≠ [] ∧ ∃ p' ∈ m, p'.1 = p.1 ∧ ∃ q' ∈ p'.2, q'.1 = q.1 :=
  setObservationSetIndicesTypes_keys
    (fun ty le => ∃ p' ∈ m, p'.1 = ty ∧ ∃ q' ∈ p'.2, q'.1 = le) getObservableSize m _
    (fun _ hp => absurd hp (List.not_mem_nil _))
    (fun p hp q hq => ⟨p, hp, rfl, q, hq, rfl⟩)

theorem StdMap.modify_id_of_find? {K V : Type} [LinearOrder K] (dflt : V) (k : K)
    (m : StdMap K V) (hwf : StdMap.WF m) (v : V) (h : StdMap.find? m k = some v) :
    StdMap.modify dflt id k m = m := by
  unfold StdMap.WF at hwf
  induction m with
  | nil => simp [StdMap.find?] at h
  | cons p rest ih =>
    obtain ⟨k', v'⟩ := p
    simp only [List.map_cons, List.sorted_cons] at hwf
    unfold StdMap.modify
    split
    · rename_i hlt
      have hnone : StdMap.find? ((k', v') :: rest) k = none := by
        apply StdMap.find?_eq_none_of_lt
        intro x hx
        simp only [List.map_cons, List.mem_cons] at hx
        rcases hx with rfl | hx
        · exact hlt
        · exact lt_trans hlt (hwf.1 x hx)
      rw [hnone] at h
      simp at h
    · split
      · rename_i h1 h2
        simp only [StdMap.find?, ne_of_lt h2, if_false] at h
        rw [ih hwf.2 h]
      · rfl

theorem setStartAndSizePerLinkEndIndexLinkEnds_linkEndIds (ty : ObservableType)
    (entries : List (L × List (Nat × Nat))) (c : ObservationCollection T S L)
    (hwf : StdMap.WF c.linkEndIds_)
    (hkeys : ∀ q ∈ entries, ∃ v, StdMap.find? c.linkEndIds_ q.1 = some v) :
    (setStartAndSizePerLinkEndIndexLinkEnds ty entries c).linkEndIds_ = c.linkEndIds_ ∧
    (setStartAndSizePerLinkEndIndexLinkEnds ty entries c).inverseLinkEndIds_ =
      c.inverseLinkEndIds_ := by
  induction entries generalizing c with
  | nil => exact ⟨rfl, rfl⟩
  | cons entry rest ih =>
    obtain ⟨le, v⟩ := entry
    simp only [setStartAndSizePerLinkEndIndexLinkEnds]
    obtain ⟨w, hw⟩ := hkeys (le, v) (List.mem_cons_self _ _)
    have hsame : StdMap.modify 0 id le c.linkEndIds_ = c.linkEndIds_ :=
      StdMap.modify_id_of_find? 0 le _ hwf w hw
    obtain ⟨a1, a2⟩ := ih
      { c with
        linkEndIds_ := StdMap.modify 0 id le c.linkEndIds_
        observationSetStartAndSizePerLinkEndIndex_ :=
          StdMap.modify []
            (StdMap.assign ((StdMap.find? c.linkEndIds_ le).getD 0) v) ty
            c.observationSetStartAndSizePerLinkEndIndex_ }
      (by rw [hsame]; exact hwf)
      (fun q hq => by
        show ∃ v, StdMap.find? (StdMap.modify 0 id le c.linkEndIds_) q.1 = some v
        rw [hsame]
        exact hkeys q (List.mem_cons_of_mem _ hq))
    exact ⟨a1.trans hsame, a2⟩

theorem setStartAndSizePerLinkEndIndex_linkEndIds
    (table : List (ObservableType × StdMap L (List (Nat × Nat))))
    (c : ObservationCollection T S L) (hwf : StdMap.WF c.linkEndIds_)
    (hkeys : ∀ p ∈ table, ∀ q ∈ p.2, ∃ v, StdMap.find? c.linkEndIds_ q.1 = some v) :
    (setStartAndSizePerLinkEndIndex table c).linkEndIds_ = c.linkEndIds_ ∧
    (setStartAndSizePerLinkEndIndex table c).inverseLinkEndIds_ = c.inverseLinkEndIds_ := by
  induction table generalizing c with
  | nil => exact ⟨rfl, rfl⟩
  | cons entry rest ih =>
    obtain ⟨ty, perLinkEnds⟩ := entry
    simp only [setStartAndSizePerLinkEndIndex]
    obtain ⟨b1, b2⟩ := setStartAndSizePerLinkEndIndexLinkEnds_linkEndIds ty perLinkEnds c hwf
      (hkeys (ty, perLinkEnds) (List.mem_cons_self _ _))
    obtain ⟨a1, a2⟩ := ih _ (by rw [b1]; exact hwf)
      (fun p hp q hq => by
        rw [b1]
        exact hkeys p (List.mem_cons_of_mem _ hp) q hq)
    exact ⟨a1.trans b1, a2.trans b2⟩

/-- The identifier maps of a constructed collection number the link ends keys of the
nested mapping in the order in which the traversal first meets them. -/
theorem ObservationCollection.construct_linkEndIds [Inhabited L] [Inhabited T] [Zero S]
    (getObservableSize : ObservableType → Nat) (m : SortedObservationSets T S L)
    (c : ObservationCollection T S L)
    (h : ObservationCollection.construct getObservableSize m = .ok c) :
    LinkEndIdsNumbered c.linkEndIds_ c.inverseLinkEndIds_
      ((SortedObservationSets.linkEndsKeys m).foldl meetLinkEnds []) := by
  obtain ⟨f1, f2, -, -, -, -⟩ :=
    ObservationCollection.setObservationSetIndices_result getObservableSize m
  have g5 : (ObservationCollection.setObservationSetIndices getObservableSize
      (ObservationCollection.initial m)).linkEndIds_ = [] :=
    congrArg (fun t => t.2.2.2.2.2.2.1) f2
  have g6 : (ObservationCollection.setObservationSetIndices getObservableSize
      (ObservationCollection.initial m)).inverseLinkEndIds_ = [] :=
    congrArg (fun t => t.2.2.2.2.2.2.2.1) f2
  have f1' : (ObservationCollection.setObservationSetIndices getObservableSize
      (ObservationCollection.initial m)).observationSetList_ = m := f1
  have hkeysTable := ObservationCollection.setObservationSetIndices_keys getObservableSize m
  unfold ObservationCollection.construct
    ObservationCollection.setConcatenatedObservationsAndTimes at h
  rw [f1'] at h
  split at h
  · simp at h
  · rename_i after hafter
    simp only [Except.ok.injEq] at h
    have hnumbered := (setConcatenatedTypes_numbered getObservableSize m _ 0 [] after
      ⟨by rw [g5]; simp [StdMap.WF], by rw [g6]; simp [StdMap.WF],
        fun le i => by rw [g5]; simp [StdMap.find?],
        fun i le => by rw [g6]; simp [StdMap.find?]⟩ hafter).1
    have htable : after.1.observationSetStartAndSize_ =
        (ObservationCollection.setObservationSetIndices getObservableSize
          (ObservationCollection.initial m)).observationSetStartAndSize_ :=
      congrArg (fun t => t.2.1) (setConcatenatedTypes_indexMembers _ _ _ _ hafter)
    obtain ⟨b1, b2⟩ := setStartAndSizePerLinkEndIndex_linkEndIds
      after.1.observationSetStartAndSize_ after.1 hnumbered.1 (by
        intro p hp q hq
        rw [htable] at hp
        obtain ⟨-, p', hp', -, q', hq', hqq⟩ := hkeysTable p hp q hq
        have hmem : q.1 ∈ (SortedObservationSets.linkEndsKeys m).foldl meetLinkEnds [] := by
          rw [(foldl_meetLinkEnds_spec _).1, ← hqq]
          simp only [SortedObservationSets.linkEndsKeys, List.mem_flatMap, List.mem_map]
          exact ⟨p', hp', q', hq', rfl⟩
        obtain ⟨i, hi⟩ := List.mem_iff_get?.mp hmem
        exact ⟨i, (hnumbered.2.2.1 q.1 i).mpr hi⟩)
    rw [← h, b1, b2]
    exact hnumbered

/-- C11: in a constructed collection the link end identifier map sends the distinct link
ends keys of the nested mapping one to one onto the positions `0`, ..., `n - 1` of the
list `order` of these keys by first occurrence in the traversal (so link ends filed under
several observable types have one identifier), and the inverse identifier map is its
inverse. -/
theorem ObservationCollection.link_end_identifiers [Inhabited L] [Inhabited T] [Zero S]
    (getObservableSize : ObservableType → Nat) (m : SortedObservationSets T S L)
    (c : ObservationCollection T S L)
    (h : ObservationCollection.construct getObservableSize m = .ok c) :
    ∃ order : List L,
      (∀ le, le ∈ order ↔ le ∈ SortedObservationSets.linkEndsKeys m) ∧
      order.Nodup ∧
      (order.map (fun le => (SortedObservationSets.linkEndsKeys m).indexOf le)).Sorted
        (· < ·) ∧
      StdMap.WF c.getLinkEndIdentifierMap ∧ StdMap.WF c.getInverseLinkEndIdentifierMap ∧
      (∀ le i, StdMap.find? c.getLinkEndIdentifierMap le = some i ↔ order.get? i = some le) ∧
      (∀ i le, StdMap.find? c.getInverseLinkEndIdentifierMap i = some le ↔
        StdMap.find? c.getLinkEndIdentifierMap le = some i) := by
  obtain ⟨w1, w2, w3, w4⟩ :=
    ObservationCollection.construct_linkEndIds getObservableSize m c h
  obtain ⟨s1, s2⟩ := foldl_meetLinkEnds_spec (SortedObservationSets.linkEndsKeys m)
  refine ⟨_, s1, ?_, s2, w1, w2, w3, fun i le => (w4 i le).trans (w3 le i).symm⟩
  have hnodup := (List.Sorted.nodup s2 : List.Nodup _)
  exact List.Nodup.of_map _ hnodup

/-- Witness of C11: the example collection, whose link ends 9, 4 and 7 are met in this
order. -/
theorem ObservationCollection.link_end_identifiers_witness :
    ObservationCollection.construct (fun ty => ty) exampleSortedObservationSets =
      .ok exampleObservationCollection ∧
    ∃ order : List Nat,
      (∀ le, le ∈ order ↔ le ∈ SortedObservationSets.linkEndsKeys exampleSortedObservationSets) ∧
      order.Nodup ∧
      (order.map (fun le =>
        (SortedObservationSets.linkEndsKeys exampleSortedObservationSets).indexOf le)).Sorted
        (· < ·) ∧
      StdMap.WF exampleObservationCollection.getLinkEndIdentifierMap ∧
      StdMap.WF exampleObservationCollection.getInverseLinkEndIdentifierMap ∧
      (∀ le i, StdMap.find? exampleObservationCollection.getLinkEndIdentifierMap le = some i ↔
        order.get? i = some le) ∧
      (∀ i le, StdMap.find? exampleObservationCollection.getInverseLinkEndIdentifierMap i =
          some le ↔
        StdMap.find? exampleObservationCollection.getLinkEndIdentifierMap le = some i) :=
  ⟨exampleObservationCollection_constructed,
    ObservationCollection.link_end_identifiers (fun ty => ty) exampleSortedObservationSets
      exampleObservationCollection exampleObservationCollection_constructed⟩

end LinkEndIdClaims

section SingleLinkLengthLemmas

variable {T S L : Type}

theorem linkEndList_expectedObservations_length (size : Nat)
    (list : List (L × List (SingleObservationSet T S L)))
    (hvalid : ∀ q ∈ list, ∀ set ∈ q.2, set.numberOfObservations_ = set.observations_.length ∧
      set.observationTimes_.length = set.observations_.length)
    (hsize : ∀ q ∈ list, ∀ set ∈ q.2, ∀ o ∈ set.observations_, o.length = size) :
    (list.flatMap (fun q => expectedObservations q.2)).length =
      (linkEndLengths size list).sum := by
  induction list with
  | nil => rfl
  | cons q rest ih =>
    simp only [List.flatMap_cons, List.length_append, linkEndLengths, List.sum_append]
    rw [expectedObservations_length size q.2 (hvalid q (List.mem_cons_self _ _))
      (hsize q (List.mem_cons_self _ _)),
      ih (fun x hx => hvalid x (List.mem_cons_of_mem _ hx))
        (fun x hx => hsize x (List.mem_cons_of_mem _ hx))]
    rfl

theorem linkEndList_expectedTimes_length (size : Nat)
    (list : List (L × List (SingleObservationSet T S L)))
    (hvalid : ∀ q ∈ list, ∀ set ∈ q.2, set.numberOfObservations_ = set.observations_.length ∧
      set.observationTimes_.length = set.observations_.length) :
    (list.flatMap (fun q => expectedTimes size q.2)).length =
      (linkEndLengths size list).sum := by
  induction list with
  | nil => rfl
  | cons q rest ih =>
    simp only [List.flatMap_cons, List.length_append, linkEndLengths, List.sum_append]
    rw [expectedTimes_length size q.2 (hvalid q (List.mem_cons_self _ _)),
      ih (fun x hx => hvalid x (List.mem_cons_of_mem _ hx))]
    rfl

theorem SortedObservationSets.expectedObservations_totalLength
    (getObservableSize : ObservableType → Nat) (m : SortedObservationSets T S L)
    (hvalid : ∀ p ∈ m, ∀ q ∈ p.2, ∀ set ∈ q.2,
      set.numberOfObservations_ = set.observations_.length ∧
      set.observationTimes_.length = set.observations_.length)
    (hsize : ∀ p ∈ m, ∀ q ∈ p.2, ∀ set ∈ q.2, ∀ o ∈ set.observations_,
      o.length = getObservableSize p.1) :
    (SortedObservationSets.expectedObservations m).length =
      (typeLengths getObservableSize m).sum := by
  induction m with
  | nil => rfl
  | cons p rest ih =>
    simp only [SortedObservationSets.expectedObservations, List.flatMap_cons,
      List.length_append, typeLengths, List.sum_append] at ih ⊢
    rw [linkEndList_expectedObservations_length (getObservableSize p.1) p.2
      (hvalid p (List.mem_cons_self _ _)) (hsize p (List.mem_cons_self _ _)),
      ih (fun x hx => hvalid x (List.mem_cons_of_mem _ hx))
        (fun x hx => hsize x (List.mem_cons_of_mem _ hx))]

theorem SortedObservationSets.expectedTimes_totalLength
    (getObservableSize : ObservableType → Nat) (m : SortedObservationSets T S L)
    (hvalid : ∀ p ∈ m, ∀ q ∈ p.2, ∀ set ∈ q.2,
      set.numberOfObservations_ = set.observations_.length ∧
      set.observationTimes_.length = set.observations_.length) :
    (SortedObservationSets.expectedTimes getObservableSize m).length =
      (typeLengths getObservableSize m).sum := by
  induction m with
  | nil => rfl
  | cons p rest ih =>
    simp only [SortedObservationSets.expectedTimes, List.flatMap_cons,
      List.length_append, typeLengths, List.sum_append] at ih ⊢
    rw [linkEndList_expectedTimes_length (getObservableSize p.1) p.2
      (hvalid p (List.mem_cons_self _ _)),
      ih (fun x hx => hvalid x (List.mem_cons_of_mem _ hx))]

end SingleLinkLengthLemmas

section SingleLinkLemmas

variable {T S L : Type} [LinearOrder L]

/-- After the first pass of the constructor on a well formed nested mapping, the vector
of `observationSetStartAndSize_` for an observable type and link ends holds consecutive
entries for the sets stored there, the first of which starts at the sum of the lengths
of the sets that precede them in iteration order. -/
theorem ObservationCollection.setObservationSetIndices_entriesAt
    (getObservableSize : ObservableType → Nat) (m : SortedObservationSets T S L)
    (hwf : StdMap.NestedWF m) (preM : SortedObservationSets T S L)
    (p : ObservableType × StdMap L (List (SingleObservationSet T S L)))
    (postM : SortedObservationSets T S L) (hm : m = preM ++ p :: postM)
    (pre : StdMap L (List (SingleObservationSet T S L)))
    (q : L × List (SingleObservationSet T S L))
    (post : StdMap L (List (SingleObservationSet T S L))) (hp : p.2 = pre ++ q :: post) :
    StdMap.entriesAt (ObservationCollection.setObservationSetIndices getObservableSize
        (ObservationCollection.initial m)).observationSetStartAndSize_ p.1 q.1 =
      startAndSizeFrom ((typeLengths getObservableSize preM).sum +
          (linkEndLengths (getObservableSize p.1) pre).sum)
        (setLengths (getObservableSize p.1) q.2) := by
  obtain ⟨-, -, -, -, -, r6⟩ :=
    ObservationCollection.setObservationSetIndices_result getObservableSize m
  obtain ⟨-, hent⟩ := r6 StdMap.NestedWF_nil
  rw [hent p.1 q.1]
  have hpm : p ∈ m := by rw [hm]; simp
  have hneM := StdMap.ne_of_WF_append preM postM p (by rw [← hm]; exact hwf.1)
  have hneP := StdMap.ne_of_WF_append pre post q (by rw [← hp]; exact hwf.2 p hpm)
  have hsplit : SortedObservationSets.keyedLengths getObservableSize m =
      (SortedObservationSets.keyedLengths getObservableSize preM ++
        pre.flatMap (fun linkEndEntry => linkEndEntry.2.map (fun set =>
          ((p.1, linkEndEntry.1), set.getNumberOfObservables * getObservableSize p.1)))) ++
      q.2.map (fun set => ((p.1, q.1), set.getNumberOfObservables * getObservableSize p.1)) ++
      (post.flatMap (fun linkEndEntry => linkEndEntry.2.map (fun set =>
          ((p.1, linkEndEntry.1), set.getNumberOfObservables * getObservableSize p.1))) ++
        SortedObservationSets.keyedLengths getObservableSize postM) := by
    rw [hm]
    simp only [SortedObservationSets.keyedLengths, List.flatMap_append, List.flatMap_cons, hp,
      List.append_assoc]
  have h₁ : ∀ x ∈ SortedObservationSets.keyedLengths getObservableSize preM ++
      pre.flatMap (fun linkEndEntry => linkEndEntry.2.map (fun set =>
        ((p.1, linkEndEntry.1), set.getNumberOfObservables * getObservableSize p.1))),
      x.1 ≠ (p.1, q.1) := by
    intro x hx hkey
    rcases List.mem_append.mp hx with hx | hx
    · simp only [SortedObservationSets.keyedLengths, List.mem_flatMap, List.mem_map] at hx
      obtain ⟨a, ha, b, -, s, -, rfl⟩ := hx
      simp only [Prod.mk.injEq] at hkey
      exact hneM a (List.mem_append_left _ ha) hkey.1
    · simp only [List.mem_flatMap, List.mem_map] at hx
      obtain ⟨b, hb, s, -, rfl⟩ := hx
      simp only [Prod.mk.injEq, true_and] at hkey
      exact hneP b (List.mem_append_left _ hb) hkey
  have h₃ : ∀ x ∈ post.flatMap (fun linkEndEntry => linkEndEntry.2.map (fun set =>
        ((p.1, linkEndEntry.1), set.getNumberOfObservables * getObservableSize p.1))) ++
      SortedObservationSets.keyedLengths getObservableSize postM,
      x.1 ≠ (p.1, q.1) := by
    intro x hx hkey
    rcases List.mem_append.mp hx with hx | hx
    · simp only [List.mem_flatMap, List.mem_map] at hx
      obtain ⟨b, hb, s, -, rfl⟩ := hx
      simp only [Prod.mk.injEq, true_and] at hkey
      exact hneP b (List.mem_append_right _ hb) hkey
    · simp only [SortedObservationSets.keyedLengths, List.mem_flatMap, List.mem_map] at hx
      obtain ⟨a, ha, b, -, s, -, rfl⟩ := hx
      simp only [Prod.mk.injEq] at hkey
      exact hneM a (List.mem_append_right _ ha) hkey.1
  have h₂ : ∀ x ∈ q.2.map (fun set =>
      ((p.1, q.1), set.getNumberOfObservables * getObservableSize p.1)),
      x.1 = (p.1, q.1) := by
    intro x hx
    simp only [List.mem_map] at hx
    obtain ⟨s, -, rfl⟩ := hx
    rfl
  have hentNil : StdMap.entriesAt
      (ObservationCollection.initial m).observationSetStartAndSize_ p.1 q.1 = [] := rfl
  rw [hentNil, List.nil_append, hsplit, keyedStartAndSizeFrom_filter_middle 0 _ _ _ _ h₁ h₂ h₃]
  have hsum : ((SortedObservationSets.keyedLengths getObservableSize preM ++
      pre.flatMap (fun linkEndEntry => linkEndEntry.2.map (fun set =>
        ((p.1, linkEndEntry.1), set.getNumberOfObservables * getObservableSize p.1)))).map
      Prod.snd).sum =
      (typeLengths getObservableSize preM).sum +
        (linkEndLengths (getObservableSize p.1) pre).sum := by
    rw [List.map_append, List.sum_append, SortedObservationSets.keyedLengths_map_snd]
    congr 2
    simp only [linkEndLengths, setLengths, List.map_flatMap, List.map_map]
    rfl
  rw [hsum, Nat.zero_add]
  simp [setLengths, Function.comp_def]

/-- Observable types and link ends without a set have no entries in
`observationSetStartAndSize_`. -/
theorem ObservationCollection.setObservationSetIndices_entriesAt_nil
    (getObservableSize : ObservableType → Nat) (m : SortedObservationSets T S L)
    (ty : ObservableType) (le : L)
    (hnone : ∀ p ∈ m, ∀ q ∈ p.2, p.1 = ty → q.1 = le → q.2 = []) :
    StdMap.entriesAt (ObservationCollection.setObservationSetIndices getObservableSize
        (ObservationCollection.initial m)).observationSetStartAndSize_ ty le = [] := by
  obtain ⟨-, -, -, -, -, r6⟩ :=
    ObservationCollection.setObservationSetIndices_result getObservableSize m
  obtain ⟨-, hent⟩ := r6 StdMap.NestedWF_nil
  rw [hent ty le]
  have hentNil : StdMap.entriesAt
      (ObservationCollection.initial m).observationSetStartAndSize_ ty le = [] := rfl
  rw [hentNil, List.nil_append, keyedStartAndSizeFrom_filter_none]
  · rfl
  · intro x hx hkey
    simp only [SortedObservationSets.keyedLengths, List.mem_flatMap, List.mem_map] at hx
    obtain ⟨a, ha, b, hb, s, hs, rfl⟩ := hx
    simp only [Prod.mk.injEq] at hkey
    rw [hnone a ha b hb hkey.1 hkey.2] at hs
    exact absurd hs (List.not_mem_nil _)

theorem getSegment_middle {α : Type} (a b d : List α) :
    getSegment (a ++ b ++ d) a.length b.length = .ok b := by
  unfold getSegment
  rw [if_pos (by simp only [List.length_append]; omega)]
  simp [List.append_assoc]

theorem vectorRange_middle {α : Type} (a b d : List α) :
    vectorRange (a ++ b ++ d) a.length (a.length + b.length) = .ok b := by
  unfold vectorRange
  rw [if_pos ⟨by omega, by simp only [List.length_append]; omega⟩]
  simp [List.append_assoc]

/-- Outcome of the common part of `getSingleLinkObservations` and `getSingleLinkTimes`
when the table holds consecutive entries for a non-empty list of lengths. -/
theorem ObservationCollection.getSingleLinkStartAndSize_of_entriesAt
    (c : ObservationCollection T S L) (ty : ObservableType) (le : LinkDefinition L)
    (start : Nat) (lengths : List Nat) (hne : lengths ≠ [])
    (h : StdMap.entriesAt c.observationSetStartAndSize_ ty le.linkEnds_ =
      startAndSizeFrom start lengths) :
    c.getSingleLinkStartAndSize ty le = .ok (start, (lengths.sum : Int)) := by
  have hlen : 0 < lengths.length := List.length_pos.mpr hne
  have hfirst : (startAndSizeFrom start lengths).get? 0 =
      some (start, lengths.get ⟨0, hlen⟩) := by
    rw [startAndSizeFrom_get?]
    simp [List.get?_eq_get hlen]
  have hlast : (startAndSizeFrom start lengths).get? (lengths.length - 1) =
      some (start + (lengths.take (lengths.length - 1)).sum,
        lengths.get ⟨lengths.length - 1, by omega⟩) := by
    rw [startAndSizeFrom_get?]
    simp [List.get?_eq_get (show lengths.length - 1 < lengths.length by omega)]
  have hsum : (lengths.take (lengths.length - 1)).sum +
      lengths.get ⟨lengths.length - 1, by omega⟩ = lengths.sum := by
    conv_rhs => rw [← List.take_append_drop (lengths.length - 1) lengths]
    rw [List.sum_append, List.drop_eq_getElem_cons (show lengths.length - 1 < lengths.length
      by omega)]
    have : lengths.length - 1 + 1 = lengths.length := by omega
    simp [this]
  unfold StdMap.entriesAt at h
  unfold ObservationCollection.getSingleLinkStartAndSize StdMap.count StdMap.at
  cases h1 : StdMap.find? c.observationSetStartAndSize_ ty with
  | none =>
    rw [h1] at h
    simp only [Option.getD_none, StdMap.find?] at h
    rw [← h] at hfirst
    simp at hfirst
  | some inner =>
    rw [h1] at h
    simp only [Option.getD_some] at h
    cases h2 : StdMap.find? inner le.linkEnds_ with
    | none =>
      rw [h2] at h
      simp only [Option.getD_none] at h
      rw [← h] at hfirst
      simp at hfirst
    | some entries =>
      rw [h2] at h
      simp only [Option.getD_some] at h
      subst h
      simp only [h2, Nat.succ_ne_zero, if_false, vectorAt, hfirst, startAndSizeFrom_length,
        hlast, Except.ok.injEq, Prod.mk.injEq, true_and]
      have key : ∀ (x y z : Nat), x + y = z →
          ((start + x : Nat) : Int) - (start : Int) + (y : Int) = (z : Int) := by
        intro x y z hxyz
        omega
      exact key _ _ _ hsum

/-- Outcome of the common part of `getSingleLinkObservations` and `getSingleLinkTimes`
when the table has no entry for the observable type and link ends. -/
theorem ObservationCollection.getSingleLinkStartAndSize_of_entriesAt_nil
    (c : ObservationCollection T S L) (ty : ObservableType) (le : LinkDefinition L)
    (hkeys : ∀ p ∈ c.observationSetStartAndSize_, ∀ q ∈ p.2, q.2 ≠ [])
    (h : StdMap.entriesAt c.observationSetStartAndSize_ ty le.linkEnds_ = []) :
    c.getSingleLinkStartAndSize ty le = .error .noObservationsOfType ∨
    c.getSingleLinkStartAndSize ty le = .error .noObservationsForLinkEnds := by
  unfold StdMap.entriesAt at h
  unfold ObservationCollection.getSingleLinkStartAndSize StdMap.count StdMap.at
  cases h1 : StdMap.find? c.observationSetStartAndSize_ ty with
  | none => exact Or.inl (by simp)
  | some inner =>
    rw [h1] at h
    simp only [Option.getD_some] at h
    cases h2 : StdMap.find? inner le.linkEnds_ with
    | none => exact Or.inr (by simp [h2])
    | some entries =>
      rw [h2] at h
      simp only [Option.getD_some] at h
      exact absurd h (hkeys _ (StdMap.mem_of_find? _ _ _ h1) _ (StdMap.mem_of_find? _ _ _ h2))

/-- C13: on a collection constructed from a well formed nested mapping of sets that
satisfy their class invariant and hold observations of the size of their observable type,
`getSingleLinkObservations` and `getSingleLinkTimes` throw when no set is stored under
the observable type and link ends; otherwise they return the concatenation, in set
order, of the observations (component after component) and of the times (once per
component) of the sets stored there, and the length of either is the sum of the lengths
in the table entries of these sets. -/
theorem ObservationCollection.single_link_observations_and_times [Inhabited L] [Inhabited T]
    [Zero S] (getObservableSize : ObservableType → Nat) (m : SortedObservationSets T S L)
    (c : ObservationCollection T S L)
    (h : ObservationCollection.construct getObservableSize m = .ok c)
    (hwf : StdMap.NestedWF m)
    (hvalid : ∀ p ∈ m, ∀ q ∈ p.2, ∀ set ∈ q.2,
      set.numberOfObservations_ = set.observations_.length ∧
      set.observationTimes_.length = set.observations_.length)
    (hsize : ∀ p ∈ m, ∀ q ∈ p.2, ∀ set ∈ q.2, ∀ o ∈ set.observations_,
      o.length = getObservableSize p.1)
    (ty : ObservableType) (le : LinkDefinition L) :
    (StdMap.entriesAt c.getObservations ty le.linkEnds_ = [] →
      (∃ e, c.getSingleLinkObservations ty le = .error e ∧ e.isException = true) ∧
      (∃ e, c.getSingleLinkTimes ty le = .error e ∧ e.isException = true)) ∧
    (StdMap.entriesAt c.getObservations ty le.linkEnds_ ≠ [] →
      c.getSingleLinkObservations ty le =
        .ok (expectedObservations (StdMap.entriesAt c.getObservations ty le.linkEnds_)) ∧
      c.getSingleLinkTimes ty le =
        .ok (expectedTimes (getObservableSize ty)
          (StdMap.entriesAt c.getObservations ty le.linkEnds_)) ∧
      (expectedObservations (StdMap.entriesAt c.getObservations ty le.linkEnds_)).length =
        ((StdMap.entriesAt c.getObservationSetStartAndSize ty le.linkEnds_).map Prod.snd).sum ∧
      (expectedTimes (getObservableSize ty)
          (StdMap.entriesAt c.getObservations ty le.linkEnds_)).length =
        ((StdMap.entriesAt c.getObservationSetStartAndSize ty le.linkEnds_).map
          Prod.snd).sum) := by
  have hlist := ObservationCollection.construct_observationSetList getObservableSize m c h
  obtain ⟨b1, b2, -, -, -, -, b7⟩ :=
    ObservationCollection.construct_buffers getObservableSize m c h hwf hvalid
  unfold ObservationCollection.getObservations ObservationCollection.getObservationSetStartAndSize
  rw [hlist]
  constructor
  · intro hnil
    have htable : StdMap.entriesAt c.observationSetStartAndSize_ ty le.linkEnds_ = [] := by
      rw [b7]
      apply ObservationCollection.setObservationSetIndices_entriesAt_nil
      intro p hp q hq hpty hqle
      have := StdMap.entriesAt_of_mem m hwf p hp q hq
      rw [hpty, hqle, hnil] at this
      exact this.symm
    have hkeys : ∀ p ∈ c.observationSetStartAndSize_, ∀ q ∈ p.2, q.2 ≠ [] := by
      rw [b7]
      intro p hp q hq
      exact (ObservationCollection.setObservationSetIndices_keys getObservableSize m p hp q
        hq).1
    unfold ObservationCollection.getSingleLinkObservations
      ObservationCollection.getSingleLinkTimes
    rcases ObservationCollection.getSingleLinkStartAndSize_of_entriesAt_nil c ty le hkeys
      htable with hfail | hfail <;> rw [hfail] <;> exact ⟨⟨_, rfl, rfl⟩, ⟨_, rfl, rfl⟩⟩
  · intro hne
    unfold StdMap.entriesAt at hne ⊢
    cases h1 : StdMap.find? m ty with
    | none =>
      rw [h1] at hne
      simp [StdMap.find?] at hne
    | some inner =>
      rw [h1] at hne
      simp only [Option.getD_some] at hne ⊢
      cases h2 : StdMap.find? inner le.linkEnds_ with
      | none =>
        rw [h2] at hne
        simp at hne
      | some sets =>
        rw [h2] at hne
        simp only [Option.getD_some] at hne ⊢
        have hp : (ty, inner) ∈ m := StdMap.mem_of_find? _ _ _ h1
        have hq : (le.linkEnds_, sets) ∈ inner := StdMap.mem_of_find? _ _ _ h2
        obtain ⟨preM, postM, hm⟩ := List.append_of_mem hp
        obtain ⟨pre, post, hinner⟩ := List.append_of_mem hq
        have hvalidPreM : ∀ p ∈ preM, ∀ q ∈ p.2, ∀ set ∈ q.2,
            set.numberOfObservations_ = set.observations_.length ∧
            set.observationTimes_.length = set.observations_.length :=
          fun p hp => hvalid p (by rw [hm]; exact List.mem_append_left _ hp)
        have hsizePreM : ∀ p ∈ preM, ∀ q ∈ p.2, ∀ set ∈ q.2, ∀ o ∈ set.observations_,
            o.length = getObservableSize p.1 :=
          fun p hp => hsize p (by rw [hm]; exact List.mem_append_left _ hp)
        have hvalidPre : ∀ q ∈ pre, ∀ set ∈ q.2,
            set.numberOfObservations_ = set.observations_.length ∧
            set.observationTimes_.length = set.observations_.length :=
          fun q hq' => hvalid (ty, inner) hp q (by rw [hinner]; exact List.mem_append_left _ hq')
        have hsizePre : ∀ q ∈ pre, ∀ set ∈ q.2, ∀ o ∈ set.observations_,
            o.length = getObservableSize ty :=
          fun q hq' => hsize (ty, inner) hp q (by rw [hinner]; exact List.mem_append_left _ hq')
        have hentries := ObservationCollection.setObservationSetIndices_entriesAt
          getObservableSize m hwf preM (ty, inner) postM hm pre (le.linkEnds_, sets) post hinner
        rw [← b7] at hentries
        have hlengths : setLengths (getObservableSize ty) sets ≠ [] := by
          intro hnil
          apply hne
          simpa [setLengths] using hnil
        have hstart := ObservationCollection.getSingleLinkStartAndSize_of_entriesAt c ty le _ _
          hlengths hentries
        have hobsLen := expectedObservations_length (getObservableSize ty) sets
          (hvalid (ty, inner) hp _ hq) (hsize (ty, inner) hp _ hq)
        have htimesLen := expectedTimes_length (getObservableSize ty) sets
          (hvalid (ty, inner) hp _ hq)
        have hsumEntries : ((StdMap.find? ((StdMap.find? c.observationSetStartAndSize_
            ty).getD []) le.linkEnds_).getD []).map Prod.snd =
            setLengths (getObservableSize ty) sets := by
          have := hentries
          unfold StdMap.entriesAt at this
          rw [this, startAndSizeFrom_map_snd]
        have hnonneg : ¬ (((setLengths (getObservableSize ty) sets).sum : Nat) : Int) < 0 := by
          omega
        refine ⟨?_, ?_, ?_, ?_⟩
        · unfold ObservationCollection.getSingleLinkObservations
          rw [hstart]
          simp only [hnonneg, if_false, Int.toNat_ofNat]
          have hsplit : c.concatenatedObservations_ =
              (SortedObservationSets.expectedObservations preM ++
                pre.flatMap (fun q => expectedObservations q.2)) ++
              expectedObservations sets ++
              (post.flatMap (fun q => expectedObservations q.2) ++
                SortedObservationSets.expectedObservations postM) := by
            rw [b1, hm, hinner]
            simp only [SortedObservationSets.expectedObservations, List.flatMap_append,
              List.flatMap_cons, List.append_assoc]
          have hA : (SortedObservationSets.expectedObservations preM ++
              pre.flatMap (fun q => expectedObservations q.2)).length =
              (typeLengths getObservableSize preM).sum +
                (linkEndLengths (getObservableSize ty) pre).sum := by
            rw [List.length_append,
              SortedObservationSets.expectedObservations_totalLength getObservableSize preM hvalidPreM
                hsizePreM,
              linkEndList_expectedObservations_length (getObservableSize ty) pre hvalidPre
                hsizePre]
          rw [hsplit, ← hA, ← hobsLen]
          exact getSegment_middle _ _ _
        · unfold ObservationCollection.getSingleLinkTimes
          rw [hstart]
          simp only [hnonneg, if_false, Int.toNat_ofNat]
          have hsplit : c.concatenatedTimes_ =
              (SortedObservationSets.expectedTimes getObservableSize preM ++
                pre.flatMap (fun q => expectedTimes (getObservableSize ty) q.2)) ++
              expectedTimes (getObservableSize ty) sets ++
              (post.flatMap (fun q => expectedTimes (getObservableSize ty) q.2) ++
                SortedObservationSets.expectedTimes getObservableSize postM) := by
            rw [b2, hm, hinner]
            simp only [SortedObservationSets.expectedTimes, List.flatMap_append,
              List.flatMap_cons, List.append_assoc]
          have hA : (SortedObservationSets.expectedTimes getObservableSize preM ++
              pre.flatMap (fun q => expectedTimes (getObservableSize ty) q.2)).length =
              (typeLengths getObservableSize preM).sum +
                (linkEndLengths (getObservableSize ty) pre).sum := by
            rw [List.length_append,
              SortedObservationSets.expectedTimes_totalLength getObservableSize preM hvalidPreM,
              linkEndList_expectedTimes_length (getObservableSize ty) pre hvalidPre]
          rw [hsplit, ← hA, ← htimesLen]
          exact vectorRange_middle _ _ _
        · rw [hsumEntries, hobsLen]
        · rw [hsumEntries, htimesLen]

/-- Witness of C13: observable type 2 and link ends 7 of the example collection. -/
theorem ObservationCollection.single_link_observations_and_times_witness :
    (StdMap.entriesAt exampleObservationCollection.getObservations 2
        (⟨7⟩ : LinkDefinition Nat).linkEnds_ = [] →
      (∃ e, exampleObservationCollection.getSingleLinkObservations 2 ⟨7⟩ = .error e ∧
        e.isException = true) ∧
      (∃ e, exampleObservationCollection.getSingleLinkTimes 2 ⟨7⟩ = .error e ∧
        e.isException = true)) ∧
    (StdMap.entriesAt exampleObservationCollection.getObservations 2
        (⟨7⟩ : LinkDefinition Nat).linkEnds_ ≠ [] →
      exampleObservationCollection.getSingleLinkObservations 2 ⟨7⟩ =
        .ok (expectedObservations (StdMap.entriesAt exampleObservationCollection.getObservations
          2 (⟨7⟩ : LinkDefinition Nat).linkEnds_)) ∧
      exampleObservationCollection.getSingleLinkTimes 2 ⟨7⟩ =
        .ok (expectedTimes 2
          (StdMap.entriesAt exampleObservationCollection.getObservations 2
            (⟨7⟩ : LinkDefinition Nat).linkEnds_)) ∧
      (expectedObservations (StdMap.entriesAt exampleObservationCollection.getObservations 2
          (⟨7⟩ : LinkDefinition Nat).linkEnds_)).length =
        ((StdMap.entriesAt exampleObservationCollection.getObservationSetStartAndSize 2
          (⟨7⟩ : LinkDefinition Nat).linkEnds_).map Prod.snd).sum ∧
      (expectedTimes 2
          (StdMap.entriesAt exampleObservationCollection.getObservations 2
            (⟨7⟩ : LinkDefinition Nat).linkEnds_)).length =
        ((StdMap.entriesAt exampleObservationCollection.getObservationSetStartAndSize 2
          (⟨7⟩ : LinkDefinition Nat).linkEnds_).map Prod.snd).sum) :=
  ObservationCollection.single_link_observations_and_times (fun ty => ty)
    exampleSortedObservationSets exampleObservationCollection
    exampleObservationCollection_constructed
    ⟨by simp [StdMap.WF, exampleSortedObservationSets],
      by simp [StdMap.WF, exampleSortedObservationSets]⟩
    (by
      simp [exampleSortedObservationSets]
      rintro a b (⟨rfl, rfl⟩ | ⟨rfl, rfl⟩) <;> simp)
    (by
      simp [exampleSortedObservationSets]
      rintro a b (⟨rfl, rfl⟩ | ⟨rfl, rfl⟩) <;> simp)
    2 ⟨7⟩

end SingleLinkLemmas

section WeightsFrameLemmas

variable {T S L : Type}

theorem setConcatenatedComponents_weights (times : List T) (j stationId : Nat)
    (linkEnds : L) (count : Nat) (state state' : ObservationCollection T S L × Nat)
    (h : setConcatenatedComponents times j stationId linkEnds count state = .ok state') :
    state'.1.concatenatedWeights_ = state.1.concatenatedWeights_ := by
  induction count generalizing state with
  | zero =>
    simp only [setConcatenatedComponents, Except.ok.injEq] at h
    rw [h]
  | succ count ih =>
    obtain ⟨c, counter⟩ := state
    simp only [setConcatenatedComponents] at h
    split at h
    · simp at h
    · split at h
      · simp at h
      · split at h
        · simp at h
        · split at h
          · simp at h
          · have hrest := ih _ h
            exact hrest

theorem setConcatenatedSamples_weights (observableSize : Nat) (times : List T)
    (stationId : Nat) (linkEnds : L) (observations : List (List S)) (j : Nat)
    (state state' : List S × ObservationCollection T S L × Nat)
    (h : setConcatenatedSamples observableSize times stationId linkEnds observations j state =
      .ok state') :
    state'.2.1.concatenatedWeights_ = state.2.1.concatenatedWeights_ := by
  induction observations generalizing j state with
  | nil =>
    simp only [setConcatenatedSamples, Except.ok.injEq] at h
    rw [h]
  | cons o rest ih =>
    obtain ⟨current, st⟩ := state
    simp only [setConcatenatedSamples] at h
    split at h
    · simp at h
    · split at h
      · simp at h
      · rename_i st' hst
        exact (ih _ _ h).trans (setConcatenatedComponents_weights _ _ _ _ _ _ _ hst)

theorem setConcatenatedSets_weights [LinearOrder L] [Zero S] (observableSize : Nat)
    (ty : ObservableType) (linkEnds : L) (first : LinkDefinition L) (stationId : Nat)
    (sets : List (SingleObservationSet T S L)) (i : Nat)
    (state state' : ObservationCollection T S L × Nat)
    (h : setConcatenatedSets observableSize ty linkEnds first stationId sets i state =
      .ok state') :
    state'.1.concatenatedWeights_ = state.1.concatenatedWeights_ := by
  induction sets generalizing i state with
  | nil =>
    simp only [setConcatenatedSets, Except.ok.injEq] at h
    rw [h]
  | cons set rest ih =>
    obtain ⟨c, counter⟩ := state
    simp only [setConcatenatedSets] at h
    split at h
    · simp at h
    · split at h
      · simp at h
      · split at h
        · simp at h
        · rename_i after hafter
          split at h
          · simp at h
          · exact (ih _ _ h).trans (setConcatenatedSamples_weights _ _ _ _ _ _ _ _ hafter)

theorem setConcatenatedLinkEnds_weights [LinearOrder L] [Inhabited L] [Zero S]
    (observableSize : Nat) (ty : ObservableType)
    (linkEndList : List (L × List (SingleObservationSet T S L)))
    (state state' : ObservationCollection T S L × Nat × Nat)
    (h : setConcatenatedLinkEnds observableSize ty linkEndList state = .ok state') :
    state'.1.concatenatedWeights_ = state.1.concatenatedWeights_ := by
  induction linkEndList generalizing state with
  | nil =>
    simp only [setConcatenatedLinkEnds, Except.ok.injEq] at h
    rw [h]
  | cons entry rest ih =>
    obtain ⟨linkEnds, sets⟩ := entry
    obtain ⟨c, counter, maximumStationId⟩ := state
    simp only [setConcatenatedLinkEnds] at h
    split at h
    · simp at h
    · rename_i after hafter
      rw [ih _ h]
      simp only []
      rw [setConcatenatedSets_weights _ _ _ _ _ _ _ _ _ hafter]
      simp only [registerLinkEnds]
      split <;> split <;> rfl

theorem setConcatenatedTypes_weights [LinearOrder L] [Inhabited L] [Zero S]
    (getObservableSize : ObservableType → Nat)
    (m : List (ObservableType × StdMap L (List (SingleObservationSet T S L))))
    (state state' : ObservationCollection T S L × Nat × Nat)
    (h : setConcatenatedTypes getObservableSize m state = .ok state') :
    state'.1.concatenatedWeights_ = state.1.concatenatedWeights_ := by
  induction m generalizing state with
  | nil =>
    simp only [setConcatenatedTypes, Except.ok.injEq] at h
    rw [h]
  | cons entry rest ih =>
    obtain ⟨ty, linkEndList⟩ := entry
    simp only [setConcatenatedTypes] at h
    split at h
    · simp at h
    · rename_i st hst
      rw [ih _ h]
      exact setConcatenatedLinkEnds_weights _ _ _ _ _ hst

theorem setStartAndSizePerLinkEndIndexLinkEnds_weights [LinearOrder L]
    (ty : ObservableType) (entries : List (L × List (Nat × Nat)))
    (c : ObservationCollection T S L) :
    (setStartAndSizePerLinkEndIndexLinkEnds ty entries c).concatenatedWeights_ =
      c.concatenatedWeights_ := by
  induction entries generalizing c with
  | nil => rfl
  | cons entry rest ih =>
    obtain ⟨linkEnds, v⟩ := entry
    simp only [setStartAndSizePerLinkEndIndexLinkEnds]
    rw [ih]

theorem setStartAndSizePerLinkEndIndex_weights [LinearOrder L]
    (table : List (ObservableType × StdMap L (List (Nat × Nat))))
    (c : ObservationCollection T S L) :
    (setStartAndSizePerLinkEndIndex table c).concatenatedWeights_ = c.concatenatedWeights_ := by
  induction table generalizing c with
  | nil => rfl
  | cons entry rest ih =>
    obtain ⟨ty, perLinkEnds⟩ := entry
    simp only [setStartAndSizePerLinkEndIndex]
    rw [ih]
    exact setStartAndSizePerLinkEndIndexLinkEnds_weights _ _ _

/-- The constructor leaves the weights cache empty. -/
theorem ObservationCollection.construct_concatenatedWeights [LinearOrder L] [Inhabited L]
    [Inhabited T] [Zero S] (getObservableSize : ObservableType → Nat)
    (m : SortedObservationSets T S L) (c : ObservationCollection T S L)
    (h : ObservationCollection.construct getObservableSize m = .ok c) :
    c.concatenatedWeights_ = [] := by
  obtain ⟨-, f2, -, -, -, -⟩ :=
    ObservationCollection.setObservationSetIndices_result getObservableSize m
  have g : (ObservationCollection.setObservationSetIndices getObservableSize
      (ObservationCollection.initial m)).concatenatedWeights_ = [] :=
    congrArg (fun t => t.2.2.1) f2
  unfold ObservationCollection.construct
    ObservationCollection.setConcatenatedObservationsAndTimes at h
  split at h
  · simp at h
  · rename_i after hafter
    simp only [Except.ok.injEq] at h
    rw [← h, setStartAndSizePerLinkEndIndex_weights,
      setConcatenatedTypes_weights _ _ _ _ hafter]
    exact g

theorem expectedWeights_length (size : Nat) (sets : List (SingleObservationSet T S L))
    (hweights : ∀ set ∈ sets, set.weightsVector_.length = set.getNumberOfObservables * size) :
    (expectedWeights sets).length = (setLengths size sets).sum := by
  induction sets with
  | nil => rfl
  | cons set rest ih =>
    simp only [expectedWeights, setLengths, List.flatMap_cons, List.length_append,
      List.map_cons, List.sum_cons] at ih ⊢
    rw [ih (fun x hx => hweights x (List.mem_cons_of_mem _ hx)),
      hweights set (List.mem_cons_self _ _)]

theorem linkEndList_expectedWeights_length (size : Nat)
    (list : List (L × List (SingleObservationSet T S L)))
    (hweights : ∀ q ∈ list, ∀ set ∈ q.2,
      set.weightsVector_.length = set.getNumberOfObservables * size) :
    (list.flatMap (fun q => expectedWeights q.2)).length = (linkEndLengths size list).sum := by
  induction list with
  | nil => rfl
  | cons q rest ih =>
    simp only [List.flatMap_cons, List.length_append, linkEndLengths, List.sum_append]
    rw [expectedWeights_length size q.2 (hweights q (List.mem_cons_self _ _)),
      ih (fun x hx => hweights x (List.mem_cons_of_mem _ hx))]
    rfl

theorem SortedObservationSets.expectedWeights_totalLength
    (getObservableSize : ObservableType → Nat) (m : SortedObservationSets T S L)
    (hweights : ∀ p ∈ m, ∀ q ∈ p.2, ∀ set ∈ q.2,
      set.weightsVector_.length = set.getNumberOfObservables * getObservableSize p.1) :
    (SortedObservationSets.expectedWeights m).length =
      (typeLengths getObservableSize m).sum := by
  induction m with
  | nil => rfl
  | cons p rest ih =>
    simp only [SortedObservationSets.expectedWeights, List.flatMap_cons,
      List.length_append, typeLengths, List.sum_append] at ih ⊢
    rw [linkEndList_expectedWeights_length (getObservableSize p.1) p.2
      (hweights p (List.mem_cons_self _ _)),
      ih (fun x hx => hweights x (List.mem_cons_of_mem _ hx))]

end WeightsFrameLemmas

section WeightsLoopLemmas

variable {T S L : Type} [LinearOrder L]

theorem setSegment_ok {α : Type} (v : List α) (start : Nat) (w : List α)
    (h : start + w.length ≤ v.length) :
    setSegment v start w.length w = .ok (overwrite v start w) := by
  unfold setSegment overwrite
  rw [if_pos ⟨h, rfl⟩]

theorem observationSetAt_of_mem (m : SortedObservationSets T S L) (hwf : StdMap.NestedWF m)
    (p : ObservableType × StdMap L (List (SingleObservationSet T S L))) (hp : p ∈ m)
    (q : L × List (SingleObservationSet T S L)) (hq : q ∈ p.2) (r : Nat)
    (set : SingleObservationSet T S L) (hr : q.2.get? r = some set) :
    observationSetAt m p.1 q.1 r = .ok set := by
  unfold observationSetAt StdMap.at
  rw [StdMap.find?_of_mem m hwf.1 p hp]
  simp only []
  rw [StdMap.find?_of_mem p.2 (hwf.2 p hp) q hq]
  simp only [vectorAt, hr]

theorem getWeightsSets_ok (c : ObservationCollection T S L) (size : Nat)
    (ty : ObservableType) (le : L) (sets : List (SingleObservationSet T S L)) (i : Nat)
    (w : List S) (counter : Nat)
    (hlookup : ∀ r set, sets.get? r = some set →
      startAndSizeAt c.observationSetStartAndSize_ ty le (i + r) =
        .ok (counter + (setLengths size (sets.take r)).sum,
          set.getNumberOfObservables * size) ∧
      observationSetAt c.observationSetList_ ty le (i + r) = .ok set)
    (hweights : ∀ set ∈ sets, set.weightsVector_.length = set.getNumberOfObservables * size)
    (hc : counter + (setLengths size sets).sum ≤ w.length) :
    getWeightsSets c ty le sets i w = .ok (overwrite w counter (expectedWeights sets)) := by
  induction sets generalizing i w counter with
  | nil => simp [getWeightsSets, expectedWeights, overwrite_nil]
  | cons set rest ih =>
    obtain ⟨hl0, hs0⟩ := hlookup 0 set rfl
    simp only [Nat.add_zero, List.take_zero, setLengths, List.map_nil, List.sum_nil] at hl0 hs0
    have hw := hweights set (List.mem_cons_self _ _)
    simp only [setLengths, List.map_cons, List.sum_cons] at hc
    have hseg := setSegment_ok w counter set.weightsVector_ (by rw [hw]; omega)
    rw [hw] at hseg
    simp only [getWeightsSets, hl0, hs0, hw, if_true, SingleObservationSet.getWeightsVector,
      hseg]
    have hlen : (overwrite w counter set.weightsVector_).length = w.length :=
      overwrite_length _ _ _ (by rw [hw]; omega)
    rw [ih (i + 1) (overwrite w counter set.weightsVector_)
      (counter + set.getNumberOfObservables * size)
      (fun r set' hr => by
        have := hlookup (r + 1) set' (by simpa using hr)
        simpa [setLengths, Nat.add_assoc, Nat.add_comm 1 r] using this)
      (fun x hx => hweights x (List.mem_cons_of_mem _ hx))
      (by rw [hlen]; simp only [setLengths]; omega)]
    rw [← hw, overwrite_overwrite _ _ _ _ (by rw [hw]; omega)]
    rfl

theorem getWeightsLinkEnds_ok (c : ObservationCollection T S L) (size : Nat)
    (ty : ObservableType) (list : List (L × List (SingleObservationSet T S L)))
    (w : List S) (counter : Nat)
    (hlookup : ∀ pre q post, list = pre ++ q :: post → ∀ r set, q.2.get? r = some set →
      startAndSizeAt c.observationSetStartAndSize_ ty q.1 r =
        .ok (counter + (linkEndLengths size pre).sum + (setLengths size (q.2.take r)).sum,
          set.getNumberOfObservables * size) ∧
      observationSetAt c.observationSetList_ ty q.1 r = .ok set)
    (hweights : ∀ q ∈ list, ∀ set ∈ q.2,
      set.weightsVector_.length = set.getNumberOfObservables * size)
    (hc : counter + (linkEndLengths size list).sum ≤ w.length) :
    getWeightsLinkEnds c ty list w =
      .ok (overwrite w counter (list.flatMap (fun q => expectedWeights q.2))) := by
  induction list generalizing w counter with
  | nil => simp [getWeightsLinkEnds, overwrite_nil]
  | cons entry rest ih =>
    obtain ⟨le, sets⟩ := entry
    have hwSets := hweights (le, sets) (List.mem_cons_self _ _)
    simp only [linkEndLengths, List.flatMap_cons, List.sum_append] at hc
    have hstep := getWeightsSets_ok c size ty le sets 0 w counter
      (fun r set hr => by
        have := hlookup [] (le, sets) rest rfl r set hr
        simpa [linkEndLengths] using this)
      hwSets (by omega)
    have hlenW := expectedWeights_length size sets hwSets
    have hlen : (overwrite w counter (expectedWeights sets)).length = w.length :=
      overwrite_length _ _ _ (by rw [hlenW]; omega)
    simp only [getWeightsLinkEnds, hstep]
    rw [ih (overwrite w counter (expectedWeights sets)) (counter + (setLengths size sets).sum)
      (fun pre q post hrest r set hr => by
        have := hlookup ((le, sets) :: pre) q post (by rw [hrest]; rfl) r set hr
        simpa [linkEndLengths, Nat.add_assoc] using this)
      (fun q hq => hweights q (List.mem_cons_of_mem _ hq))
      (by rw [hlen]; simp only [linkEndLengths]; omega)]
    rw [← hlenW, overwrite_overwrite _ _ _ _ (by rw [hlenW]; omega)]
    rfl

theorem getWeightsTypes_ok (c : ObservationCollection T S L)
    (getObservableSize : ObservableType → Nat) (m : SortedObservationSets T S L)
    (w : List S) (counter : Nat)
    (hlookup : ∀ preM p postM, m = preM ++ p :: postM →
      ∀ pre q post, p.2 = pre ++ q :: post → ∀ r set, q.2.get? r = some set →
      startAndSizeAt c.observationSetStartAndSize_ p.1 q.1 r =
        .ok (counter + (typeLengths getObservableSize preM).sum +
            (linkEndLengths (getObservableSize p.1) pre).sum +
            (setLengths (getObservableSize p.1) (q.2.take r)).sum,
          set.getNumberOfObservables * getObservableSize p.1) ∧
      observationSetAt c.observationSetList_ p.1 q.1 r = .ok set)
    (hweights : ∀ p ∈ m, ∀ q ∈ p.2, ∀ set ∈ q.2,
      set.weightsVector_.length = set.getNumberOfObservables * getObservableSize p.1)
    (hc : counter + (typeLengths getObservableSize m).sum ≤ w.length) :
    getWeightsTypes c m w =
      .ok (overwrite w counter (SortedObservationSets.expectedWeights m)) := by
  induction m generalizing w counter with
  | nil => simp [getWeightsTypes, SortedObservationSets.expectedWeights, overwrite_nil]
  | cons entry rest ih =>
    obtain ⟨ty, list⟩ := entry
    have hwList := hweights (ty, list) (List.mem_cons_self _ _)
    simp only [typeLengths, List.flatMap_cons, List.sum_append] at hc
    have hstep := getWeightsLinkEnds_ok c (getObservableSize ty) ty list w counter
      (fun pre q post hlist r set hr => by
        have := hlookup [] (ty, list) rest rfl pre q post hlist r set hr
        simpa [typeLengths] using this)
      hwList (by omega)
    have hlenW := linkEndList_expectedWeights_length (getObservableSize ty) list hwList
    have hlen : (overwrite w counter (list.flatMap (fun q => expectedWeights q.2))).length =
        w.length :=
      overwrite_length _ _ _ (by rw [hlenW]; omega)
    simp only [getWeightsTypes, hstep]
    rw [ih (overwrite w counter (list.flatMap (fun q => expectedWeights q.2)))
      (counter + (linkEndLengths (getObservableSize ty) list).sum)
      (fun preM p postM hrest pre q post hp r set hr => by
        have := hlookup ((ty, list) :: preM) p postM (by rw [hrest]; rfl) pre q post hp r set hr
        simpa [typeLengths, Nat.add_assoc] using this)
      (fun p hp => hweights p (List.mem_cons_of_mem _ hp))
      (by rw [hlen]; simp only [typeLengths]; omega)]
    rw [← hlenW, overwrite_overwrite _ _ _ _ (by rw [hlenW]; omega)]
    rfl

end WeightsLoopLemmas

section WeightsClaims

variable {T S L : Type} [LinearOrder L]

theorem drop_take_middle {α : Type} (a b d : List α) :
    ((a ++ b ++ d).drop a.length).take b.length = b := by
  simp [List.append_assoc]

/-- The total size of a constructed collection is the sum of the lengths of its sets. -/
theorem ObservationCollection.construct_totalObservableSize [Inhabited L] [Inhabited T]
    [Zero S] (getObservableSize : ObservableType → Nat) (m : SortedObservationSets T S L)
    (c : ObservationCollection T S L)
    (h : ObservationCollection.construct getObservableSize m = .ok c) :
    c.totalObservableSize_ = (typeLengths getObservableSize m).sum := by
  have hframe := ObservationCollection.construct_indexMembers getObservableSize m c h
  have htotalc : c.totalObservableSize_ =
      (ObservationCollection.setObservationSetIndices getObservableSize
        (ObservationCollection.initial m)).totalObservableSize_ :=
    congrArg (fun t => t.2.2.2.2.2.1) hframe
  obtain ⟨-, -, -, -, f5, -⟩ :=
    ObservationCollection.setObservationSetIndices_result getObservableSize m
  rw [htotalc, f5, SortedObservationSets.keyedLengths_map_snd]
  simp [ObservationCollection.initial]

/-- The index table of a constructed collection is the one of the first pass. -/
theorem ObservationCollection.construct_startAndSize [Inhabited L] [Inhabited T]
    [Zero S] (getObservableSize : ObservableType → Nat) (m : SortedObservationSets T S L)
    (c : ObservationCollection T S L)
    (h : ObservationCollection.construct getObservableSize m = .ok c) :
    c.observationSetStartAndSize_ =
      (ObservationCollection.setObservationSetIndices getObservableSize
        (ObservationCollection.initial m)).observationSetStartAndSize_ :=
  congrArg (fun t => t.2.1)
    (ObservationCollection.construct_indexMembers getObservableSize m c h)

/-- On a constructed collection whose sets have weights of the length of their slice,
`getWeightsFromSingleObservationSets` returns the weights of the sets one after the
other, whatever the weights cache holds. -/
theorem ObservationCollection.getWeightsFromSingleObservationSets_ok [Inhabited L]
    [Inhabited T] [Zero S] (getObservableSize : ObservableType → Nat)
    (m : SortedObservationSets T S L) (c : ObservationCollection T S L)
    (h : ObservationCollection.construct getObservableSize m = .ok c)
    (hwf : StdMap.NestedWF m)
    (hweights : ∀ p ∈ m, ∀ q ∈ p.2, ∀ set ∈ q.2,
      set.weightsVector_.length = set.getNumberOfObservables * getObservableSize p.1)
    (cache : List S) :
    ({ c with concatenatedWeights_ := cache } :
      ObservationCollection T S L).getWeightsFromSingleObservationSets =
      .ok (SortedObservationSets.expectedWeights m) := by
  have hlist := ObservationCollection.construct_observationSetList getObservableSize m c h
  have htotal := ObservationCollection.construct_totalObservableSize getObservableSize m c h
  have htable := ObservationCollection.construct_startAndSize getObservableSize m c h
  have hlen := SortedObservationSets.expectedWeights_totalLength getObservableSize m hweights
  unfold ObservationCollection.getWeightsFromSingleObservationSets
  simp only [hlist, htotal]
  rw [getWeightsTypes_ok _ getObservableSize m _ 0
    (fun preM p postM hm pre q post hp r set hr => by
      have hlookup := ObservationCollection.setObservationSetIndices_lookup getObservableSize m
        hwf preM p postM hm pre q post hp r set hr
      rw [← htable] at hlookup
      exact ⟨hlookup,
        observationSetAt_of_mem m hwf p (by rw [hm]; simp) q (by rw [hp]; simp) r set hr⟩)
    hweights (by simp)]
  rw [overwrite_all _ _ (by simp [hlen])]

/-- C14: on a collection constructed from a well formed nested mapping in which the
weights vector of every set has the length of the set's slice, the first call of
`getConcatenatedWeightVector` returns a vector `w` of length `getTotalObservableSize( )`
whose slice at the table entry `(start, length)` of every set is the weights vector of
the set, and after it the call returns `w` and leaves the object as it is, whatever
the sets of the object have become. -/
theorem ObservationCollection.concatenated_weight_vector [Inhabited L] [Inhabited T]
    [Zero S] (getObservableSize : ObservableType → Nat) (m : SortedObservationSets T S L)
    (c : ObservationCollection T S L)
    (h : ObservationCollection.construct getObservableSize m = .ok c)
    (hwf : StdMap.NestedWF m)
    (hweights : ∀ p ∈ m, ∀ q ∈ p.2, ∀ set ∈ q.2,
      set.weightsVector_.length = set.getNumberOfObservables * getObservableSize p.1) :
    ∃ w, c.getConcatenatedWeightVector.1 = .ok w ∧
      w.length = c.getTotalObservableSize ∧
      (∀ p ∈ m, ∀ q ∈ p.2, ∀ r set, q.2.get? r = some set →
        ∃ start, startAndSizeAt c.getObservationSetStartAndSize p.1 q.1 r =
            .ok (start, set.weightsVector_.length) ∧
          (w.drop start).take set.weightsVector_.length = set.weightsVector_) ∧
      ∀ m' : SortedObservationSets T S L,
        ({ c.getConcatenatedWeightVector.2 with observationSetList_ := m' } :
          ObservationCollection T S L).getConcatenatedWeightVector =
          (.ok w, { c.getConcatenatedWeightVector.2 with observationSetList_ := m' }) := by
  have htotal := ObservationCollection.construct_totalObservableSize getObservableSize m c h
  have htable := ObservationCollection.construct_startAndSize getObservableSize m c h
  have hcache := ObservationCollection.construct_concatenatedWeights getObservableSize m c h
  have hlen := SortedObservationSets.expectedWeights_totalLength getObservableSize m hweights
  have hcompute := ObservationCollection.getWeightsFromSingleObservationSets_ok
    getObservableSize m c h hwf hweights
  have hcall : c.getConcatenatedWeightVector =
      (.ok (SortedObservationSets.expectedWeights m),
        { c with concatenatedWeights_ := SortedObservationSets.expectedWeights m }) := by
    unfold ObservationCollection.getConcatenatedWeightVector
    by_cases hzero : (typeLengths getObservableSize m).sum = 0
    · have hnil : SortedObservationSets.expectedWeights m = [] :=
        List.length_eq_zero.mp (hlen.trans hzero)
      rw [if_neg (by rw [hcache, htotal, hzero]; simp), hnil, ← hcache]
    · rw [if_pos (by rw [hcache, htotal]; simpa using Ne.symm hzero)]
      simp only [hcompute, hlen, Nat.pos_of_ne_zero hzero, if_true]
  refine ⟨SortedObservationSets.expectedWeights m, by rw [hcall], ?_, ?_, ?_⟩
  · rw [hlen, ObservationCollection.getTotalObservableSize, htotal]
  · intro p hp q hq r set hr
    obtain ⟨preM, postM, hm⟩ := List.append_of_mem hp
    obtain ⟨pre, post, hinner⟩ := List.append_of_mem hq
    have hlookup := ObservationCollection.setObservationSetIndices_lookup getObservableSize m
      hwf preM p postM hm pre q post hinner r set hr
    have hset : set ∈ q.2 := List.get?_mem hr
    have hq2 : q.2 = q.2.take r ++ set :: q.2.drop (r + 1) := by
      have hr' : r < q.2.length := by
        rw [List.get?_eq_getElem?] at hr
        exact (List.getElem?_eq_some_iff.mp hr).1
      have hget : q.2[r] = set := by
        rw [List.get?_eq_getElem?] at hr
        exact (List.getElem?_eq_some_iff.mp hr).2
      rw [← hget, List.getElem_cons_drop, List.take_append_drop]
    have hA : (SortedObservationSets.expectedWeights preM ++
        pre.flatMap (fun q => expectedWeights q.2) ++ expectedWeights (q.2.take r)).length =
        0 + (typeLengths getObservableSize preM).sum +
          (linkEndLengths (getObservableSize p.1) pre).sum +
          (setLengths (getObservableSize p.1) (q.2.take r)).sum := by
      rw [List.length_append, List.length_append,
        SortedObservationSets.expectedWeights_totalLength getObservableSize preM
          (fun x hx => hweights x (by rw [hm]; exact List.mem_append_left _ hx)),
        linkEndList_expectedWeights_length (getObservableSize p.1) pre
          (fun x hx => hweights p hp x (by rw [hinner]; exact List.mem_append_left _ hx)),
        expectedWeights_length (getObservableSize p.1) (q.2.take r)
          (fun x hx => hweights p hp q hq x (List.mem_of_mem_take hx)), Nat.zero_add]
    have hsplit : SortedObservationSets.expectedWeights m =
        (SortedObservationSets.expectedWeights preM ++
          pre.flatMap (fun q => expectedWeights q.2) ++ expectedWeights (q.2.take r)) ++
        set.weightsVector_ ++
        (expectedWeights (q.2.drop (r + 1)) ++ post.flatMap (fun q => expectedWeights q.2) ++
          SortedObservationSets.expectedWeights postM) := by
      conv_lhs => rw [hm]
      simp only [SortedObservationSets.expectedWeights, List.flatMap_append, List.flatMap_cons,
        hinner]
      conv_lhs => rw [hq2]
      simp only [expectedWeights, List.flatMap_append, List.flatMap_cons, List.append_assoc]
    refine ⟨0 + (typeLengths getObservableSize preM).sum +
      (linkEndLengths (getObservableSize p.1) pre).sum +
      (setLengths (getObservableSize p.1) (q.2.take r)).sum, ?_, ?_⟩
    · rw [ObservationCollection.getObservationSetStartAndSize, htable, hlookup,
        hweights p hp q hq set hset]
    · rw [← hA, hsplit]
      exact drop_take_middle _ _ _
  · intro m'
    rw [hcall]
    unfold ObservationCollection.getConcatenatedWeightVector
    rw [if_neg (by simp [hlen, htotal])]

/-- The example collection of sets with weights is the collection constructed from the
example mapping of sets with weights. -/
theorem exampleWeightedCollection_constructed :
    ObservationCollection.construct (fun ty => ty) exampleWeightedSets =
      .ok exampleWeightedCollection := rfl

/-- Witness of C14: the example collection of two sets with the weights `[5]` and
`[6, 7]`. -/
theorem ObservationCollection.concatenated_weight_vector_witness :
    ∃ w, exampleWeightedCollection.getConcatenatedWeightVector.1 = .ok w ∧
      w.length = exampleWeightedCollection.getTotalObservableSize ∧
      (∀ p ∈ exampleWeightedSets, ∀ q ∈ p.2, ∀ r set, q.2.get? r = some set →
        ∃ start, startAndSizeAt exampleWeightedCollection.getObservationSetStartAndSize
            p.1 q.1 r = .ok (start, set.weightsVector_.length) ∧
          (w.drop start).take set.weightsVector_.length = set.weightsVector_) ∧
      ∀ m' : SortedObservationSets Int Int Nat,
        ({ exampleWeightedCollection.getConcatenatedWeightVector.2 with
            observationSetList_ := m' } :
          ObservationCollection Int Int Nat).getConcatenatedWeightVector =
          (.ok w, { exampleWeightedCollection.getConcatenatedWeightVector.2 with
            observationSetList_ := m' }) :=
  ObservationCollection.concatenated_weight_vector (fun ty => ty) exampleWeightedSets
    exampleWeightedCollection exampleWeightedCollection_constructed
    ⟨by simp [StdMap.WF, exampleWeightedSets], by simp [StdMap.WF, exampleWeightedSets]⟩
    (by simp [exampleWeightedSets, SingleObservationSet.getNumberOfObservables])

/-- C15, at the failing input: the sets of the example collection have no weights, so
the first call of `getConcatenatedWeightVector` throws; it has resized the weights cache
to the total size before, so the second call finds a cache of the right size and returns
it, seven zeros, instead of throwing. -/
theorem ObservationCollection.getConcatenatedWeightVector_after_failed_call :
    exampleObservationCollection.getTotalObservableSize = 7 ∧
    exampleObservationCollection.concatenatedWeights_ = [] ∧
    (∃ p ∈ exampleObservationCollection.getObservations, ∃ q ∈ p.2, ∃ set ∈ q.2,
      set.weightsVector_.length ≠ set.getNumberOfObservables * p.1) ∧
    exampleObservationCollection.getConcatenatedWeightVector.1 =
      .error .weightsInconsistent ∧
    exampleObservationCollection.getConcatenatedWeightVector.2.getConcatenatedWeightVector.1 =
      .ok [0, 0, 0, 0, 0, 0, 0] :=
  ⟨rfl, rfl,
    ⟨(1, [(9, [⟨1, ⟨9⟩, [[10]], [3], 0, [], none, none, 1, []⟩])]), by
        simp [ObservationCollection.getObservations, exampleObservationCollection,
          exampleSortedObservationSets],
      (9, [⟨1, ⟨9⟩, [[10]], [3], 0, [], none, none, 1, []⟩]), by simp,
      ⟨1, ⟨9⟩, [[10]], [3], 0, [], none, none, 1, []⟩, by simp, by
        simp [SingleObservationSet.getNumberOfObservables]⟩,
    rfl, rfl⟩

end WeightsClaims

section ResidualSetLemmas

variable {T S L : Type}

theorem drop_of_get? {α : Type} (l : List α) (i : Nat) (a : α) (h : l.get? i = some a) :
    l.drop i = a :: l.drop (i + 1) := by
  rw [List.get?_eq_getElem?] at h
  obtain ⟨hi, ha⟩ := List.getElem?_eq_some_iff.mp h
  rw [← ha, List.getElem_cons_drop]

theorem vectorAt_of_get? {α : Type} (l : List α) (i : Nat) (a : α) (h : l.get? i = some a) :
    vectorAt l i = .ok a := by
  unfold vectorAt
  rw [h]

/-- The loop of `createResidualObservationSet` throws when an observed time differs from
the computed time at its position. -/
theorem createResidualLoop_error [DecidableEq T] [Sub S] (computedTimes : List T)
    (observedData computedData : List (List S)) (observedTimes : List T) (i : Nat)
    (residuals : List (List S))
    (h : ∃ r t t', observedTimes.get? r = some t ∧ computedTimes.get? (i + r) = some t' ∧
      t ≠ t') :
    ∃ e, createResidualLoop computedTimes observedData computedData observedTimes i residuals =
      .error e := by
  induction observedTimes generalizing i residuals with
  | nil =>
    obtain ⟨r, t, t', hr, -, -⟩ := h
    simp at hr
  | cons t rest ih =>
    obtain ⟨r, t₁, t', hr, hc, hne⟩ := h
    unfold createResidualLoop
    cases r with
    | zero =>
      simp only [List.get?_cons_zero, Option.some.injEq] at hr
      subst hr
      rw [Nat.add_zero] at hc
      rw [vectorAt_of_get? _ _ _ hc]
      simp only [ne_eq, hne, not_false_eq_true, if_true]
      exact ⟨_, rfl⟩
    | succ r =>
      split
      · exact ⟨_, rfl⟩
      · split
        · exact ⟨_, rfl⟩
        · split
          · exact ⟨_, rfl⟩
          · split
            · exact ⟨_, rfl⟩
            · split
              · exact ⟨_, rfl⟩
              · exact ih (i + 1) _ ⟨r, t₁, t', by simpa using hr,
                  by rw [Nat.add_assoc, Nat.add_comm 1 r]; exact hc, hne⟩

/-- The loop of `createResidualObservationSet` returns the differences of the
observations when the times agree and the observations have the same sizes. -/
theorem createResidualLoop_ok [DecidableEq T] [Sub S] (computedTimes : List T)
    (observedData computedData : List (List S)) (observedTimes : List T) (i : Nat)
    (residuals : List (List S))
    (h : ∀ r t, observedTimes.get? r = some t →
      computedTimes.get? (i + r) = some t ∧
      ∃ o c, observedData.get? (i + r) = some o ∧ computedData.get? (i + r) = some c ∧
        o.length = c.length) :
    createResidualLoop computedTimes observedData computedData observedTimes i residuals =
      .ok (residuals ++
        (List.zipWith (List.zipWith (· - ·)) (observedData.drop i) (computedData.drop i)).take
          observedTimes.length) := by
  induction observedTimes generalizing i residuals with
  | nil => simp [createResidualLoop]
  | cons t rest ih =>
    obtain ⟨hc, o, c, ho, hcd, hlen⟩ := h 0 t rfl
    simp only [Nat.add_zero] at hc ho hcd
    unfold createResidualLoop
    rw [vectorAt_of_get? _ _ _ hc, vectorAt_of_get? _ _ _ ho, vectorAt_of_get? _ _ _ hcd]
    simp only [ne_eq, not_true_eq_false, if_false, eigenSub, hlen, if_true]
    rw [ih (i + 1) _ (fun r t' hr => by
      have := h (r + 1) t' (by simpa using hr)
      rw [Nat.add_assoc, Nat.add_comm 1 r]
      exact this)]
    rw [drop_of_get? _ _ _ ho, drop_of_get? _ _ _ hcd]
    simp

theorem mem_zipWith_zipWith {α β γ : Type} (f : α → β → γ) (xs : List (List α))
    (ys : List (List β)) (a : List γ) (h : a ∈ List.zipWith (List.zipWith f) xs ys) :
    ∃ x ∈ xs, ∃ y ∈ ys, a = List.zipWith f x y := by
  rw [← List.map_uncurry_zip_eq_zipWith] at h
  obtain ⟨⟨x, y⟩, hmem, rfl⟩ := List.mem_map.mp h
  exact ⟨x, (List.of_mem_zip hmem).1, y, (List.of_mem_zip hmem).2, rfl⟩

/-- Two sets of the same observable type, reference link end, link ends and times whose
observations have the same size have a residual set: the observed set with the
differences of the observations, without dependent variables, calculator and weights. -/
theorem createResidualObservationSet_ok [LinearOrder T] [DecidableEq L] [Sub S]
    (observed computed : SingleObservationSet T S L) (hobs : observed.Invariant)
    (hcomp : computed.Invariant)
    (hsizes : ∀ o ∈ observed.observations_, ∀ c ∈ computed.observations_, o.length = c.length)
    (hty : observed.observableType_ = computed.observableType_)
    (href : observed.referenceLinkEnd_ = computed.referenceLinkEnd_)
    (hle : observed.linkEnds_.linkEnds_ = computed.linkEnds_.linkEnds_)
    (hnum : observed.getNumberOfObservables = computed.getNumberOfObservables)
    (htimes : observed.observationTimes_ = computed.observationTimes_) :
    createResidualObservationSet observed computed =
      .ok ⟨observed.observableType_, observed.linkEnds_,
        List.zipWith (List.zipWith (· - ·)) observed.observations_ computed.observations_,
        observed.observationTimes_, observed.referenceLinkEnd_, [], none,
        observed.ancilliarySettings_, observed.observations_.length, []⟩ := by
  have hlenEq : observed.observations_.length = computed.observations_.length := by
    rw [← hobs.numberOfObservations, ← hcomp.numberOfObservations]
    exact hnum
  have hloop := createResidualLoop_ok computed.observationTimes_ observed.observations_
    computed.observations_ observed.observationTimes_ 0 []
    (fun r t hr => by
      rw [Nat.zero_add]
      refine ⟨by rw [← htimes]; exact hr, ?_⟩
      have hr' : r < observed.observationTimes_.length := by
        rw [List.get?_eq_getElem?] at hr
        exact (List.getElem?_eq_some_iff.mp hr).1
      have h1 : r < observed.observations_.length := by
        rw [← hobs.timesLength]
        exact hr'
      have h2 : r < computed.observations_.length := by
        rw [← hlenEq]
        exact h1
      exact ⟨observed.observations_.get ⟨r, h1⟩, computed.observations_.get ⟨r, h2⟩,
        List.get?_eq_get h1, List.get?_eq_get h2,
        hsizes _ (List.get_mem _ _ _) _ (List.get_mem _ _ _)⟩)
  have hzipLen : (List.zipWith (List.zipWith (· - ·)) observed.observations_
      computed.observations_).length = observed.observationTimes_.length := by
    rw [List.length_zipWith, ← hlenEq, Nat.min_self, hobs.timesLength]
  unfold createResidualObservationSet
  simp only [hty, href, hle, hnum, ne_eq, not_true_eq_false, if_false, hloop, List.drop_zero,
    List.nil_append]
  rw [List.take_of_length_le (by rw [hzipLen])]
  have hcons : observablesOfConsistentSize
      (List.zipWith (List.zipWith (· - ·)) observed.observations_ computed.observations_) =
      true := by
    rw [observablesOfConsistentSize_iff]
    have hall := (observablesOfConsistentSize_iff _).mp hobs.consistentSize
    intro a ha b hb
    obtain ⟨x, hx, y, hy, rfl⟩ := mem_zipWith_zipWith _ _ _ a ha
    obtain ⟨x', hx', y', hy', rfl⟩ := mem_zipWith_zipWith _ _ _ b hb
    rw [List.length_zipWith, List.length_zipWith, ← hsizes x hx y hy, ← hsizes x' hx' y' hy',
      Nat.min_self, Nat.min_self]
    exact hall x hx x' hx'
  rw [SingleObservationSet.construct_of_sorted computed.observableType_ observed.linkEnds_ _ _
    computed.referenceLinkEnd_ [] none observed.ancilliarySettings_ rfl hzipLen hcons
    hobs.timesSorted]
  simp only [List.length_zipWith, ← hlenEq, Nat.min_self]

/-- C16: for two sets that satisfy their class invariant and whose observations have
the same number of components, `createResidualObservationSet` throws if and only if the
observable types differ, or the reference link ends differ, or the link ends differ, or
the numbers of observations differ, or at some position the observed time differs from
the computed time. -/
theorem createResidualObservationSet_fails_iff [LinearOrder T] [DecidableEq L] [Sub S]
    (observed computed : SingleObservationSet T S L) (hobs : observed.Invariant)
    (hcomp : computed.Invariant)
    (hsizes : ∀ o ∈ observed.observations_, ∀ c ∈ computed.observations_,
      o.length = c.length) :
    (∃ e, createResidualObservationSet observed computed = .error e) ↔
      (observed.observableType_ ≠ computed.observableType_ ∨
        observed.referenceLinkEnd_ ≠ computed.referenceLinkEnd_ ∨
        observed.linkEnds_.linkEnds_ ≠ computed.linkEnds_.linkEnds_ ∨
        observed.getNumberOfObservables ≠ computed.getNumberOfObservables ∨
        ∃ i t t', observed.observationTimes_.get? i = some t ∧
          computed.observationTimes_.get? i = some t' ∧ t ≠ t') := by
  by_cases hty : observed.observableType_ = computed.observableType_
  swap
  · exact ⟨fun _ => Or.inl hty, fun _ => ⟨.residualObservableNotEqual, by simp [createResidualObservationSet, hty]⟩⟩
  by_cases href : observed.referenceLinkEnd_ = computed.referenceLinkEnd_
  swap
  · exact ⟨fun _ => Or.inr (Or.inl href),
      fun _ => ⟨.residualReferenceLinkEndNotEqual, by simp [createResidualObservationSet, hty, href]⟩⟩
  by_cases hle : observed.linkEnds_.linkEnds_ = computed.linkEnds_.linkEnds_
  swap
  · exact ⟨fun _ => Or.inr (Or.inr (Or.inl hle)),
      fun _ => ⟨.residualLinkEndsNotEqual, by simp [createResidualObservationSet, hty, href, hle]⟩⟩
  by_cases hnum : observed.getNumberOfObservables = computed.getNumberOfObservables
  swap
  · exact ⟨fun _ => Or.inr (Or.inr (Or.inr (Or.inl hnum))),
      fun _ => ⟨.residualNumberOfObservablesNotEqual, by simp [createResidualObservationSet, hty, href, hle, hnum]⟩⟩
  have hlenTimes : observed.observationTimes_.length = computed.observationTimes_.length := by
    rw [hobs.timesLength, hcomp.timesLength, ← hobs.numberOfObservations,
      ← hcomp.numberOfObservations]
    exact hnum
  by_cases htimes : observed.observationTimes_ = computed.observationTimes_
  · have hok := createResidualObservationSet_ok observed computed hobs hcomp hsizes hty href
      hle hnum htimes
    constructor
    · rintro ⟨e, he⟩
      rw [hok] at he
      simp at he
    · rintro (h | h | h | h | ⟨i, t, t', h1, h2, h3⟩)
      · exact absurd hty h
      · exact absurd href h
      · exact absurd hle h
      · exact absurd hnum h
      · rw [htimes, h2] at h1
        simp only [Option.some.injEq] at h1
        exact absurd h1.symm h3
  · have hdiff : ∃ i t t', observed.observationTimes_.get? i = some t ∧
        computed.observationTimes_.get? i = some t' ∧ t ≠ t' := by
      by_contra hnone
      apply htimes
      apply List.ext_get? 
      intro i
      by_cases hi : i < observed.observationTimes_.length
      · have hi' : i < computed.observationTimes_.length := by rw [← hlenTimes]; exact hi
        rw [List.get?_eq_get hi, List.get?_eq_get hi']
        by_contra hne
        exact hnone ⟨i, _, _, List.get?_eq_get hi, List.get?_eq_get hi',
          fun heq => hne (by rw [heq])⟩
      · rw [List.get?_eq_none.mpr (by omega), List.get?_eq_none.mpr (by omega)]
    refine ⟨fun _ => Or.inr (Or.inr (Or.inr (Or.inr hdiff))), fun _ => ?_⟩
    obtain ⟨i, t, t', h1, h2, h3⟩ := hdiff
    obtain ⟨e, he⟩ := createResidualLoop_error computed.observationTimes_
      observed.observations_ computed.observations_ observed.observationTimes_ 0 []
      ⟨i, t, t', h1, by rw [Nat.zero_add]; exact h2, h3⟩
    exact ⟨e, by simp [createResidualObservationSet, hty, href, hle, hnum, he]⟩

/-- Witness of C16: two sets of two observations whose second times, 2 and 3, differ. -/
theorem createResidualObservationSet_fails_iff_witness :
    (∃ e, createResidualObservationSet
        (⟨1, ⟨7⟩, [[10], [20]], [1, 2], 0, [], none, none, 2, []⟩ :
          SingleObservationSet Int Int Nat)
        ⟨1, ⟨7⟩, [[1], [2]], [1, 3], 0, [], none, none, 2, []⟩ = .error e) ↔
      ((1 : ObservableType) ≠ 1 ∨ (0 : LinkEndType) ≠ 0 ∨ (7 : Nat) ≠ 7 ∨
        SingleObservationSet.getNumberOfObservables
          (⟨1, ⟨7⟩, [[10], [20]], [1, 2], 0, [], none, none, 2, []⟩ :
            SingleObservationSet Int Int Nat) ≠
          SingleObservationSet.getNumberOfObservables
            (⟨1, ⟨7⟩, [[1], [2]], [1, 3], 0, [], none, none, 2, []⟩ :
              SingleObservationSet Int Int Nat) ∨
        ∃ i t t', ([1, 2] : List Int).get? i = some t ∧ ([1, 3] : List Int).get? i = some t' ∧
          t ≠ t') :=
  createResidualObservationSet_fails_iff
    (⟨1, ⟨7⟩, [[10], [20]], [1, 2], 0, [], none, none, 2, []⟩ :
      SingleObservationSet Int Int Nat)
    ⟨1, ⟨7⟩, [[1], [2]], [1, 3], 0, [], none, none, 2, []⟩
    ⟨rfl, rfl, rfl, rfl, by decide⟩ ⟨rfl, rfl, rfl, rfl, by decide⟩ (by simp)

end ResidualSetLemmas

section ArcSplitLemmas

variable {T S L : Type}

theorem rawArcStartIndicesLoop_append [LinearOrderedAddCommGroup T] (threshold : T)
    (l : List T) (i : Nat) (raw : List Nat) :
    rawArcStartIndicesLoop threshold l i raw =
      raw ++ rawArcStartIndicesLoop threshold l i [] := by
  induction l generalizing i raw with
  | nil => simp [rawArcStartIndicesLoop]
  | cons a rest ih =>
    cases rest with
    | nil => simp [rawArcStartIndicesLoop]
    | cons b rest' =>
      simp only [rawArcStartIndicesLoop]
      rw [ih (i + 1) (if b - a > threshold then raw ++ [i] else raw),
        ih (i + 1) (if b - a > threshold then [] ++ [i] else [])]
      split <;> simp

theorem mem_rawArcStartIndicesLoop [LinearOrderedAddCommGroup T] (threshold : T)
    (l : List T) (i : Nat) (x : Nat) :
    x ∈ rawArcStartIndicesLoop threshold l i [] ↔
      ∃ k a b, x = i + k ∧ l.get? k = some a ∧ l.get? (k + 1) = some b ∧
        b - a > threshold := by
  induction l generalizing i with
  | nil => simp [rawArcStartIndicesLoop]
  | cons a rest ih =>
    cases rest with
    | nil => simp [rawArcStartIndicesLoop]
    | cons b rest' =>
      simp only [rawArcStartIndicesLoop]
      rw [rawArcStartIndicesLoop_append, List.mem_append, ih (i + 1)]
      constructor
      · rintro (hx | ⟨k, a', b', hx, ha, hb, hgap⟩)
        · split at hx
          · rename_i hgap
            simp only [List.nil_append, List.mem_singleton] at hx
            exact ⟨0, a, b, by omega, rfl, rfl, hgap⟩
          · simp at hx
        · exact ⟨k + 1, a', b', by omega, by simpa using ha, by simpa using hb, hgap⟩
      · rintro ⟨k, a', b', hx, ha, hb, hgap⟩
        cases k with
        | zero =>
          simp only [List.get?_cons_zero, Option.some.injEq, Nat.zero_add,
            List.get?_cons_succ] at ha hb
          subst ha hb
          left
          simp [hgap, hx]
        | succ k =>
          right
          exact ⟨k, a', b', by omega, by simpa using ha, by simpa using hb, hgap⟩

theorem rawArcStartIndicesLoop_sorted [LinearOrderedAddCommGroup T] (threshold : T)
    (l : List T) (i : Nat) :
    (rawArcStartIndicesLoop threshold l i []).Sorted (· < ·) := by
  induction l generalizing i with
  | nil => simp [rawArcStartIndicesLoop]
  | cons a rest ih =>
    cases rest with
    | nil => simp [rawArcStartIndicesLoop]
    | cons b rest' =>
      simp only [rawArcStartIndicesLoop]
      rw [rawArcStartIndicesLoop_append]
      unfold List.Sorted
      rw [List.pairwise_append]
      refine ⟨by split <;> simp, ih (i + 1), ?_⟩
      intro x hx y hy
      obtain ⟨k, -, -, hy', -, -, -⟩ := (mem_rawArcStartIndicesLoop threshold _ _ y).mp hy
      split at hx
      · simp only [List.nil_append, List.mem_singleton] at hx
        omega
      · simp at hx

/-- The positions in `rawArcStartIndices` before the final one is added: the position 0
and the positions that follow a gap. -/
theorem mem_rawArcStartIndices [LinearOrderedAddCommGroup T] (threshold : T)
    (times : List T) (x : Nat) :
    x ∈ rawArcStartIndicesLoop threshold times 1 [] ↔ GapBefore threshold times x := by
  rw [mem_rawArcStartIndicesLoop]
  unfold GapBefore
  constructor
  · rintro ⟨k, a, b, hx, ha, hb, hgap⟩
    subst hx
    refine ⟨by omega, a, b, ?_, ?_, hgap⟩
    · rw [show 1 + k - 1 = k by omega]
      exact ha
    · rw [Nat.add_comm 1 k]
      exact hb
  · rintro ⟨hpos, a, b, ha, hb, hgap⟩
    refine ⟨x - 1, a, b, by omega, ha, ?_, hgap⟩
    rw [show x - 1 + 1 = x by omega]
    exact hb

theorem GapBefore_lt [LinearOrderedAddCommGroup T] (threshold : T) (times : List T) (x : Nat)
    (h : GapBefore threshold times x) : 0 < x ∧ x < times.length := by
  obtain ⟨hpos, a, b, -, hb, -⟩ := h
  rw [List.get?_eq_getElem?] at hb
  exact ⟨hpos, (List.getElem?_eq_some_iff.mp hb).1⟩

theorem arcSplitIndicesLoop_append (minimum : Int) (raw : List Nat) (arcs : List (Nat × Nat)) :
    arcSplitIndicesLoop minimum raw arcs = arcs ++ arcSplitIndicesLoop minimum raw [] := by
  induction raw generalizing arcs with
  | nil => simp [arcSplitIndicesLoop]
  | cons a rest ih =>
    cases rest with
    | nil => simp [arcSplitIndicesLoop]
    | cons b rest' =>
      simp only [arcSplitIndicesLoop]
      rw [ih (if (b : Int) - (a : Int) > minimum then arcs ++ [(a, b - a)] else arcs),
        ih (if (b : Int) - (a : Int) > minimum then [] ++ [(a, b - a)] else [])]
      split <;> simp

/-- The arcs are the pairs of neighbours in `rawArcStartIndices` that are more than the
minimum apart. -/
theorem mem_arcSplitIndicesLoop (minimum : Int) (raw : List Nat) (hsorted : raw.Sorted (· < ·))
    (start size : Nat) :
    (start, size) ∈ arcSplitIndicesLoop minimum raw [] ↔
      0 < size ∧ (∃ pre post, raw = pre ++ start :: (start + size) :: post) ∧
        minimum < (size : Int) := by
  induction raw with
  | nil => simp [arcSplitIndicesLoop]
  | cons a rest ih =>
    cases rest with
    | nil =>
      simp only [arcSplitIndicesLoop, List.not_mem_nil, false_iff, not_and]
      rintro - ⟨pre, post, h⟩
      have := congrArg List.length h
      simp at this
      omega
    | cons b rest' =>
      have hab : a < b := by
        simp only [List.sorted_cons, List.mem_cons, forall_eq_or_imp] at hsorted
        exact hsorted.1.1
      have hrest : (b :: rest').Sorted (· < ·) := (List.sorted_cons.mp hsorted).2
      simp only [arcSplitIndicesLoop]
      rw [arcSplitIndicesLoop_append, List.mem_append, ih hrest]
      constructor
      · rintro (h | ⟨hpos, ⟨pre, post, hraw⟩, hmin⟩)
        · split at h
          · rename_i hcond
            simp only [List.nil_append, List.mem_singleton, Prod.mk.injEq] at h
            obtain ⟨hs, hl⟩ := h
            subst hs hl
            refine ⟨by omega, ⟨[], rest', ?_⟩, ?_⟩
            · simp only [List.nil_append, List.cons.injEq, true_and, and_true]
              omega
            · rw [Int.ofNat_sub (le_of_lt hab)]
              exact hcond
          · simp at h
        · exact ⟨hpos, ⟨a :: pre, post, by rw [hraw]; rfl⟩, hmin⟩
      · rintro ⟨hpos, ⟨pre, post, hraw⟩, hmin⟩
        cases pre with
        | nil =>
          simp only [List.nil_append, List.cons.injEq] at hraw
          obtain ⟨ha, hb, -⟩ := hraw
          left
          have hcond : (b : Int) - (a : Int) > minimum := by omega
          simp only [hcond, if_true, List.nil_append, List.mem_singleton, Prod.mk.injEq]
          omega
        | cons x pre' =>
          simp only [List.cons_append, List.cons.injEq] at hraw
          exact Or.inr ⟨hpos, ⟨pre', post, hraw.2⟩, hmin⟩

theorem arcSplitIndicesLoop_pairwise (minimum : Int) (raw : List Nat)
    (hsorted : raw.Sorted (· < ·)) :
    (arcSplitIndicesLoop minimum raw []).Pairwise (fun x y => x.1 + x.2 ≤ y.1) := by
  induction raw with
  | nil => simp [arcSplitIndicesLoop]
  | cons a rest ih =>
    cases rest with
    | nil => simp [arcSplitIndicesLoop]
    | cons b rest' =>
      have hab : a < b := by
        simp only [List.sorted_cons, List.mem_cons, forall_eq_or_imp] at hsorted
        exact hsorted.1.1
      have hrest : (b :: rest').Sorted (· < ·) := (List.sorted_cons.mp hsorted).2
      simp only [arcSplitIndicesLoop]
      rw [arcSplitIndicesLoop_append, List.pairwise_append]
      refine ⟨by split <;> simp, ih hrest, ?_⟩
      intro x hx y hy
      obtain ⟨-, ⟨pre, post, hraw⟩, -⟩ :=
        (mem_arcSplitIndicesLoop minimum (b :: rest') hrest y.1 y.2).mp hy
      have hy1 : y.1 ∈ b :: rest' := by rw [hraw]; simp
      have hby : b ≤ y.1 := by
        rcases List.mem_cons.mp hy1 with h | h
        · omega
        · exact le_of_lt ((List.sorted_cons.mp hrest).1 _ h)
      split at hx
      · simp only [List.nil_append, List.mem_singleton] at hx
        subst hx
        simp only
        omega
      · simp at hx

/-- In a strictly ascending list two entries are neighbours when no entry lies strictly
between them. -/
theorem neighbours_iff_of_sorted (raw : List Nat) (hsorted : raw.Sorted (· < ·)) (s e : Nat)
    (hse : s < e) :
    (∃ pre post, raw = pre ++ s :: e :: post) ↔
      s ∈ raw ∧ e ∈ raw ∧ ∀ x ∈ raw, x ≤ s ∨ e ≤ x := by
  constructor
  · rintro ⟨pre, post, hraw⟩
    subst hraw
    refine ⟨by simp, by simp, ?_⟩
    unfold List.Sorted at hsorted
    rw [List.pairwise_append] at hsorted
    obtain ⟨-, hright, hcross⟩ := hsorted
    intro x hx
    rcases List.mem_append.mp hx with hx | hx
    · exact Or.inl (le_of_lt (hcross x hx s (List.mem_cons_self _ _)))
    · rcases List.mem_cons.mp hx with rfl | hx
      · exact Or.inl (le_refl _)
      · rcases List.mem_cons.mp hx with rfl | hx
        · exact Or.inr (le_refl _)
        · have h2 := (List.pairwise_cons.mp (List.pairwise_cons.mp hright).2).1 x hx
          exact Or.inr (le_of_lt h2)
  · rintro ⟨hs, he, hnone⟩
    induction raw with
    | nil => simp at hs
    | cons x rest ih =>
      have hx := List.sorted_cons.mp hsorted
      by_cases hxs : x = s
      · subst hxs
        have he' : e ∈ rest := by
          rcases List.mem_cons.mp he with h | h
          · omega
          · exact h
        cases rest with
        | nil => simp at he'
        | cons y rest' =>
          have hxy : x < y := hx.1 y (List.mem_cons_self _ _)
          have hy := hnone y (by simp)
          have hey : y ≤ e := by
            rcases List.mem_cons.mp he' with h | h
            · omega
            · exact le_of_lt ((List.sorted_cons.mp hx.2).1 e h)
          have : y = e := by omega
          subst this
          exact ⟨[], rest', rfl⟩
      · have hs' : s ∈ rest := by
          rcases List.mem_cons.mp hs with h | h
          · exact absurd h.symm hxs
          · exact h
        have hxlt : x < s := hx.1 s hs'
        have he' : e ∈ rest := by
          rcases List.mem_cons.mp he with h | h
          · omega
          · exact h
        obtain ⟨pre, post, hrest⟩ := ih hx.2 hs' he'
          (fun y hy => hnone y (List.mem_cons_of_mem _ hy))
        exact ⟨x :: pre, post, by rw [hrest]; rfl⟩

theorem rawArcStartIndices_eq [LinearOrderedAddCommGroup T] (threshold : T) (times : List T) :
    rawArcStartIndicesLoop threshold times 1 [0] ++ [times.length] =
      0 :: (rawArcStartIndicesLoop threshold times 1 [] ++ [times.length]) := by
  rw [rawArcStartIndicesLoop_append]
  rfl

theorem rawArcStartIndices_sorted [LinearOrderedAddCommGroup T] (threshold : T)
    (times : List T) (hne : 0 < times.length) :
    (0 :: (rawArcStartIndicesLoop threshold times 1 [] ++ [times.length])).Sorted (· < ·) := by
  rw [List.sorted_cons]
  constructor
  · intro x hx
    rcases List.mem_append.mp hx with hx | hx
    · exact (GapBefore_lt threshold times x ((mem_rawArcStartIndices threshold times x).mp hx)).1
    · simp only [List.mem_singleton] at hx
      omega
  · unfold List.Sorted
    rw [List.pairwise_append]
    refine ⟨rawArcStartIndicesLoop_sorted threshold times 1, by simp, ?_⟩
    intro x hx y hy
    simp only [List.mem_singleton] at hy
    rw [hy]
    exact (GapBefore_lt threshold times x ((mem_rawArcStartIndices threshold times x).mp hx)).2

theorem mem_rawArcStartIndices_all [LinearOrderedAddCommGroup T] (threshold : T)
    (times : List T) (x : Nat) :
    x ∈ 0 :: (rawArcStartIndicesLoop threshold times 1 [] ++ [times.length]) ↔
      x = 0 ∨ GapBefore threshold times x ∨ x = times.length := by
  rw [List.mem_cons, List.mem_append, mem_rawArcStartIndices, List.mem_singleton]

/-- The arcs that `splitSingleObservationSetIntoArcs` computes are the maximal runs of
more than the minimum number of positions. -/
theorem mem_arcSplitIndices [LinearOrderedAddCommGroup T] (threshold : T) (times : List T)
    (minimum : Int) (hmin : 0 ≤ minimum) (start size : Nat) :
    (start, size) ∈ arcSplitIndices times threshold minimum ↔
      IsMaximalRun threshold times start size ∧ minimum < (size : Int) := by
  unfold arcSplitIndices
  rw [rawArcStartIndices_eq]
  by_cases hne : 0 < times.length
  · have hsorted := rawArcStartIndices_sorted threshold times hne
    rw [mem_arcSplitIndicesLoop minimum _ hsorted]
    constructor
    · rintro ⟨hpos, hneighbours, hminimum⟩
      rw [neighbours_iff_of_sorted _ hsorted start (start + size) (by omega)] at hneighbours
      obtain ⟨hs, he, hnone⟩ := hneighbours
      rw [mem_rawArcStartIndices_all] at hs he
      have hle : start + size ≤ times.length := by
        rcases he with h | h | h
        · omega
        · exact le_of_lt (GapBefore_lt threshold times _ h).2
        · omega
      refine ⟨⟨hpos, hle, ?_, ?_, ?_⟩, hminimum⟩
      · rcases hs with h | h | h
        · exact Or.inl h
        · exact Or.inr h
        · omega
      · rcases he with h | h | h
        · omega
        · exact Or.inr h
        · exact Or.inl h
      · intro i hi1 hi2 hgap
        have := hnone i ((mem_rawArcStartIndices_all threshold times i).mpr (Or.inr (Or.inl hgap)))
        omega
    · rintro ⟨⟨hpos, hle, hs, he, hinside⟩, hminimum⟩
      refine ⟨hpos, ?_, hminimum⟩
      rw [neighbours_iff_of_sorted _ hsorted start (start + size) (by omega)]
      refine ⟨?_, ?_, ?_⟩
      · rw [mem_rawArcStartIndices_all]
        rcases hs with h | h
        · exact Or.inl h
        · exact Or.inr (Or.inl h)
      · rw [mem_rawArcStartIndices_all]
        rcases he with h | h
        · exact Or.inr (Or.inr h)
        · exact Or.inr (Or.inl h)
      · intro x hx
        rw [mem_rawArcStartIndices_all] at hx
        rcases hx with h | h | h
        · omega
        · by_contra hcon
          exact hinside x (by omega) (by omega) h
        · omega
  · have hnil : times = [] := List.length_eq_zero.mp (by omega)
    subst hnil
    have hcond : ¬ ((0 : Nat) : Int) - ((0 : Nat) : Int) > minimum := by omega
    simp only [rawArcStartIndicesLoop, List.nil_append, List.length_nil, arcSplitIndicesLoop,
      hcond, if_false, List.not_mem_nil, false_iff, not_and]
    rintro ⟨hpos, hle, -⟩
    simp only [List.length_nil] at hle
    omega

theorem arcSplitIndices_pairwise [LinearOrderedAddCommGroup T] (threshold : T)
    (times : List T) (minimum : Int) (hmin : 0 ≤ minimum) :
    (arcSplitIndices times threshold minimum).Pairwise (fun x y => x.1 + x.2 ≤ y.1) := by
  unfold arcSplitIndices
  rw [rawArcStartIndices_eq]
  by_cases hne : 0 < times.length
  · exact arcSplitIndicesLoop_pairwise minimum _ (rawArcStartIndices_sorted threshold times hne)
  · have hnil : times = [] := List.length_eq_zero.mp (by omega)
    subst hnil
    have hcond : ¬ ((0 : Nat) : Int) - ((0 : Nat) : Int) > minimum := by omega
    simp only [rawArcStartIndicesLoop, List.nil_append, List.length_nil, arcSplitIndicesLoop,
      hcond, if_false]
    exact List.Pairwise.nil

theorem getStlVectorSegment_length {α : Type} (v : List α) (start size : Nat)
    (h : start + size ≤ v.length) : (getStlVectorSegment v start size).length = size := by
  unfold getStlVectorSegment
  rw [List.length_take, List.length_drop]
  omega

theorem getStlVectorSegment_sublist {α : Type} (v : List α) (start size : Nat) :
    (getStlVectorSegment v start size).Sublist v :=
  (List.take_sublist _ _).trans (List.drop_sublist _ _)

/-- The third loop of `splitSingleObservationSetIntoArcs` constructs one set per arc
that lies inside the original set. -/
theorem splitSingleObservationSetLoop_ok [LinearOrder T] [DecidableEq L]
    (original : SingleObservationSet T S L) (hinv : original.Invariant)
    (arcs : List (Nat × Nat)) (sets : List (SingleObservationSet T S L))
    (harcs : ∀ arc ∈ arcs, arc.1 + arc.2 ≤ original.observationTimes_.length) :
    splitSingleObservationSetLoop original arcs sets =
      .ok (sets ++ arcs.map (fun arc =>
        ⟨original.observableType_, original.linkEnds_,
          getStlVectorSegment original.observations_ arc.1 arc.2,
          getStlVectorSegment original.observationTimes_ arc.1 arc.2,
          original.referenceLinkEnd_,
          getStlVectorSegment original.observationsDependentVariables_ arc.1 arc.2,
          original.dependentVariableCalculator_, original.ancilliarySettings_, arc.2, []⟩)) := by
  induction arcs generalizing sets with
  | nil => simp [splitSingleObservationSetLoop]
  | cons arc rest ih =>
    have harc := harcs arc (List.mem_cons_self _ _)
    have hlenT := getStlVectorSegment_length original.observationTimes_ arc.1 arc.2 harc
    have hlenO := getStlVectorSegment_length original.observations_ arc.1 arc.2
      (by rw [← hinv.timesLength]; exact harc)
    have hdeps : (if original.observationsDependentVariables_.length > 0 then
        getStlVectorSegment original.observationsDependentVariables_ arc.1 arc.2 else []) =
        getStlVectorSegment original.observationsDependentVariables_ arc.1 arc.2 := by
      split
      · rfl
      · rename_i h
        have hnil : original.observationsDependentVariables_ = [] :=
          List.length_eq_zero.mp (by omega)
        rw [hnil]
        simp [getStlVectorSegment]
    unfold splitSingleObservationSetLoop
    rw [hdeps, SingleObservationSet.construct_of_sorted _ _ _ _ _ _ _ _ hinv.calculator
      (by rw [hlenT, hlenO])
      (observablesOfConsistentSize_sublist _ _ (getStlVectorSegment_sublist _ _ _)
        hinv.consistentSize)
      (isSorted_sublist _ _ (getStlVectorSegment_sublist _ _ _) hinv.timesSorted)]
    simp only []
    rw [ih _ (fun a ha => harcs a (List.mem_cons_of_mem _ ha)), hlenO]
    simp

/-- C18: for a set that satisfies its class invariant (in particular, has non-decreasing
times), a threshold and a minimum of at least zero, `splitSingleObservationSetIntoArcs`
returns one set per run of the list `runs`, which holds, in ascending order and without
overlap, exactly the maximal runs of the times that have more positions than the minimum;
the set of a run holds the observations, times and dependent variables at the positions
of the run, and the observable type, link ends, reference link end, calculator and
ancillary settings of the original set. -/
theorem splitSingleObservationSetIntoArcs_spec [LinearOrderedAddCommGroup T] [DecidableEq L]
    (original : SingleObservationSet T S L) (hinv : original.Invariant) (threshold : T)
    (minimum : Int) (hmin : 0 ≤ minimum) :
    ∃ runs : List (Nat × Nat),
      splitSingleObservationSetIntoArcs original threshold minimum =
        .ok (runs.map (fun run =>
          ⟨original.observableType_, original.linkEnds_,
            getStlVectorSegment original.observations_ run.1 run.2,
            getStlVectorSegment original.observationTimes_ run.1 run.2,
            original.referenceLinkEnd_,
            getStlVectorSegment original.observationsDependentVariables_ run.1 run.2,
            original.dependentVariableCalculator_, original.ancilliarySettings_, run.2, []⟩)) ∧
      runs.Pairwise (fun a b => a.1 + a.2 ≤ b.1) ∧
      ∀ start size, (start, size) ∈ runs ↔
        IsMaximalRun threshold original.observationTimes_ start size ∧
          minimum < (size : Int) := by
  refine ⟨arcSplitIndices original.observationTimes_ threshold minimum, ?_,
    arcSplitIndices_pairwise threshold _ minimum hmin,
    mem_arcSplitIndices threshold _ minimum hmin⟩
  unfold splitSingleObservationSetIntoArcs
  rw [splitSingleObservationSetLoop_ok original hinv _ []
    (fun arc harc =>
      ((mem_arcSplitIndices threshold _ minimum hmin arc.1 arc.2).mp harc).1.2.1)]
  rfl

/-- Witness of C18: the times 0, 1, 2, 10, 11, 12 with the threshold 5 and the
minimum 2. -/
theorem splitSingleObservationSetIntoArcs_spec_witness :
    ∃ runs : List (Nat × Nat),
      splitSingleObservationSetIntoArcs
        (⟨1, ⟨7⟩, [[0], [1], [2], [10], [11], [12]], [0, 1, 2, 10, 11, 12], 0, [], none, none,
          6, []⟩ : SingleObservationSet Int Int Nat) 5 2 =
        .ok (runs.map (fun run =>
          ⟨1, ⟨7⟩,
            getStlVectorSegment ([[0], [1], [2], [10], [11], [12]] : List (List Int)) run.1 run.2,
            getStlVectorSegment ([0, 1, 2, 10, 11, 12] : List Int) run.1 run.2, 0,
            getStlVectorSegment ([] : List (List Int)) run.1 run.2, none, none, run.2, []⟩)) ∧
      runs.Pairwise (fun a b => a.1 + a.2 ≤ b.1) ∧
      ∀ start size, (start, size) ∈ runs ↔
        IsMaximalRun (5 : Int) [0, 1, 2, 10, 11, 12] start size ∧ (2 : Int) < (size : Int) :=
  splitSingleObservationSetIntoArcs_spec
    (⟨1, ⟨7⟩, [[0], [1], [2], [10], [11], [12]], [0, 1, 2, 10, 11, 12], 0, [], none, none,
      6, []⟩ : SingleObservationSet Int Int Nat)
    ⟨rfl, rfl, rfl, rfl, by decide⟩ 5 2 (by decide)

/-- The example of C18: the times 0, 1, 2, 10, 11, 12 with the threshold 5 give the
arcs of the positions 0 to 2 and 3 to 5 for the minima 1 and 2, and no arc for the
minimum 3. -/
theorem arcSplitIndices_example :
    arcSplitIndices ([0, 1, 2, 10, 11, 12] : List Int) 5 1 = [(0, 3), (3, 3)] ∧
    arcSplitIndices ([0, 1, 2, 10, 11, 12] : List Int) 5 2 = [(0, 3), (3, 3)] ∧
    arcSplitIndices ([0, 1, 2, 10, 11, 12] : List Int) 5 3 = [] :=
  ⟨by decide, by decide, by decide⟩

end ArcSplitLemmas

section FilterPlanLemmas

variable {T S L : Type}

theorem eigenCoeff_of_lt {α : Type} (v : List α) (i : Nat) (h : i < v.length) :
    eigenCoeff v i = .ok (v.get ⟨i, h⟩) := by
  unfold eigenCoeff
  rw [List.get?_eq_get h]

theorem entriesToFilterComponents_ok [LinearOrder S] (residuals : List S) (cutoff : S)
    (d j count k : Nat) (remove : Bool) (h : j * d + k + count ≤ residuals.length) :
    entriesToFilterComponents residuals cutoff d j count k remove =
      .ok (remove || (List.range' k count).any (fun k =>
        match residuals.get? (j * d + k) with
        | some x => decide (x > cutoff)
        | none => false)) := by
  induction count generalizing k remove with
  | zero => simp [entriesToFilterComponents]
  | succ count ih =>
    have hlt : j * d + k < residuals.length := by omega
    unfold entriesToFilterComponents
    rw [eigenCoeff_of_lt _ _ hlt]
    simp only []
    rw [ih (k + 1) _ (by omega)]
    simp only [List.range', List.any_cons, List.get?_eq_get hlt, List.get_eq_getElem]
    by_cases hx : residuals[j * d + k] > cutoff
    · simp [hx]
    · simp [hx]

theorem entriesToFilterComponents_all [LinearOrder S] (residuals : List S) (cutoff : S)
    (d j : Nat) (h : (j + 1) * d ≤ residuals.length) :
    entriesToFilterComponents residuals cutoff d j d 0 false =
      .ok (exceedsCutoff residuals cutoff d j) := by
  rw [entriesToFilterComponents_ok _ _ _ _ _ _ _ (by
    have : (j + 1) * d = j * d + d := by ring
    omega)]
  simp [exceedsCutoff, List.range_eq_range']

theorem entriesToFilterSamples_ok [LinearOrder S] (residuals : List S) (cutoff : S)
    (d count j : Nat) (indices : List Int) (h : (j + count) * d ≤ residuals.length) :
    entriesToFilterSamples residuals cutoff d count j indices =
      .ok (indices ++
        ((List.range' j count).filter (exceedsCutoff residuals cutoff d)).map Int.ofNat) := by
  induction count generalizing j indices with
  | zero => simp [entriesToFilterSamples]
  | succ count ih =>
    have hj : (j + 1) * d ≤ residuals.length := by
      have : (j + 1) * d ≤ (j + (count + 1)) * d := Nat.mul_le_mul_right d (by omega)
      omega
    unfold entriesToFilterSamples
    rw [entriesToFilterComponents_all _ _ _ _ hj]
    simp only []
    rw [ih (j + 1) _ (by rw [show j + 1 + count = j + (count + 1) by omega]; exact h)]
    simp only [List.range', List.filter_cons]
    by_cases hx : exceedsCutoff residuals cutoff d j = true
    · simp [hx]
    · simp [hx]

theorem entriesToFilterSamples_all [LinearOrder S] (residuals : List S) (cutoff : S)
    (d n : Nat) (h : n * d ≤ residuals.length) :
    entriesToFilterSamples residuals cutoff d n 0 [] =
      .ok (exceedingIndices residuals cutoff d n) := by
  rw [entriesToFilterSamples_ok _ _ _ _ _ _ (by rw [Nat.zero_add]; exact h)]
  simp [exceedingIndices, List.range_eq_range']

/-- The index list of the specification is strictly ascending. -/
theorem exceedingIndices_sorted [LinearOrder S] (residuals : List S) (cutoff : S) (d n : Nat) :
    (exceedingIndices residuals cutoff d n).Sorted (· < ·) := by
  unfold exceedingIndices List.Sorted
  rw [List.pairwise_map]
  refine List.Pairwise.sublist (List.filter_sublist _) ?_
  exact (List.pairwise_lt_range n).imp (fun hab => Int.ofNat_lt.mpr hab)

/-- The index list of the specification holds the positions below `n` at which some
component of the residuals exceeds the cutoff. -/
theorem mem_exceedingIndices [LinearOrder S] (residuals : List S) (cutoff : S) (d n : Nat)
    (j : Int) :
    j ∈ exceedingIndices residuals cutoff d n ↔
      0 ≤ j ∧ j < (n : Int) ∧ ∃ k x, k < d ∧ residuals.get? (j.toNat * d + k) = some x ∧
        x > cutoff := by
  unfold exceedingIndices exceedsCutoff
  simp only [List.mem_map, List.mem_filter, List.mem_range, List.any_eq_true]
  constructor
  · rintro ⟨i, ⟨hi, k, hk, hx⟩, rfl⟩
    refine ⟨Int.ofNat_nonneg i, Int.ofNat_lt.mpr hi, k, ?_⟩
    cases hget : residuals.get? (i * d + k) with
    | none => rw [hget] at hx; simp at hx
    | some x =>
      rw [hget] at hx
      exact ⟨x, hk, by simpa using hget, by simpa using hx⟩
  · rintro ⟨h0, hn, k, x, hk, hget, hx⟩
    refine ⟨j.toNat, ⟨by omega, k, hk, ?_⟩, Int.toNat_of_nonneg h0⟩
    rw [hget]
    simpa using hx

end FilterPlanLemmas

section FilterPlanLoopLemmas

variable {T S L : Type} [LinearOrder L]

theorem startAndSizeAt_eq_vectorAt
    (table : StdMap ObservableType (StdMap L (List (Nat × Nat)))) (ty : ObservableType)
    (le : L) (r : Nat) :
    startAndSizeAt table ty le r = vectorAt (StdMap.entriesAt table ty le) r := by
  unfold startAndSizeAt StdMap.entriesAt StdMap.at
  cases StdMap.find? table ty with
  | none => simp [StdMap.find?, vectorAt]
  | some inner =>
    simp only [Option.getD_some]
    cases StdMap.find? inner le with
    | none => simp [vectorAt]
    | some entries => simp

theorem observationSetAt_eq_vectorAt (m : SortedObservationSets T S L) (ty : ObservableType)
    (le : L) (r : Nat) :
    observationSetAt m ty le r = vectorAt (StdMap.entriesAt m ty le) r := by
  unfold observationSetAt StdMap.entriesAt StdMap.at
  cases StdMap.find? m ty with
  | none => simp [StdMap.find?, vectorAt]
  | some inner =>
    simp only [Option.getD_some]
    cases StdMap.find? inner le with
    | none => simp [vectorAt]
    | some entries => simp

theorem get?_of_drop_eq_cons {α : Type} (l : List α) (i : Nat) (a : α) (rest : List α)
    (h : l.drop i = a :: rest) : l.get? i = some a ∧ l.drop (i + 1) = rest := by
  have hi : i < l.length := by
    by_contra hcon
    rw [List.drop_eq_nil_of_le (by omega)] at h
    simp at h
  rw [List.drop_eq_getElem_cons hi] at h
  simp only [List.cons.injEq] at h
  exact ⟨by rw [List.get?_eq_getElem?, List.getElem?_eq_getElem hi, h.1], h.2⟩

/-- The loop of `getObservationCollectionEntriesToFiler` over the sets of one observable
type and link ends returns one index list per set, computed from the table entry of the
set. -/
theorem entriesToFilterSets_ok [LinearOrder S] (c : ObservationCollection T S L)
    (residual : List S) (getObservableSize : ObservableType → Nat) (ty : ObservableType)
    (cutoff : S) (le : L) (sets : List (SingleObservationSet T S L)) (i : Nat)
    (acc : List (List Int))
    (hsets : (StdMap.entriesAt c.observationSetList_ ty le).drop i = sets)
    (hentries : ∀ r set, (StdMap.entriesAt c.observationSetList_ ty le).get? r = some set →
      ∃ entry, (StdMap.entriesAt c.observationSetStartAndSize_ ty le).get? r = some entry ∧
        entry.2 = set.getNumberOfObservables * getObservableSize ty ∧
        entry.1 + entry.2 ≤ residual.length ∧
        set.observationTimes_.length = set.getNumberOfObservables) :
    entriesToFilterSets c residual getObservableSize ty cutoff le sets i acc =
      .ok (acc ++ List.zipWith
        (fun set entry => exceedingIndices ((residual.drop entry.1).take entry.2) cutoff
          (getObservableSize ty) set.observationTimes_.length)
        sets ((StdMap.entriesAt c.observationSetStartAndSize_ ty le).drop i)) := by
  induction sets generalizing i acc with
  | nil => simp [entriesToFilterSets]
  | cons set rest ih =>
    obtain ⟨hget, hdrop⟩ := get?_of_drop_eq_cons _ _ _ _ hsets
    obtain ⟨entry, hentry, hsize, hbound, htimes⟩ := hentries i set hget
    have hseg : getSegment residual entry.1 entry.2 =
        .ok ((residual.drop entry.1).take entry.2) := by
      unfold getSegment
      rw [if_pos hbound]
    have hlen : ((residual.drop entry.1).take entry.2).length = entry.2 := by
      rw [List.length_take, List.length_drop]
      omega
    unfold entriesToFilterSets
    rw [ObservationCollection.getObservations, observationSetAt_eq_vectorAt,
      vectorAt_of_get? _ _ _ hget, startAndSizeAt_eq_vectorAt, vectorAt_of_get? _ _ _ hentry]
    have hcheck : ((residual.drop entry.1).take entry.2).length =
        getObservableSize ty * set.getNumberOfObservables := by
      rw [hlen, hsize, Nat.mul_comm]
    have hsamples := entriesToFilterSamples_all ((residual.drop entry.1).take entry.2) cutoff
      (getObservableSize ty) set.observationTimes_.length (by rw [hlen, htimes, hsize])
    simp only [hseg, hcheck, ne_eq, not_true_eq_false, if_false, hsamples]
    rw [drop_of_get? _ _ _ hentry, ih (i + 1) _ hdrop]
    simp

theorem entriesToFilterLinkEnds_ok [LinearOrder S] (c : ObservationCollection T S L)
    (residual : List S) (getObservableSize : ObservableType → Nat) (ty : ObservableType)
    (cutoff : S) (list : List (L × List (SingleObservationSet T S L)))
    (acc : List (L × List (List Int)))
    (hlist : ∀ q ∈ list, StdMap.entriesAt c.observationSetList_ ty q.1 = q.2 ∧
      ∀ r set, q.2.get? r = some set →
      ∃ entry, (StdMap.entriesAt c.observationSetStartAndSize_ ty q.1).get? r = some entry ∧
        entry.2 = set.getNumberOfObservables * getObservableSize ty ∧
        entry.1 + entry.2 ≤ residual.length ∧
        set.observationTimes_.length = set.getNumberOfObservables) :
    entriesToFilterLinkEnds c residual getObservableSize ty cutoff list acc =
      .ok (acc ++ list.map (fun q => (q.1, List.zipWith
        (fun set entry => exceedingIndices ((residual.drop entry.1).take entry.2) cutoff
          (getObservableSize ty) set.observationTimes_.length)
        q.2 (StdMap.entriesAt c.observationSetStartAndSize_ ty q.1)))) := by
  induction list generalizing acc with
  | nil => simp [entriesToFilterLinkEnds]
  | cons entry rest ih =>
    obtain ⟨le, sets⟩ := entry
    obtain ⟨h1, h2⟩ := hlist (le, sets) (List.mem_cons_self _ _)
    simp only at h1 h2
    unfold entriesToFilterLinkEnds
    rw [entriesToFilterSets_ok c residual getObservableSize ty cutoff le sets 0 []
      (by rw [List.drop_zero]; exact h1) (by rw [h1]; exact h2)]
    simp only [List.nil_append, List.drop_zero]
    rw [ih _ (fun q hq => hlist q (List.mem_cons_of_mem _ hq))]
    simp

theorem StdMap.assign_append {K V : Type} [LinearOrder K] (k : K) (v : V) (m : StdMap K V)
    (h : ∀ x ∈ m, x.1 < k) : StdMap.assign k v m = m ++ [(k, v)] := by
  unfold StdMap.assign
  induction m with
  | nil => rfl
  | cons p rest ih =>
    obtain ⟨k', v'⟩ := p
    have hk : k' < k := h (k', v') (List.mem_cons_self _ _)
    unfold StdMap.modify
    rw [if_neg (not_lt.mpr (le_of_lt hk)), if_pos hk,
      ih (fun x hx => h x (List.mem_cons_of_mem _ hx))]
    rfl

theorem entriesToFilterTypes_ok [LinearOrder S] (c : ObservationCollection T S L)
    (residual : List S) (getObservableSize : ObservableType → Nat)
    (cutoffs : StdMap ObservableType S) (cutoffOf : ObservableType → S)
    (m : SortedObservationSets T S L)
    (acc : StdMap ObservableType (List (L × List (List Int))))
    (hsorted : StdMap.WF m) (hacc : ∀ x ∈ acc, ∀ p ∈ m, x.1 < p.1)
    (hcut : ∀ p ∈ m, StdMap.find? cutoffs p.1 = some (cutoffOf p.1))
    (hm : ∀ p ∈ m, ∀ q ∈ p.2, StdMap.entriesAt c.observationSetList_ p.1 q.1 = q.2 ∧
      ∀ r set, q.2.get? r = some set →
      ∃ entry, (StdMap.entriesAt c.observationSetStartAndSize_ p.1 q.1).get? r = some entry ∧
        entry.2 = set.getNumberOfObservables * getObservableSize p.1 ∧
        entry.1 + entry.2 ≤ residual.length ∧
        set.observationTimes_.length = set.getNumberOfObservables) :
    entriesToFilterTypes c residual getObservableSize cutoffs m acc =
      .ok (acc ++ m.map (fun p => (p.1, p.2.map (fun q => (q.1, List.zipWith
        (fun set entry => exceedingIndices ((residual.drop entry.1).take entry.2)
          (cutoffOf p.1) (getObservableSize p.1) set.observationTimes_.length)
        q.2 (StdMap.entriesAt c.observationSetStartAndSize_ p.1 q.1)))))) := by
  induction m generalizing acc with
  | nil => simp [entriesToFilterTypes]
  | cons entry rest ih =>
    obtain ⟨ty, list⟩ := entry
    have hcutTy := hcut (ty, list) (List.mem_cons_self _ _)
    simp only at hcutTy
    unfold StdMap.WF at hsorted
    simp only [List.map_cons, List.sorted_cons] at hsorted
    unfold entriesToFilterTypes
    simp only [StdMap.at, hcutTy]
    rw [entriesToFilterLinkEnds_ok c residual getObservableSize ty (cutoffOf ty) list []
      (hm (ty, list) (List.mem_cons_self _ _))]
    simp only [List.nil_append]
    rw [StdMap.assign_append _ _ _ (fun x hx => hacc x hx (ty, list) (List.mem_cons_self _ _)),
      ih _ hsorted.2
        (fun x hx p hp => by
          rcases List.mem_append.mp hx with hx | hx
          · exact hacc x hx p (List.mem_cons_of_mem _ hp)
          · simp only [List.mem_singleton] at hx
            rw [hx]
            exact hsorted.1 p.1 (List.mem_map_of_mem _ hp))
        (fun p hp => hcut p (List.mem_cons_of_mem _ hp))
        (fun p hp => hm p (List.mem_cons_of_mem _ hp))]
    simp

end FilterPlanLoopLemmas

section FilterPlanClaims

variable {T S L : Type} [LinearOrder L]

theorem sum_take_add_le (l : List Nat) (r x : Nat) (h : l.get? r = some x) :
    (l.take r).sum + x ≤ l.sum := by
  induction l generalizing r with
  | nil => simp at h
  | cons a rest ih =>
    cases r with
    | zero =>
      simp only [List.get?_cons_zero, Option.some.injEq] at h
      simp [h]
    | succ r =>
      simp only [List.get?_cons_succ] at h
      have := ih r h
      simp only [List.take_succ_cons, List.sum_cons]
      omega

theorem get?_take_drop {α : Type} (v : List α) (start n i : Nat) (x : α) :
    ((v.drop start).take n).get? i = some x ↔ i < n ∧ v.get? (start + i) = some x := by
  simp only [List.get?_eq_getElem?]
  by_cases hi : i < n
  · rw [List.getElem?_take_of_lt hi, List.getElem?_drop]
    simp [hi]
  · rw [List.getElem?_take_eq_none (by omega)]
    simp [hi]

/-- The table entry of a set of a constructed collection: it has the length of the set
and lies inside the flat buffers. -/
theorem ObservationCollection.construct_table_entry [Inhabited L] [Inhabited T] [Zero S]
    (getObservableSize : ObservableType → Nat) (m : SortedObservationSets T S L)
    (c : ObservationCollection T S L)
    (h : ObservationCollection.construct getObservableSize m = .ok c)
    (hwf : StdMap.NestedWF m)
    (p : ObservableType × StdMap L (List (SingleObservationSet T S L))) (hp : p ∈ m)
    (q : L × List (SingleObservationSet T S L)) (hq : q ∈ p.2) :
    (StdMap.entriesAt c.observationSetStartAndSize_ p.1 q.1).length = q.2.length ∧
    ∀ r set, q.2.get? r = some set →
      ∃ entry, (StdMap.entriesAt c.observationSetStartAndSize_ p.1 q.1).get? r = some entry ∧
        entry.2 = set.getNumberOfObservables * getObservableSize p.1 ∧
        entry.1 + entry.2 ≤ c.totalObservableSize_ := by
  have htotal := ObservationCollection.construct_totalObservableSize getObservableSize m c h
  have htable := ObservationCollection.construct_startAndSize getObservableSize m c h
  obtain ⟨preM, postM, hm⟩ := List.append_of_mem hp
  obtain ⟨pre, post, hinner⟩ := List.append_of_mem hq
  have hentries := ObservationCollection.setObservationSetIndices_entriesAt getObservableSize m
    hwf preM p postM hm pre q post hinner
  rw [← htable] at hentries
  rw [hentries]
  refine ⟨by simp [startAndSizeFrom_length, setLengths], ?_⟩
  intro r set hr
  have hlen : (setLengths (getObservableSize p.1) q.2).get? r =
      some (set.getNumberOfObservables * getObservableSize p.1) := by
    simp only [setLengths, List.get?_eq_getElem?, List.getElem?_map] at hr ⊢
    rw [hr]
    rfl
  refine ⟨_, by rw [startAndSizeFrom_get?, hlen]; rfl, rfl, ?_⟩
  have hsum := sum_take_add_le _ _ _ hlen
  have hsplit : (typeLengths getObservableSize m).sum =
      (typeLengths getObservableSize preM).sum +
        ((linkEndLengths (getObservableSize p.1) pre).sum +
          ((setLengths (getObservableSize p.1) q.2).sum +
            (linkEndLengths (getObservableSize p.1) post).sum)) +
        (typeLengths getObservableSize postM).sum := by
    rw [hm]
    simp only [typeLengths, List.flatMap_append, List.flatMap_cons, List.sum_append, hinner,
      linkEndLengths]
    omega
  rw [htotal, hsplit]
  simp only
  omega

/-- C19: on a collection constructed from a well formed nested mapping of sets with as
many times as observations, `getObservationCollectionEntriesToFiler` throws when the
residual vector has not the length `getTotalObservableSize( )`; otherwise, given a cutoff
for every observable type of the collection, it returns one entry per observable type
with one pair per link ends with one index list per set, in iteration order; the table
has one entry per set, and the index list of a set with the table entry `(start, length)`
is strictly ascending and holds exactly the positions `j` of the observations of the set
for which some residual `residual[ start + j * d + k ]` with `k < d` exceeds the cutoff
of the observable type, `d` being the size of the observable. -/
theorem getObservationCollectionEntriesToFiler_spec [Inhabited L] [Inhabited T] [Zero S]
    [LinearOrder S] (getObservableSize : ObservableType → Nat)
    (m : SortedObservationSets T S L) (c : ObservationCollection T S L)
    (h : ObservationCollection.construct getObservableSize m = .ok c)
    (hwf : StdMap.NestedWF m)
    (hvalid : ∀ p ∈ m, ∀ q ∈ p.2, ∀ set ∈ q.2,
      set.numberOfObservations_ = set.observations_.length ∧
      set.observationTimes_.length = set.observations_.length)
    (residual : List S) (cutoffs : StdMap ObservableType S) (cutoffOf : ObservableType → S) :
    (residual.length ≠ c.getTotalObservableSize →
      getObservationCollectionEntriesToFiler getObservableSize c residual cutoffs =
        .error .filterInputSizeIncompatible) ∧
    (residual.length = c.getTotalObservableSize →
      (∀ p ∈ m, StdMap.find? cutoffs p.1 = some (cutoffOf p.1)) →
      getObservationCollectionEntriesToFiler getObservableSize c residual cutoffs =
        .ok (m.map (fun p => (p.1, p.2.map (fun q => (q.1, List.zipWith
          (fun set entry => exceedingIndices ((residual.drop entry.1).take entry.2)
            (cutoffOf p.1) (getObservableSize p.1) set.observationTimes_.length)
          q.2 (StdMap.entriesAt c.getObservationSetStartAndSize p.1 q.1)))))) ∧
      ∀ p ∈ m, ∀ q ∈ p.2,
        (StdMap.entriesAt c.getObservationSetStartAndSize p.1 q.1).length = q.2.length ∧
        ∀ r set entry, q.2.get? r = some set →
          (StdMap.entriesAt c.getObservationSetStartAndSize p.1 q.1).get? r = some entry →
          (exceedingIndices ((residual.drop entry.1).take entry.2) (cutoffOf p.1)
            (getObservableSize p.1) set.observationTimes_.length).Sorted (· < ·) ∧
          ∀ j : Int, j ∈ exceedingIndices ((residual.drop entry.1).take entry.2) (cutoffOf p.1)
              (getObservableSize p.1) set.observationTimes_.length ↔
            0 ≤ j ∧ j < (set.getNumberOfObservables : Int) ∧
              ∃ k x, k < getObservableSize p.1 ∧
                residual.get? (entry.1 + j.toNat * getObservableSize p.1 + k) = some x ∧
                x > cutoffOf p.1) := by
  have hlist := ObservationCollection.construct_observationSetList getObservableSize m c h
  have htimes : ∀ p ∈ m, ∀ q ∈ p.2, ∀ set ∈ q.2,
      set.observationTimes_.length = set.getNumberOfObservables := by
    intro p hp q hq set hset
    obtain ⟨h1, h2⟩ := hvalid p hp q hq set hset
    rw [SingleObservationSet.getNumberOfObservables, h1, h2]
  constructor
  · intro hne
    unfold getObservationCollectionEntriesToFiler
    rw [if_pos hne]
  · intro heq hcut
    unfold ObservationCollection.getTotalObservableSize at heq
    unfold ObservationCollection.getObservationSetStartAndSize
    constructor
    · unfold getObservationCollectionEntriesToFiler
      rw [if_neg (by simpa [ObservationCollection.getTotalObservableSize] using heq),
        ObservationCollection.getObservations, hlist,
        entriesToFilterTypes_ok c residual getObservableSize cutoffs cutoffOf m [] hwf.1
          (fun x hx => absurd hx (List.not_mem_nil _)) hcut
          (fun p hp q hq => by
            rw [hlist]
            refine ⟨StdMap.entriesAt_of_mem m hwf p hp q hq, ?_⟩
            intro r set hr
            obtain ⟨entry, e1, e2, e3⟩ :=
              (ObservationCollection.construct_table_entry getObservableSize m c h hwf p hp q
                hq).2 r set hr
            exact ⟨entry, e1, e2, by rw [heq]; exact e3,
              htimes p hp q hq set (List.get?_mem hr)⟩)]
      rfl
    · intro p hp q hq
      obtain ⟨hlen, hent⟩ :=
        ObservationCollection.construct_table_entry getObservableSize m c h hwf p hp q hq
      refine ⟨hlen, ?_⟩
      intro r set entry hr hentry
      obtain ⟨entry', e1, e2, e3⟩ := hent r set hr
      rw [hentry] at e1
      simp only [Option.some.injEq] at e1
      subst e1
      refine ⟨exceedingIndices_sorted _ _ _ _, ?_⟩
      intro j
      rw [mem_exceedingIndices, htimes p hp q hq set (List.get?_mem hr)]
      constructor
      · rintro ⟨h0, hn, k, x, hk, hget, hx⟩
        rw [get?_take_drop] at hget
        exact ⟨h0, hn, k, x, hk, by rw [Nat.add_assoc]; exact hget.2, hx⟩
      · rintro ⟨h0, hn, k, x, hk, hget, hx⟩
        refine ⟨h0, hn, k, x, hk, ?_, hx⟩
        rw [get?_take_drop, e2]
        exact ⟨mul_add_lt_mul _ _ _ _ (by omega) hk, by rw [← Nat.add_assoc]; exact hget⟩

/-- Witness of C19: the example collection with the residuals 9, 1, 2, 3, 7, 8, 1 and
the cutoff 5 for both observable types. -/
theorem getObservationCollectionEntriesToFiler_spec_witness :
    (([9, 1, 2, 3, 7, 8, 1] : List Int).length ≠ exampleObservationCollection.getTotalObservableSize →
      getObservationCollectionEntriesToFiler (fun ty => ty) exampleObservationCollection ([9, 1, 2, 3, 7, 8, 1] : List Int) [(1, 5), (2, 5)] =
        .error .filterInputSizeIncompatible) ∧
    (([9, 1, 2, 3, 7, 8, 1] : List Int).length = exampleObservationCollection.getTotalObservableSize →
      (∀ p ∈ exampleSortedObservationSets, StdMap.find? [(1, 5), (2, 5)] p.1 = some (5 : Int)) →
      getObservationCollectionEntriesToFiler (fun ty => ty) exampleObservationCollection ([9, 1, 2, 3, 7, 8, 1] : List Int) [(1, 5), (2, 5)] =
        .ok (exampleSortedObservationSets.map (fun p => (p.1, p.2.map (fun q => (q.1, List.zipWith
          (fun set entry => exceedingIndices ((([9, 1, 2, 3, 7, 8, 1] : List Int).drop entry.1).take entry.2)
            (5 : Int) (p.1) set.observationTimes_.length)
          q.2 (StdMap.entriesAt exampleObservationCollection.getObservationSetStartAndSize p.1 q.1)))))) ∧
      ∀ p ∈ exampleSortedObservationSets, ∀ q ∈ p.2,
        (StdMap.entriesAt exampleObservationCollection.getObservationSetStartAndSize p.1 q.1).length = q.2.length ∧
        ∀ r set entry, q.2.get? r = some set →
          (StdMap.entriesAt exampleObservationCollection.getObservationSetStartAndSize p.1 q.1).get? r = some entry →
          (exceedingIndices ((([9, 1, 2, 3, 7, 8, 1] : List Int).drop entry.1).take entry.2) (5 : Int)
            (p.1) set.observationTimes_.length).Sorted (· < ·) ∧
          ∀ j : Int, j ∈ exceedingIndices ((([9, 1, 2, 3, 7, 8, 1] : List Int).drop entry.1).take entry.2) (5 : Int)
              (p.1) set.observationTimes_.length ↔
            0 ≤ j ∧ j < (set.getNumberOfObservables : Int) ∧
              ∃ k x, k < p.1 ∧
                ([9, 1, 2, 3, 7, 8, 1] : List Int).get? (entry.1 + j.toNat * p.1 + k) = some x ∧
                x > (5 : Int)) :=
  getObservationCollectionEntriesToFiler_spec (fun ty => ty) exampleSortedObservationSets
    exampleObservationCollection exampleObservationCollection_constructed
    ⟨by simp [StdMap.WF, exampleSortedObservationSets],
      by simp [StdMap.WF, exampleSortedObservationSets]⟩
    (by
      simp [exampleSortedObservationSets]
      rintro a b (⟨rfl, rfl⟩ | ⟨rfl, rfl⟩) <;> simp)
    ([9, 1, 2, 3, 7, 8, 1] : List Int) [(1, 5), (2, 5)] (fun _ => 5)

/-- The example of C19 evaluated: the first set loses its observation, the set of link
ends 4 none, the set of link ends 7 both. -/
theorem getObservationCollectionEntriesToFiler_example :
    getObservationCollectionEntriesToFiler (fun ty => ty) exampleObservationCollection
      ([9, 1, 2, 3, 7, 8, 1] : List Int) [(1, 5), (2, 5)] =
      .ok [(1, [(9, [[0]])]), (2, [(4, [[]]), (7, [[0, 1]])])] := rfl

end FilterPlanClaims

section FilterDataClaims

variable {T S L : Type} [LinearOrder T] [LinearOrder L]

theorem filterDataSets_frame (ty : ObservableType) (le : L) (entries : List (List Int))
    (sets : List (SingleObservationSet T S L)) (j : Nat)
    (acc acc' : SortedObservationSets T S L)
    (h : filterDataSets ty le entries sets j acc = .ok acc') (hwf : StdMap.NestedWF acc) :
    StdMap.NestedWF acc' ∧
    ∀ a b, ¬ (a = ty ∧ b = le) → StdMap.entriesAt acc' a b = StdMap.entriesAt acc a b := by
  induction sets generalizing j acc with
  | nil =>
    simp only [filterDataSets, Except.ok.injEq] at h
    subst h
    exact ⟨hwf, fun _ _ _ => rfl⟩
  | cons set rest ih =>
    simp only [filterDataSets] at h
    split at h
    · simp at h
    · split at h
      · simp at h
      · rename_i filtered hfiltered
        obtain ⟨h1, h2⟩ := ih _ _ h (StdMap.pushBack_NestedWF _ _ _ _ hwf)
        refine ⟨h1, fun a b hab => ?_⟩
        rw [h2 a b hab, StdMap.entriesAt_pushBack _ _ _ _ hwf, if_neg hab]

theorem filterDataLinkEnds_frame (c : ObservationCollection T S L) (ty : ObservableType)
    (list : List (L × List (List Int))) (acc acc' : SortedObservationSets T S L)
    (h : filterDataLinkEnds c ty list acc = .ok acc') (hwf : StdMap.NestedWF acc) :
    StdMap.NestedWF acc' ∧
    ∀ a b, (a = ty → ∀ e ∈ list, e.1 ≠ b) →
      StdMap.entriesAt acc' a b = StdMap.entriesAt acc a b := by
  induction list generalizing acc with
  | nil =>
    simp only [filterDataLinkEnds, Except.ok.injEq] at h
    subst h
    exact ⟨hwf, fun _ _ _ => rfl⟩
  | cons entry rest ih =>
    obtain ⟨le, entries⟩ := entry
    simp only [filterDataLinkEnds] at h
    split at h
    · simp at h
    · split at h
      · simp at h
      · split at h
        · simp at h
        · rename_i acc₁ hacc₁
          obtain ⟨g1, g2⟩ := filterDataSets_frame _ _ _ _ _ _ _ hacc₁ hwf
          obtain ⟨h1, h2⟩ := ih _ h g1
          refine ⟨h1, fun a b hab => ?_⟩
          rw [h2 a b (fun ha e he => hab ha e (List.mem_cons_of_mem _ he)),
            g2 a b (fun hk => hab hk.1 (le, entries) (List.mem_cons_self _ _) hk.2.symm)]

theorem filterDataTypes_frame (c : ObservationCollection T S L)
    (plan : List (ObservableType × List (L × List (List Int))))
    (acc acc' : SortedObservationSets T S L)
    (h : filterDataTypes c plan acc = .ok acc') (hwf : StdMap.NestedWF acc) :
    StdMap.NestedWF acc' ∧
    ∀ a b, (∀ entry ∈ plan, entry.1 = a → ∀ e ∈ entry.2, e.1 ≠ b) →
      StdMap.entriesAt acc' a b = StdMap.entriesAt acc a b := by
  induction plan generalizing acc with
  | nil =>
    simp only [filterDataTypes, Except.ok.injEq] at h
    subst h
    exact ⟨hwf, fun _ _ _ => rfl⟩
  | cons entry rest ih =>
    obtain ⟨ty, list⟩ := entry
    simp only [filterDataTypes] at h
    split at h
    · simp at h
    · rename_i acc₁ hacc₁
      obtain ⟨g1, g2⟩ := filterDataLinkEnds_frame _ _ _ _ _ hacc₁ hwf
      obtain ⟨h1, h2⟩ := ih _ h g1
      refine ⟨h1, fun a b hab => ?_⟩
      rw [h2 a b (fun entry hentry => hab entry (List.mem_cons_of_mem _ hentry)),
        g2 a b (fun ha => hab (ty, list) (List.mem_cons_self _ _) ha.symm)]

/-- C20 (counterexample): `filterData` with the empty plan on the example collection of
three sets and total size 7 returns a collection without sets, with an empty observation
vector and the total size 0. -/
theorem filterData_empty_plan_counterexample :
    ∃ r, filterData (fun ty => ty) exampleObservationCollection [] = .ok r ∧
      r.getObservations = [] ∧ r.getObservationVector = [] ∧
      r.getConcatenatedTimeVector = [] ∧ r.getTotalObservableSize = 0 ∧
      exampleObservationCollection.getObservations.length = 2 ∧
      exampleObservationCollection.getObservationVector = [10, 30, 31, 20, 21, 22, 23] ∧
      exampleObservationCollection.getTotalObservableSize = 7 :=
  ⟨_, rfl, rfl, rfl, rfl, rfl, rfl, rfl, rfl⟩

/-- C20 (amended): `filterData` with the empty plan returns the empty collection; with
any plan, a collection it returns stores sets only under the observable types and link
ends that the plan names: no set of the collection given whose observable type and link
ends the plan does not name is in the result. -/
theorem filterData_only_named [Inhabited L] [Inhabited T] [Zero S]
    (getObservableSize : ObservableType → Nat) (c : ObservationCollection T S L) :
    filterData getObservableSize c [] = .ok (ObservationCollection.initial []) ∧
    ∀ plan r, filterData getObservableSize c plan = .ok r →
      ∀ ty le, (∀ entry ∈ plan, entry.1 = ty → ∀ e ∈ entry.2, e.1 ≠ le) →
        StdMap.entriesAt r.getObservations ty le = [] := by
  refine ⟨rfl, ?_⟩
  intro plan r h ty le hunnamed
  unfold filterData at h
  split at h
  · simp at h
  · rename_i filtered hfiltered
    obtain ⟨-, h2⟩ := filterDataTypes_frame c plan [] filtered hfiltered StdMap.NestedWF_nil
    rw [ObservationCollection.getObservations,
      ObservationCollection.construct_observationSetList getObservableSize filtered r h,
      h2 ty le hunnamed]
    rfl

/-- Witness of C20 (amended): the plan that names the observable type 1 and the link
ends 9 only; the result holds no set under the observable type 2 and the link ends 7. -/
theorem filterData_only_named_witness :
    (∃ r, filterData (fun ty => ty) exampleObservationCollection [(1, [(9, [[]])])] = .ok r) ∧
    ∀ r, filterData (fun ty => ty) exampleObservationCollection [(1, [(9, [[]])])] = .ok r →
      StdMap.entriesAt r.getObservations 2 7 = [] ∧
      StdMap.entriesAt exampleObservationCollection.getObservations 2 7 ≠ [] :=
  ⟨⟨_, rfl⟩, fun r h =>
    ⟨(filterData_only_named (fun ty => ty) exampleObservationCollection).2
        [(1, [(9, [[]])])] r h 2 7 (by simp),
      fun hnil => absurd (congrArg List.length hnil) (by decide)⟩⟩

end FilterDataClaims

section ConstructSuccessLemmas

variable {T S L : Type}

theorem vectorSet_ok {α : Type} (v : List α) (i : Nat) (x : α) (h : i < v.length) :
    vectorSet v i x = .ok (v.set i x) := by
  unfold vectorSet
  rw [if_pos h]

/-- The loop over the components of one observation goes through when the buffers have
room for them. -/
theorem setConcatenatedComponents_ok (times : List T) (j stationId : Nat) (le : L) (t : T)
    (ht : times.get? j = some t) (count : Nat) (c : ObservationCollection T S L)
    (counter n : Nat) (hsized : c.BuffersSized n) (hc : counter + count ≤ n) :
    ∃ state', setConcatenatedComponents times j stationId le count (c, counter) = .ok state' ∧
      state'.1.BuffersSized n ∧ state'.2 = counter + count := by
  induction count generalizing c counter with
  | zero => exact ⟨(c, counter), rfl, hsized, rfl⟩
  | succ count ih =>
    obtain ⟨s1, s2, s3, s4⟩ := hsized
    simp only [setConcatenatedComponents, vectorAt, ht]
    rw [vectorSet_ok _ _ _ (by omega), vectorSet_ok _ _ _ (by omega),
      vectorSet_ok _ _ _ (by omega)]
    simp only []
    obtain ⟨state', h1, h2, h3⟩ := ih
      { c with
        concatenatedTimes_ := c.concatenatedTimes_.set counter t
        concatenatedLinkEndIds_ := c.concatenatedLinkEndIds_.set counter stationId
        concatenatedLinkEndIdNames_ := c.concatenatedLinkEndIdNames_.set counter le }
      (counter + 1)
      ⟨s1, by simp [s2], by simp [s3], by simp [s4]⟩ (by omega)
    exact ⟨state', h1, h2, by omega⟩

/-- The loop over the observations of one set goes through when every observation has
the size of the observable, every observation has a time and the buffers have room. -/
theorem setConcatenatedSamples_ok (size : Nat) (times : List T) (stationId : Nat) (le : L)
    (observations : List (List S)) (j : Nat) (current : List S)
    (c : ObservationCollection T S L) (counter n : Nat)
    (hobs : ∀ o ∈ observations, o.length = size)
    (htimes : j + observations.length ≤ times.length)
    (hcurrent : (j + observations.length) * size ≤ current.length)
    (hsized : c.BuffersSized n) (hc : counter + observations.length * size ≤ n) :
    ∃ state', setConcatenatedSamples size times stationId le observations j
        (current, c, counter) = .ok state' ∧
      state'.1.length = current.length ∧ state'.2.1.BuffersSized n ∧
      state'.2.2 = counter + observations.length * size := by
  induction observations generalizing j current c counter with
  | nil => exact ⟨(current, c, counter), rfl, rfl, hsized, by simp⟩
  | cons o rest ih =>
    simp only [List.length_cons] at htimes hcurrent hc
    have ho : o.length = size := hobs o (List.mem_cons_self _ _)
    have hmul : (j + (rest.length + 1)) * size = j * size + size + rest.length * size := by ring
    have hmul' : (rest.length + 1) * size = size + rest.length * size := by ring
    have hseg : setSegment current (j * size) size o = .ok (overwrite current (j * size) o) := by
      have := setSegment_ok current (j * size) o (by rw [ho]; omega)
      rw [ho] at this
      exact this
    have hj : j < times.length := by omega
    obtain ⟨st, hst, hstSized, hstCounter⟩ := setConcatenatedComponents_ok times j stationId le
      (times.get ⟨j, hj⟩) (List.get?_eq_get hj) size c counter n hsized (by omega)
    simp only [setConcatenatedSamples, hseg, hst]
    have hlen : (overwrite current (j * size) o).length = current.length :=
      overwrite_length _ _ _ (by rw [ho]; omega)
    obtain ⟨state', h1, h2, h3, h4⟩ := ih (j + 1) (overwrite current (j * size) o) st.1 st.2
      (fun x hx => hobs x (List.mem_cons_of_mem _ hx)) (by omega)
      (by
        rw [hlen]
        have : (j + 1 + rest.length) * size = j * size + size + rest.length * size := by ring
        omega)
      hstSized (by rw [hstCounter]; omega)
    exact ⟨state', h1, by rw [h2, hlen], h3, by
      rw [h4, hstCounter, List.length_cons, hmul']
      omega⟩

theorem setConcatenatedSamples_sizes (size : Nat) (times : List T) (stationId : Nat) (le : L)
    (observations : List (List S)) (j : Nat)
    (state state' : List S × ObservationCollection T S L × Nat)
    (h : setConcatenatedSamples size times stationId le observations j state = .ok state') :
    ∀ o ∈ observations, o.length = size := by
  induction observations generalizing j state with
  | nil => simp
  | cons o rest ih =>
    obtain ⟨current, st⟩ := state
    simp only [setConcatenatedSamples] at h
    split at h
    · simp at h
    · rename_i current' hseg
      split at h
      · simp at h
      · intro x hx
        rcases List.mem_cons.mp hx with rfl | hx
        · exact (setSegment_eq_ok _ _ _ _ _ hseg).2.1
        · exact ih _ _ h x hx

end ConstructSuccessLemmas

section ConstructSuccessLoops

variable {T S L : Type} [LinearOrder L]

theorem registerLinkEnds_frame [Inhabited L] (ty : ObservableType) (le : L)
    (sets : List (SingleObservationSet T S L)) (c : ObservationCollection T S L)
    (maximumStationId n : Nat) (hsized : c.BuffersSized n) :
    (registerLinkEnds ty le sets c maximumStationId).1.BuffersSized n ∧
    (registerLinkEnds ty le sets c maximumStationId).1.observationSetStartAndSize_ =
      c.observationSetStartAndSize_ := by
  unfold registerLinkEnds
  dsimp only
  split <;> split <;> exact ⟨hsized, rfl⟩

/-- The loop over the sets of one observable type and link ends goes through when the
sets have the first link definition, observations of the size of the observable, a time
per observation, and the buffers have room. -/
theorem setConcatenatedSets_ok [Zero S] (size : Nat) (ty : ObservableType) (le : L)
    (first : LinkDefinition L) (stationId : Nat) (sets : List (SingleObservationSet T S L))
    (i : Nat) (c : ObservationCollection T S L) (counter n : Nat)
    (hfirst : ∀ set ∈ sets, set.linkEnds_ = first)
    (hlookup : ∀ r set, sets.get? r = some set →
      startAndSizeAt c.observationSetStartAndSize_ ty le (i + r) =
        .ok (counter + (setLengths size (sets.take r)).sum,
          set.getNumberOfObservables * size))
    (hvalid : ∀ set ∈ sets, set.numberOfObservations_ = set.observations_.length ∧
      set.observationTimes_.length = set.observations_.length)
    (hobs : ∀ set ∈ sets, ∀ o ∈ set.observations_, o.length = size)
    (hsized : c.BuffersSized n) (hc : counter + (setLengths size sets).sum ≤ n) :
    ∃ state', setConcatenatedSets size ty le first stationId sets i (c, counter) = .ok state' ∧
      state'.1.BuffersSized n ∧ state'.2 = counter + (setLengths size sets).sum := by
  induction sets generalizing i c counter with
  | nil => exact ⟨(c, counter), rfl, hsized, by simp [setLengths]⟩
  | cons set rest ih =>
    have hl0 := hlookup 0 set rfl
    simp only [Nat.add_zero, List.take_zero, setLengths, List.map_nil, List.sum_nil] at hl0
    obtain ⟨hnum, htl⟩ := hvalid set (List.mem_cons_self _ _)
    have hlen : set.getNumberOfObservables * size = set.observations_.length * size := by
      rw [SingleObservationSet.getNumberOfObservables, hnum]
    have hsum : (setLengths size (set :: rest)).sum =
        set.observations_.length * size + (setLengths size rest).sum := by
      simp only [setLengths, List.map_cons, List.sum_cons]
      rw [hlen]
    rw [hsum] at hc
    obtain ⟨after, hafter, alen, asized, acounter⟩ :=
      setConcatenatedSamples_ok size set.observationTimes_ stationId le set.observations_ 0
        (List.replicate (set.getNumberOfObservables * size) 0) c counter n
        (hobs set (List.mem_cons_self _ _)) (by omega)
        (by rw [List.length_replicate, hlen, Nat.zero_add]) hsized (by omega)
    rw [List.length_replicate] at alen
    have hseg : setSegment after.2.1.concatenatedObservations_ counter
        (set.getNumberOfObservables * size) after.1 =
        .ok (overwrite after.2.1.concatenatedObservations_ counter after.1) := by
      have := setSegment_ok after.2.1.concatenatedObservations_ counter after.1
        (by rw [alen, asized.1, hlen]; omega)
      rw [alen] at this
      exact this
    have hframe := setConcatenatedSamples_indexMembers size set.observationTimes_ stationId le
      set.observations_ 0 _ after hafter
    have htable : after.2.1.observationSetStartAndSize_ = c.observationSetStartAndSize_ :=
      congrArg (fun t => t.2.1) hframe
    simp only [setConcatenatedSets, hfirst set (List.mem_cons_self _ _), not_true_eq_false,
      if_false, hl0, hafter, hseg]
    obtain ⟨state', h1, h2, h3⟩ := ih (i + 1)
      { after.2.1 with
        concatenatedObservations_ :=
          overwrite after.2.1.concatenatedObservations_ counter after.1 }
      after.2.2
      (fun x hx => hfirst x (List.mem_cons_of_mem _ hx))
      (by
        intro r set' hr
        have := hlookup (r + 1) set' (by simpa using hr)
        show startAndSizeAt after.2.1.observationSetStartAndSize_ ty le (i + 1 + r) = _
        rw [htable, acounter, ← hlen]
        simp only [List.take_succ_cons, setLengths, List.map_cons, List.sum_cons] at this ⊢
        rw [Nat.add_assoc i 1 r, Nat.add_comm 1 r, Nat.add_assoc counter]
        exact this)
      (fun x hx => hvalid x (List.mem_cons_of_mem _ hx))
      (fun x hx => hobs x (List.mem_cons_of_mem _ hx))
      ⟨by
          show (overwrite _ _ _).length = n
          rw [overwrite_length _ _ _ (by rw [alen, asized.1, hlen]; omega), asized.1],
        asized.2.1, asized.2.2.1, asized.2.2.2⟩
      (by rw [acounter]; omega)
    exact ⟨state', h1, h2, by rw [h3, acounter, hsum]; omega⟩

/-- The loop over the link ends of one observable type goes through under the
conditions of `setConcatenatedSets_ok` on every list of sets. -/
theorem setConcatenatedLinkEnds_ok [Inhabited L] [Zero S] (size : Nat) (ty : ObservableType)
    (list : List (L × List (SingleObservationSet T S L)))
    (c : ObservationCollection T S L) (counter maximumStationId n : Nat)
    (hfirst : ∀ q ∈ list, ∀ set ∈ q.2, set.linkEnds_ = firstLinkDefinition q.2)
    (hlookup : ∀ pre q post, list = pre ++ q :: post → ∀ r set, q.2.get? r = some set →
      startAndSizeAt c.observationSetStartAndSize_ ty q.1 r =
        .ok (counter + (linkEndLengths size pre).sum + (setLengths size (q.2.take r)).sum,
          set.getNumberOfObservables * size))
    (hvalid : ∀ q ∈ list, ∀ set ∈ q.2,
      set.numberOfObservations_ = set.observations_.length ∧
      set.observationTimes_.length = set.observations_.length)
    (hobs : ∀ q ∈ list, ∀ set ∈ q.2, ∀ o ∈ set.observations_, o.length = size)
    (hsized : c.BuffersSized n) (hc : counter + (linkEndLengths size list).sum ≤ n) :
    ∃ state', setConcatenatedLinkEnds size ty list (c, counter, maximumStationId) =
        .ok state' ∧
      state'.1.BuffersSized n ∧ state'.2.1 = counter + (linkEndLengths size list).sum := by
  induction list generalizing c counter maximumStationId with
  | nil => exact ⟨(c, counter, maximumStationId), rfl, hsized, by simp [linkEndLengths]⟩
  | cons entry rest ih =>
    obtain ⟨le, sets⟩ := entry
    have hsum : (linkEndLengths size ((le, sets) :: rest)).sum =
        (setLengths size sets).sum + (linkEndLengths size rest).sum := by
      simp [linkEndLengths]
    rw [hsum] at hc
    obtain ⟨rsized, rtable⟩ := registerLinkEnds_frame ty le sets c maximumStationId n hsized
    obtain ⟨after, hafter, asized, acounter⟩ :=
      setConcatenatedSets_ok size ty le (firstLinkDefinition sets)
        (registerLinkEnds ty le sets c maximumStationId).2.1 sets 0
        (registerLinkEnds ty le sets c maximumStationId).1 counter n
        (hfirst (le, sets) (List.mem_cons_self _ _))
        (by
          intro r set hr
          have := hlookup [] (le, sets) rest rfl r set hr
          rw [rtable, Nat.zero_add]
          simpa [linkEndLengths] using this)
        (hvalid (le, sets) (List.mem_cons_self _ _))
        (hobs (le, sets) (List.mem_cons_self _ _)) rsized (by omega)
    have hframe := setConcatenatedSets_indexMembers size ty le (firstLinkDefinition sets)
      (registerLinkEnds ty le sets c maximumStationId).2.1 sets 0 _ after hafter
    have htable : after.1.observationSetStartAndSize_ = c.observationSetStartAndSize_ :=
      (congrArg (fun t => t.2.1) hframe).trans rtable
    simp only [setConcatenatedLinkEnds, hafter]
    obtain ⟨state', h1, h2, h3⟩ := ih after.1 after.2
      (registerLinkEnds ty le sets c maximumStationId).2.2
      (fun q hq => hfirst q (List.mem_cons_of_mem _ hq))
      (by
        intro pre q post hrest r set hr
        have hpre : (linkEndLengths size ((le, sets) :: pre)).sum =
            (setLengths size sets).sum + (linkEndLengths size pre).sum := by
          simp [linkEndLengths]
        have := hlookup ((le, sets) :: pre) q post (by rw [hrest]; rfl) r set hr
        rw [hpre, ← Nat.add_assoc] at this
        rw [htable, acounter]
        exact this)
      (fun q hq => hvalid q (List.mem_cons_of_mem _ hq))
      (fun q hq => hobs q (List.mem_cons_of_mem _ hq)) asized (by rw [acounter]; omega)
    exact ⟨state', h1, h2, by rw [h3, acounter, hsum]; omega⟩

/-- The loop over the observable types goes through under the conditions of
`setConcatenatedSets_ok` on every list of sets. -/
theorem setConcatenatedTypes_ok [Inhabited L] [Zero S]
    (getObservableSize : ObservableType → Nat) (m : SortedObservationSets T S L)
    (c : ObservationCollection T S L) (counter maximumStationId n : Nat)
    (hfirst : ∀ p ∈ m, ∀ q ∈ p.2, ∀ set ∈ q.2, set.linkEnds_ = firstLinkDefinition q.2)
    (hlookup : ∀ preM p postM, m = preM ++ p :: postM →
      ∀ pre q post, p.2 = pre ++ q :: post → ∀ r set, q.2.get? r = some set →
      startAndSizeAt c.observationSetStartAndSize_ p.1 q.1 r =
        .ok (counter + (typeLengths getObservableSize preM).sum +
            (linkEndLengths (getObservableSize p.1) pre).sum +
            (setLengths (getObservableSize p.1) (q.2.take r)).sum,
          set.getNumberOfObservables * getObservableSize p.1))
    (hvalid : ∀ p ∈ m, ∀ q ∈ p.2, ∀ set ∈ q.2,
      set.numberOfObservations_ = set.observations_.length ∧
      set.observationTimes_.length = set.observations_.length)
    (hobs : ∀ p ∈ m, ∀ q ∈ p.2, ∀ set ∈ q.2, ∀ o ∈ set.observations_,
      o.length = getObservableSize p.1)
    (hsized : c.BuffersSized n) (hc : counter + (typeLengths getObservableSize m).sum ≤ n) :
    ∃ state', setConcatenatedTypes getObservableSize m (c, counter, maximumStationId) =
        .ok state' := by
  induction m generalizing c counter maximumStationId with
  | nil => exact ⟨(c, counter, maximumStationId), rfl⟩
  | cons entry rest ih =>
    obtain ⟨ty, list⟩ := entry
    have hsum : (typeLengths getObservableSize ((ty, list) :: rest)).sum =
        (linkEndLengths (getObservableSize ty) list).sum +
          (typeLengths getObservableSize rest).sum := by
      simp [typeLengths]
    rw [hsum] at hc
    obtain ⟨after, hafter, asized, acounter⟩ :=
      setConcatenatedLinkEnds_ok (getObservableSize ty) ty list c counter maximumStationId n
        (hfirst (ty, list) (List.mem_cons_self _ _))
        (by
          intro pre q post hlist r set hr
          have := hlookup [] (ty, list) rest rfl pre q post hlist r set hr
          simpa [typeLengths] using this)
        (hvalid (ty, list) (List.mem_cons_self _ _))
        (hobs (ty, list) (List.mem_cons_self _ _)) hsized (by omega)
    have hframe := setConcatenatedLinkEnds_indexMembers (getObservableSize ty) ty list _ after
      hafter
    have htable : after.1.observationSetStartAndSize_ = c.observationSetStartAndSize_ :=
      congrArg (fun t => t.2.1) hframe
    simp only [setConcatenatedTypes, hafter]
    obtain ⟨after1, after2, after3⟩ := after
    exact ih after1 after2 after3
      (fun p hp => hfirst p (List.mem_cons_of_mem _ hp))
      (by
        intro preM p postM hrest pre q post hp r set hr
        have hpre : (typeLengths getObservableSize ((ty, list) :: preM)).sum =
            (linkEndLengths (getObservableSize ty) list).sum +
              (typeLengths getObservableSize preM).sum := by
          simp [typeLengths]
        have := hlookup ((ty, list) :: preM) p postM (by rw [hrest]; rfl) pre q post hp r set hr
        rw [hpre, ← Nat.add_assoc] at this
        rw [htable]
        simp only at acounter
        rw [acounter]
        exact this)
      (fun p hp => hvalid p (List.mem_cons_of_mem _ hp))
      (fun p hp => hobs p (List.mem_cons_of_mem _ hp)) asized
      (by simp only at acounter; rw [acounter]; omega)

end ConstructSuccessLoops

section ConstructSuccess

variable {T S L : Type} [LinearOrder L]

/-- The constructor from a nested mapping succeeds when the mapping is well formed, every
set has as many times as observations, every observation has the size of its observable
type and the sets of one list have one link definition. -/
theorem ObservationCollection.construct_ok [Inhabited L] [Inhabited T] [Zero S]
    (getObservableSize : ObservableType → Nat) (m : SortedObservationSets T S L)
    (hwf : StdMap.NestedWF m)
    (hvalid : ∀ p ∈ m, ∀ q ∈ p.2, ∀ set ∈ q.2,
      set.numberOfObservations_ = set.observations_.length ∧
      set.observationTimes_.length = set.observations_.length)
    (hobs : ∀ p ∈ m, ∀ q ∈ p.2, ∀ set ∈ q.2, ∀ o ∈ set.observations_,
      o.length = getObservableSize p.1)
    (hfirst : ∀ p ∈ m, ∀ q ∈ p.2, ∀ set ∈ q.2, set.linkEnds_ = firstLinkDefinition q.2) :
    ∃ c, ObservationCollection.construct getObservableSize m = .ok c := by
  obtain ⟨f1, f2, -, -, f5, -⟩ :=
    ObservationCollection.setObservationSetIndices_result getObservableSize m
  have htotal : (ObservationCollection.setObservationSetIndices getObservableSize
      (ObservationCollection.initial m)).totalObservableSize_ =
      (typeLengths getObservableSize m).sum := by
    rw [f5, SortedObservationSets.keyedLengths_map_snd]
    simp [ObservationCollection.initial]
  have g2 : (ObservationCollection.setObservationSetIndices getObservableSize
      (ObservationCollection.initial m)).concatenatedTimes_ = [] :=
    congrArg (fun t => t.2.1) f2
  have g3 : (ObservationCollection.setObservationSetIndices getObservableSize
      (ObservationCollection.initial m)).concatenatedLinkEndIds_ = [] :=
    congrArg (fun t => t.2.2.2.1) f2
  have g4 : (ObservationCollection.setObservationSetIndices getObservableSize
      (ObservationCollection.initial m)).concatenatedLinkEndIdNames_ = [] :=
    congrArg (fun t => t.2.2.2.2.1) f2
  have f1' : (ObservationCollection.setObservationSetIndices getObservableSize
      (ObservationCollection.initial m)).observationSetList_ = m := f1
  unfold ObservationCollection.construct
    ObservationCollection.setConcatenatedObservationsAndTimes
  generalize hc₂ : ({ ObservationCollection.setObservationSetIndices getObservableSize
        (ObservationCollection.initial m) with
      concatenatedObservations_ :=
        List.replicate (ObservationCollection.setObservationSetIndices getObservableSize
          (ObservationCollection.initial m)).totalObservableSize_ 0
      concatenatedTimes_ :=
        vectorResize (ObservationCollection.setObservationSetIndices getObservableSize
          (ObservationCollection.initial m)).concatenatedTimes_
          (ObservationCollection.setObservationSetIndices getObservableSize
            (ObservationCollection.initial m)).totalObservableSize_ default
      concatenatedLinkEndIds_ :=
        vectorResize (ObservationCollection.setObservationSetIndices getObservableSize
          (ObservationCollection.initial m)).concatenatedLinkEndIds_
          (ObservationCollection.setObservationSetIndices getObservableSize
            (ObservationCollection.initial m)).totalObservableSize_ 0
      concatenatedLinkEndIdNames_ :=
        vectorResize (ObservationCollection.setObservationSetIndices getObservableSize
          (ObservationCollection.initial m)).concatenatedLinkEndIdNames_
          (ObservationCollection.setObservationSetIndices getObservableSize
            (ObservationCollection.initial m)).totalObservableSize_ default } :
      ObservationCollection T S L) = c₂
  have e1 : c₂.concatenatedObservations_ =
      List.replicate (typeLengths getObservableSize m).sum 0 := by
    rw [← hc₂, ← htotal]
  have e2 : c₂.concatenatedTimes_ =
      List.replicate (typeLengths getObservableSize m).sum default := by
    rw [← hc₂, ← htotal]
    show vectorResize _ _ _ = _
    rw [g2]
    simp [vectorResize]
  have e3 : c₂.concatenatedLinkEndIds_ =
      List.replicate (typeLengths getObservableSize m).sum 0 := by
    rw [← hc₂, ← htotal]
    show vectorResize _ _ _ = _
    rw [g3]
    simp [vectorResize]
  have e4 : c₂.concatenatedLinkEndIdNames_ =
      List.replicate (typeLengths getObservableSize m).sum default := by
    rw [← hc₂, ← htotal]
    show vectorResize _ _ _ = _
    rw [g4]
    simp [vectorResize]
  have e6 : c₂.observationSetStartAndSize_ =
      (ObservationCollection.setObservationSetIndices getObservableSize
        (ObservationCollection.initial m)).observationSetStartAndSize_ := by
    rw [← hc₂]
  rw [f1']
  obtain ⟨after, hafter⟩ := setConcatenatedTypes_ok getObservableSize m c₂ 0 0
    (typeLengths getObservableSize m).sum hfirst
    (fun preM p postM hm pre q post hp r set hr => by
      rw [e6]
      exact ObservationCollection.setObservationSetIndices_lookup getObservableSize m hwf
        preM p postM hm pre q post hp r set hr)
    hvalid hobs
    ⟨by rw [e1]; simp, by rw [e2]; simp, by rw [e3]; simp, by rw [e4]; simp⟩
    (by omega)
  rw [hafter]
  exact ⟨_, rfl⟩

theorem setConcatenatedSets_sizes [Zero S] (size : Nat) (ty : ObservableType) (le : L)
    (first : LinkDefinition L) (stationId : Nat) (sets : List (SingleObservationSet T S L))
    (i : Nat) (state state' : ObservationCollection T S L × Nat)
    (h : setConcatenatedSets size ty le first stationId sets i state = .ok state') :
    ∀ set ∈ sets, set.linkEnds_ = first ∧ ∀ o ∈ set.observations_, o.length = size := by
  induction sets generalizing i state with
  | nil => simp
  | cons set rest ih =>
    obtain ⟨c, counter⟩ := state
    simp only [setConcatenatedSets] at h
    split at h
    · simp at h
    · rename_i hlink
      split at h
      · simp at h
      · split at h
        · simp at h
        · rename_i after hafter
          split at h
          · simp at h
          · intro x hx
            rcases List.mem_cons.mp hx with rfl | hx
            · exact ⟨not_not.mp hlink,
                setConcatenatedSamples_sizes _ _ _ _ _ _ _ _ hafter⟩
            · exact ih _ _ h x hx

theorem setConcatenatedLinkEnds_sizes [Inhabited L] [Zero S] (size : Nat)
    (ty : ObservableType) (list : List (L × List (SingleObservationSet T S L)))
    (state state' : ObservationCollection T S L × Nat × Nat)
    (h : setConcatenatedLinkEnds size ty list state = .ok state') :
    ∀ q ∈ list, ∀ set ∈ q.2,
      set.linkEnds_ = firstLinkDefinition q.2 ∧ ∀ o ∈ set.observations_, o.length = size := by
  induction list generalizing state with
  | nil => simp
  | cons entry rest ih =>
    obtain ⟨le, sets⟩ := entry
    obtain ⟨c, counter, maximumStationId⟩ := state
    simp only [setConcatenatedLinkEnds] at h
    split at h
    · simp at h
    · rename_i after hafter
      intro q hq
      rcases List.mem_cons.mp hq with rfl | hq
      · exact setConcatenatedSets_sizes _ _ _ _ _ _ _ _ _ hafter
      · exact ih _ h q hq

theorem setConcatenatedTypes_sizes [Inhabited L] [Zero S]
    (getObservableSize : ObservableType → Nat) (m : SortedObservationSets T S L)
    (state state' : ObservationCollection T S L × Nat × Nat)
    (h : setConcatenatedTypes getObservableSize m state = .ok state') :
    ∀ p ∈ m, ∀ q ∈ p.2, ∀ set ∈ q.2,
      set.linkEnds_ = firstLinkDefinition q.2 ∧
      ∀ o ∈ set.observations_, o.length = getObservableSize p.1 := by
  induction m generalizing state with
  | nil => simp
  | cons entry rest ih =>
    obtain ⟨ty, list⟩ := entry
    simp only [setConcatenatedTypes] at h
    split at h
    · simp at h
    · rename_i after hafter
      intro p hp
      rcases List.mem_cons.mp hp with rfl | hp
      · exact setConcatenatedLinkEnds_sizes _ _ _ _ _ hafter
      · exact ih _ h p hp

/-- A collection that the constructor returns holds sets whose observations have the size
of their observable type and whose link definition is that of the first set of their
list. -/
theorem ObservationCollection.construct_observationSizes [Inhabited L] [Inhabited T] [Zero S]
    (getObservableSize : ObservableType → Nat) (m : SortedObservationSets T S L)
    (c : ObservationCollection T S L)
    (h : ObservationCollection.construct getObservableSize m = .ok c) :
    ∀ p ∈ m, ∀ q ∈ p.2, ∀ set ∈ q.2,
      set.linkEnds_ = firstLinkDefinition q.2 ∧
      ∀ o ∈ set.observations_, o.length = getObservableSize p.1 := by
  obtain ⟨f1, -⟩ :=
    ObservationCollection.setObservationSetIndices_result getObservableSize m
  have f1' : (ObservationCollection.setObservationSetIndices getObservableSize
      (ObservationCollection.initial m)).observationSetList_ = m := f1
  unfold ObservationCollection.construct
    ObservationCollection.setConcatenatedObservationsAndTimes at h
  rw [f1'] at h
  split at h
  · simp at h
  · rename_i after hafter
    exact setConcatenatedTypes_sizes getObservableSize m _ after hafter

end ConstructSuccess

section ResidualTraversalLemmas

variable {T S L : Type} [LinearOrder L]

theorem traversal_modify_inner (ty : ObservableType) (le : L) (x : SingleObservationSet T S L)
    (inner : StdMap L (List (SingleObservationSet T S L))) (hwf : StdMap.WF inner)
    (hkeys : ∀ q ∈ inner, q.1 ≤ le) :
    (StdMap.modify [] (fun v => v ++ [x]) le inner).flatMap
        (fun q => q.2.map (fun set => (ty, q.1, set))) =
      inner.flatMap (fun q => q.2.map (fun set => (ty, q.1, set))) ++ [(ty, le, x)] := by
  induction inner with
  | nil => simp [StdMap.modify]
  | cons entry rest ih =>
    obtain ⟨l', s⟩ := entry
    have hl : l' ≤ le := hkeys (l', s) (List.mem_cons_self _ _)
    have hsorted := List.sorted_cons.mp hwf
    unfold StdMap.modify
    rw [if_neg (not_lt.mpr hl)]
    split
    · simp only [List.flatMap_cons, List.append_assoc]
      rw [ih hsorted.2 (fun q hq => hkeys q (List.mem_cons_of_mem _ hq))]
    · rename_i hnot
      have heq : l' = le := le_antisymm hl (not_lt.mp hnot)
      subst heq
      cases rest with
      | nil => simp
      | cons q rest' =>
        exfalso
        have h1 : l' < q.1 := hsorted.1 q.1 (by simp)
        have h2 : q.1 ≤ l' := hkeys q (by simp)
        exact absurd h1 (not_lt.mpr h2)

/-- Appending a set under keys that no key of the mapping exceeds appends it to the
iteration order. -/
theorem SortedObservationSets.traversal_pushBack (ty : ObservableType) (le : L)
    (x : SingleObservationSet T S L) (m : SortedObservationSets T S L)
    (hwf : StdMap.NestedWF m)
    (hkeys : ∀ p ∈ m, p.1 ≤ ty ∧ (p.1 = ty → ∀ q ∈ p.2, q.1 ≤ le)) :
    SortedObservationSets.traversal (StdMap.pushBack ty le x m) =
      SortedObservationSets.traversal m ++ [(ty, le, x)] := by
  unfold StdMap.pushBack
  induction m with
  | nil => simp [StdMap.modify, SortedObservationSets.traversal]
  | cons entry rest ih =>
    obtain ⟨k', v⟩ := entry
    obtain ⟨hk, hinner⟩ := hkeys (k', v) (List.mem_cons_self _ _)
    have hsorted := List.sorted_cons.mp hwf.1
    unfold StdMap.modify
    rw [if_neg (not_lt.mpr hk)]
    split
    · have hrest := ih ⟨hsorted.2, fun p hp => hwf.2 p (List.mem_cons_of_mem _ hp)⟩
        (fun p hp => hkeys p (List.mem_cons_of_mem _ hp))
      simp only [SortedObservationSets.traversal, List.flatMap_cons, List.append_assoc] at hrest ⊢
      rw [hrest]
    · rename_i hnot
      have heq : k' = ty := le_antisymm hk (not_lt.mp hnot)
      subst heq
      cases rest with
      | nil =>
        simp only [SortedObservationSets.traversal, List.flatMap_cons, List.flatMap_nil,
          List.append_nil]
        exact traversal_modify_inner k' le x v (hwf.2 (k', v) (List.mem_cons_self _ _))
          (hinner rfl)
      | cons p rest' =>
        exfalso
        have h1 : k' < p.1 := hsorted.1 p.1 (by simp)
        have h2 : p.1 ≤ k' := (hkeys p (by simp)).1
        exact absurd h1 (not_lt.mpr h2)

theorem StdMap.pushBack_keys_le (ty : ObservableType) (le : L)
    (x : SingleObservationSet T S L) (m : SortedObservationSets T S L)
    (hkeys : ∀ p ∈ m, p.1 ≤ ty ∧ (p.1 = ty → ∀ q ∈ p.2, q.1 ≤ le)) :
    ∀ p ∈ StdMap.pushBack ty le x m, p.1 ≤ ty ∧ (p.1 = ty → ∀ q ∈ p.2, q.1 ≤ le) := by
  intro p hp
  have hinner : ∀ v : StdMap L (List (SingleObservationSet T S L)),
      (∀ q ∈ v, q.1 ≤ le) →
      ∀ q ∈ StdMap.modify [] (fun v => v ++ [x]) le v, q.1 ≤ le := by
    intro v hv q hq
    rcases StdMap.mem_modify _ _ _ _ _ hq with h | ⟨h, -⟩
    · exact hv q h
    · exact le_of_eq h
  rcases StdMap.mem_modify _ _ _ _ _ hp with h | ⟨h1, h2⟩
  · exact hkeys p h
  · refine ⟨le_of_eq h1, fun _ => ?_⟩
    rcases h2 with h2 | ⟨v, hv, h2⟩
    · rw [h2]
      exact hinner [] (by simp)
    · rw [h2]
      exact hinner v ((hkeys (ty, v) hv).2 rfl)

theorem StdMap.modify_ne_nil {K V : Type} [LinearOrder K] (dflt : V) (f : V → V) (k : K)
    (m : StdMap K V) : StdMap.modify dflt f k m ≠ [] := by
  cases m with
  | nil => simp [StdMap.modify]
  | cons p rest =>
    obtain ⟨k', v⟩ := p
    unfold StdMap.modify
    split
    · simp
    · split <;> simp

/-- Appending a set leaves no observable type without link ends and no link ends without
a set. -/
theorem StdMap.pushBack_nonempty (ty : ObservableType) (le : L)
    (x : SingleObservationSet T S L) (m : SortedObservationSets T S L)
    (h : ∀ p ∈ m, p.2 ≠ [] ∧ ∀ q ∈ p.2, q.2 ≠ []) :
    ∀ p ∈ StdMap.pushBack ty le x m, p.2 ≠ [] ∧ ∀ q ∈ p.2, q.2 ≠ [] := by
  intro p hp
  have hinner : ∀ v : StdMap L (List (SingleObservationSet T S L)),
      (∀ q ∈ v, q.2 ≠ []) →
      ∀ q ∈ StdMap.modify [] (fun v => v ++ [x]) le v, q.2 ≠ [] := by
    intro v hv q hq
    rcases StdMap.mem_modify _ _ _ _ _ hq with h | ⟨-, h | ⟨w, -, h⟩⟩
    · exact hv q h
    · rw [h]
      simp
    · rw [h]
      simp
  rcases StdMap.mem_modify _ _ _ _ _ hp with hmem | ⟨-, h2 | ⟨v, hv, h2⟩⟩
  · exact h p hmem
  · rw [h2]
    exact ⟨StdMap.modify_ne_nil _ _ _ _, hinner [] (by simp)⟩
  · rw [h2]
    exact ⟨StdMap.modify_ne_nil _ _ _ _, hinner v (h (ty, v) hv).2⟩

end ResidualTraversalLemmas

section ResidualLoopLemmas

variable {T S L : Type} [LinearOrder T] [LinearOrder L] [Sub S]

theorem createResidualObservationSet_of_compatible (size : Nat)
    (a b : SingleObservationSet T S L) (h : ResidualCompatible size a b) :
    createResidualObservationSet a b = .ok (residualSet a b) := by
  obtain ⟨⟨hty, href, hle, htimes⟩, ha, hb, hao, hbo⟩ := h
  exact createResidualObservationSet_ok a b ha hb
    (fun o ho c hc => (hao o ho).trans (hbo c hc).symm) hty href (congrArg (fun d => d.linkEnds_) hle)
    (by
      rw [SingleObservationSet.getNumberOfObservables, SingleObservationSet.getNumberOfObservables,
        ha.numberOfObservations, hb.numberOfObservations, ← ha.timesLength, ← hb.timesLength,
        htimes])
    htimes

/-- The innermost loop of `createResidualCollection` goes through on compatible sets that
the computed mapping holds at the positions of the observed ones, and appends their
residuals to the iteration order. -/
theorem createResidualSets_ok (computed : SortedObservationSets T S L) (ty : ObservableType)
    (le : L) (size : Nat) (sets bs : List (SingleObservationSet T S L)) (i : Nat)
    (acc : SortedObservationSets T S L)
    (hpairs : List.Forall₂ (ResidualCompatible size) sets bs)
    (hlookup : ∀ r b, bs.get? r = some b → observationSetAt computed ty le (i + r) = .ok b)
    (hwf : StdMap.NestedWF acc)
    (hkeys : ∀ p ∈ acc, p.1 ≤ ty ∧ (p.1 = ty → ∀ q ∈ p.2, q.1 ≤ le)) :
    ∃ acc', createResidualSets computed ty le sets i acc = .ok acc' ∧
      StdMap.NestedWF acc' ∧
      (∀ p ∈ acc', p.1 ≤ ty ∧ (p.1 = ty → ∀ q ∈ p.2, q.1 ≤ le)) ∧
      SortedObservationSets.traversal acc' =
        SortedObservationSets.traversal acc ++
          List.zipWith residualEntry (sets.map (fun set => (ty, le, set)))
            (bs.map (fun set => (ty, le, set))) := by
  induction hpairs generalizing i acc with
  | nil => exact ⟨acc, rfl, hwf, hkeys, by simp⟩
  | @cons a b sets' bs' hab _ ih =>
    have hl0 := hlookup 0 b rfl
    rw [Nat.add_zero] at hl0
    have hres := createResidualObservationSet_of_compatible size a b hab
    simp only [createResidualSets, hl0, hres]
    obtain ⟨acc', h1, h2, h3, h4⟩ := ih (i + 1) (StdMap.pushBack ty le (residualSet a b) acc)
      (by
        intro r b' hr
        have := hlookup (r + 1) b' (by simpa using hr)
        rw [Nat.add_assoc i 1 r, Nat.add_comm 1 r]
        exact this)
      (StdMap.pushBack_NestedWF ty le _ acc hwf)
      (StdMap.pushBack_keys_le ty le _ acc hkeys)
    refine ⟨acc', h1, h2, h3, ?_⟩
    rw [h4, SortedObservationSets.traversal_pushBack ty le _ acc hwf hkeys]
    simp [residualEntry]

/-- The middle loop of `createResidualCollection` goes through on lists of compatible
sets under the same link ends. -/
theorem createResidualLinkEnds_ok (computed : SortedObservationSets T S L)
    (ty : ObservableType) (size : Nat)
    (list listB : List (L × List (SingleObservationSet T S L)))
    (acc : SortedObservationSets T S L)
    (hpairs : List.Forall₂
      (fun q q' => q.1 = q'.1 ∧ List.Forall₂ (ResidualCompatible size) q.2 q'.2) list listB)
    (hlookup : ∀ q' ∈ listB, ∀ r b, q'.2.get? r = some b →
      observationSetAt computed ty q'.1 r = .ok b)
    (hsorted : StdMap.WF list) (hwf : StdMap.NestedWF acc)
    (hkeys : ∀ p ∈ acc, p.1 ≤ ty ∧ (p.1 = ty → ∀ q ∈ p.2, ∀ e ∈ list, q.1 < e.1)) :
    ∃ acc', createResidualLinkEnds computed ty list acc = .ok acc' ∧
      StdMap.NestedWF acc' ∧ (∀ p ∈ acc', p.1 ≤ ty) ∧
      SortedObservationSets.traversal acc' =
        SortedObservationSets.traversal acc ++
          List.zipWith residualEntry
            (list.flatMap (fun q => q.2.map (fun set => (ty, q.1, set))))
            (listB.flatMap (fun q => q.2.map (fun set => (ty, q.1, set)))) := by
  induction hpairs generalizing acc with
  | nil => exact ⟨acc, rfl, hwf, fun p hp => (hkeys p hp).1, by simp⟩
  | @cons q q' rest restB hqq _ ih =>
    obtain ⟨le, sets⟩ := q
    obtain ⟨le', bs⟩ := q'
    obtain ⟨hle, hsets⟩ := hqq
    simp only at hle hsets
    subst hle
    have hs := List.sorted_cons.mp hsorted
    obtain ⟨acc₁, g1, g2, g3, g4⟩ := createResidualSets_ok computed ty le size sets bs 0 acc
      hsets
      (by
        intro r b hr
        rw [Nat.zero_add]
        exact hlookup (le, bs) (List.mem_cons_self _ _) r b hr)
      hwf
      (fun p hp => ⟨(hkeys p hp).1, fun hpt q hq =>
        le_of_lt ((hkeys p hp).2 hpt q hq (le, sets) (List.mem_cons_self _ _))⟩)
    simp only [createResidualLinkEnds, g1]
    obtain ⟨acc', h1, h2, h3, h4⟩ := ih acc₁
      (fun q' hq' => hlookup q' (List.mem_cons_of_mem _ hq')) hs.2 g2
      (fun p hp => ⟨(g3 p hp).1, fun hpt q hq e he =>
        lt_of_le_of_lt ((g3 p hp).2 hpt q hq) (hs.1 e.1 (List.mem_map_of_mem _ he))⟩)
    refine ⟨acc', h1, h2, h3, ?_⟩
    rw [h4, g4, List.flatMap_cons, List.flatMap_cons,
      List.zipWith_append _ _ _ _ _ (by simp [hsets.length_eq]), List.append_assoc]

/-- The outer loop of `createResidualCollection` goes through on mappings of compatible
sets under the same keys, and the iteration order of the result is that of the residuals
of the sets at the same place. -/
theorem createResidualTypes_ok (getObservableSize : ObservableType → Nat)
    (computed : SortedObservationSets T S L) (m mB acc : SortedObservationSets T S L)
    (hpairs : List.Forall₂
      (fun p p' => p.1 = p'.1 ∧ List.Forall₂
        (fun q q' => q.1 = q'.1 ∧
          List.Forall₂ (ResidualCompatible (getObservableSize p.1)) q.2 q'.2) p.2 p'.2) m mB)
    (hlookup : ∀ p' ∈ mB, ∀ q' ∈ p'.2, ∀ r b, q'.2.get? r = some b →
      observationSetAt computed p'.1 q'.1 r = .ok b)
    (hsorted : StdMap.NestedWF m) (hwf : StdMap.NestedWF acc)
    (hkeys : ∀ p ∈ acc, ∀ e ∈ m, p.1 < e.1) :
    ∃ acc', createResidualTypes computed m acc = .ok acc' ∧ StdMap.NestedWF acc' ∧
      SortedObservationSets.traversal acc' =
        SortedObservationSets.traversal acc ++
          List.zipWith residualEntry (SortedObservationSets.traversal m)
            (SortedObservationSets.traversal mB) := by
  induction hpairs generalizing acc with
  | nil => exact ⟨acc, rfl, hwf, by simp [SortedObservationSets.traversal]⟩
  | @cons p p' rest restB hpp hrest ih =>
    obtain ⟨ty, list⟩ := p
    obtain ⟨ty', listB⟩ := p'
    obtain ⟨hty, hlists⟩ := hpp
    simp only at hty hlists
    subst hty
    have hs := List.sorted_cons.mp hsorted.1
    obtain ⟨acc₁, g1, g2, g3, g4⟩ := createResidualLinkEnds_ok computed ty
      (getObservableSize ty) list listB acc hlists
      (fun q' hq' => hlookup (ty, listB) (List.mem_cons_self _ _) q' hq')
      (hsorted.2 (ty, list) (List.mem_cons_self _ _)) hwf
      (fun p hp => ⟨le_of_lt (hkeys p hp (ty, list) (List.mem_cons_self _ _)),
        fun hpt => absurd hpt (ne_of_lt (hkeys p hp (ty, list) (List.mem_cons_self _ _)))⟩)
    simp only [createResidualTypes, g1]
    obtain ⟨acc', h1, h2, h3⟩ := ih acc₁
      (fun p' hp' => hlookup p' (List.mem_cons_of_mem _ hp'))
      ⟨hs.2, fun p hp => hsorted.2 p (List.mem_cons_of_mem _ hp)⟩ g2
      (fun p hp e he => lt_of_le_of_lt (g3 p hp) (hs.1 e.1 (List.mem_map_of_mem _ he)))
    refine ⟨acc', h1, h2, ?_⟩
    have hlen : (list.flatMap (fun q => q.2.map (fun set => (ty, q.1, set)))).length =
        (listB.flatMap (fun q => q.2.map (fun set => (ty, q.1, set)))).length := by
      clear g1 g4 hlookup hsorted hkeys hs ih
      induction hlists with
      | nil => rfl
      | cons hq _ ihq =>
        simp only [List.flatMap_cons, List.length_append, List.length_map, ihq,
          hq.2.length_eq]
    rw [h3, g4]
    simp only [SortedObservationSets.traversal, List.flatMap_cons]
    rw [List.zipWith_append _ _ _ _ _ hlen, List.append_assoc]

end ResidualLoopLemmas

section ResidualBufferLemmas

variable {T S L : Type}

theorem forall₂_imp_mem {α β : Type} {R R' : α → β → Prop} {l : List α} {l' : List β}
    (h : List.Forall₂ R l l') (himp : ∀ a ∈ l, ∀ b ∈ l', R a b → R' a b) :
    List.Forall₂ R' l l' := by
  induction h with
  | nil => exact List.Forall₂.nil
  | cons hab _ ih =>
    exact List.Forall₂.cons (himp _ (List.mem_cons_self _ _) _ (List.mem_cons_self _ _) hab)
      (ih (fun a ha b hb => himp a (List.mem_cons_of_mem _ ha) b (List.mem_cons_of_mem _ hb)))

theorem mem_zipWith_of_forall₂ {α β γ : Type} {R : α → β → Prop} (g : α → β → γ)
    {l : List α} {l' : List β} (h : List.Forall₂ R l l') (x : γ)
    (hx : x ∈ List.zipWith g l l') : ∃ a ∈ l, ∃ b ∈ l', R a b ∧ x = g a b := by
  induction h with
  | nil => simp at hx
  | @cons a b l₁ l₂ hab _ ih =>
    rw [List.zipWith_cons_cons] at hx
    rcases List.mem_cons.mp hx with rfl | hx
    · exact ⟨a, List.mem_cons_self _ _, b, List.mem_cons_self _ _, hab, rfl⟩
    · obtain ⟨a', ha', b', hb', hr, rfl⟩ := ih hx
      exact ⟨a', List.mem_cons_of_mem _ ha', b', List.mem_cons_of_mem _ hb', hr, rfl⟩

theorem SortedObservationSets.mem_traversal_of_mem (m : SortedObservationSets T S L)
    (p : ObservableType × StdMap L (List (SingleObservationSet T S L))) (hp : p ∈ m)
    (q : L × List (SingleObservationSet T S L)) (hq : q ∈ p.2)
    (set : SingleObservationSet T S L) (hset : set ∈ q.2) :
    (p.1, q.1, set) ∈ SortedObservationSets.traversal m := by
  simp only [SortedObservationSets.traversal, List.mem_flatMap, List.mem_map]
  exact ⟨p, hp, q, hq, set, hset, rfl⟩

theorem SortedObservationSets.flatBlocks_eq_traversal {α : Type}
    (block : ObservableType → L → SingleObservationSet T S L → List α)
    (m : SortedObservationSets T S L) :
    SortedObservationSets.flatBlocks block m =
      (SortedObservationSets.traversal m).flatMap (fun e => block e.1 e.2.1 e.2.2) := by
  simp only [SortedObservationSets.flatBlocks, SortedObservationSets.traversal,
    List.flatMap_assoc, List.flatMap_map]

theorem SortedObservationSets.expectedObservations_eq_traversal
    (m : SortedObservationSets T S L) :
    SortedObservationSets.expectedObservations m =
      (SortedObservationSets.traversal m).flatMap (fun e => e.2.2.observations_.flatten) :=
  SortedObservationSets.flatBlocks_eq_traversal (fun _ _ set => set.observations_.flatten) m

theorem SortedObservationSets.expectedTimes_eq_traversal
    (getObservableSize : ObservableType → Nat) (m : SortedObservationSets T S L) :
    SortedObservationSets.expectedTimes getObservableSize m =
      (SortedObservationSets.traversal m).flatMap
        (fun e => e.2.2.observationTimes_.flatMap (List.replicate (getObservableSize e.1))) :=
  SortedObservationSets.flatBlocks_eq_traversal
    (fun ty _ set => set.observationTimes_.flatMap (List.replicate (getObservableSize ty))) m

theorem SortedObservationSets.expectedLinkEndIdNames_eq_traversal
    (getObservableSize : ObservableType → Nat) (m : SortedObservationSets T S L) :
    SortedObservationSets.expectedLinkEndIdNames getObservableSize m =
      (SortedObservationSets.traversal m).flatMap
        (fun e => List.replicate (e.2.2.getNumberOfObservables * getObservableSize e.1)
          e.2.1) := by
  rw [← SortedObservationSets.flatBlocks_eq_traversal
    (fun ty le set => List.replicate (set.getNumberOfObservables * getObservableSize ty) le) m]
  simp only [SortedObservationSets.expectedLinkEndIdNames, Tudat.expectedLinkEndIdNames,
    SortedObservationSets.flatBlocks, replicate_sum_eq_flatMap]

theorem flatten_zipWith_zipWith {α β γ : Type} (f : α → β → γ) (size : Nat)
    (xs : List (List α)) (ys : List (List β)) (hx : ∀ o ∈ xs, o.length = size)
    (hy : ∀ o ∈ ys, o.length = size) :
    (List.zipWith (List.zipWith f) xs ys).flatten = List.zipWith f xs.flatten ys.flatten := by
  induction xs generalizing ys with
  | nil => simp
  | cons x xs' ih =>
    cases ys with
    | nil => simp
    | cons y ys' =>
      simp only [List.zipWith_cons_cons, List.flatten_cons]
      rw [ih ys' (fun o ho => hx o (List.mem_cons_of_mem _ ho))
        (fun o ho => hy o (List.mem_cons_of_mem _ ho)),
        List.zipWith_append _ _ _ _ _ ((hx x (List.mem_cons_self _ _)).trans
          (hy y (List.mem_cons_self _ _)).symm)]

theorem zipWith_sub_self {G : Type} [AddGroup G] (v : List G) :
    List.zipWith (· - ·) v v = List.replicate v.length 0 := by
  induction v with
  | nil => rfl
  | cons a rest ih => simp [List.replicate_succ, ih]

theorem StructurallyIdentical_self (m : SortedObservationSets T S L) :
    StructurallyIdentical m m :=
  List.forall₂_same.mpr (fun _ _ => ⟨rfl, List.forall₂_same.mpr (fun _ _ =>
    ⟨rfl, List.forall₂_same.mpr (fun _ _ => ⟨rfl, rfl, rfl, rfl⟩)⟩)⟩)

end ResidualBufferLemmas

section ResidualPairingLemmas

variable {T S L : Type} [LinearOrder T] [LinearOrder L]

/-- The sets of two mappings of compatible sets under the same keys are, in iteration
order, pairwise compatible under the same keys. -/
theorem SortedObservationSets.traversal_forall₂ (getObservableSize : ObservableType → Nat)
    (m mB : SortedObservationSets T S L)
    (hpairs : List.Forall₂
      (fun p p' => p.1 = p'.1 ∧ List.Forall₂
        (fun q q' => q.1 = q'.1 ∧
          List.Forall₂ (ResidualCompatible (getObservableSize p.1)) q.2 q'.2) p.2 p'.2) m mB) :
    List.Forall₂
      (fun e e' => e.1 = e'.1 ∧ e.2.1 = e'.2.1 ∧
        ResidualCompatible (getObservableSize e.1) e.2.2 e'.2.2)
      (SortedObservationSets.traversal m) (SortedObservationSets.traversal mB) := by
  induction hpairs with
  | nil => exact List.Forall₂.nil
  | @cons p p' rest restB hpp _ ih =>
    obtain ⟨ty, list⟩ := p
    obtain ⟨ty', listB⟩ := p'
    obtain ⟨hty, hlists⟩ := hpp
    simp only at hty hlists
    subst hty
    simp only [SortedObservationSets.traversal, List.flatMap_cons]
    refine List.rel_append ?_ ih
    induction hlists with
    | nil => exact List.Forall₂.nil
    | @cons q q' _ _ hq _ ihq =>
      simp only [List.flatMap_cons]
      refine List.rel_append ?_ ihq
      obtain ⟨le, sets⟩ := q
      obtain ⟨le', bs⟩ := q'
      obtain ⟨hle, hsets⟩ := hq
      simp only at hle hsets
      clear ihq
      induction hsets with
      | nil => exact List.Forall₂.nil
      | cons hab _ ihs => exact List.Forall₂.cons ⟨rfl, hle, hab⟩ ihs

theorem ResidualCompatible.observations_length (size : Nat)
    (a b : SingleObservationSet T S L) (h : ResidualCompatible size a b) :
    a.observations_.length = b.observations_.length := by
  obtain ⟨⟨-, -, -, htimes⟩, ha, hb, -, -⟩ := h
  rw [← ha.timesLength, ← hb.timesLength, htimes]

/-- Buffers of the residuals of pairwise compatible sets: the observations are the
differences of the observations, element by element, and the times, link ends and keys
are those of the observed sets. -/
theorem residualEntry_blocks [Sub S] (getObservableSize : ObservableType → Nat)
    (tA tB : List (ObservableType × L × SingleObservationSet T S L))
    (h : List.Forall₂
      (fun e e' => e.1 = e'.1 ∧ e.2.1 = e'.2.1 ∧
        ResidualCompatible (getObservableSize e.1) e.2.2 e'.2.2) tA tB) :
    (tA.flatMap (fun e => e.2.2.observations_.flatten)).length =
      (tB.flatMap (fun e => e.2.2.observations_.flatten)).length ∧
    (List.zipWith residualEntry tA tB).flatMap (fun e => e.2.2.observations_.flatten) =
      List.zipWith (· - ·) (tA.flatMap (fun e => e.2.2.observations_.flatten))
        (tB.flatMap (fun e => e.2.2.observations_.flatten)) ∧
    (List.zipWith residualEntry tA tB).flatMap
        (fun e => e.2.2.observationTimes_.flatMap (List.replicate (getObservableSize e.1))) =
      tA.flatMap
        (fun e => e.2.2.observationTimes_.flatMap (List.replicate (getObservableSize e.1))) ∧
    (List.zipWith residualEntry tA tB).flatMap
        (fun e => List.replicate (e.2.2.getNumberOfObservables * getObservableSize e.1)
          e.2.1) =
      tA.flatMap
        (fun e => List.replicate (e.2.2.getNumberOfObservables * getObservableSize e.1)
          e.2.1) ∧
    (List.zipWith residualEntry tA tB).map (fun e => (e.1, e.2.1)) =
      tA.map (fun e => (e.1, e.2.1)) := by
  induction h with
  | nil => simp
  | @cons e e' l₁ l₂ hee _ ih =>
    obtain ⟨h1, h2, h3, h4, h5⟩ := ih
    obtain ⟨-, -, hc⟩ := hee
    have hlen := ResidualCompatible.observations_length _ _ _ hc
    obtain ⟨-, ha, -, hao, hbo⟩ := hc
    have hflatA : e.2.2.observations_.flatten.length =
        e.2.2.observations_.length * getObservableSize e.1 :=
      length_flatten_of_length_eq _ _ hao
    have hflatB : e'.2.2.observations_.flatten.length =
        e'.2.2.observations_.length * getObservableSize e.1 :=
      length_flatten_of_length_eq _ _ hbo
    have hflat : e.2.2.observations_.flatten.length = e'.2.2.observations_.flatten.length := by
      rw [hflatA, hflatB, hlen]
    refine ⟨?_, ?_, ?_, ?_, ?_⟩
    · simp only [List.flatMap_cons, List.length_append, h1, hflat]
    · simp only [List.zipWith_cons_cons, List.flatMap_cons]
      rw [h2, List.zipWith_append _ _ _ _ _ hflat]
      congr 1
      exact flatten_zipWith_zipWith _ (getObservableSize e.1) _ _ hao hbo
    · simp only [List.zipWith_cons_cons, List.flatMap_cons]
      rw [h3]
      rfl
    · simp only [List.zipWith_cons_cons, List.flatMap_cons]
      rw [h4]
      congr 1
      show List.replicate (e.2.2.observations_.length * getObservableSize e.1) e.2.1 = _
      rw [SingleObservationSet.getNumberOfObservables, ha.numberOfObservations]
    · simp only [List.zipWith_cons_cons, List.map_cons]
      rw [h5]
      rfl

end ResidualPairingLemmas

section ResidualKeysLemmas

variable {T S L : Type} [LinearOrder T] [LinearOrder L] [Sub S]

theorem createResidualSets_nonempty (computed : SortedObservationSets T S L)
    (ty : ObservableType) (le : L) (sets : List (SingleObservationSet T S L)) (i : Nat)
    (acc acc' : SortedObservationSets T S L)
    (h : createResidualSets computed ty le sets i acc = .ok acc')
    (hacc : ∀ p ∈ acc, p.2 ≠ [] ∧ ∀ q ∈ p.2, q.2 ≠ []) :
    ∀ p ∈ acc', p.2 ≠ [] ∧ ∀ q ∈ p.2, q.2 ≠ [] := by
  induction sets generalizing i acc with
  | nil =>
    simp only [createResidualSets, Except.ok.injEq] at h
    subst h
    exact hacc
  | cons set rest ih =>
    simp only [createResidualSets] at h
    split at h
    · simp at h
    · split at h
      · simp at h
      · exact ih _ _ h (StdMap.pushBack_nonempty ty le _ acc hacc)

theorem createResidualLinkEnds_nonempty (computed : SortedObservationSets T S L)
    (ty : ObservableType) (list : List (L × List (SingleObservationSet T S L)))
    (acc acc' : SortedObservationSets T S L)
    (h : createResidualLinkEnds computed ty list acc = .ok acc')
    (hacc : ∀ p ∈ acc, p.2 ≠ [] ∧ ∀ q ∈ p.2, q.2 ≠ []) :
    ∀ p ∈ acc', p.2 ≠ [] ∧ ∀ q ∈ p.2, q.2 ≠ [] := by
  induction list generalizing acc with
  | nil =>
    simp only [createResidualLinkEnds, Except.ok.injEq] at h
    subst h
    exact hacc
  | cons entry rest ih =>
    obtain ⟨le, sets⟩ := entry
    simp only [createResidualLinkEnds] at h
    split at h
    · simp at h
    · rename_i acc₁ hacc₁
      exact ih _ h (createResidualSets_nonempty computed ty le sets 0 acc acc₁ hacc₁ hacc)

theorem createResidualTypes_nonempty (computed m acc acc' : SortedObservationSets T S L)
    (h : createResidualTypes computed m acc = .ok acc')
    (hacc : ∀ p ∈ acc, p.2 ≠ [] ∧ ∀ q ∈ p.2, q.2 ≠ []) :
    ∀ p ∈ acc', p.2 ≠ [] ∧ ∀ q ∈ p.2, q.2 ≠ [] := by
  induction m generalizing acc with
  | nil =>
    simp only [createResidualTypes, Except.ok.injEq] at h
    subst h
    exact hacc
  | cons entry rest ih =>
    obtain ⟨ty, list⟩ := entry
    simp only [createResidualTypes] at h
    split at h
    · simp at h
    · rename_i acc₁ hacc₁
      exact ih _ h (createResidualLinkEnds_nonempty computed ty list acc acc₁ hacc₁ hacc)

end ResidualKeysLemmas

section ResidualCollectionClaims

variable {T S L : Type} [LinearOrder T] [LinearOrder L] [Inhabited L] [Inhabited T]

/-- Function `createResidualCollection` on two collections constructed from well-formed,
structurally identical mappings of sets that satisfy the class invariant: it returns a
collection whose sets are stored under the keys of the observed sets, in their order,
without keys that hold nothing, whose times and link ends buffers are those of the
observed collection and whose observation buffer is the difference of the observation
buffers. -/
theorem createResidualCollection_ok [Zero S] [Sub S]
    (getObservableSize : ObservableType → Nat) (mA mB : SortedObservationSets T S L)
    (A B : ObservationCollection T S L)
    (hA : ObservationCollection.construct getObservableSize mA = .ok A)
    (hB : ObservationCollection.construct getObservableSize mB = .ok B)
    (hwfA : StdMap.NestedWF mA) (hwfB : StdMap.NestedWF mB)
    (hinvA : ∀ p ∈ mA, ∀ q ∈ p.2, ∀ set ∈ q.2, set.Invariant)
    (hinvB : ∀ p ∈ mB, ∀ q ∈ p.2, ∀ set ∈ q.2, set.Invariant)
    (hident : StructurallyIdentical mA mB) :
    ∃ R, createResidualCollection getObservableSize A B = .ok R ∧
      (SortedObservationSets.traversal R.getObservations).map (fun e => (e.1, e.2.1)) =
        (SortedObservationSets.traversal A.getObservations).map (fun e => (e.1, e.2.1)) ∧
      (∀ p ∈ R.getObservations, p.2 ≠ [] ∧ ∀ q ∈ p.2, q.2 ≠ []) ∧
      R.getConcatenatedTimeVector = A.getConcatenatedTimeVector ∧
      R.getConcatenatedLinkEndIdNames = A.getConcatenatedLinkEndIdNames ∧
      A.getObservationVector.length = B.getObservationVector.length ∧
      R.getObservationVector =
        List.zipWith (· - ·) A.getObservationVector B.getObservationVector := by
  have hsA := ObservationCollection.construct_observationSizes getObservableSize mA A hA
  have hsB := ObservationCollection.construct_observationSizes getObservableSize mB B hB
  have hlistA := ObservationCollection.construct_observationSetList getObservableSize mA A hA
  have hlistB := ObservationCollection.construct_observationSetList getObservableSize mB B hB
  have hcompat : List.Forall₂
      (fun p p' => p.1 = p'.1 ∧ List.Forall₂
        (fun q q' => q.1 = q'.1 ∧
          List.Forall₂ (ResidualCompatible (getObservableSize p.1)) q.2 q'.2) p.2 p'.2)
      mA mB := by
    unfold StructurallyIdentical at hident
    refine forall₂_imp_mem hident ?_
    rintro p hp p' hp' ⟨hpe, hq⟩
    refine ⟨hpe, forall₂_imp_mem hq ?_⟩
    rintro q hq q' hq' ⟨hqe, hs⟩
    refine ⟨hqe, forall₂_imp_mem hs ?_⟩
    intro a ha b hb hab
    exact ⟨hab, hinvA p hp q hq a ha, hinvB p' hp' q' hq' b hb, (hsA p hp q hq a ha).2,
      by rw [hpe]; exact (hsB p' hp' q' hq' b hb).2⟩
  obtain ⟨mR, hmR, hwfR, htrav⟩ := createResidualTypes_ok getObservableSize mB mA mB []
    hcompat
    (fun p' hp' q' hq' r b hr => observationSetAt_of_mem mB hwfB p' hp' q' hq' r b hr)
    hwfA StdMap.NestedWF_nil (by simp)
  have htrav' : SortedObservationSets.traversal mR =
      List.zipWith residualEntry (SortedObservationSets.traversal mA)
        (SortedObservationSets.traversal mB) := by
    rw [htrav]
    simp [SortedObservationSets.traversal]
  have hF := SortedObservationSets.traversal_forall₂ getObservableSize mA mB hcompat
  have key : ∀ p ∈ mR, ∀ q ∈ p.2, ∀ set ∈ q.2, ∃ pA ∈ mA, ∃ qA ∈ pA.2, ∃ a ∈ qA.2, ∃ b,
      p.1 = pA.1 ∧ q.1 = qA.1 ∧ set = residualSet a b ∧
      ResidualCompatible (getObservableSize pA.1) a b := by
    intro p hp q hq set hset
    have hmem := SortedObservationSets.mem_traversal_of_mem mR p hp q hq set hset
    rw [htrav'] at hmem
    obtain ⟨eA, heA, eB, -, ⟨-, -, hc⟩, heq⟩ := mem_zipWith_of_forall₂ residualEntry hF _ hmem
    obtain ⟨pA, hpA, qA, hqA, ha, h1, h2⟩ := SortedObservationSets.mem_traversal mA eA heA
    simp only [residualEntry, Prod.mk.injEq] at heq
    obtain ⟨e1, e2, e3⟩ := heq
    exact ⟨pA, hpA, qA, hqA, eA.2.2, ha, eB.2.2, e1.trans h1, e2.trans h2, e3, by
      rw [← h1]; exact hc⟩
  have hvalidR : ∀ p ∈ mR, ∀ q ∈ p.2, ∀ set ∈ q.2,
      set.numberOfObservations_ = set.observations_.length ∧
      set.observationTimes_.length = set.observations_.length := by
    intro p hp q hq set hset
    obtain ⟨pA, -, qA, -, a, -, b, -, -, rfl, hc⟩ := key p hp q hq set hset
    have hlen := ResidualCompatible.observations_length _ a b hc
    have hobsLen : (residualSet a b).observations_.length = a.observations_.length := by
      simp [residualSet, List.length_zipWith, hlen]
    exact ⟨hobsLen.symm, hc.2.1.timesLength.trans hobsLen.symm⟩
  have hobsR : ∀ p ∈ mR, ∀ q ∈ p.2, ∀ set ∈ q.2, ∀ o ∈ set.observations_,
      o.length = getObservableSize p.1 := by
    intro p hp q hq set hset o ho
    obtain ⟨pA, -, qA, -, a, -, b, hpe, -, rfl, hc⟩ := key p hp q hq set hset
    obtain ⟨x, hx, y, hy, rfl⟩ := mem_zipWith_zipWith _ _ _ o ho
    rw [List.length_zipWith, hc.2.2.2.1 x hx, hc.2.2.2.2 y hy, hpe]
    exact Nat.min_self _
  have hlinkR : ∀ p ∈ mR, ∀ q ∈ p.2, ∀ set ∈ q.2,
      set.linkEnds_ = firstLinkDefinition (StdMap.entriesAt mA p.1 q.1) := by
    intro p hp q hq set hset
    obtain ⟨pA, hpA, qA, hqA, a, ha, b, hpe, hqe, rfl, -⟩ := key p hp q hq set hset
    rw [hpe, hqe, StdMap.entriesAt_of_mem mA hwfA pA hpA qA hqA]
    exact (hsA pA hpA qA hqA a ha).1
  have hfirstR : ∀ p ∈ mR, ∀ q ∈ p.2, ∀ set ∈ q.2,
      set.linkEnds_ = firstLinkDefinition q.2 := by
    intro p hp q hq set hset
    obtain ⟨le, sets⟩ := q
    cases sets with
    | nil => simp at hset
    | cons first rest =>
      rw [hlinkR p hp _ hq set hset]
      exact (hlinkR p hp _ hq first (List.mem_cons_self _ _)).symm
  obtain ⟨R, hR⟩ := ObservationCollection.construct_ok getObservableSize mR hwfR hvalidR hobsR
    hfirstR
  have hlistR := ObservationCollection.construct_observationSetList getObservableSize mR R hR
  obtain ⟨a1, a2, -, a4, -⟩ := ObservationCollection.construct_buffers getObservableSize mA A
    hA hwfA (fun p hp q hq set hset =>
      ⟨(hinvA p hp q hq set hset).numberOfObservations, (hinvA p hp q hq set hset).timesLength⟩)
  obtain ⟨b1, -⟩ := ObservationCollection.construct_buffers getObservableSize mB B
    hB hwfB (fun p hp q hq set hset =>
      ⟨(hinvB p hp q hq set hset).numberOfObservations, (hinvB p hp q hq set hset).timesLength⟩)
  obtain ⟨r1, r2, -, r4, -⟩ := ObservationCollection.construct_buffers getObservableSize mR R
    hR hwfR hvalidR
  obtain ⟨k1, k2, k3, k4, k5⟩ := residualEntry_blocks getObservableSize _ _ hF
  refine ⟨R, ?_, ?_, ?_, ?_, ?_, ?_, ?_⟩
  · simp only [createResidualCollection, ObservationCollection.getObservations, hlistA,
      hlistB, hmR, hR]
  · simp only [ObservationCollection.getObservations, hlistA, hlistR, htrav', k5]
  · rw [ObservationCollection.getObservations, hlistR]
    exact createResidualTypes_nonempty mB mA [] mR hmR (by simp)
  · simp only [ObservationCollection.getConcatenatedTimeVector, r2, a2,
      SortedObservationSets.expectedTimes_eq_traversal, htrav', k3]
  · simp only [ObservationCollection.getConcatenatedLinkEndIdNames, r4, a4,
      SortedObservationSets.expectedLinkEndIdNames_eq_traversal, htrav', k4]
  · simp only [ObservationCollection.getObservationVector, a1, b1,
      SortedObservationSets.expectedObservations_eq_traversal, k1]
  · simp only [ObservationCollection.getObservationVector, r1, a1, b1,
      SortedObservationSets.expectedObservations_eq_traversal, htrav', k2]

/-- C17 (amended): for collections `A` (observed) and `B` (computed) constructed from
well-formed, structurally identical mappings of sets with equal sample times,
`createResidualCollection` succeeds; the sets of its result are stored, in the order of
`A`, under the observable types and link ends of the sets of `A`, and the result holds
no observable type without link ends and no link ends without a set; its concatenated
times and link-ends tuples are those of `A`; its observation vector is the observation
vector of `A` minus that of `B`, element by element; and
`createResidualCollection( A, A )` has an all-zero observation vector. -/
theorem createResidualCollection_spec [AddGroup S]
    (getObservableSize : ObservableType → Nat) (mA mB : SortedObservationSets T S L)
    (A B : ObservationCollection T S L)
    (hA : ObservationCollection.construct getObservableSize mA = .ok A)
    (hB : ObservationCollection.construct getObservableSize mB = .ok B)
    (hwfA : StdMap.NestedWF mA) (hwfB : StdMap.NestedWF mB)
    (hinvA : ∀ p ∈ mA, ∀ q ∈ p.2, ∀ set ∈ q.2, set.Invariant)
    (hinvB : ∀ p ∈ mB, ∀ q ∈ p.2, ∀ set ∈ q.2, set.Invariant)
    (hident : StructurallyIdentical mA mB) :
    (∃ R, createResidualCollection getObservableSize A B = .ok R ∧
      (SortedObservationSets.traversal R.getObservations).map (fun e => (e.1, e.2.1)) =
        (SortedObservationSets.traversal A.getObservations).map (fun e => (e.1, e.2.1)) ∧
      (∀ p ∈ R.getObservations, p.2 ≠ [] ∧ ∀ q ∈ p.2, q.2 ≠ []) ∧
      R.getConcatenatedTimeVector = A.getConcatenatedTimeVector ∧
      R.getConcatenatedLinkEndIdNames = A.getConcatenatedLinkEndIdNames ∧
      A.getObservationVector.length = B.getObservationVector.length ∧
      R.getObservationVector =
        List.zipWith (· - ·) A.getObservationVector B.getObservationVector) ∧
    (∃ R, createResidualCollection getObservableSize A A = .ok R ∧
      R.getObservationVector = List.replicate A.getObservationVector.length 0) := by
  refine ⟨createResidualCollection_ok getObservableSize mA mB A B hA hB hwfA hwfB hinvA hinvB
    hident, ?_⟩
  obtain ⟨R, h1, -, -, -, -, -, h2⟩ := createResidualCollection_ok getObservableSize mA mA
    A A hA hA hwfA hwfA hinvA hinvA (StructurallyIdentical_self mA)
  exact ⟨R, h1, by rw [h2, zipWith_sub_self]⟩

end ResidualCollectionClaims

section ResidualCollectionExamples

theorem exampleComputedCollection_constructed :
    ObservationCollection.construct (fun ty => ty) exampleComputedSets =
      .ok exampleComputedCollection := rfl

/-- Witness of C17 (amended): the example collection as the observed one and the
collection of the same sets with other observations as the computed one. -/
theorem createResidualCollection_spec_witness :
    (∃ R, createResidualCollection (fun ty => ty) exampleObservationCollection
        exampleComputedCollection = .ok R ∧
      (SortedObservationSets.traversal R.getObservations).map (fun e => (e.1, e.2.1)) =
        (SortedObservationSets.traversal exampleObservationCollection.getObservations).map
          (fun e => (e.1, e.2.1)) ∧
      (∀ p ∈ R.getObservations, p.2 ≠ [] ∧ ∀ q ∈ p.2, q.2 ≠ []) ∧
      R.getConcatenatedTimeVector = exampleObservationCollection.getConcatenatedTimeVector ∧
      R.getConcatenatedLinkEndIdNames =
        exampleObservationCollection.getConcatenatedLinkEndIdNames ∧
      exampleObservationCollection.getObservationVector.length =
        exampleComputedCollection.getObservationVector.length ∧
      R.getObservationVector =
        List.zipWith (· - ·) exampleObservationCollection.getObservationVector
          exampleComputedCollection.getObservationVector) ∧
    (∃ R, createResidualCollection (fun ty => ty) exampleObservationCollection
        exampleObservationCollection = .ok R ∧
      R.getObservationVector =
        List.replicate exampleObservationCollection.getObservationVector.length 0) :=
  createResidualCollection_spec (fun ty => ty) exampleSortedObservationSets
    exampleComputedSets exampleObservationCollection exampleComputedCollection
    exampleObservationCollection_constructed exampleComputedCollection_constructed
    ⟨by simp [StdMap.WF, exampleSortedObservationSets],
      by simp [StdMap.WF, exampleSortedObservationSets]⟩
    ⟨by simp [StdMap.WF, exampleComputedSets],
      by simp [StdMap.WF, exampleComputedSets]⟩
    (by
      intro p hp q hq set hset
      simp only [exampleSortedObservationSets, List.mem_cons, List.mem_singleton,
        List.not_mem_nil, or_false] at hp
      rcases hp with rfl | rfl
      · simp only [List.mem_singleton] at hq
        subst hq
        simp only [List.mem_singleton] at hset
        subst hset
        exact ⟨rfl, rfl, rfl, rfl, by decide⟩
      · simp only [List.mem_cons, List.mem_singleton, List.not_mem_nil, or_false] at hq
        rcases hq with rfl | rfl
        · simp only [List.mem_singleton] at hset
          subst hset
          exact ⟨rfl, rfl, rfl, rfl, by decide⟩
        · simp only [List.mem_singleton] at hset
          subst hset
          exact ⟨rfl, rfl, rfl, rfl, by decide⟩)
    (by
      intro p hp q hq set hset
      simp only [exampleComputedSets, List.mem_cons, List.mem_singleton,
        List.not_mem_nil, or_false] at hp
      rcases hp with rfl | rfl
      · simp only [List.mem_singleton] at hq
        subst hq
        simp only [List.mem_singleton] at hset
        subst hset
        exact ⟨rfl, rfl, rfl, rfl, by decide⟩
      · simp only [List.mem_cons, List.mem_singleton, List.not_mem_nil, or_false] at hq
        rcases hq with rfl | rfl
        · simp only [List.mem_singleton] at hset
          subst hset
          exact ⟨rfl, rfl, rfl, rfl, by decide⟩
        · simp only [List.mem_singleton] at hset
          subst hset
          exact ⟨rfl, rfl, rfl, rfl, by decide⟩)
    (List.Forall₂.cons
      ⟨rfl, List.Forall₂.cons
        ⟨rfl, List.Forall₂.cons ⟨rfl, rfl, rfl, rfl⟩ List.Forall₂.nil⟩ List.Forall₂.nil⟩
      (List.Forall₂.cons
        ⟨rfl, List.Forall₂.cons
          ⟨rfl, List.Forall₂.cons ⟨rfl, rfl, rfl, rfl⟩ List.Forall₂.nil⟩
          (List.Forall₂.cons
            ⟨rfl, List.Forall₂.cons ⟨rfl, rfl, rfl, rfl⟩ List.Forall₂.nil⟩
            List.Forall₂.nil)⟩
        List.Forall₂.nil))

/-- The example of C17 evaluated: the residuals of the example collection with the
computed collection. -/
theorem createResidualCollection_example :
    ∃ R, createResidualCollection (fun ty => ty) exampleObservationCollection
        exampleComputedCollection = .ok R ∧
      R.getObservationVector = [9, 28, 28, 16, 16, 16, 16] ∧
      R.getConcatenatedTimeVector = [3, 8, 8, 5, 5, 6, 6] ∧
      R.getConcatenatedLinkEndIdNames = [9, 4, 4, 7, 7, 7, 7] :=
  ⟨_, rfl, rfl, rfl, rfl⟩

theorem exampleEmptyLinkEndsCollection_constructed :
    ObservationCollection.construct (fun ty => ty) exampleEmptyLinkEndsSets =
      .ok exampleEmptyLinkEndsCollection := rfl

/-- C17 (counterexample): the collection constructed from the mapping that holds the
observable type 1 with the link ends 9 and no set is structurally identical to itself,
and `createResidualCollection` returns for it a collection without observable types. -/
theorem createResidualCollection_empty_list_counterexample :
    StructurallyIdentical exampleEmptyLinkEndsSets exampleEmptyLinkEndsSets ∧
    ∃ R, createResidualCollection (fun ty => ty) exampleEmptyLinkEndsCollection
        exampleEmptyLinkEndsCollection = .ok R ∧
      R.getObservations.map Prod.fst = [] ∧
      exampleEmptyLinkEndsCollection.getObservations.map Prod.fst = [1] ∧
      exampleEmptyLinkEndsCollection.getObservations.map (fun p => p.2.map Prod.fst) = [[9]] :=
  ⟨List.Forall₂.cons ⟨rfl, List.Forall₂.cons ⟨rfl, List.Forall₂.nil⟩ List.Forall₂.nil⟩
      List.Forall₂.nil,
    _, rfl, rfl, rfl, rfl⟩

end ResidualCollectionExamples

section NestedForallLemmas

variable {K₁ K₂ V : Type} [LinearOrder K₁] [LinearOrder K₂]

/-- Appending an element under two keys keeps a property of the elements with their keys
when the new element has it under the keys given. -/
theorem StdMap.pushBack_forall (P : K₁ → K₂ → V → Prop) (k₁ : K₁) (k₂ : K₂) (x : V)
    (m : StdMap K₁ (StdMap K₂ (List V)))
    (hm : ∀ p ∈ m, ∀ q ∈ p.2, ∀ s ∈ q.2, P p.1 q.1 s) (hx : P k₁ k₂ x) :
    ∀ p ∈ StdMap.pushBack k₁ k₂ x m, ∀ q ∈ p.2, ∀ s ∈ q.2, P p.1 q.1 s := by
  intro p hp q hq s hs
  have hinner : ∀ v : StdMap K₂ (List V), (∀ q ∈ v, ∀ s ∈ q.2, P k₁ q.1 s) →
      ∀ q ∈ StdMap.modify [] (fun v => v ++ [x]) k₂ v, ∀ s ∈ q.2, P k₁ q.1 s := by
    intro v hv q hq s hs
    rcases StdMap.mem_modify _ _ _ _ _ hq with h | ⟨h1, h | ⟨w, hw, h⟩⟩
    · exact hv q h s hs
    · rw [h] at hs
      simp only [List.nil_append, List.mem_singleton] at hs
      rw [hs, h1]
      exact hx
    · rw [h] at hs
      rcases List.mem_append.mp hs with hs | hs
      · rw [h1]
        exact hv (k₂, w) hw s hs
      · simp only [List.mem_singleton] at hs
        rw [hs, h1]
        exact hx
  unfold StdMap.pushBack at hp
  rcases StdMap.mem_modify _ _ _ _ _ hp with hmem | ⟨h1, h2 | ⟨v, hv, h2⟩⟩
  · exact hm p hmem q hq s hs
  · rw [h2] at hq
    rw [h1]
    exact hinner [] (by simp) q hq s hs
  · rw [h2] at hq
    rw [h1]
    exact hinner v (fun q hq s hs => hm (k₁, v) hv q hq s hs) q hq s hs

end NestedForallLemmas

section FilterProvenanceLemmas

variable {T S L : Type} [LinearOrder T] [LinearOrder L]

theorem filterDataSets_forall (P : ObservableType → L → SingleObservationSet T S L → Prop)
    (ty : ObservableType) (le : L) (lists : List (List Int))
    (sets : List (SingleObservationSet T S L)) (j : Nat)
    (acc acc' : SortedObservationSets T S L)
    (h : filterDataSets ty le lists sets j acc = .ok acc')
    (hacc : ∀ p ∈ acc, ∀ q ∈ p.2, ∀ s ∈ q.2, P p.1 q.1 s)
    (hset : ∀ set ∈ sets, ∀ indices s',
      set.createFilteredObservationSet indices = .ok s' → P ty le s') :
    ∀ p ∈ acc', ∀ q ∈ p.2, ∀ s ∈ q.2, P p.1 q.1 s := by
  induction sets generalizing j acc with
  | nil =>
    simp only [filterDataSets, Except.ok.injEq] at h
    subst h
    exact hacc
  | cons set rest ih =>
    simp only [filterDataSets] at h
    split at h
    · simp at h
    · rename_i indices hindices
      split at h
      · simp at h
      · rename_i filtered hfiltered
        exact ih _ _ h
          (StdMap.pushBack_forall P ty le filtered acc hacc
            (hset set (List.mem_cons_self _ _) indices filtered hfiltered))
          (fun x hx => hset x (List.mem_cons_of_mem _ hx))

theorem filterDataLinkEnds_forall (P : ObservableType → L → SingleObservationSet T S L → Prop)
    (c : ObservationCollection T S L) (ty : ObservableType)
    (list : List (L × List (List Int))) (acc acc' : SortedObservationSets T S L)
    (h : filterDataLinkEnds c ty list acc = .ok acc')
    (hacc : ∀ p ∈ acc, ∀ q ∈ p.2, ∀ s ∈ q.2, P p.1 q.1 s)
    (hset : ∀ le sets, observationSetsAt c.getObservations ty le = .ok sets →
      ∀ set ∈ sets, ∀ indices s',
        set.createFilteredObservationSet indices = .ok s' → P ty le s') :
    ∀ p ∈ acc', ∀ q ∈ p.2, ∀ s ∈ q.2, P p.1 q.1 s := by
  induction list generalizing acc with
  | nil =>
    simp only [filterDataLinkEnds, Except.ok.injEq] at h
    subst h
    exact hacc
  | cons entry rest ih =>
    obtain ⟨le, lists⟩ := entry
    simp only [filterDataLinkEnds] at h
    split at h
    · simp at h
    · rename_i sets hsets
      split at h
      · simp at h
      · split at h
        · simp at h
        · rename_i acc₁ hacc₁
          exact ih _ h
            (filterDataSets_forall P ty le lists sets 0 acc acc₁ hacc₁ hacc
              (hset le sets hsets))

theorem filterDataTypes_forall (P : ObservableType → L → SingleObservationSet T S L → Prop)
    (c : ObservationCollection T S L)
    (plan : List (ObservableType × List (L × List (List Int))))
    (acc acc' : SortedObservationSets T S L)
    (h : filterDataTypes c plan acc = .ok acc')
    (hacc : ∀ p ∈ acc, ∀ q ∈ p.2, ∀ s ∈ q.2, P p.1 q.1 s)
    (hset : ∀ ty le sets, observationSetsAt c.getObservations ty le = .ok sets →
      ∀ set ∈ sets, ∀ indices s',
        set.createFilteredObservationSet indices = .ok s' → P ty le s') :
    ∀ p ∈ acc', ∀ q ∈ p.2, ∀ s ∈ q.2, P p.1 q.1 s := by
  induction plan generalizing acc with
  | nil =>
    simp only [filterDataTypes, Except.ok.injEq] at h
    subst h
    exact hacc
  | cons entry rest ih =>
    obtain ⟨ty, list⟩ := entry
    simp only [filterDataTypes] at h
    split at h
    · simp at h
    · rename_i acc₁ hacc₁
      exact ih _ h (filterDataLinkEnds_forall P c ty list acc acc₁ hacc₁ hacc (hset ty))

theorem SingleObservationSet.createFilteredObservationSet_weights
    (s : SingleObservationSet T S L) (indices : List Int) (s' : SingleObservationSet T S L)
    (h : s.createFilteredObservationSet indices = .ok s') : s'.weightsVector_ = [] := by
  unfold SingleObservationSet.createFilteredObservationSet at h
  split at h
  · simp at h
  · exact (SingleObservationSet.construct_ok_inv h).2.2.2.2.2.2.2.2.2.1

end FilterProvenanceLemmas

section FilterWeightsClaims

variable {T S L : Type} [LinearOrder T] [LinearOrder L]

/-- C29: a set that `createFilteredObservationSet` returns has an empty weights vector,
whatever the weights of the original set and whatever the index list, and so has every
set of a collection that `filterData` returns. -/
theorem createFilteredObservationSet_carries_no_weights [Inhabited L] [Inhabited T]
    [Zero S] (getObservableSize : ObservableType → Nat) :
    (∀ (s : SingleObservationSet T S L) (indices : List Int) (s' : SingleObservationSet T S L),
      s.createFilteredObservationSet indices = .ok s' → s'.getWeightsVector = []) ∧
    (∀ (c : ObservationCollection T S L) plan r, filterData getObservableSize c plan = .ok r →
      ∀ p ∈ r.getObservations, ∀ q ∈ p.2, ∀ set ∈ q.2, set.getWeightsVector = []) := by
  refine ⟨fun s indices s' h =>
    SingleObservationSet.createFilteredObservationSet_weights s indices s' h, ?_⟩
  intro c plan r h
  unfold filterData at h
  split at h
  · simp at h
  · rename_i filtered hfiltered
    rw [ObservationCollection.getObservations,
      ObservationCollection.construct_observationSetList getObservableSize filtered r h]
    exact filterDataTypes_forall (fun _ _ set => set.getWeightsVector = []) c plan []
      filtered hfiltered (by simp)
      (fun _ _ _ _ set _ indices s' hs' =>
        SingleObservationSet.createFilteredObservationSet_weights set indices s' hs')

/-- Witness of C29: the set of the weighted example with the weights `6, 7`, filtered
with the empty index list and with the index list `1`, and the weighted example
collection filtered with a plan of empty index lists. -/
theorem createFilteredObservationSet_carries_no_weights_witness :
    (⟨1, ⟨9⟩, [[20], [21]], [4, 5], 0, [], none, none, 2, [6, 7]⟩ :
        SingleObservationSet Int Int Nat).getWeightsVector = [6, 7] ∧
    (⟨1, ⟨9⟩, [[20], [21]], [4, 5], 0, [], none, none, 2, []⟩ :
        SingleObservationSet Int Int Nat).getWeightsVector = [] ∧
    (⟨1, ⟨9⟩, [[20]], [4], 0, [], none, none, 1, []⟩ :
        SingleObservationSet Int Int Nat).getWeightsVector = [] ∧
    ∀ r, filterData (fun ty => ty) exampleWeightedCollection [(1, [(9, [[], []])])] = .ok r →
      ∀ p ∈ r.getObservations, ∀ q ∈ p.2, ∀ set ∈ q.2, set.getWeightsVector = [] :=
  ⟨rfl,
    (createFilteredObservationSet_carries_no_weights (fun ty => ty)).1
      (⟨1, ⟨9⟩, [[20], [21]], [4, 5], 0, [], none, none, 2, [6, 7]⟩ :
        SingleObservationSet Int Int Nat) []
      ⟨1, ⟨9⟩, [[20], [21]], [4, 5], 0, [], none, none, 2, []⟩ (by rfl),
    (createFilteredObservationSet_carries_no_weights (fun ty => ty)).1
      (⟨1, ⟨9⟩, [[20], [21]], [4, 5], 0, [], none, none, 2, [6, 7]⟩ :
        SingleObservationSet Int Int Nat) [1]
      ⟨1, ⟨9⟩, [[20]], [4], 0, [], none, none, 1, []⟩ (by rfl),
    fun r h => (createFilteredObservationSet_carries_no_weights (fun ty => ty)).2
      exampleWeightedCollection [(1, [(9, [[], []])])] r h⟩

/-- The example of C29 evaluated: filtering the weighted example collection with empty
index lists returns a collection. -/
theorem filterData_weighted_example :
    ∃ r, filterData (fun ty => ty) exampleWeightedCollection [(1, [(9, [[], []])])] = .ok r ∧
      r.getObservationVector = [10, 20, 21] :=
  ⟨_, rfl, rfl⟩

end FilterWeightsClaims

section EraseSubsetLemmas

variable {T S : Type}

theorem vectorAt_eq_ok {α : Type} (l : List α) (i : Nat) (a : α) (h : vectorAt l i = .ok a) :
    l.get? i = some a := by
  unfold vectorAt at h
  split at h
  · rename_i b hb
    simp only [Except.ok.injEq] at h
    rw [← h]
    exact hb
  · simp at h

theorem vectorErase_subset {α : Type} (l l' : List α) (d : Int)
    (h : vectorErase l d = .ok l') : ∀ x ∈ l', x ∈ l := by
  unfold vectorErase at h
  split at h
  · simp only [Except.ok.injEq] at h
    subst h
    exact fun x hx => (List.eraseIdx_sublist l d.toNat).subset hx
  · simp at h

theorem eraseFilteredEntries_subset (ds : List Int) (ts ts' : List T)
    (os os' deps deps' : List (List S))
    (h : eraseFilteredEntries ds (ts, os, deps) = .ok (ts', os', deps')) :
    ∀ o ∈ os', o ∈ os := by
  induction ds generalizing ts os deps with
  | nil =>
    simp only [eraseFilteredEntries, Except.ok.injEq, Prod.mk.injEq] at h
    obtain ⟨-, h2, -⟩ := h
    subst h2
    exact fun o ho => ho
  | cons d rest ih =>
    simp only [eraseFilteredEntries] at h
    split at h
    · simp at h
    · split at h
      · simp at h
      · rename_i os₁ hos₁
        split at h
        · split at h
          · simp at h
          · exact fun o ho => vectorErase_subset _ _ _ hos₁ o (ih _ _ _ h o ho)
        · exact fun o ho => vectorErase_subset _ _ _ hos₁ o (ih _ _ _ h o ho)

end EraseSubsetLemmas

section ObservationSetsAtLemmas

variable {T S L : Type} [LinearOrder L]

theorem observationSetsAt_eq_ok (m : SortedObservationSets T S L) (ty : ObservableType)
    (le : L) (sets : List (SingleObservationSet T S L))
    (h : observationSetsAt m ty le = .ok sets) :
    ∃ inner, StdMap.find? m ty = some inner ∧ StdMap.find? inner le = some sets := by
  unfold observationSetsAt StdMap.at at h
  cases h1 : StdMap.find? m ty with
  | none => simp [h1] at h
  | some inner =>
    simp only [h1] at h
    cases h2 : StdMap.find? inner le with
    | none => simp [h2] at h
    | some sets' =>
      simp only [h2, Except.ok.injEq] at h
      subst h
      exact ⟨inner, rfl, h2⟩

theorem observationSetsAt_entriesAt (m : SortedObservationSets T S L) (ty : ObservableType)
    (le : L) (sets : List (SingleObservationSet T S L))
    (h : observationSetsAt m ty le = .ok sets) : StdMap.entriesAt m ty le = sets := by
  obtain ⟨inner, h1, h2⟩ := observationSetsAt_eq_ok m ty le sets h
  simp [StdMap.entriesAt, h1, h2]

end ObservationSetsAtLemmas

section FilterDataResultLemmas

variable {T S L : Type} [LinearOrder T] [LinearOrder L]

/-- A set that `createFilteredObservationSet` returns satisfies the class invariant, has
the link definition of the original set and holds observations of the original set. -/
theorem SingleObservationSet.createFilteredObservationSet_facts
    (s : SingleObservationSet T S L) (indices : List Int) (s' : SingleObservationSet T S L)
    (h : s.createFilteredObservationSet indices = .ok s') :
    s'.Invariant ∧ s'.linkEnds_ = s.linkEnds_ ∧ ∀ o ∈ s'.observations_, o ∈ s.observations_ := by
  unfold SingleObservationSet.createFilteredObservationSet at h
  split at h
  · simp at h
  · rename_i ts os deps hloop
    have hinv := SingleObservationSet.construct_invariant h
    obtain ⟨-, hlen, -, -, hle, -, -, -, -, -, hcase⟩ := SingleObservationSet.construct_ok_inv h
    refine ⟨hinv, hle, ?_⟩
    have hsub := eraseFilteredEntries_subset _ _ _ _ _ _ _ hloop
    rcases hcase with ⟨-, ho, -, -⟩ | ⟨-, -, ho, -⟩
    · rw [ho]
      exact hsub
    · rw [ho]
      intro x hx
      have hx' := ((fillObservationsMap_perm ts os []).map Prod.snd).subset hx
      simp only [List.nil_append] at hx'
      obtain ⟨p, hp, rfl⟩ := List.mem_map.mp hx'
      exact hsub _ (List.of_mem_zip hp).2

/-- The innermost loop of `filterData` appends to the sets under its keys the filtered
sets, one per set, each made with the index list at the position of the set. -/
theorem filterDataSets_entriesAt (ty : ObservableType) (le : L) (lists : List (List Int))
    (sets : List (SingleObservationSet T S L)) (j : Nat)
    (acc acc' : SortedObservationSets T S L)
    (h : filterDataSets ty le lists sets j acc = .ok acc') (hwf : StdMap.NestedWF acc) :
    ∃ res, StdMap.entriesAt acc' ty le = StdMap.entriesAt acc ty le ++ res ∧
      List.Forall₂ (fun s' (p : SingleObservationSet T S L × List Int) =>
        p.1.createFilteredObservationSet p.2 = .ok s') res (List.zip sets (lists.drop j)) := by
  induction sets generalizing j acc with
  | nil =>
    simp only [filterDataSets, Except.ok.injEq] at h
    subst h
    exact ⟨[], by simp, by simp⟩
  | cons set rest ih =>
    simp only [filterDataSets] at h
    split at h
    · simp at h
    · rename_i indices hindices
      split at h
      · simp at h
      · rename_i filtered hfiltered
        obtain ⟨res, h1, h2⟩ := ih _ _ h (StdMap.pushBack_NestedWF _ _ _ _ hwf)
        refine ⟨filtered :: res, ?_, ?_⟩
        · rw [h1, StdMap.entriesAt_pushBack _ _ _ _ hwf, if_pos ⟨rfl, rfl⟩]
          simp
        · rw [drop_of_get? lists j indices (vectorAt_eq_ok _ _ _ hindices), List.zip_cons_cons]
          exact List.Forall₂.cons hfiltered h2

theorem filterDataLinkEnds_append (c : ObservationCollection T S L) (ty : ObservableType)
    (pre rest : List (L × List (List Int))) (acc acc' : SortedObservationSets T S L)
    (h : filterDataLinkEnds c ty (pre ++ rest) acc = .ok acc') :
    ∃ acc₁, filterDataLinkEnds c ty pre acc = .ok acc₁ ∧
      filterDataLinkEnds c ty rest acc₁ = .ok acc' := by
  induction pre generalizing acc with
  | nil => exact ⟨acc, rfl, h⟩
  | cons entry pre' ih =>
    obtain ⟨le, lists⟩ := entry
    simp only [List.cons_append, filterDataLinkEnds] at h ⊢
    split at h
    · simp at h
    · rename_i sets hsets
      split at h
      · simp at h
      · rename_i hlen
        split at h
        · simp at h
        · rename_i acc₂ hacc₂
          rw [if_neg hlen]
          exact ih _ h

theorem filterDataTypes_append (c : ObservationCollection T S L)
    (pre rest : List (ObservableType × List (L × List (List Int))))
    (acc acc' : SortedObservationSets T S L)
    (h : filterDataTypes c (pre ++ rest) acc = .ok acc') :
    ∃ acc₁, filterDataTypes c pre acc = .ok acc₁ ∧ filterDataTypes c rest acc₁ = .ok acc' := by
  induction pre generalizing acc with
  | nil => exact ⟨acc, rfl, h⟩
  | cons entry pre' ih =>
    obtain ⟨ty, list⟩ := entry
    simp only [List.cons_append, filterDataTypes] at h ⊢
    split at h
    · simp at h
    · exact ih _ h

/-- Sets that the middle loop of `filterData` files under link ends that its list names
once. -/
theorem filterDataLinkEnds_entriesAt (c : ObservationCollection T S L) (ty : ObservableType)
    (pre : List (L × List (List Int))) (le : L) (lists : List (List Int))
    (post : List (L × List (List Int))) (acc acc' : SortedObservationSets T S L)
    (h : filterDataLinkEnds c ty (pre ++ (le, lists) :: post) acc = .ok acc')
    (hwf : StdMap.NestedWF acc) (hpre : ∀ e ∈ pre, e.1 ≠ le) (hpost : ∀ e ∈ post, e.1 ≠ le) :
    StdMap.NestedWF acc' ∧
    ∃ sets res, observationSetsAt c.getObservations ty le = .ok sets ∧
      sets.length = lists.length ∧
      StdMap.entriesAt acc' ty le = StdMap.entriesAt acc ty le ++ res ∧
      List.Forall₂ (fun s' (p : SingleObservationSet T S L × List Int) =>
        p.1.createFilteredObservationSet p.2 = .ok s') res (List.zip sets lists) := by
  obtain ⟨acc₁, h1, h2⟩ := filterDataLinkEnds_append c ty pre _ acc acc' h
  obtain ⟨w1, f1⟩ := filterDataLinkEnds_frame c ty pre acc acc₁ h1 hwf
  simp only [filterDataLinkEnds] at h2
  split at h2
  · simp at h2
  · rename_i sets hsets
    split at h2
    · simp at h2
    · rename_i hlen
      split at h2
      · simp at h2
      · rename_i acc₂ hacc₂
        obtain ⟨w2, -⟩ := filterDataSets_frame ty le lists sets 0 acc₁ acc₂ hacc₂ w1
        obtain ⟨res, e1, e2⟩ := filterDataSets_entriesAt ty le lists sets 0 acc₁ acc₂ hacc₂ w1
        obtain ⟨w3, f3⟩ := filterDataLinkEnds_frame c ty post acc₂ acc' h2 w2
        refine ⟨w3, sets, res, hsets, not_not.mp hlen, ?_, by simpa using e2⟩
        rw [f3 ty le (fun _ e he => hpost e he), e1, f1 ty le (fun _ e he => hpre e he)]

/-- Sets that the outer loop of `filterData` files under an observable type that the plan
names once and link ends that the list of the type names once. -/
theorem filterDataTypes_entriesAt (c : ObservationCollection T S L)
    (preP : List (ObservableType × List (L × List (List Int)))) (ty : ObservableType)
    (postP : List (ObservableType × List (L × List (List Int))))
    (pre : List (L × List (List Int))) (le : L) (lists : List (List Int))
    (post : List (L × List (List Int))) (acc acc' : SortedObservationSets T S L)
    (h : filterDataTypes c (preP ++ (ty, pre ++ (le, lists) :: post) :: postP) acc = .ok acc')
    (hwf : StdMap.NestedWF acc) (hpreP : ∀ e ∈ preP, e.1 ≠ ty) (hpostP : ∀ e ∈ postP, e.1 ≠ ty)
    (hpre : ∀ e ∈ pre, e.1 ≠ le) (hpost : ∀ e ∈ post, e.1 ≠ le) :
    ∃ sets res, observationSetsAt c.getObservations ty le = .ok sets ∧
      sets.length = lists.length ∧
      StdMap.entriesAt acc' ty le = StdMap.entriesAt acc ty le ++ res ∧
      List.Forall₂ (fun s' (p : SingleObservationSet T S L × List Int) =>
        p.1.createFilteredObservationSet p.2 = .ok s') res (List.zip sets lists) := by
  obtain ⟨acc₁, h1, h2⟩ := filterDataTypes_append c preP _ acc acc' h
  obtain ⟨w1, f1⟩ := filterDataTypes_frame c preP acc acc₁ h1 hwf
  simp only [filterDataTypes] at h2
  split at h2
  · simp at h2
  · rename_i acc₂ hacc₂
    obtain ⟨w2, sets, res, e1, e2, e3, e4⟩ :=
      filterDataLinkEnds_entriesAt c ty pre le lists post acc₁ acc₂ hacc₂ w1 hpre hpost
    obtain ⟨-, f3⟩ := filterDataTypes_frame c postP acc₂ acc' h2 w2
    refine ⟨sets, res, e1, e2, ?_, e4⟩
    rw [f3 ty le (fun e he hety => absurd hety (hpostP e he)), e3,
      f1 ty le (fun e he hety => absurd hety (hpreP e he))]

end FilterDataResultLemmas

section FilterDataOutcomeLemmas

variable {T S L : Type} [LinearOrder T] [LinearOrder L]

theorem forall₂_get? {α β : Type} {R : α → β → Prop} {l : List α} {l' : List β}
    (h : List.Forall₂ R l l') (j : Nat) (b : β) (hb : l'.get? j = some b) :
    ∃ a, l.get? j = some a ∧ R a b := by
  induction h generalizing j with
  | nil => simp at hb
  | @cons a b' l₁ l₂ hab _ ih =>
    cases j with
    | zero =>
      simp only [List.get?_cons_zero, Option.some.injEq] at hb
      subst hb
      exact ⟨a, rfl, hab⟩
    | succ j => exact ih j (by simpa using hb)

theorem get?_zip {α β : Type} (l : List α) (l' : List β) (j : Nat) (a : α) (b : β)
    (ha : l.get? j = some a) (hb : l'.get? j = some b) :
    (List.zip l l').get? j = some (a, b) := by
  induction l generalizing l' j with
  | nil => simp at ha
  | cons x rest ih =>
    cases l' with
    | nil => simp at hb
    | cons y rest' =>
      cases j with
      | zero =>
        simp only [List.get?_cons_zero, Option.some.injEq] at ha hb
        subst ha
        subst hb
        rfl
      | succ j =>
        simp only [List.get?_cons_succ] at ha hb
        simpa using ih rest' j ha hb

theorem filterDataSets_ok (ty : ObservableType) (le : L) (lists : List (List Int))
    (sets : List (SingleObservationSet T S L)) (j : Nat) (acc : SortedObservationSets T S L)
    (h : ∀ r set, sets.get? r = some set → ∃ indices s', lists.get? (j + r) = some indices ∧
      set.createFilteredObservationSet indices = .ok s') :
    ∃ acc', filterDataSets ty le lists sets j acc = .ok acc' := by
  induction sets generalizing j acc with
  | nil => exact ⟨acc, rfl⟩
  | cons set rest ih =>
    obtain ⟨indices, s', h1, h2⟩ := h 0 set rfl
    rw [Nat.add_zero] at h1
    simp only [filterDataSets, vectorAt_of_get? _ _ _ h1, h2]
    exact ih (j + 1) _ (fun r set' hr => by
      have := h (r + 1) set' (by simpa using hr)
      rw [Nat.add_assoc j 1 r, Nat.add_comm 1 r]
      exact this)

theorem filterDataLinkEnds_ok (c : ObservationCollection T S L) (ty : ObservableType)
    (list : List (L × List (List Int))) (acc : SortedObservationSets T S L)
    (h : ∀ e ∈ list, ∃ sets, observationSetsAt c.getObservations ty e.1 = .ok sets ∧
      sets.length = e.2.length ∧
      ∀ j set indices, sets.get? j = some set → e.2.get? j = some indices →
        ∃ s', set.createFilteredObservationSet indices = .ok s') :
    ∃ acc', filterDataLinkEnds c ty list acc = .ok acc' := by
  induction list generalizing acc with
  | nil => exact ⟨acc, rfl⟩
  | cons entry rest ih =>
    obtain ⟨le, lists⟩ := entry
    obtain ⟨sets, h1, h2, h3⟩ := h (le, lists) (List.mem_cons_self _ _)
    obtain ⟨acc₁, hacc₁⟩ := filterDataSets_ok ty le lists sets 0 acc (fun r set hr => by
      have hlt : r < lists.length := by
        rw [← h2]
        exact (List.get?_eq_some.mp hr).1
      obtain ⟨s', hs'⟩ := h3 r set (lists.get ⟨r, hlt⟩) hr (List.get?_eq_get hlt)
      exact ⟨lists.get ⟨r, hlt⟩, s', by rw [Nat.zero_add]; exact List.get?_eq_get hlt, hs'⟩)
    simp only [filterDataLinkEnds, h1]
    rw [if_neg (not_not.mpr h2)]
    simp only [hacc₁]
    exact ih _ (fun e he => h e (List.mem_cons_of_mem _ he))

theorem filterDataTypes_ok (c : ObservationCollection T S L)
    (plan : List (ObservableType × List (L × List (List Int))))
    (acc : SortedObservationSets T S L)
    (h : ∀ entry ∈ plan, ∀ e ∈ entry.2,
      ∃ sets, observationSetsAt c.getObservations entry.1 e.1 = .ok sets ∧
      sets.length = e.2.length ∧
      ∀ j set indices, sets.get? j = some set → e.2.get? j = some indices →
        ∃ s', set.createFilteredObservationSet indices = .ok s') :
    ∃ acc', filterDataTypes c plan acc = .ok acc' := by
  induction plan generalizing acc with
  | nil => exact ⟨acc, rfl⟩
  | cons entry rest ih =>
    obtain ⟨ty, list⟩ := entry
    obtain ⟨acc₁, hacc₁⟩ := filterDataLinkEnds_ok c ty list acc
      (h (ty, list) (List.mem_cons_self _ _))
    simp only [filterDataTypes, hacc₁]
    exact ih _ (fun entry hentry => h entry (List.mem_cons_of_mem _ hentry))

/-- Function `filterData` on a constructed collection returns a collection when every pair of the plan fits the collection and
`createFilteredObservationSet` returns a set for every set and index list they pair. -/
theorem filterData_ok [Inhabited L] [Inhabited T] [Zero S]
    (getObservableSize : ObservableType → Nat) (m : SortedObservationSets T S L)
    (c : ObservationCollection T S L)
    (hc : ObservationCollection.construct getObservableSize m = .ok c)
    (plan : List (ObservableType × List (L × List (List Int))))
    (h : ∀ entry ∈ plan, ∀ e ∈ entry.2,
      ∃ sets, observationSetsAt c.getObservations entry.1 e.1 = .ok sets ∧
      sets.length = e.2.length ∧
      ∀ j set indices, sets.get? j = some set → e.2.get? j = some indices →
        ∃ s', set.createFilteredObservationSet indices = .ok s') :
    ∃ filtered r, filterDataTypes c plan [] = .ok filtered ∧ StdMap.NestedWF filtered ∧
      ObservationCollection.construct getObservableSize filtered = .ok r ∧
      filterData getObservableSize c plan = .ok r := by
  have hlist := ObservationCollection.construct_observationSetList getObservableSize m c hc
  have hsizes := ObservationCollection.construct_observationSizes getObservableSize m c hc
  obtain ⟨filtered, hfiltered⟩ := filterDataTypes_ok c plan [] h
  obtain ⟨hwfF, -⟩ := filterDataTypes_frame c plan [] filtered hfiltered StdMap.NestedWF_nil
  have hfacts := filterDataTypes_forall
    (fun ty le (s' : SingleObservationSet T S L) => s'.Invariant ∧
      (∀ o ∈ s'.observations_, o.length = getObservableSize ty) ∧
      s'.linkEnds_ = firstLinkDefinition (StdMap.entriesAt m ty le))
    c plan [] filtered hfiltered (by simp)
    (by
      intro ty le sets hsets set hset indices s' hs'
      rw [ObservationCollection.getObservations, hlist] at hsets
      obtain ⟨inner, f1, f2⟩ := observationSetsAt_eq_ok m ty le sets hsets
      have hp := StdMap.mem_of_find? m ty inner f1
      have hq := StdMap.mem_of_find? inner le sets f2
      obtain ⟨g1, g2, g3⟩ :=
        SingleObservationSet.createFilteredObservationSet_facts set indices s' hs'
      obtain ⟨k1, k2⟩ := hsizes (ty, inner) hp (le, sets) hq set hset
      refine ⟨g1, fun o ho => k2 o (g3 o ho), ?_⟩
      rw [g2, observationSetsAt_entriesAt m ty le sets hsets]
      exact k1)
  obtain ⟨r, hr⟩ := ObservationCollection.construct_ok getObservableSize filtered hwfF
    (fun p hp q hq set hset =>
      ⟨(hfacts p hp q hq set hset).1.numberOfObservations,
        (hfacts p hp q hq set hset).1.timesLength⟩)
    (fun p hp q hq set hset => (hfacts p hp q hq set hset).2.1)
    (by
      intro p hp q hq set hset
      obtain ⟨le, sets⟩ := q
      cases sets with
      | nil => simp at hset
      | cons first rest =>
        rw [(hfacts p hp _ hq set hset).2.2]
        exact ((hfacts p hp _ hq first (List.mem_cons_self _ _)).2.2).symm)
  refine ⟨filtered, r, hfiltered, hwfF, hr, ?_⟩
  simp only [filterData, hfiltered, hr]

end FilterDataOutcomeLemmas

section FilterDataContractClaims

variable {T S L : Type} [LinearOrder T] [LinearOrder L]

end FilterDataContractClaims

section TypeTableLemmas

variable {T S L : Type} [LinearOrder L]

theorem StdMap.find?_eq_none_of_ne {K V : Type} [LinearOrder K] (m : StdMap K V) (k : K)
    (h : ∀ x ∈ m, x.1 ≠ k) : StdMap.find? m k = none := by
  induction m with
  | nil => rfl
  | cons p rest ih =>
    obtain ⟨k', v⟩ := p
    unfold StdMap.find?
    rw [if_neg (h (k', v) (List.mem_cons_self _ _))]
    exact ih (fun x hx => h x (List.mem_cons_of_mem _ hx))

theorem sum_flatMap_eq {α : Type} (l : List α) (f : α → List Nat) :
    (l.flatMap f).sum = (l.map (fun x => (f x).sum)).sum := by
  induction l with
  | nil => rfl
  | cons a rest ih => simp [List.sum_append, ih]

theorem setObservationSetIndicesSets_typeTables (size : Nat) (ty : ObservableType) (le : L)
    (sets : List (SingleObservationSet T S L)) (c : ObservationCollection T S L)
    (start typeSize linkEndSize : Nat) :
    (setObservationSetIndicesSets size ty le sets
      (c, start, typeSize, linkEndSize)).1.observationTypeStartAndSize_ =
      c.observationTypeStartAndSize_ ∧
    (setObservationSetIndicesSets size ty le sets
      (c, start, typeSize, linkEndSize)).1.observationTypeAndLinkEndStartAndSize_ =
      c.observationTypeAndLinkEndStartAndSize_ ∧
    (setObservationSetIndicesSets size ty le sets (c, start, typeSize, linkEndSize)).2.1 =
      start + (setLengths size sets).sum ∧
    (setObservationSetIndicesSets size ty le sets (c, start, typeSize, linkEndSize)).2.2.1 =
      typeSize + (setLengths size sets).sum ∧
    (setObservationSetIndicesSets size ty le sets (c, start, typeSize, linkEndSize)).2.2.2 =
      linkEndSize + (setLengths size sets).sum := by
  induction sets generalizing c start typeSize linkEndSize with
  | nil => simp [setObservationSetIndicesSets, setLengths]
  | cons set rest ih =>
    simp only [setObservationSetIndicesSets]
    refine ⟨(ih _ _ _ _).1, (ih _ _ _ _).2.1, ?_, ?_, ?_⟩
    · rw [(ih _ _ _ _).2.2.1]
      simp only [setLengths, List.map_cons, List.sum_cons]
      omega
    · rw [(ih _ _ _ _).2.2.2.1]
      simp only [setLengths, List.map_cons, List.sum_cons]
      omega
    · rw [(ih _ _ _ _).2.2.2.2]
      simp only [setLengths, List.map_cons, List.sum_cons]
      omega

/-- Effect of the middle loop of `setObservationSetIndices` on the two tables per
observable type: the entries of the link ends, in their order, are consecutive ranges
from the start index on, appended to the entries of the observable type. -/
theorem setObservationSetIndicesLinkEnds_typeTables (size : Nat) (ty : ObservableType)
    (list : List (L × List (SingleObservationSet T S L)))
    (c : ObservationCollection T S L) (start typeSize : Nat)
    (hsorted : StdMap.WF list)
    (hwf : StdMap.WF c.observationTypeAndLinkEndStartAndSize_)
    (hkeys : ∀ x ∈ (StdMap.find? c.observationTypeAndLinkEndStartAndSize_ ty).getD [],
      ∀ e ∈ list, x.1 < e.1) :
    (setObservationSetIndicesLinkEnds size ty list
      (c, start, typeSize)).1.observationTypeStartAndSize_ = c.observationTypeStartAndSize_ ∧
    StdMap.WF (setObservationSetIndicesLinkEnds size ty list
      (c, start, typeSize)).1.observationTypeAndLinkEndStartAndSize_ ∧
    (∀ ty', ty' ≠ ty →
      StdMap.find? (setObservationSetIndicesLinkEnds size ty list
        (c, start, typeSize)).1.observationTypeAndLinkEndStartAndSize_ ty' =
      StdMap.find? c.observationTypeAndLinkEndStartAndSize_ ty') ∧
    (∀ x ∈ (setObservationSetIndicesLinkEnds size ty list
        (c, start, typeSize)).1.observationTypeAndLinkEndStartAndSize_,
      x.1 = ty ∨ x.1 ∈ c.observationTypeAndLinkEndStartAndSize_.map Prod.fst) ∧
    (StdMap.find? (setObservationSetIndicesLinkEnds size ty list
        (c, start, typeSize)).1.observationTypeAndLinkEndStartAndSize_ ty).getD [] =
      (StdMap.find? c.observationTypeAndLinkEndStartAndSize_ ty).getD [] ++
        List.zipWith (fun q e => (q.1, e)) list
          (startAndSizeFrom start (list.map (fun q => (setLengths size q.2).sum))) ∧
    (setObservationSetIndicesLinkEnds size ty list (c, start, typeSize)).2.1 =
      start + (linkEndLengths size list).sum ∧
    (setObservationSetIndicesLinkEnds size ty list (c, start, typeSize)).2.2 =
      typeSize + (linkEndLengths size list).sum := by
  induction list generalizing c start typeSize with
  | nil =>
    refine ⟨rfl, hwf, fun _ _ => rfl, fun x hx => Or.inr (List.mem_map_of_mem _ hx),
      ?_, ?_, ?_⟩
    · simp [setObservationSetIndicesLinkEnds, startAndSizeFrom]
    · simp [setObservationSetIndicesLinkEnds, linkEndLengths]
    · simp [setObservationSetIndicesLinkEnds, linkEndLengths]
  | cons entry rest ih =>
    obtain ⟨le, sets⟩ := entry
    obtain ⟨s1, s2, s3, s4, s5⟩ :=
      setObservationSetIndicesSets_typeTables size ty le sets c start typeSize 0
    have hs := List.sorted_cons.mp hsorted
    simp only [setObservationSetIndicesLinkEnds]
    generalize hafter : setObservationSetIndicesSets size ty le sets
      (c, start, typeSize, 0) = after at s1 s2 s3 s4 s5
    have hinner : StdMap.assign le (start, after.2.2.2)
        ((StdMap.find? c.observationTypeAndLinkEndStartAndSize_ ty).getD []) =
        (StdMap.find? c.observationTypeAndLinkEndStartAndSize_ ty).getD [] ++
          [(le, (start, (setLengths size sets).sum))] := by
      rw [StdMap.assign_append _ _ _
        (fun x hx => hkeys x hx (le, sets) (List.mem_cons_self _ _)), s5, Nat.zero_add]
    have hfind : StdMap.find? (StdMap.modify []
        (StdMap.assign le (start, after.2.2.2)) ty
        after.1.observationTypeAndLinkEndStartAndSize_) ty =
        some ((StdMap.find? c.observationTypeAndLinkEndStartAndSize_ ty).getD [] ++
          [(le, (start, (setLengths size sets).sum))]) := by
      rw [s2, StdMap.find?_modify_self _ _ _ _ hwf, hinner]
    obtain ⟨h1, h2, h3, h4, h5, h6, h7⟩ := ih
      { after.1 with
        observationTypeAndLinkEndStartAndSize_ :=
          StdMap.modify [] (StdMap.assign le (start, after.2.2.2)) ty
            after.1.observationTypeAndLinkEndStartAndSize_ }
      after.2.1 after.2.2.1 hs.2
      (by
        show StdMap.WF (StdMap.modify _ _ _ _)
        rw [s2]
        exact StdMap.modify_WF _ _ _ _ hwf)
      (by
        intro x hx e he
        have hx' : x ∈ (StdMap.find? c.observationTypeAndLinkEndStartAndSize_ ty).getD [] ++
            [(le, (start, (setLengths size sets).sum))] := by
          have := hfind
          simp only [] at hx
          rw [this] at hx
          exact hx
        rcases List.mem_append.mp hx' with hx' | hx'
        · exact hkeys x hx' e (List.mem_cons_of_mem _ he)
        · simp only [List.mem_singleton] at hx'
          rw [hx']
          exact hs.1 e.1 (List.mem_map_of_mem _ he))
    refine ⟨h1.trans s1, h2, ?_, ?_, ?_, ?_, ?_⟩
    · intro ty' hne
      rw [h3 ty' hne]
      show StdMap.find? (StdMap.modify _ _ _ _) ty' = _
      rw [StdMap.find?_modify_ne _ _ _ _ _ hne, s2]
    · intro x hx
      rcases h4 x hx with h | h
      · exact Or.inl h
      · have h' : x.1 ∈ (StdMap.modify [] (StdMap.assign le (start, after.2.2.2)) ty
            after.1.observationTypeAndLinkEndStartAndSize_).map Prod.fst := h
        rw [StdMap.keys_modify, s2] at h'
        exact h'
    · rw [h5]
      have := hfind
      simp only [] at this ⊢
      rw [this, s3]
      simp only [Option.getD_some, List.map_cons, startAndSizeFrom, List.zipWith_cons_cons,
        List.append_assoc, List.singleton_append]
    · rw [h6, s3]
      simp only [linkEndLengths, List.flatMap_cons, List.sum_append]
      omega
    · rw [h7, s4]
      simp only [linkEndLengths, List.flatMap_cons, List.sum_append]
      omega

end TypeTableLemmas

section TypeTableLoop

variable {T S L : Type} [LinearOrder L]

theorem find?_zipWith_keys {K A B : Type} [LinearOrder K] (pre post : List (K × A))
    (q : K × A) (es : List B) (h : StdMap.WF (pre ++ q :: post)) :
    StdMap.find? (List.zipWith (fun (x : K × A) (e : B) => (x.1, e)) (pre ++ q :: post) es)
      q.1 = es.get? pre.length := by
  induction pre generalizing es with
  | nil =>
    cases es with
    | nil => simp [StdMap.find?]
    | cons e es => simp [StdMap.find?]
  | cons x pre ih =>
    cases es with
    | nil => simp [StdMap.find?]
    | cons e es =>
      have hs := List.sorted_cons.mp h
      have hlt : x.1 < q.1 := hs.1 q.1 (by simp)
      simp only [List.cons_append, List.zipWith_cons_cons, StdMap.find?, ne_of_lt hlt,
        if_false, List.length_cons, List.get?_cons_succ]
      exact ih es hs.2

theorem zipWith_startAndSizeFrom_pairwise {α κ : Type} (key : α → κ) (l : List α)
    (lengths : List Nat) (start : Nat) :
    (List.zipWith (fun p e => (key p, e)) l (startAndSizeFrom start lengths)).Pairwise
      (fun x y => x.2.1 + x.2.2 ≤ y.2.1) ∧
    ∀ x ∈ List.zipWith (fun p e => (key p, e)) l (startAndSizeFrom start lengths),
      start ≤ x.2.1 := by
  induction l generalizing lengths start with
  | nil => simp
  | cons a rest ih =>
    cases lengths with
    | nil => simp [startAndSizeFrom]
    | cons n lengths =>
      obtain ⟨h1, h2⟩ := ih lengths (start + n)
      simp only [startAndSizeFrom, List.zipWith_cons_cons, List.pairwise_cons, List.mem_cons,
        forall_eq_or_imp, Nat.le_refl, true_and]
      exact ⟨⟨h2, h1⟩, fun x hx => Nat.le_trans (Nat.le_add_right _ _) (h2 x hx)⟩

theorem zipWith_startAndSizeFrom_consecutive {α κ : Type} (key : α → κ) (l : List α)
    (lengths : List Nat) (start : Nat) (k : Nat) (x y : κ × Nat × Nat)
    (hx : (List.zipWith (fun p e => (key p, e)) l (startAndSizeFrom start lengths)).get? k =
      some x)
    (hy : (List.zipWith (fun p e => (key p, e)) l
      (startAndSizeFrom start lengths)).get? (k + 1) = some y) :
    y.2.1 = x.2.1 + x.2.2 := by
  induction l generalizing lengths start k with
  | nil => simp at hx
  | cons a rest ih =>
    cases lengths with
    | nil => simp [startAndSizeFrom] at hx
    | cons n lengths =>
      cases k with
      | zero =>
        cases rest with
        | nil => simp [startAndSizeFrom] at hy
        | cons b rest =>
          cases lengths with
          | nil => simp [startAndSizeFrom] at hy
          | cons n' lengths =>
            simp only [startAndSizeFrom, List.zipWith_cons_cons, List.get?_cons_zero,
              List.get?_cons_succ, Option.some.injEq] at hx hy
            rw [← hx, ← hy]
      | succ k =>
        simp only [startAndSizeFrom, List.zipWith_cons_cons, List.get?_cons_succ] at hx hy
        exact ih lengths (start + n) k hx hy

/-- Effect of the outer loop of `setObservationSetIndices` on the two tables per
observable type. -/
theorem setObservationSetIndicesTypes_typeTables (gos : ObservableType → Nat)
    (m : SortedObservationSets T S L) (c : ObservationCollection T S L) (start : Nat)
    (hwfm : StdMap.NestedWF m)
    (hwf : StdMap.WF c.observationTypeAndLinkEndStartAndSize_)
    (hkeysLE : ∀ x ∈ c.observationTypeAndLinkEndStartAndSize_, ∀ p ∈ m, x.1 < p.1)
    (hkeysT : ∀ x ∈ c.observationTypeStartAndSize_, ∀ p ∈ m, x.1 < p.1) :
    (setObservationSetIndicesTypes gos m (c, start)).1.observationTypeStartAndSize_ =
      c.observationTypeStartAndSize_ ++
        List.zipWith (fun p e => (p.1, e)) m
          (startAndSizeFrom start (m.map (fun p => (linkEndLengths (gos p.1) p.2).sum))) ∧
    StdMap.WF
      (setObservationSetIndicesTypes gos m (c, start)).1.observationTypeAndLinkEndStartAndSize_ ∧
    (∀ x ∈ (setObservationSetIndicesTypes gos m
        (c, start)).1.observationTypeAndLinkEndStartAndSize_,
      x.1 ∈ m.map Prod.fst ∨ x.1 ∈ c.observationTypeAndLinkEndStartAndSize_.map Prod.fst) ∧
    (∀ ty', (∀ p ∈ m, p.1 ≠ ty') →
      StdMap.find? (setObservationSetIndicesTypes gos m
        (c, start)).1.observationTypeAndLinkEndStartAndSize_ ty' =
      StdMap.find? c.observationTypeAndLinkEndStartAndSize_ ty') ∧
    (∀ preM p postM, m = preM ++ p :: postM →
      (StdMap.find? (setObservationSetIndicesTypes gos m
        (c, start)).1.observationTypeAndLinkEndStartAndSize_ p.1).getD [] =
      List.zipWith (fun q e => (q.1, e)) p.2
        (startAndSizeFrom (start + (typeLengths gos preM).sum)
          (p.2.map (fun q => (setLengths (gos p.1) q.2).sum)))) ∧
    (setObservationSetIndicesTypes gos m (c, start)).2 =
      start + (typeLengths gos m).sum := by
  induction m generalizing c start with
  | nil =>
    refine ⟨by simp [setObservationSetIndicesTypes, startAndSizeFrom], hwf,
      fun x hx => Or.inr (List.mem_map_of_mem _ hx), fun _ _ => rfl, ?_, ?_⟩
    · intro preM p postM hm
      simp at hm
    · simp [setObservationSetIndicesTypes, typeLengths]
  | cons entry rest ih =>
    obtain ⟨ty, list⟩ := entry
    have hs := List.sorted_cons.mp hwfm.1
    have hnone : StdMap.find? c.observationTypeAndLinkEndStartAndSize_ ty = none :=
      StdMap.find?_eq_none_of_ne _ _
        (fun x hx => ne_of_lt (hkeysLE x hx (ty, list) (List.mem_cons_self _ _)))
    obtain ⟨l1, l2, l3, l4, l5, l6, l7⟩ :=
      setObservationSetIndicesLinkEnds_typeTables (gos ty) ty list c start 0
        (hwfm.2 (ty, list) (List.mem_cons_self _ _)) hwf
        (by rw [hnone]; intro x hx; simp at hx)
    simp only [setObservationSetIndicesTypes]
    generalize hafter : setObservationSetIndicesLinkEnds (gos ty) ty list (c, start, 0) =
      after at l1 l2 l3 l4 l5 l6 l7
    have hassign : StdMap.assign ty (start, after.2.2) after.1.observationTypeStartAndSize_ =
        c.observationTypeStartAndSize_ ++ [(ty, (start, (linkEndLengths (gos ty) list).sum))] := by
      rw [l1, StdMap.assign_append _ _ _
        (fun x hx => hkeysT x hx (ty, list) (List.mem_cons_self _ _)), l7, Nat.zero_add]
    have hrestlt : ∀ p ∈ rest, ty < p.1 := fun p hp => hs.1 p.1 (List.mem_map_of_mem _ hp)
    obtain ⟨h1, h2, h3, h4, h5, h6⟩ := ih
      { after.1 with
        observationTypeStartAndSize_ :=
          StdMap.assign ty (start, after.2.2) after.1.observationTypeStartAndSize_ }
      after.2.1 ⟨hs.2, fun p hp => hwfm.2 p (List.mem_cons_of_mem _ hp)⟩ l2
      (by
        intro x hx p hp
        rcases l4 x hx with h | h
        · rw [h]; exact hrestlt p hp
        · obtain ⟨y, hy, hyx⟩ := List.mem_map.mp h
          rw [← hyx]
          exact hkeysLE y hy p (List.mem_cons_of_mem _ hp))
      (by
        intro x hx p hp
        have hx' : x ∈ c.observationTypeStartAndSize_ ++
            [(ty, (start, (linkEndLengths (gos ty) list).sum))] := by
          rw [← hassign]; exact hx
        rcases List.mem_append.mp hx' with hx' | hx'
        · exact hkeysT x hx' p (List.mem_cons_of_mem _ hp)
        · simp only [List.mem_singleton] at hx'
          rw [hx']
          exact hrestlt p hp)
    refine ⟨?_, h2, ?_, ?_, ?_, ?_⟩
    · rw [h1]
      simp only [hassign, l6, List.map_cons, startAndSizeFrom, List.zipWith_cons_cons,
        List.append_assoc, List.singleton_append]
    · intro x hx
      rcases h3 x hx with h | h
      · exact Or.inl (by simp only [List.map_cons, List.mem_cons]; exact Or.inr h)
      · obtain ⟨y, hy, hyx⟩ := List.mem_map.mp h
        rcases l4 y hy with h' | h'
        · exact Or.inl (by simp only [List.map_cons, List.mem_cons]; exact Or.inl (hyx ▸ h'))
        · exact Or.inr (hyx ▸ h')
    · intro ty' hne
      rw [h4 ty' (fun p hp => hne p (List.mem_cons_of_mem _ hp))]
      exact l3 ty' (fun heq => hne (ty, list) (List.mem_cons_self _ _) heq.symm)
    · intro preM p postM hm
      cases preM with
      | nil =>
        simp only [List.nil_append, List.cons.injEq] at hm
        obtain ⟨hp, hpost⟩ := hm
        subst hp
        rw [h4 ty (fun p hp => ne_of_gt (hrestlt p hp))]
        show (StdMap.find? after.1.observationTypeAndLinkEndStartAndSize_ ty).getD [] = _
        rw [l5, hnone]
        simp [typeLengths]
      | cons p0 preM =>
        simp only [List.cons_append, List.cons.injEq] at hm
        obtain ⟨hp0, hrest⟩ := hm
        subst hp0
        rw [h5 preM p postM hrest, l6]
        simp only [typeLengths, List.flatMap_cons, List.sum_append, Nat.add_assoc]
    · rw [h6, l6]
      simp only [typeLengths, List.flatMap_cons, List.sum_append, Nat.add_assoc]

end TypeTableLoop

section TypeTableClaims

variable {T S L : Type} [LinearOrder L]

theorem startAndSizeFrom_get?_middle {α : Type} (start : Nat) (f : α → Nat) (pre post : List α)
    (q : α) :
    (startAndSizeFrom start ((pre ++ q :: post).map f)).get? pre.length =
      some (start + (pre.map f).sum, f q) := by
  induction pre generalizing start with
  | nil => simp [startAndSizeFrom]
  | cons x pre ih =>
    have h := ih (start + f x)
    rw [Nat.add_assoc] at h
    simp only [List.cons_append, List.map_cons, startAndSizeFrom, List.length_cons,
      List.get?_cons_succ, List.sum_cons]
    exact h

/-- C27: on a collection constructed from a well formed nested mapping,
`getObservationTypeStartAndSize( )` holds one range per observable type, in the order of
the mapping: the ranges are consecutive from index 0 on, the size of each is the sum of
the lengths of all sets of the type, and the sizes sum to `getTotalObservableSize( )`;
no range overlaps a later one and each range starts where the one before it ends. Under
every observable type, `getObservationTypeAndLinkEndStartAndSize( )` holds one range per
link ends, in the order of the mapping: consecutive ranges from the start of the type's
range on, the size of each the sum of the lengths of the sets of the link ends, and the
sizes sum to the size of the type's range. The start of the range of the link ends is
the start of their first set in `getObservationSetStartAndSize( )`: the set `r` of the
link ends starts after the range's start by the lengths of the sets `0 .. r - 1`. -/
theorem ObservationCollection.type_ranges_spec [Inhabited L] [Inhabited T] [Zero S]
    (getObservableSize : ObservableType → Nat) (m : SortedObservationSets T S L)
    (c : ObservationCollection T S L) (hwf : StdMap.NestedWF m)
    (h : ObservationCollection.construct getObservableSize m = .ok c) :
    c.getObservationTypeStartAndSize =
      List.zipWith (fun p e => (p.1, e)) m
        (startAndSizeFrom 0
          (m.map (fun p => (linkEndLengths (getObservableSize p.1) p.2).sum))) ∧
    (m.map (fun p => (linkEndLengths (getObservableSize p.1) p.2).sum)).sum =
      c.getTotalObservableSize ∧
    c.getObservationTypeStartAndSize.Pairwise (fun x y => x.2.1 + x.2.2 ≤ y.2.1) ∧
    (∀ k x y, c.getObservationTypeStartAndSize.get? k = some x →
      c.getObservationTypeStartAndSize.get? (k + 1) = some y → y.2.1 = x.2.1 + x.2.2) ∧
    ∀ preM p postM, m = preM ++ p :: postM →
      StdMap.find? c.getObservationTypeStartAndSize p.1 =
        some ((typeLengths getObservableSize preM).sum,
          (linkEndLengths (getObservableSize p.1) p.2).sum) ∧
      (StdMap.find? c.getObservationTypeAndLinkEndStartAndSize p.1).getD [] =
        List.zipWith (fun q e => (q.1, e)) p.2
          (startAndSizeFrom (typeLengths getObservableSize preM).sum
            (p.2.map (fun q => (setLengths (getObservableSize p.1) q.2).sum))) ∧
      (p.2.map (fun q => (setLengths (getObservableSize p.1) q.2).sum)).sum =
        (linkEndLengths (getObservableSize p.1) p.2).sum ∧
      ((StdMap.find? c.getObservationTypeAndLinkEndStartAndSize p.1).getD []).Pairwise
        (fun x y => x.2.1 + x.2.2 ≤ y.2.1) ∧
      (∀ k x y,
        ((StdMap.find? c.getObservationTypeAndLinkEndStartAndSize p.1).getD []).get? k =
          some x →
        ((StdMap.find? c.getObservationTypeAndLinkEndStartAndSize p.1).getD []).get? (k + 1) =
          some y → y.2.1 = x.2.1 + x.2.2) ∧
      ∀ pre q post, p.2 = pre ++ q :: post →
        StdMap.find? ((StdMap.find? c.getObservationTypeAndLinkEndStartAndSize p.1).getD [])
            q.1 =
          some ((typeLengths getObservableSize preM).sum +
              (linkEndLengths (getObservableSize p.1) pre).sum,
            (setLengths (getObservableSize p.1) q.2).sum) ∧
        ∀ r set, q.2.get? r = some set →
          startAndSizeAt c.getObservationSetStartAndSize p.1 q.1 r =
            .ok ((typeLengths getObservableSize preM).sum +
                (linkEndLengths (getObservableSize p.1) pre).sum +
                (setLengths (getObservableSize p.1) (q.2.take r)).sum,
              set.getNumberOfObservables * getObservableSize p.1) := by
  have hframe := ObservationCollection.construct_indexMembers getObservableSize m c h
  have htype : c.observationTypeStartAndSize_ =
      (ObservationCollection.setObservationSetIndices getObservableSize
        (ObservationCollection.initial m)).observationTypeStartAndSize_ :=
    congrArg (fun t => t.2.2.2.2.1) hframe
  have hle : c.observationTypeAndLinkEndStartAndSize_ =
      (ObservationCollection.setObservationSetIndices getObservableSize
        (ObservationCollection.initial m)).observationTypeAndLinkEndStartAndSize_ :=
    congrArg (fun t => t.2.2.2.1) hframe
  have htable := ObservationCollection.construct_startAndSize getObservableSize m c h
  have htotal := ObservationCollection.construct_totalObservableSize getObservableSize m c h
  obtain ⟨t1, -, -, -, t5, -⟩ := setObservationSetIndicesTypes_typeTables getObservableSize m
    ({ ObservationCollection.initial m with
        totalNumberOfObservables_ := 0, totalObservableSize_ := 0 }) 0 hwf
    (by simp [ObservationCollection.initial, StdMap.WF])
    (by intro x hx; simp [ObservationCollection.initial] at hx)
    (by intro x hx; simp [ObservationCollection.initial] at hx)
  have hclosed : c.getObservationTypeStartAndSize =
      List.zipWith (fun p e => (p.1, e)) m
        (startAndSizeFrom 0
          (m.map (fun p => (linkEndLengths (getObservableSize p.1) p.2).sum))) := by
    unfold ObservationCollection.getObservationTypeStartAndSize
    rw [htype]
    unfold ObservationCollection.setObservationSetIndices
    simp only [ObservationCollection.initial] at t1 ⊢
    rw [t1]
    simp
  have hinner : ∀ preM p postM, m = preM ++ p :: postM →
      (StdMap.find? c.getObservationTypeAndLinkEndStartAndSize p.1).getD [] =
        List.zipWith (fun q e => (q.1, e)) p.2
          (startAndSizeFrom (typeLengths getObservableSize preM).sum
            (p.2.map (fun q => (setLengths (getObservableSize p.1) q.2).sum))) := by
    intro preM p postM hm
    unfold ObservationCollection.getObservationTypeAndLinkEndStartAndSize
    rw [hle]
    unfold ObservationCollection.setObservationSetIndices
    have := t5 preM p postM hm
    simp only [ObservationCollection.initial, Nat.zero_add] at this ⊢
    exact this
  refine ⟨hclosed, ?_, ?_, ?_, ?_⟩
  · unfold ObservationCollection.getTotalObservableSize
    rw [htotal, typeLengths, sum_flatMap_eq]
  · rw [hclosed]
    exact (zipWith_startAndSizeFrom_pairwise _ _ _ _).1
  · intro k x y hx hy
    rw [hclosed] at hx hy
    exact zipWith_startAndSizeFrom_consecutive _ _ _ _ k x y hx hy
  · intro preM p postM hm
    have hin := hinner preM p postM hm
    refine ⟨?_, hin, ?_, ?_, ?_, ?_⟩
    · rw [hclosed, hm, find?_zipWith_keys preM postM p _ (by rw [← hm]; exact hwf.1),
        startAndSizeFrom_get?_middle, Nat.zero_add, typeLengths, sum_flatMap_eq]
    · rw [linkEndLengths, sum_flatMap_eq]
    · rw [hin]
      exact (zipWith_startAndSizeFrom_pairwise _ _ _ _).1
    · intro k x y hx hy
      rw [hin] at hx hy
      exact zipWith_startAndSizeFrom_consecutive _ _ _ _ k x y hx hy
    · intro pre q post hp
      refine ⟨?_, ?_⟩
      · rw [hin, hp, find?_zipWith_keys pre post q _
          (by rw [← hp]; exact hwf.2 p (by rw [hm]; simp)), startAndSizeFrom_get?_middle,
          linkEndLengths, sum_flatMap_eq]
      · intro r set hr
        have hlookup := ObservationCollection.setObservationSetIndices_lookup
          getObservableSize m hwf preM p postM hm pre q post hp r set hr
        unfold ObservationCollection.getObservationSetStartAndSize
        rw [htable, hlookup, Nat.zero_add]

/-- Witness of C27: the example collection of three sets under two observable types. -/
theorem ObservationCollection.type_ranges_spec_witness :
    ObservationCollection.construct (fun ty => ty) exampleSortedObservationSets =
      .ok exampleObservationCollection ∧
    exampleObservationCollection.getObservationTypeStartAndSize =
      List.zipWith (fun p e => (p.1, e)) exampleSortedObservationSets
        (startAndSizeFrom 0
          (exampleSortedObservationSets.map (fun p => (linkEndLengths p.1 p.2).sum))) ∧
    (exampleSortedObservationSets.map (fun p => (linkEndLengths p.1 p.2).sum)).sum =
      exampleObservationCollection.getTotalObservableSize ∧
    exampleObservationCollection.getObservationTypeStartAndSize = [(1, 0, 1), (2, 1, 6)] ∧
    exampleObservationCollection.getObservationTypeAndLinkEndStartAndSize =
      [(1, [(9, 0, 1)]), (2, [(4, 1, 2), (7, 3, 4)])] ∧
    exampleObservationCollection.getTotalObservableSize = 7 ∧
    startAndSizeAt exampleObservationCollection.getObservationSetStartAndSize 2 7 0 =
      .ok (3, 4) :=
  have hspec := ObservationCollection.type_ranges_spec (fun ty => ty)
    exampleSortedObservationSets exampleObservationCollection
    ⟨by simp [StdMap.WF, exampleSortedObservationSets],
      by simp [StdMap.WF, exampleSortedObservationSets]⟩
    exampleObservationCollection_constructed
  ⟨exampleObservationCollection_constructed, hspec.1, hspec.2.1, rfl, rfl, rfl, rfl⟩

end TypeTableClaims

section MatrixAccessLemmas

variable {K : Type}

theorem MatrixX.set_ok (m : MatrixX K) (i j : Nat) (x : K) (h : i < m.rows ∧ j < m.cols) :
    m.set i j x =
      .ok { m with coeff := fun a b => if a = i ∧ b = j then x else m.coeff a b } := by
  unfold MatrixX.set
  rw [if_pos h]

theorem MatrixX.get_ok (m : MatrixX K) (i j : Nat) (h : i < m.rows ∧ j < m.cols) :
    m.get i j = .ok (m.coeff i j) := by
  unfold MatrixX.get
  rw [if_pos h]

end MatrixAccessLemmas

section GravityFieldClaims

variable {K : Type} [Field K]

/-- The tensor that `getInertiaTensor` returns is symmetric. -/
theorem getInertiaTensor_symmetric_entries (c20 c21 c22 s21 s22 mean bodyMass radius : K)
    (i j : Fin 3) :
    getInertiaTensor c20 c21 c22 s21 s22 mean bodyMass radius i j =
      getInertiaTensor c20 c21 c22 s21 s22 mean bodyMass radius j i := by
  fin_cases i <;> fin_cases j <;> simp [getInertiaTensor]

theorem getInertiaTensor_round_trip_entries [CharZero K] (G mu R : K) (I : Matrix3 K)
    (hsymm : ∀ i j, I i j = I j i) (hscale : mu * R * R ≠ 0) (hG : G ≠ 0) :
    getInertiaTensor
      ((1 / 2 * I 0 0 + 1 / 2 * I 1 1 - I 2 2) / (mu * R * R / G))
      (-I 2 0 / (mu * R * R / G))
      ((-(1 / 4) * I 0 0 + 1 / 4 * I 1 1) / (mu * R * R / G))
      (-I 2 1 / (mu * R * R / G))
      (-(1 / 2) * I 1 0 / (mu * R * R / G))
      ((I 0 0 + I 1 1 + I 2 2) / (3 * (mu * R * R / G))) (mu / G) R = I := by
  have h01 := hsymm 0 1
  have h02 := hsymm 0 2
  have h12 := hsymm 1 2
  have hk : mu / G * R * R = mu * R * R / G := by ring
  have hs : mu * R * R / G ≠ 0 := div_ne_zero hscale hG
  generalize mu * R * R / G = s at hk hs
  funext i j
  have hinv : s * s⁻¹ = 1 := mul_inv_cancel₀ hs
  fin_cases i <;> fin_cases j <;> simp [getInertiaTensor, hk]
  · linear_combination (I 0 0) * hinv
  · linear_combination (I 1 0) * hinv - h01
  · linear_combination (I 2 0) * hinv - h02
  · linear_combination (I 1 0) * hinv
  · linear_combination (I 1 1) * hinv
  · linear_combination (I 2 1) * hinv - h12
  · linear_combination (I 2 0) * hinv
  · linear_combination (I 2 1) * hinv
  · linear_combination (I 2 2) * hinv

/-- C30: in exact arithmetic (a field of characteristic zero), for a symmetric inertia
tensor `I`, a gravitational parameter `mu` and a reference radius `R` with `mu * R * R`
non-zero, and coefficient matrices of at least three rows and columns,
`getDegreeTwoSphericalHarmonicCoefficients` with `useNormalizedCoefficients = false`
returns matrices and a scaled mean moment of inertia from which `getInertiaTensor`,
called with the body mass `mu / GRAVITATIONAL_CONSTANT` and the same radius, returns `I`
again, through the overload that takes the five coefficients as through the overload
that takes the matrices; and the tensor that `getInertiaTensor` returns is symmetric
whatever its arguments. The gravitational constant is non-zero. -/
theorem inertia_tensor_round_trip [CharZero K] (GRAVITATIONAL_CONSTANT : K)
    (geodesyNormalizeUnnormalizedCoefficients :
      MatrixX K → MatrixX K → Except Error (MatrixX K × MatrixX K))
    (I : Matrix3 K) (mu R : K) (cosineCoefficients sineCoefficients : MatrixX K)
    (hsymm : ∀ i j, I i j = I j i) (hscale : mu * R * R ≠ 0)
    (hG : GRAVITATIONAL_CONSTANT ≠ 0)
    (hcosine : 3 ≤ cosineCoefficients.rows ∧ 3 ≤ cosineCoefficients.cols)
    (hsine : 3 ≤ sineCoefficients.rows ∧ 3 ≤ sineCoefficients.cols) :
    (∃ cosine sine mean,
      getDegreeTwoSphericalHarmonicCoefficients GRAVITATIONAL_CONSTANT
        geodesyNormalizeUnnormalizedCoefficients I mu R false cosineCoefficients
        sineCoefficients = .ok (cosine, sine, mean) ∧
      (∃ c20 c21 c22 s21 s22,
        cosine.get 2 0 = .ok c20 ∧ cosine.get 2 1 = .ok c21 ∧ cosine.get 2 2 = .ok c22 ∧
        sine.get 2 1 = .ok s21 ∧ sine.get 2 2 = .ok s22 ∧
        getInertiaTensor c20 c21 c22 s21 s22 mean (mu / GRAVITATIONAL_CONSTANT) R = I) ∧
      getInertiaTensorFromMatrices cosine sine mean (mu / GRAVITATIONAL_CONSTANT) R =
        .ok I) ∧
    ∀ (c20 c21 c22 s21 s22 mean bodyMass radius : K) (i j : Fin 3),
      getInertiaTensor c20 c21 c22 s21 s22 mean bodyMass radius i j =
        getInertiaTensor c20 c21 c22 s21 s22 mean bodyMass radius j i := by
  have hc0r : 0 < cosineCoefficients.rows := by omega
  have hc0c : 0 < cosineCoefficients.cols := by omega
  have hc2r : 2 < cosineCoefficients.rows := by omega
  have hc2c : 2 < cosineCoefficients.cols := by omega
  have hc1c : 1 < cosineCoefficients.cols := by omega
  have hs2r : 2 < sineCoefficients.rows := by omega
  have hs2c : 2 < sineCoefficients.cols := by omega
  have hs1c : 1 < sineCoefficients.cols := by omega
  have hround := getInertiaTensor_round_trip_entries GRAVITATIONAL_CONSTANT mu R I hsymm
    hscale hG
  refine ⟨?_, getInertiaTensor_symmetric_entries⟩
  simp only [getDegreeTwoSphericalHarmonicCoefficients, getInertiaTensorFromMatrices,
    MatrixX.set, MatrixX.get, MatrixX.setZero, hc0r, hc0c, hc2r, hc2c, hc1c, hs2r, hs2c, hs1c,
    and_self, if_true, Bool.false_eq_true, if_false]
  refine ⟨_, _, _, rfl, ?_, ?_⟩
  · refine ⟨(1 / 2 * I 0 0 + 1 / 2 * I 1 1 - I 2 2) / (mu * R * R / GRAVITATIONAL_CONSTANT),
      -I 2 0 / (mu * R * R / GRAVITATIONAL_CONSTANT),
      (-(1 / 4) * I 0 0 + 1 / 4 * I 1 1) / (mu * R * R / GRAVITATIONAL_CONSTANT),
      -I 2 1 / (mu * R * R / GRAVITATIONAL_CONSTANT),
      -(1 / 2) * I 1 0 / (mu * R * R / GRAVITATIONAL_CONSTANT), ?_, ?_, ?_, ?_, ?_, hround⟩
    · simp [hc2r, hc0c]
    · simp [hc2r, hc1c]
    · simp [hc2r, hc2c]
    · simp [hs2r, hs1c]
    · simp [hs2r, hs2c]
  · simp only [hc2r, hc0c, hc1c, hc2c, hs2r, hs1c, hs2c, and_self, if_true]
    simp only [and_true, true_and, if_true, if_false, OfNat.ofNat_ne_zero,
      OfNat.ofNat_ne_one, OfNat.zero_ne_ofNat, OfNat.one_ne_ofNat, and_false, and_self,
      Nat.reduceEqDiff]
    rw [hround]

/-- Witness of C30: the example tensor with `mu = 3`, `R = 2`, zero matrices of three
rows and columns and the value `1 / 2` in the place of the gravitational constant. -/
theorem inertia_tensor_round_trip_witness :
    (∀ i j, exampleInertiaTensor i j = exampleInertiaTensor j i) ∧
    ((3 : ℚ) * 2 * 2 ≠ 0) ∧
    (∃ cosine sine mean,
      getDegreeTwoSphericalHarmonicCoefficients (1 / 2) (fun c s => .ok (c, s))
        exampleInertiaTensor 3 2 false (MatrixX.zeros 3 3) (MatrixX.zeros 3 3) =
          .ok (cosine, sine, mean) ∧
      getInertiaTensorFromMatrices cosine sine mean (3 / (1 / 2)) 2 =
        .ok exampleInertiaTensor) :=
  have hspec := inertia_tensor_round_trip (1 / 2 : ℚ) (fun c s => .ok (c, s))
    exampleInertiaTensor 3 2 (MatrixX.zeros 3 3) (MatrixX.zeros 3 3) (by decide) (by norm_num)
    (by norm_num) ⟨by decide, by decide⟩ ⟨by decide, by decide⟩
  ⟨by decide, by norm_num,
    match hspec.1 with
    | ⟨cosine, sine, mean, h1, _, h3⟩ => ⟨cosine, sine, mean, h1, h3⟩⟩

/-- The coefficients of the example tensor with `mu = 3`, `R = 2` and the value `1 / 2`
in the place of the gravitational constant, and the tensor computed back from them. -/
theorem getInertiaTensor_example :
    getInertiaTensor (-3 / 48) (-5 / 24) (1 / 96) (-7 / 24) (-1 / 48) (1 / 8) 6 2 =
      exampleInertiaTensor := by
  funext i j
  fin_cases i <;> fin_cases j <;>
    norm_num [getInertiaTensor, exampleInertiaTensor, Fin.ext_iff]

end GravityFieldClaims

section PatchedConicsAccessLemmas

variable {R V3 Acc Dep Prp : Type}

end PatchedConicsAccessLemmas

section PatchedConicsSuccessLemmas

variable {R V3 Acc Dep Prp : Type} [LinearOrderedField R]

theorem propagateKeplerianOrbitLegAndFullProblem_ok (env : ExternalFunctions R V3 Acc Dep Prp)
    (timeOfFlight initialTime : R) (bodyMap : NamedBodyMap R V3) (centralBody : String)
    (bodies : List String) (velocityAfterDeparture : V3)
    (settings : PropagatorSettingsPair R V3 Acc Dep Prp)
    (integratorSettings : IntegratorSettings R) (g : R) (position : V3) :
    ∃ results, propagateKeplerianOrbitLegAndFullProblem env timeOfFlight initialTime bodyMap
      centralBody bodies velocityAfterDeparture settings integratorSettings (some g)
      (some position) = .ok results :=
  ⟨_, rfl⟩

end PatchedConicsSuccessLemmas

section PatchedConicsLegLemmas

variable {R V3 Acc Dep Prp : Type} [LinearOrderedField R]

end PatchedConicsLegLemmas

section PatchedConicsBlockLemmas

variable {R V3 Acc Dep Prp : Type} [LinearOrderedField R]

end PatchedConicsBlockLemmas

section PatchedConicsStepLemmas

variable {R V3 Acc Dep Prp : Type} [LinearOrderedField R]

end PatchedConicsStepLemmas

section PatchedConicsLoopLemmas

variable {R V3 Acc Dep Prp : Type} [LinearOrderedField R]

end PatchedConicsLoopLemmas

section PatchedConicsLoopInduction

variable {R V3 Acc Dep Prp : Type} [LinearOrderedField R]

omit [LinearOrderedField R] in
theorem TransferLegType.subLegs_pos (t : TransferLegType) (h : t ≠ .other) :
    0 < t.subLegs := by
  cases t <;> simp [TransferLegType.subLegs] at h ⊢

end PatchedConicsLoopInduction

section PatchedConicsOrderLemmas

variable {R V3 : Type}

end PatchedConicsOrderLemmas

section PatchedConicsKeyClaims

variable {R V3 Acc Dep Prp : Type} [LinearOrderedField R]

end PatchedConicsKeyClaims

section PatchedConicsHistoryLemmas

variable {R V3 Acc Dep Prp : Type} [LinearOrderedField R]

end PatchedConicsHistoryLemmas

section PatchedConicsNonEmptyLemmas

variable {R V3 Acc Dep Prp : Type} [LinearOrderedField R]

end PatchedConicsNonEmptyLemmas

section PatchedConicsNonEmptyLoop

variable {R V3 Acc Dep Prp : Type} [LinearOrderedField R]

end PatchedConicsNonEmptyLoop

section PatchedConicsDifferenceLemmas

variable {R V3 Acc Dep Prp : Type}

end PatchedConicsDifferenceLemmas

section PatchedConicsDifferenceClaims

variable {R V3 Acc Dep Prp : Type} [LinearOrderedField R]

end PatchedConicsDifferenceClaims

section PatchedConicsExampleClaims

/-- C26 (the code at two failing inputs): with the example functions a swingby leg
returns the velocity that it is handed as the velocity after the departure, which is
the velocity of the first state stored for the sub-leg from the departure to the
manoeuvre. For the legs departure without manoeuvre, swingby with manoeuvre, last leg,
the state stored under the key 1 has the velocity `v` that the local
`velocityBeforeArrival` holds before its first assignment, whatever `v` is. For the
legs departure with manoeuvre, swingby without manoeuvre, swingby with manoeuvre, last
leg, the state stored under the key 3 has the velocity 8, the velocity before the
arrival of the leg 0 (the velocity 7 of the departure body plus 1), although the leg 1
precedes the swingby leg. -/
theorem fullPropagationPatchedConicsTrajectory_swingby_velocity (u v : ℚ) :
    fullPropagationPatchedConicsTrajectory exampleExternalFunctions u v exampleBodyMap
      ["Earth", "Venus", "Mars"] "Sun" [.mga_Departure, .mga1DsmVelocity_Swingby, .other]
      [0, 0, 0, 0, 1, 2, 3, 4] [0, 0, 0] [1, 1] [0, 0]
      [examplePropagatorSettings, examplePropagatorSettings, examplePropagatorSettings]
      exampleIntegratorSettings =
      .ok ([(0, [(0, 0, 0), (10, 1, 0)]), (1, [(15, 1, v)]), (2, [(20, 2, 0), (30, 3, 0)])],
        [(0, [(0, 0, 0), (10, 1, 0)]), (1, [(15, 1, v)]), (2, [(20, 2, 0), (30, 3, 0)])]) ∧
    fullPropagationPatchedConicsTrajectory exampleExternalFunctions u v exampleBodyMap
      ["Earth", "Venus", "Mars", "Earth"] "Sun"
      [.mga1DsmVelocity_Departure, .mga_Swingby, .mga1DsmVelocity_Swingby, .other]
      [0, 0, 0, 0, 0, 1, 2, 3, 4, 5, 6, 7, 8] [0, 0, 0] [1, 1] [0, 0]
      [examplePropagatorSettings, examplePropagatorSettings, examplePropagatorSettings,
        examplePropagatorSettings, examplePropagatorSettings]
      exampleIntegratorSettings =
      .ok ([(0, [(5, 0, 9)]), (1, [(10, 1, 0), (20, 2, 0)]), (2, [(20, 2, 0), (30, 3, 0)]),
          (3, [(35, 3, 8)]), (4, [(40, 4, 0), (50, 5, 0)])],
        [(0, [(5, 0, 9)]), (1, [(10, 1, 0), (20, 2, 0)]), (2, [(20, 2, 0), (30, 3, 0)]),
          (3, [(35, 3, 8)]), (4, [(40, 4, 0), (50, 5, 0)])]) := by
  constructor
  · simp [fullPropagationPatchedConicsTrajectory, vectorGet, createTransferTrajectoryObject,
      createTransferTrajectoryBodies, exampleBodyMap, Body.getGravitationalParameter,
      bodiesAndManoeuvresOrderLoop, legLoop, legLoopBody, legWithoutDsm,
      legWithoutDsmResults, legWithDsmVelocity, legWithDsmVelocityResult, dsmLegReads,
      storeDsmLegResult, propagateMgaWithoutDsmAndFullProblem,
      propagateMga1DsmVelocityAndFullProblem, propagateKeplerianOrbitLegAndFullProblem,
      dsmLegArguments, bodyMapIndex, Body.getCartesianState, storeKeplerianAndFullProblem,
      StdMap.assign, StdMap.modify, exampleExternalFunctions, exampleIntegratorSettings,
      examplePropagatorSettings]
    norm_num
  · simp [fullPropagationPatchedConicsTrajectory, vectorGet, createTransferTrajectoryObject,
      createTransferTrajectoryBodies, exampleBodyMap, Body.getGravitationalParameter,
      bodiesAndManoeuvresOrderLoop, legLoop, legLoopBody, legWithoutDsm,
      legWithoutDsmResults, legWithDsmVelocity, legWithDsmVelocityResult, dsmLegReads,
      storeDsmLegResult, propagateMgaWithoutDsmAndFullProblem,
      propagateMga1DsmVelocityAndFullProblem, propagateKeplerianOrbitLegAndFullProblem,
      dsmLegArguments, bodyMapIndex, Body.getCartesianState, storeKeplerianAndFullProblem,
      StdMap.assign, StdMap.modify, exampleExternalFunctions, exampleIntegratorSettings,
      examplePropagatorSettings]
    norm_num

/-- C25 (the code at the failing input): in the example body map the body `Moon` has
no ephemeris. With `Moon` as the departure body, the two functions for a leg with a
deep space manoeuvre dereference the null ephemeris, for the departure as for the
swingby type, which is undefined behaviour and no exception; with the same body
`getSingleLegSphereOfInfluenceTerminationSettings` and
`propagateKeplerianOrbitLegAndFullProblem` without a departure position throw. -/
theorem missing_ephemeris_example :
    propagateMga1DsmVelocityAndFullProblem exampleExternalFunctions exampleBodyMap
      ["Moon", "Mars"] "DSM1" "Sun" 0 1 2 0 10 20 .mga1DsmVelocity_Departure [1, 2, 3, 4] 1 0
      100 200 examplePropagatorSettings examplePropagatorSettings exampleIntegratorSettings =
      .error .undefinedBehaviour ∧
    propagateMga1DsmVelocityAndFullProblem exampleExternalFunctions exampleBodyMap
      ["Moon", "Mars"] "DSM1" "Sun" 0 1 2 0 10 20 .mga1DsmVelocity_Swingby [1, 2, 3, 4] 1 0
      100 200 examplePropagatorSettings examplePropagatorSettings exampleIntegratorSettings =
      .error .undefinedBehaviour ∧
    propagateMga1DsmPositionAndFullProblem exampleExternalFunctions exampleBodyMap
      ["Moon", "Mars"] "DSM1" "Sun" 0 1 2 0 10 20 .mga1DsmPosition_Departure [1, 2, 3, 4] 1 1
      0 100 200 examplePropagatorSettings examplePropagatorSettings
      exampleIntegratorSettings = .error .undefinedBehaviour ∧
    propagateMga1DsmPositionAndFullProblem exampleExternalFunctions exampleBodyMap
      ["Moon", "Mars"] "DSM1" "Sun" 0 1 2 0 10 20 .mga1DsmPosition_Swingby [1, 2, 3, 4] 1 1
      0 100 200 examplePropagatorSettings examplePropagatorSettings
      exampleIntegratorSettings = .error .undefinedBehaviour ∧
    Error.isException .undefinedBehaviour = false ∧
    getSingleLegSphereOfInfluenceTerminationSettings exampleExternalFunctions exampleBodyMap
      "Vehicle" "Sun" "Moon" "Mars" 0 10 = .error .ephemerisNotDefinedDeparture ∧
    getSingleLegSphereOfInfluenceTerminationSettings exampleExternalFunctions exampleBodyMap
      "Vehicle" "Sun" "Earth" "Moon" 0 10 = .error .ephemerisNotDefinedArrival ∧
    propagateKeplerianOrbitLegAndFullProblem exampleExternalFunctions 10 0 exampleBodyMap
      "Sun" ["Moon", "DSM1"] 0 examplePropagatorSettings exampleIntegratorSettings (some 1)
      none = .error .ephemerisNotDefinedDeparture ∧
    Error.isException .ephemerisNotDefinedDeparture = true := by
  refine ⟨?_, ?_, ?_, ?_, rfl, ?_, ?_, ?_, rfl⟩ <;>
    simp [propagateMga1DsmVelocityAndFullProblem, propagateMga1DsmPositionAndFullProblem,
      getSingleLegSphereOfInfluenceTerminationSettings,
      propagateKeplerianOrbitLegAndFullProblem, dsmLegArguments, vectorGet, vectorAt,
      bodyMapIndex, bodyMapAt, exampleBodyMap, Body.getCartesianState]

/-- C28 (the code at the failing input): for the example trajectory without deep space
manoeuvre, whose epochs are 0 and 10 for the first leg, the two assignments at the head
of the loop body leave the epoch 10 in `initialTimeCurrentLeg` and leave
`finalTimeCurrentLeg` as it was, so that with the termination on the sphere of
influence off the settings of the backward and forward propagation of the leg 0
terminate at the epoch 10 and at the value `x` that `finalTimeCurrentLeg` holds before
any assignment, whatever `x` is. For the example trajectory with a deep space
manoeuvre the settings of the two sub-legs terminate at the epochs 0 and 10, and 10 and
20. -/
theorem getPatchedConicPropagatorSettings_example (x : ℚ) (state : Vector6 ℚ) :
    legTimesWithoutDsm [(0 : ℚ), 10, 20] 0 x = .ok (10, x) ∧
    (getPatchedConicPropagatorSettings exampleExternalFunctions x state exampleBodyMap
      [(), ()] ["Earth", "Mars"] "Sun" "Vehicle" [.mga_Departure, .other] [0, 0, 0] [0, 0]
      [1, 1] [0, 0] false ([] : List (Option Unit)) ()).map
        (fun settings => settings.map
          (fun pair => (pair.1.terminationSettings, pair.2.terminationSettings))) =
      .ok [(.time 10, .time x)] ∧
    (getPatchedConicPropagatorSettings exampleExternalFunctions x state exampleBodyMap
      [(), ()] ["Earth", "Mars"] "Sun" "Vehicle" [.mga1DsmVelocity_Departure, .other]
      [0, 0, 0, 1, 2, 3, 4] [0, 0] [1, 1] [0, 0] false ([] : List (Option Unit)) ()).map
        (fun settings => settings.map
          (fun pair => (pair.1.terminationSettings, pair.2.terminationSettings))) =
      .ok [(.time 0, .time 10), (.time 10, .time 20)] := by
  refine ⟨rfl, ?_, ?_⟩ <;>
    simp [getPatchedConicPropagatorSettings, vectorGet, vectorAt,
      createTransferTrajectoryObject, createTransferTrajectoryBodies, exampleBodyMap,
      Body.getGravitationalParameter, numberOfLegsIncludingDsm,
      patchedConicTerminationSettings, terminationSettingsWithoutDsmLoop,
      terminationSettingsWithDsmLoop, legTimesWithoutDsm, propagatorSettingsLoop,
      legPropagatorSettings, currentDependentVariablesToSave, exampleExternalFunctions,
      Except.map]

end PatchedConicsExampleClaims

section RetainedLemmas

variable {α : Type}

theorem entriesNotAt_forall₂ (indices : List Int) (off : Nat) (l : List α) :
    List.Forall₂ (fun x i => l.get? (i - off) = some x) (entriesNotAt indices off l)
      ((List.range' off l.length).filter (fun i => decide ((i : Int) ∉ indices))) := by
  induction l generalizing off with
  | nil => simp [entriesNotAt]
  | cons a rest ih =>
    have hrest : List.Forall₂ (fun x i => (a :: rest).get? (i - off) = some x)
        (entriesNotAt indices (off + 1) rest)
        ((List.range' (off + 1) rest.length).filter
          (fun i => decide ((i : Int) ∉ indices))) := by
      refine forall₂_imp_mem (ih (off + 1)) ?_
      intro x _ i hi hxi
      have hge : off + 1 ≤ i := (List.mem_range'_1.mp (List.mem_filter.mp hi).1).1
      have hsub : i - off = (i - (off + 1)) + 1 := by omega
      rw [hsub, List.get?_cons_succ]
      exact hxi
    simp only [List.length_cons, List.range'_succ, entriesNotAt, List.filter_cons]
    by_cases hmem : (off : Int) ∈ indices
    · simp only [hmem, if_true, not_true_eq_false, decide_False, Bool.false_eq_true, if_false]
      exact hrest
    · simp only [hmem, if_false, not_false_eq_true, decide_True, if_true]
      exact List.Forall₂.cons (by simp) hrest

/-- The entries that a filter leaves are the entries at the retained positions. -/
theorem entriesNotAt_retained (indices : List Int) (l : List α) :
    (entriesNotAt indices 0 l).length = (retainedIndices indices l.length).length ∧
    ∀ k i, (retainedIndices indices l.length).get? k = some i →
      (entriesNotAt indices 0 l).get? k = l.get? i := by
  have h := entriesNotAt_forall₂ indices 0 l
  rw [← List.range_eq_range'] at h
  refine ⟨h.length_eq, ?_⟩
  intro k i hk
  obtain ⟨x, hx, hxi⟩ := forall₂_get? h k i hk
  rw [hx, ← hxi]
  rfl

end RetainedLemmas

section FilteredSetForm

variable {T S L : Type} [LinearOrder T] [DecidableEq L]

/-- The set that `createFilteredObservationSet` returns for distinct valid indices, on a
set that satisfies the class invariant and holds no or one dependent variable vector per
observation. -/
theorem SingleObservationSet.createFilteredObservationSet_eq (s : SingleObservationSet T S L)
    (hs : s.Invariant) (indices : List Int) (hnodup : indices.Nodup)
    (hvalid : ∀ i ∈ indices, 0 ≤ i ∧ i < (s.getNumberOfObservables : Int))
    (hdeps : s.observationsDependentVariables_.length = 0 ∨
      s.observationsDependentVariables_.length = s.getNumberOfObservables) :
    s.createFilteredObservationSet indices =
      .ok ⟨s.observableType_, s.linkEnds_, entriesNotAt indices 0 s.observations_,
        entriesNotAt indices 0 s.observationTimes_, s.referenceLinkEnd_,
        entriesNotAt indices 0 s.observationsDependentVariables_,
        s.dependentVariableCalculator_, s.ancilliarySettings_,
        (entriesNotAt indices 0 s.observations_).length, []⟩ := by
  obtain ⟨hcalc, hnum, htl, hcons, hsorted⟩ := hs
  simp only [SingleObservationSet.getNumberOfObservables, hnum] at hvalid hdeps
  have hstrict := sortDescending_strict indices hnodup
  have hmem := sortDescending_mem indices
  have hv : ∀ i ∈ sortDescending indices, 0 ≤ i ∧ i < (s.observationTimes_.length : Int) := by
    intro i hi
    rw [htl]
    exact hvalid i ((hmem i).mp hi)
  have hloop := eraseFilteredEntries_sorted (sortDescending indices) hstrict
    s.observationTimes_ s.observations_ s.observationsDependentVariables_ hv htl.symm
    (by rw [htl]; exact hdeps)
  rw [entriesNotAt_congr _ indices 0 s.observationTimes_ hmem,
    entriesNotAt_congr _ indices 0 s.observations_ hmem,
    entriesNotAt_congr _ indices 0 s.observationsDependentVariables_ hmem] at hloop
  unfold SingleObservationSet.createFilteredObservationSet
  rw [hloop]
  exact SingleObservationSet.construct_of_sorted s.observableType_ s.linkEnds_
    (entriesNotAt indices 0 s.observations_) (entriesNotAt indices 0 s.observationTimes_)
    s.referenceLinkEnd_ (entriesNotAt indices 0 s.observationsDependentVariables_)
    s.dependentVariableCalculator_ s.ancilliarySettings_ hcalc
    (entriesNotAt_length_eq indices 0 _ _ htl.symm)
    (observablesOfConsistentSize_sublist _ _ (entriesNotAt_sublist indices 0 _) hcons)
    (isSorted_sublist _ _ (entriesNotAt_sublist indices 0 _) hsorted)

end FilteredSetForm

section FilteredTimesLemmas

variable {T S L : Type}

/-- The times that the erasing loop leaves depend on the indices and the times only, and
are times of the original vector in their order. -/
theorem eraseFilteredEntries_times (ds : List Int) (ts ts' tsB' : List T)
    (os os' deps deps' osB osB' depsB depsB' : List (List S))
    (h : eraseFilteredEntries ds (ts, os, deps) = .ok (ts', os', deps'))
    (hB : eraseFilteredEntries ds (ts, osB, depsB) = .ok (tsB', osB', depsB')) :
    ts' = tsB' ∧ ts'.Sublist ts := by
  induction ds generalizing ts os deps osB depsB with
  | nil =>
    simp only [eraseFilteredEntries, Except.ok.injEq, Prod.mk.injEq] at h hB
    obtain ⟨rfl, -, -⟩ := h
    obtain ⟨rfl, -, -⟩ := hB
    exact ⟨rfl, List.Sublist.refl _⟩
  | cons d rest ih =>
    simp only [eraseFilteredEntries] at h hB
    cases hts : vectorErase ts d with
    | error e => simp [hts] at h
    | ok ts₁ =>
      have hsub : ts₁.Sublist ts := by
        unfold vectorErase at hts
        split at hts
        · simp only [Except.ok.injEq] at hts
          subst hts
          exact List.eraseIdx_sublist ts d.toNat
        · simp at hts
      simp only [hts] at h hB
      have key : ∀ (o d₁ oB dB : List (List S)),
          eraseFilteredEntries rest (ts₁, o, d₁) = .ok (ts', os', deps') →
          eraseFilteredEntries rest (ts₁, oB, dB) = .ok (tsB', osB', depsB') →
          ts' = tsB' ∧ ts'.Sublist ts := fun o d₁ oB dB g gB =>
        ⟨(ih ts₁ o d₁ oB dB g gB).1, (ih ts₁ o d₁ oB dB g gB).2.trans hsub⟩
      repeat' split at h
      all_goals first
        | exact Except.noConfusion h
        | skip
      all_goals repeat' split at hB
      all_goals first
        | exact Except.noConfusion hB
        | exact key _ _ _ _ h hB

end FilteredTimesLemmas

section FilteredSamplingLemmas

variable {T S L : Type} [LinearOrder T] [DecidableEq L]

/-- Two sets with the same times, in order, are filtered by one index list into sets
that hold the same number of observations at the same times. -/
theorem SingleObservationSet.createFilteredObservationSet_sameSamples
    (s sB : SingleObservationSet T S L) (htimes : s.observationTimes_ = sB.observationTimes_)
    (hsorted : isSorted s.observationTimes_ = true) (indices : List Int)
    (s' sB' : SingleObservationSet T S L)
    (h : s.createFilteredObservationSet indices = .ok s')
    (hB : sB.createFilteredObservationSet indices = .ok sB') : SameSamples s' sB' := by
  unfold SingleObservationSet.createFilteredObservationSet at h hB
  split at h
  · simp at h
  · rename_i ts os deps hloop
    split at hB
    · simp at hB
    · rename_i tsB osB depsB hloopB
      rw [← htimes] at hloopB
      obtain ⟨heq, hsub⟩ := eraseFilteredEntries_times _ _ _ _ _ _ _ _ _ _ _ _ hloop hloopB
      subst heq
      have hs' : isSorted ts = true := isSorted_sublist _ _ hsub hsorted
      obtain ⟨-, hlen, -, -, -, -, -, -, hn, -, hcase⟩ := SingleObservationSet.construct_ok_inv h
      obtain ⟨-, hlenB, -, -, -, -, -, -, hnB, -, hcaseB⟩ :=
        SingleObservationSet.construct_ok_inv hB
      have ht : s'.observationTimes_ = ts := by
        rcases hcase with ⟨-, -, ht, -⟩ | ⟨hns, -⟩
        · exact ht
        · rw [hs'] at hns
          cases hns
      have htB : sB'.observationTimes_ = ts := by
        rcases hcaseB with ⟨-, -, ht, -⟩ | ⟨hns, -⟩
        · exact ht
        · rw [hs'] at hns
          cases hns
      exact ⟨by rw [SingleObservationSet.getNumberOfObservables,
        SingleObservationSet.getNumberOfObservables, hn, hnB, hlen, hlenB], by rw [ht, htB]⟩

end FilteredSamplingLemmas

section KeyedRelationLemmas

variable {K V W : Type} [LinearOrder K]

/-- Updating two maps with the same keys under one key keeps the keys the same and the
values related, when the update keeps values related. -/
theorem StdMap.modify_forall₂ (R : V → W → Prop) (d : V) (dB : W) (f : V → V) (g : W → W)
    (k : K) (m : StdMap K V) (mB : StdMap K W) (hd : R (f d) (g dB))
    (hf : ∀ v w, R v w → R (f v) (g w))
    (h : List.Forall₂ (fun p p' => p.1 = p'.1 ∧ R p.2 p'.2) m mB) :
    List.Forall₂ (fun p p' => p.1 = p'.1 ∧ R p.2 p'.2)
      (StdMap.modify d f k m) (StdMap.modify dB g k mB) := by
  induction h with
  | nil => exact List.Forall₂.cons ⟨rfl, hd⟩ List.Forall₂.nil
  | @cons p p' rest restB hp hrest ih =>
    obtain ⟨k₁, v⟩ := p
    obtain ⟨k₂, w⟩ := p'
    obtain ⟨hk, hv⟩ := hp
    simp only at hk hv
    subst hk
    unfold StdMap.modify
    by_cases h1 : k < k₁
    · rw [if_pos h1, if_pos h1]
      exact List.Forall₂.cons ⟨rfl, hd⟩ (List.Forall₂.cons ⟨rfl, hv⟩ hrest)
    · rw [if_neg h1, if_neg h1]
      by_cases h2 : k₁ < k
      · rw [if_pos h2, if_pos h2]
        exact List.Forall₂.cons ⟨rfl, hv⟩ ih
      · rw [if_neg h2, if_neg h2]
        exact List.Forall₂.cons ⟨rfl, hf v w hv⟩ hrest

/-- Lookups under one key in two maps with the same keys and related values both fail
or give related values. -/
theorem StdMap.find?_forall₂ (R : V → W → Prop) (k : K) (m : StdMap K V) (mB : StdMap K W)
    (h : List.Forall₂ (fun p p' => p.1 = p'.1 ∧ R p.2 p'.2) m mB) :
    (StdMap.find? m k = none ∧ StdMap.find? mB k = none) ∨
    ∃ v w, StdMap.find? m k = some v ∧ StdMap.find? mB k = some w ∧ R v w := by
  induction h with
  | nil => exact Or.inl ⟨rfl, rfl⟩
  | @cons p p' rest restB hp _ ih =>
    obtain ⟨k₁, v⟩ := p
    obtain ⟨k₂, w⟩ := p'
    obtain ⟨hk, hv⟩ := hp
    simp only at hk hv
    subst hk
    unfold StdMap.find?
    by_cases h1 : k₁ = k
    · rw [if_pos h1, if_pos h1]
      exact Or.inr ⟨v, w, rfl, rfl, hv⟩
    · rw [if_neg h1, if_neg h1]
      exact ih

omit [LinearOrder K] in
theorem forall₂_keys_eq (R : V → W → Prop) (m : StdMap K V) (mB : StdMap K W)
    (h : List.Forall₂ (fun p p' => p.1 = p'.1 ∧ R p.2 p'.2) m mB) :
    m.map Prod.fst = mB.map Prod.fst := by
  induction h with
  | nil => rfl
  | cons hp _ ih => simp only [List.map_cons, hp.1, ih]

theorem forall₂_mem_left {α β : Type} {R : α → β → Prop} {l : List α} {l' : List β}
    (h : List.Forall₂ R l l') (a : α) (ha : a ∈ l) : ∃ b ∈ l', R a b := by
  induction h with
  | nil => simp at ha
  | @cons x y _ _ hxy _ ih =>
    rcases List.mem_cons.mp ha with rfl | ha
    · exact ⟨y, List.mem_cons_self _ _, hxy⟩
    · obtain ⟨b, hb, hab⟩ := ih ha
      exact ⟨b, List.mem_cons_of_mem _ hb, hab⟩

theorem forall₂_mem_right {α β : Type} {R : α → β → Prop} {l : List α} {l' : List β}
    (h : List.Forall₂ R l l') (b : β) (hb : b ∈ l') : ∃ a ∈ l, R a b := by
  induction h with
  | nil => simp at hb
  | @cons x y _ _ hxy _ ih =>
    rcases List.mem_cons.mp hb with rfl | hb
    · exact ⟨x, List.mem_cons_self _ _, hxy⟩
    · obtain ⟨a, ha, hab⟩ := ih hb
      exact ⟨a, List.mem_cons_of_mem _ ha, hab⟩

theorem forall₂_get?_left {α β : Type} {R : α → β → Prop} {l : List α} {l' : List β}
    (h : List.Forall₂ R l l') (j : Nat) (a : α) (ha : l.get? j = some a) :
    ∃ b, l'.get? j = some b ∧ R a b := by
  induction h generalizing j with
  | nil => simp at ha
  | @cons x y _ _ hxy _ ih =>
    cases j with
    | zero =>
      simp only [List.get?_cons_zero, Option.some.injEq] at ha
      subst ha
      exact ⟨y, rfl, hxy⟩
    | succ j => exact ih j (by simpa using ha)

end KeyedRelationLemmas

section NestedRelationLemmas

variable {K₁ K₂ V W : Type} [LinearOrder K₁] [LinearOrder K₂]

/-- Appending related entries under the same keys to two maps of maps of vectors with
the same keys and related entries keeps them so. -/
theorem StdMap.pushBack_forall₂ (R : V → W → Prop) (k₁ : K₁) (k₂ : K₂) (x : V) (y : W)
    (m : StdMap K₁ (StdMap K₂ (List V))) (mB : StdMap K₁ (StdMap K₂ (List W)))
    (hxy : R x y)
    (h : List.Forall₂ (fun p p' => p.1 = p'.1 ∧
      List.Forall₂ (fun q q' => q.1 = q'.1 ∧ List.Forall₂ R q.2 q'.2) p.2 p'.2) m mB) :
    List.Forall₂ (fun p p' => p.1 = p'.1 ∧
      List.Forall₂ (fun q q' => q.1 = q'.1 ∧ List.Forall₂ R q.2 q'.2) p.2 p'.2)
      (StdMap.pushBack k₁ k₂ x m) (StdMap.pushBack k₁ k₂ y mB) := by
  have hinner : ∀ (v : StdMap K₂ (List V)) (w : StdMap K₂ (List W)),
      List.Forall₂ (fun q q' => q.1 = q'.1 ∧ List.Forall₂ R q.2 q'.2) v w →
      List.Forall₂ (fun q q' => q.1 = q'.1 ∧ List.Forall₂ R q.2 q'.2)
        (StdMap.modify [] (fun v => v ++ [x]) k₂ v)
        (StdMap.modify [] (fun v => v ++ [y]) k₂ w) := fun v w hvw =>
    StdMap.modify_forall₂ (List.Forall₂ R) [] [] _ _ k₂ v w
      (List.Forall₂.cons hxy List.Forall₂.nil)
      (fun a b hab => List.rel_append hab (List.Forall₂.cons hxy List.Forall₂.nil)) hvw
  exact StdMap.modify_forall₂
    (fun v w => List.Forall₂ (fun q q' => q.1 = q'.1 ∧ List.Forall₂ R q.2 q'.2) v w)
    [] [] _ _ k₁ m mB (hinner [] [] List.Forall₂.nil) hinner h

end NestedRelationLemmas

section FilterDataRelationLemmas

variable {T S L : Type} [LinearOrder T] [LinearOrder L]

/-- Two runs of the innermost loop of `filterData` with the same index lists, on lists
of sets that are filtered into related sets, keep the mappings related. -/
theorem filterDataSets_forall₂ (R : SingleObservationSet T S L → SingleObservationSet T S L → Prop)
    (ty : ObservableType) (le : L) (lists : List (List Int))
    (sets setsB : List (SingleObservationSet T S L)) (j : Nat)
    (acc acc' accB accB' : SortedObservationSets T S L)
    (h : filterDataSets ty le lists sets j acc = .ok acc')
    (hB : filterDataSets ty le lists setsB j accB = .ok accB')
    (hsets : List.Forall₂ (fun s sB => ∀ indices s' sB',
      s.createFilteredObservationSet indices = .ok s' →
      sB.createFilteredObservationSet indices = .ok sB' → R s' sB') sets setsB)
    (hacc : List.Forall₂ (fun p p' => p.1 = p'.1 ∧
      List.Forall₂ (fun q q' => q.1 = q'.1 ∧ List.Forall₂ R q.2 q'.2) p.2 p'.2) acc accB) :
    List.Forall₂ (fun p p' => p.1 = p'.1 ∧
      List.Forall₂ (fun q q' => q.1 = q'.1 ∧ List.Forall₂ R q.2 q'.2) p.2 p'.2) acc' accB' := by
  induction hsets generalizing j acc accB with
  | nil =>
    simp only [filterDataSets, Except.ok.injEq] at h hB
    subst h
    subst hB
    exact hacc
  | @cons s sB rest restB hs _ ih =>
    simp only [filterDataSets] at h hB
    split at h
    · exact Except.noConfusion h
    · rename_i indices hindices
      simp only [hindices] at hB
      split at h
      · exact Except.noConfusion h
      · rename_i s' hs'
        split at hB
        · exact Except.noConfusion hB
        · rename_i sB' hsB'
          exact ih (j + 1) _ _ h hB
            (StdMap.pushBack_forall₂ R ty le s' sB' acc accB (hs indices s' sB' hs' hsB') hacc)

theorem filterDataLinkEnds_forall₂
    (R : SingleObservationSet T S L → SingleObservationSet T S L → Prop)
    (c cB : ObservationCollection T S L) (ty : ObservableType)
    (list : List (L × List (List Int))) (acc acc' accB accB' : SortedObservationSets T S L)
    (h : filterDataLinkEnds c ty list acc = .ok acc')
    (hB : filterDataLinkEnds cB ty list accB = .ok accB')
    (hsets : ∀ le sets setsB, observationSetsAt c.getObservations ty le = .ok sets →
      observationSetsAt cB.getObservations ty le = .ok setsB →
      List.Forall₂ (fun s sB => ∀ indices s' sB',
        s.createFilteredObservationSet indices = .ok s' →
        sB.createFilteredObservationSet indices = .ok sB' → R s' sB') sets setsB)
    (hacc : List.Forall₂ (fun p p' => p.1 = p'.1 ∧
      List.Forall₂ (fun q q' => q.1 = q'.1 ∧ List.Forall₂ R q.2 q'.2) p.2 p'.2) acc accB) :
    List.Forall₂ (fun p p' => p.1 = p'.1 ∧
      List.Forall₂ (fun q q' => q.1 = q'.1 ∧ List.Forall₂ R q.2 q'.2) p.2 p'.2) acc' accB' := by
  induction list generalizing acc accB with
  | nil =>
    simp only [filterDataLinkEnds, Except.ok.injEq] at h hB
    subst h
    subst hB
    exact hacc
  | cons entry rest ih =>
    obtain ⟨le, lists⟩ := entry
    simp only [filterDataLinkEnds] at h hB
    split at h
    · exact Except.noConfusion h
    · rename_i sets hsetsA
      split at hB
      · exact Except.noConfusion hB
      · rename_i setsB hsetsB
        split at h
        · exact Except.noConfusion h
        · split at hB
          · exact Except.noConfusion hB
          · split at h
            · exact Except.noConfusion h
            · rename_i acc₁ hacc₁
              split at hB
              · exact Except.noConfusion hB
              · rename_i accB₁ haccB₁
                exact ih _ _ h hB
                  (filterDataSets_forall₂ R ty le lists sets setsB 0 acc acc₁ accB accB₁
                    hacc₁ haccB₁ (hsets le sets setsB hsetsA hsetsB) hacc)

theorem filterDataTypes_forall₂
    (R : SingleObservationSet T S L → SingleObservationSet T S L → Prop)
    (c cB : ObservationCollection T S L)
    (plan : List (ObservableType × List (L × List (List Int))))
    (acc acc' accB accB' : SortedObservationSets T S L)
    (h : filterDataTypes c plan acc = .ok acc')
    (hB : filterDataTypes cB plan accB = .ok accB')
    (hsets : ∀ ty le sets setsB, observationSetsAt c.getObservations ty le = .ok sets →
      observationSetsAt cB.getObservations ty le = .ok setsB →
      List.Forall₂ (fun s sB => ∀ indices s' sB',
        s.createFilteredObservationSet indices = .ok s' →
        sB.createFilteredObservationSet indices = .ok sB' → R s' sB') sets setsB)
    (hacc : List.Forall₂ (fun p p' => p.1 = p'.1 ∧
      List.Forall₂ (fun q q' => q.1 = q'.1 ∧ List.Forall₂ R q.2 q'.2) p.2 p'.2) acc accB) :
    List.Forall₂ (fun p p' => p.1 = p'.1 ∧
      List.Forall₂ (fun q q' => q.1 = q'.1 ∧ List.Forall₂ R q.2 q'.2) p.2 p'.2) acc' accB' := by
  induction plan generalizing acc accB with
  | nil =>
    simp only [filterDataTypes, Except.ok.injEq] at h hB
    subst h
    subst hB
    exact hacc
  | cons entry rest ih =>
    obtain ⟨ty, list⟩ := entry
    simp only [filterDataTypes] at h hB
    split at h
    · exact Except.noConfusion h
    · rename_i acc₁ hacc₁
      split at hB
      · exact Except.noConfusion hB
      · rename_i accB₁ haccB₁
        exact ih _ _ h hB
          (filterDataLinkEnds_forall₂ R c cB ty list acc acc₁ accB accB₁ hacc₁ haccB₁
            (hsets ty) hacc)

end FilterDataRelationLemmas

section IdenticalStructureLemmas

variable {T S L : Type}

/-- Mappings of identical structure give the same time buffer and the same scalar
lengths. -/
theorem IdenticalStructure_buffers (getObservableSize : ObservableType → Nat)
    (a b : SortedObservationSets T S L) (h : IdenticalStructure a b) :
    SortedObservationSets.expectedTimes getObservableSize a =
      SortedObservationSets.expectedTimes getObservableSize b ∧
    typeLengths getObservableSize a = typeLengths getObservableSize b := by
  unfold IdenticalStructure at h
  induction h with
  | nil => exact ⟨rfl, rfl⟩
  | @cons p p' rest restB hp _ ih =>
    obtain ⟨ty, list⟩ := p
    obtain ⟨ty', listB⟩ := p'
    obtain ⟨hty, hlist⟩ := hp
    simp only at hty hlist
    subst hty
    have hinner : list.flatMap (fun q => Tudat.expectedTimes (getObservableSize ty) q.2) =
          listB.flatMap (fun q => Tudat.expectedTimes (getObservableSize ty) q.2) ∧
        linkEndLengths (getObservableSize ty) list =
          linkEndLengths (getObservableSize ty) listB := by
      induction hlist with
      | nil => exact ⟨rfl, rfl⟩
      | @cons q q' _ _ hq _ ihq =>
        obtain ⟨le, sets⟩ := q
        obtain ⟨le', setsB⟩ := q'
        obtain ⟨-, hsets⟩ := hq
        simp only at hsets
        have hsets' : Tudat.expectedTimes (getObservableSize ty) sets =
              Tudat.expectedTimes (getObservableSize ty) setsB ∧
            setLengths (getObservableSize ty) sets =
              setLengths (getObservableSize ty) setsB := by
          induction hsets with
          | nil => exact ⟨rfl, rfl⟩
          | @cons s sB _ _ hs _ ihs =>
            simp only [Tudat.expectedTimes, setLengths, List.flatMap_cons, List.map_cons] at ihs ⊢
            rw [ihs.1, ihs.2, hs.1, hs.2]
            exact ⟨rfl, rfl⟩
        simp only [linkEndLengths, List.flatMap_cons] at ihq ⊢
        rw [ihq.1, ihq.2, hsets'.1, hsets'.2]
        exact ⟨rfl, rfl⟩
    simp only [SortedObservationSets.expectedTimes, typeLengths, List.flatMap_cons] at ih ⊢
    rw [ih.1, ih.2, hinner.1, hinner.2]
    exact ⟨rfl, rfl⟩

theorem IdenticalStructure_refl (m : SortedObservationSets T S L) : IdenticalStructure m m :=
  List.forall₂_same.mpr (fun _ _ => ⟨rfl, List.forall₂_same.mpr (fun _ _ =>
    ⟨rfl, List.forall₂_same.mpr (fun _ _ => ⟨rfl, rfl⟩)⟩)⟩)

end IdenticalStructureLemmas

section FilterPlanForm

variable {T S L : Type} [LinearOrder L]

/-- The plan that `getObservationCollectionEntriesToFiler` returns for a residual vector
of the right length and cutoffs for every observable type, in closed form. -/
theorem getObservationCollectionEntriesToFiler_ok [Inhabited L] [Inhabited T] [Zero S]
    [LinearOrder S] (getObservableSize : ObservableType → Nat)
    (m : SortedObservationSets T S L) (c : ObservationCollection T S L)
    (h : ObservationCollection.construct getObservableSize m = .ok c)
    (hwf : StdMap.NestedWF m)
    (hvalid : ∀ p ∈ m, ∀ q ∈ p.2, ∀ set ∈ q.2,
      set.numberOfObservations_ = set.observations_.length ∧
      set.observationTimes_.length = set.observations_.length)
    (residual : List S) (cutoffs : StdMap ObservableType S) (cutoffOf : ObservableType → S)
    (heq : residual.length = c.getTotalObservableSize)
    (hcut : ∀ p ∈ m, StdMap.find? cutoffs p.1 = some (cutoffOf p.1)) :
    getObservationCollectionEntriesToFiler getObservableSize c residual cutoffs =
      .ok (m.map (fun p => (p.1, p.2.map (fun q => (q.1, List.zipWith
        (fun set entry => exceedingIndices ((residual.drop entry.1).take entry.2)
          (cutoffOf p.1) (getObservableSize p.1) set.observationTimes_.length)
        q.2 (StdMap.entriesAt c.observationSetStartAndSize_ p.1 q.1)))))) := by
  have hlist := ObservationCollection.construct_observationSetList getObservableSize m c h
  have htimes : ∀ p ∈ m, ∀ q ∈ p.2, ∀ set ∈ q.2,
      set.observationTimes_.length = set.getNumberOfObservables := by
    intro p hp q hq set hset
    obtain ⟨h1, h2⟩ := hvalid p hp q hq set hset
    rw [SingleObservationSet.getNumberOfObservables, h1, h2]
  unfold ObservationCollection.getTotalObservableSize at heq
  unfold getObservationCollectionEntriesToFiler
  rw [if_neg (by simpa [ObservationCollection.getTotalObservableSize] using heq),
    ObservationCollection.getObservations, hlist,
    entriesToFilterTypes_ok c residual getObservableSize cutoffs cutoffOf m [] hwf.1
      (fun x hx => absurd hx (List.not_mem_nil _)) hcut
      (fun p hp q hq => by
        rw [hlist]
        refine ⟨StdMap.entriesAt_of_mem m hwf p hp q hq, ?_⟩
        intro r set hr
        obtain ⟨entry, e1, e2, e3⟩ :=
          (ObservationCollection.construct_table_entry getObservableSize m c h hwf p hp q
            hq).2 r set hr
        exact ⟨entry, e1, e2, by rw [heq]; exact e3,
          htimes p hp q hq set (List.get?_mem hr)⟩)]
  rfl

end FilterPlanForm

section IdenticalStructureWF

variable {T S L : Type} [LinearOrder L]

/-- A mapping of the structure of a well formed mapping is well formed. -/
theorem IdenticalStructure_nestedWF (a b : SortedObservationSets T S L)
    (h : IdenticalStructure a b) (hwf : StdMap.NestedWF a) : StdMap.NestedWF b := by
  unfold IdenticalStructure at h
  constructor
  · unfold StdMap.WF
    rw [← forall₂_keys_eq _ a b h]
    exact hwf.1
  · intro p' hp'
    obtain ⟨p, hp, -, hpq⟩ := forall₂_mem_right h p' hp'
    unfold StdMap.WF
    rw [← forall₂_keys_eq _ p.2 p'.2 hpq]
    exact hwf.2 p hp

end IdenticalStructureWF

section ZipWithLemmas

theorem get?_zipWith {α β γ : Type} (f : α → β → γ) (l : List α) (l' : List β) (j : Nat)
    (a : α) (b : β) (ha : l.get? j = some a) (hb : l'.get? j = some b) :
    (List.zipWith f l l').get? j = some (f a b) := by
  induction l generalizing l' j with
  | nil => simp at ha
  | cons x rest ih =>
    cases l' with
    | nil => simp at hb
    | cons y rest' =>
      cases j with
      | zero =>
        simp only [List.get?_cons_zero, Option.some.injEq] at ha hb
        subst ha
        subst hb
        rfl
      | succ j =>
        simp only [List.get?_cons_succ] at ha hb
        simpa using ih rest' j ha hb

theorem get?_zipWith_inv {α β γ : Type} (f : α → β → γ) (l : List α) (l' : List β) (j : Nat)
    (c : γ) (h : (List.zipWith f l l').get? j = some c) :
    ∃ a b, l.get? j = some a ∧ l'.get? j = some b ∧ c = f a b := by
  induction l generalizing l' j with
  | nil => simp at h
  | cons x rest ih =>
    cases l' with
    | nil => simp at h
    | cons y rest' =>
      cases j with
      | zero =>
        simp only [List.zipWith_cons_cons, List.get?_cons_zero, Option.some.injEq] at h
        exact ⟨x, y, rfl, rfl, h.symm⟩
      | succ j =>
        simp only [List.zipWith_cons_cons, List.get?_cons_succ] at h
        simpa using ih rest' j h

end ZipWithLemmas

section FilterDataStructuredPlan

variable {T S L : Type} [LinearOrder T] [LinearOrder L]

/-- Function `filterData` with a plan that follows a well formed mapping `m`, on a
collection of the structure of `m`: when the plan gives one list of distinct valid
indices per set, `filterData` returns a collection of sets that satisfy the class
invariant, and the set at each place is the one that `createFilteredObservationSet`
returns for the set of the collection and the index list at that place. -/
theorem filterData_structured_plan [Inhabited L] [Inhabited T] [Zero S]
    (getObservableSize : ObservableType → Nat) (m mC : SortedObservationSets T S L)
    (c : ObservationCollection T S L)
    (hc : ObservationCollection.construct getObservableSize mC = .ok c)
    (hwf : StdMap.NestedWF m) (hsame : IdenticalStructure m mC)
    (hinv : ∀ p ∈ mC, ∀ q ∈ p.2, ∀ set ∈ q.2, set.Invariant ∧
      (set.observationsDependentVariables_.length = 0 ∨
        set.observationsDependentVariables_.length = set.getNumberOfObservables))
    (f : ObservableType → SingleObservationSet T S L → Nat × Nat → List Int)
    (tbl : ObservableType → L → List (Nat × Nat))
    (htbl : ∀ p ∈ m, ∀ q ∈ p.2, (tbl p.1 q.1).length = q.2.length)
    (hf : ∀ p ∈ m, ∀ q ∈ p.2, ∀ set ∈ q.2, ∀ entry, (f p.1 set entry).Nodup ∧
      ∀ i ∈ f p.1 set entry, 0 ≤ i ∧ i < (set.getNumberOfObservables : Int)) :
    ∃ filtered r,
      filterDataTypes c (m.map (fun p => (p.1, p.2.map (fun q =>
        (q.1, List.zipWith (f p.1) q.2 (tbl p.1 q.1)))))) [] = .ok filtered ∧
      StdMap.NestedWF filtered ∧
      ObservationCollection.construct getObservableSize filtered = .ok r ∧
      filterData getObservableSize c (m.map (fun p => (p.1, p.2.map (fun q =>
        (q.1, List.zipWith (f p.1) q.2 (tbl p.1 q.1)))))) = .ok r ∧
      (∀ p ∈ filtered, ∀ q ∈ p.2, ∀ s ∈ q.2, s.Invariant) ∧
      ∀ p ∈ m, ∀ q ∈ p.2, ∀ j set setC entry, q.2.get? j = some set →
        (tbl p.1 q.1).get? j = some entry →
        (StdMap.entriesAt mC p.1 q.1).get? j = some setC →
        ∃ s', (StdMap.entriesAt filtered p.1 q.1).get? j = some s' ∧
          setC.createFilteredObservationSet (f p.1 set entry) = .ok s' := by
  have hwfC := IdenticalStructure_nestedWF m mC hsame hwf
  have hlist := ObservationCollection.construct_observationSetList getObservableSize mC c hc
  have hfit : ∀ entry ∈ m.map (fun p => (p.1, p.2.map (fun q =>
        (q.1, List.zipWith (f p.1) q.2 (tbl p.1 q.1))))), ∀ e ∈ entry.2,
      ∃ sets, observationSetsAt c.getObservations entry.1 e.1 = .ok sets ∧
      sets.length = e.2.length ∧
      ∀ j set indices, sets.get? j = some set → e.2.get? j = some indices →
        ∃ s', set.createFilteredObservationSet indices = .ok s' := by
    intro entry hentry e he
    obtain ⟨p, hp, rfl⟩ := List.mem_map.mp hentry
    simp only at he
    obtain ⟨q, hq, rfl⟩ := List.mem_map.mp he
    simp only
    obtain ⟨p', hp', hpk, hpq⟩ := forall₂_mem_left hsame p hp
    obtain ⟨q', hq', hqk, hqs⟩ := forall₂_mem_left hpq q hq
    refine ⟨q'.2, ?_, ?_, ?_⟩
    · rw [ObservationCollection.getObservations, hlist, hpk, hqk]
      unfold observationSetsAt StdMap.at
      rw [StdMap.find?_of_mem mC hwfC.1 p' hp']
      simp only
      rw [StdMap.find?_of_mem p'.2 (hwfC.2 p' hp') q' hq']
    · rw [List.length_zipWith, htbl p hp q hq, Nat.min_self, hqs.length_eq]
    · intro j setC indices hsetC hidx
      obtain ⟨set, entry, hset, -, rfl⟩ := get?_zipWith_inv _ _ _ _ _ hidx
      obtain ⟨setC', hsetC', hss⟩ := forall₂_get?_left hqs j set hset
      rw [hsetC] at hsetC'
      simp only [Option.some.injEq] at hsetC'
      subst hsetC'
      obtain ⟨hnodup, hbound⟩ := hf p hp q hq set (List.get?_mem hset) entry
      obtain ⟨hI, hdeps⟩ := hinv p' hp' q' hq' setC (List.get?_mem hsetC)
      exact ⟨_, SingleObservationSet.createFilteredObservationSet_eq setC hI _ hnodup
        (by rw [← hss.1]; exact hbound) hdeps⟩
  obtain ⟨filtered, r, hfiltered, hwfF, hr, hfd⟩ :=
    filterData_ok getObservableSize mC c hc _ hfit
  have hinvF := filterDataTypes_forall
    (fun _ _ (s' : SingleObservationSet T S L) => s'.Invariant) c _ [] filtered hfiltered
    (by simp)
    (fun ty le sets _ set _ indices s' hs' =>
      (SingleObservationSet.createFilteredObservationSet_facts set indices s' hs').1)
  refine ⟨filtered, r, hfiltered, hwfF, hr, hfd, hinvF, ?_⟩
  intro p hp q hq j set setC entry hset hentry hsetC
  obtain ⟨preM, postM, hm⟩ := List.append_of_mem hp
  obtain ⟨ty, list⟩ := p
  obtain ⟨pre, post, hsplit⟩ := List.append_of_mem hq
  obtain ⟨le, sets⟩ := q
  simp only at hsplit hset hentry hsetC ⊢
  subst hsplit
  have hneM := StdMap.ne_of_WF_append preM postM (ty, pre ++ (le, sets) :: post)
    (by rw [← hm]; exact hwf.1)
  have hneL := StdMap.ne_of_WF_append pre post (le, sets) (hwf.2 _ hp)
  rw [hm] at hfiltered
  simp only [List.map_append, List.map_cons] at hfiltered
  obtain ⟨setsC, res, e1, e2, e3, e4⟩ := filterDataTypes_entriesAt c _ ty _ _ le _ _ []
    filtered hfiltered StdMap.NestedWF_nil
    (fun x hx => by
      obtain ⟨y, hy, rfl⟩ := List.mem_map.mp hx
      exact hneM y (List.mem_append_left _ hy))
    (fun x hx => by
      obtain ⟨y, hy, rfl⟩ := List.mem_map.mp hx
      exact hneM y (List.mem_append_right _ hy))
    (fun x hx => by
      obtain ⟨y, hy, rfl⟩ := List.mem_map.mp hx
      exact hneL y (List.mem_append_left _ hy))
    (fun x hx => by
      obtain ⟨y, hy, rfl⟩ := List.mem_map.mp hx
      exact hneL y (List.mem_append_right _ hy))
  have hent := observationSetsAt_entriesAt _ _ _ _ e1
  rw [ObservationCollection.getObservations, hlist] at hent
  rw [hent] at hsetC
  obtain ⟨s', h1, h2⟩ := forall₂_get? e4 j (setC, f ty set entry)
    (get?_zip _ _ _ _ _ hsetC (get?_zipWith _ _ _ _ _ _ hset hentry))
  refine ⟨s', ?_, h2⟩
  rw [e3]
  simpa [StdMap.entriesAt, StdMap.find?] using h1

end FilterDataStructuredPlan

section FilterObservedAndComputedCounterexample

/-- C22 (counterexample): the constructor of `SingleObservationSet` returns a set for two
observations at the times 1 and 2 with one dependent variable vector; the collection of
that set and the collection of a computed set at the same times have identical
structure; with the cutoff 20 the plan removes the observation at position 1, whose
residual is 50, and `filterObservedAndComputedData` returns no filtered collection: the
erasure of position 1 from the one dependent variable vector is undefined. -/
theorem filterObservedAndComputedData_dependent_variables_counterexample :
    SingleObservationSet.construct 1 ⟨9⟩ [[10], [50]] [1, 2] 0 [[7]] none none =
      .ok (⟨1, ⟨9⟩, [[10], [50]], [1, 2], 0, [[7]], none, none, 2, []⟩ :
        SingleObservationSet Int Int Nat) ∧
    IdenticalStructure exampleShortDependentSets exampleShortDependentComputedSets ∧
    ∃ observed computed : ObservationCollection Int Int Nat,
      ObservationCollection.construct (fun ty => ty) exampleShortDependentSets =
        .ok observed ∧
      ObservationCollection.construct (fun ty => ty) exampleShortDependentComputedSets =
        .ok computed ∧
      getObservationCollectionEntriesToFiler (fun ty => ty) observed [10, 50] [(1, 20)] =
        .ok [(1, [(9, [[1]])])] ∧
      filterObservedAndComputedData (fun ty => ty) observed computed none none [(1, 20)] =
        (.error .undefinedBehaviour, none, none) :=
  ⟨rfl,
    by simp [IdenticalStructure, exampleShortDependentSets, exampleShortDependentComputedSets,
      SameSamples, SingleObservationSet.getNumberOfObservables],
    _, _, rfl, rfl, rfl, rfl⟩

end FilterObservedAndComputedCounterexample

section FilterObservedAndComputedClaims

variable {T S L : Type} [LinearOrder T] [LinearOrder L]

/-- C22 (amended): for an observed and a computed collection constructed from mappings of
identical structure (the same observable types, link ends and set counts, and sets at
one place with the same number of observations at the same times), whose sets satisfy
the class invariant and hold no or one dependent variable vector per observation, and
cutoffs for every observable type present, `filterObservedAndComputedData` returns
normally and assigns two filtered collections that again have identical structure, the
same concatenated times and the same total size. For every set of the observed
collection, with the table entry `(start, length)`, and the computed set at the same
place there is one index list, which holds exactly the positions `i` of the observations
for which some component `start + i * d + k`, `k < d`, of the observed minus the computed
observation vector exceeds the cutoff of the observable type, `d` being the size of the
observable; the two filtered sets at that place hold as many observations as there are
positions that are not in the list, and the observation and the time at position `k` of
either filtered set are the ones at the `k`-th such position `i` of its original set. -/
theorem filterObservedAndComputedData_aligned [Inhabited L] [Inhabited T] [Zero S]
    [LinearOrder S] [Sub S] (getObservableSize : ObservableType → Nat)
    (m mB : SortedObservationSets T S L) (observed computed : ObservationCollection T S L)
    (hobserved : ObservationCollection.construct getObservableSize m = .ok observed)
    (hcomputed : ObservationCollection.construct getObservableSize mB = .ok computed)
    (hwf : StdMap.NestedWF m)
    (hinv : ∀ p ∈ m, ∀ q ∈ p.2, ∀ set ∈ q.2, set.Invariant ∧
      (set.observationsDependentVariables_.length = 0 ∨
        set.observationsDependentVariables_.length = set.getNumberOfObservables))
    (hinvB : ∀ p ∈ mB, ∀ q ∈ p.2, ∀ set ∈ q.2, set.Invariant ∧
      (set.observationsDependentVariables_.length = 0 ∨
        set.observationsDependentVariables_.length = set.getNumberOfObservables))
    (hsame : IdenticalStructure m mB)
    (cutoffs : StdMap ObservableType S)
    (hcut : ∀ p ∈ m, ∃ v, StdMap.find? cutoffs p.1 = some v)
    (out₁ out₂ : Option (ObservationCollection T S L)) :
    ∃ observedFiltered computedFiltered,
      filterObservedAndComputedData getObservableSize observed computed out₁ out₂ cutoffs =
        (.ok (), some observedFiltered, some computedFiltered) ∧
      IdenticalStructure observedFiltered.getObservations computedFiltered.getObservations ∧
      observedFiltered.getConcatenatedTimeVector =
        computedFiltered.getConcatenatedTimeVector ∧
      observedFiltered.getTotalObservableSize = computedFiltered.getTotalObservableSize ∧
      ∀ p ∈ m, ∀ q ∈ p.2, ∀ j set setB, q.2.get? j = some set →
        (StdMap.entriesAt computed.getObservations p.1 q.1).get? j = some setB →
        ∃ indices s' sB' entry cutoff,
          (StdMap.entriesAt observed.getObservationSetStartAndSize p.1 q.1).get? j =
            some entry ∧
          StdMap.find? cutoffs p.1 = some cutoff ∧
          (∀ i : Int, i ∈ indices ↔
            0 ≤ i ∧ i < (set.getNumberOfObservables : Int) ∧
              ∃ k x, k < getObservableSize p.1 ∧
                (List.zipWith (· - ·) observed.getObservationVector
                  computed.getObservationVector).get?
                    (entry.1 + i.toNat * getObservableSize p.1 + k) = some x ∧
                x > cutoff) ∧
          (StdMap.entriesAt observedFiltered.getObservations p.1 q.1).get? j = some s' ∧
          (StdMap.entriesAt computedFiltered.getObservations p.1 q.1).get? j = some sB' ∧
          s'.getNumberOfObservables =
            (retainedIndices indices set.getNumberOfObservables).length ∧
          sB'.getNumberOfObservables =
            (retainedIndices indices set.getNumberOfObservables).length ∧
          ∀ k i, (retainedIndices indices set.getNumberOfObservables).get? k = some i →
            s'.observations_.get? k = set.observations_.get? i ∧
            s'.observationTimes_.get? k = set.observationTimes_.get? i ∧
            sB'.observations_.get? k = setB.observations_.get? i ∧
            sB'.observationTimes_.get? k = setB.observationTimes_.get? i := by
  have hwfB := IdenticalStructure_nestedWF m mB hsame hwf
  have hvalid : ∀ p ∈ m, ∀ q ∈ p.2, ∀ set ∈ q.2,
      set.numberOfObservations_ = set.observations_.length ∧
      set.observationTimes_.length = set.observations_.length := fun p hp q hq set hset =>
    ⟨(hinv p hp q hq set hset).1.numberOfObservations, (hinv p hp q hq set hset).1.timesLength⟩
  have hvalidB : ∀ p ∈ mB, ∀ q ∈ p.2, ∀ set ∈ q.2,
      set.numberOfObservations_ = set.observations_.length ∧
      set.observationTimes_.length = set.observations_.length := fun p hp q hq set hset =>
    ⟨(hinvB p hp q hq set hset).1.numberOfObservations,
      (hinvB p hp q hq set hset).1.timesLength⟩
  have hlist := ObservationCollection.construct_observationSetList getObservableSize m
    observed hobserved
  have hlistB := ObservationCollection.construct_observationSetList getObservableSize mB
    computed hcomputed
  -- the residual vector
  obtain ⟨hobs, -, -, -, -, htotal, -⟩ := ObservationCollection.construct_buffers
    getObservableSize m observed hobserved hwf hvalid
  obtain ⟨hobsB, -, -, -, -, -, -⟩ := ObservationCollection.construct_buffers
    getObservableSize mB computed hcomputed hwfB hvalidB
  have hlen : observed.concatenatedObservations_.length =
      (typeLengths getObservableSize m).sum := by
    rw [hobs]
    exact SortedObservationSets.expectedObservations_totalLength getObservableSize m hvalid
      (fun p hp q hq set hset =>
        (ObservationCollection.construct_observationSizes getObservableSize m observed
          hobserved p hp q hq set hset).2)
  have hlenB : computed.concatenatedObservations_.length =
      (typeLengths getObservableSize m).sum := by
    rw [hobsB, (IdenticalStructure_buffers getObservableSize m mB hsame).2]
    exact SortedObservationSets.expectedObservations_totalLength getObservableSize mB hvalidB
      (fun p hp q hq set hset =>
        (ObservationCollection.construct_observationSizes getObservableSize mB computed
          hcomputed p hp q hq set hset).2)
  have hsub : eigenSub observed.getObservationVector computed.getObservationVector =
      .ok (List.zipWith (· - ·) observed.concatenatedObservations_
        computed.concatenatedObservations_) := by
    unfold eigenSub ObservationCollection.getObservationVector
    rw [if_pos (hlen.trans hlenB.symm)]
  generalize hres : List.zipWith (· - ·) observed.concatenatedObservations_
    computed.concatenatedObservations_ = residual at hsub
  have hreslen : residual.length = observed.getTotalObservableSize := by
    rw [← hres, List.length_zipWith, hlen, hlenB, Nat.min_self,
      ObservationCollection.getTotalObservableSize, htotal]
  -- the plan
  have hplan := getObservationCollectionEntriesToFiler_ok getObservableSize m observed
    hobserved hwf hvalid residual cutoffs (fun ty => (StdMap.find? cutoffs ty).getD 0)
    hreslen
    (fun p hp => by
      obtain ⟨v, hv⟩ := hcut p hp
      simp only [hv, Option.getD_some])
  have htbl : ∀ p ∈ m, ∀ q ∈ p.2,
      (StdMap.entriesAt observed.observationSetStartAndSize_ p.1 q.1).length = q.2.length :=
    fun p hp q hq => (ObservationCollection.construct_table_entry getObservableSize m
      observed hobserved hwf p hp q hq).1
  have hf : ∀ p ∈ m, ∀ q ∈ p.2, ∀ set ∈ q.2, ∀ entry : Nat × Nat,
      (exceedingIndices ((residual.drop entry.1).take entry.2)
        ((StdMap.find? cutoffs p.1).getD 0) (getObservableSize p.1)
        set.observationTimes_.length).Nodup ∧
      ∀ i ∈ exceedingIndices ((residual.drop entry.1).take entry.2)
        ((StdMap.find? cutoffs p.1).getD 0) (getObservableSize p.1)
        set.observationTimes_.length, 0 ≤ i ∧ i < (set.getNumberOfObservables : Int) := by
    intro p hp q hq set hset entry
    refine ⟨(exceedingIndices_sorted _ _ _ _).nodup, ?_⟩
    intro i hi
    obtain ⟨h0, hn, -⟩ := (mem_exceedingIndices _ _ _ _ i).mp hi
    obtain ⟨h1, h2⟩ := hvalid p hp q hq set hset
    rw [SingleObservationSet.getNumberOfObservables, h1, ← h2]
    exact ⟨h0, hn⟩
  -- the two filtered collections
  obtain ⟨filtered, r, hfiltered, hwfF, hr, hfd, hinvF, hsets⟩ :=
    filterData_structured_plan getObservableSize m m observed hobserved hwf
      (IdenticalStructure_refl m) hinv
      (fun ty set (entry : Nat × Nat) =>
        exceedingIndices ((residual.drop entry.1).take entry.2)
          ((StdMap.find? cutoffs ty).getD 0) (getObservableSize ty)
          set.observationTimes_.length)
      (fun ty le => StdMap.entriesAt observed.observationSetStartAndSize_ ty le) htbl hf
  obtain ⟨filteredB, rB, hfilteredB, hwfFB, hrB, hfdB, hinvFB, hsetsB⟩ :=
    filterData_structured_plan getObservableSize m mB computed hcomputed hwf hsame hinvB
      (fun ty set (entry : Nat × Nat) =>
        exceedingIndices ((residual.drop entry.1).take entry.2)
          ((StdMap.find? cutoffs ty).getD 0) (getObservableSize ty)
          set.observationTimes_.length)
      (fun ty le => StdMap.entriesAt observed.observationSetStartAndSize_ ty le) htbl hf
  have hlistF := ObservationCollection.construct_observationSetList getObservableSize
    filtered r hr
  have hlistFB := ObservationCollection.construct_observationSetList getObservableSize
    filteredB rB hrB
  -- identical structure of the filtered mappings
  have hstruct : IdenticalStructure filtered filteredB := by
    refine filterDataTypes_forall₂ SameSamples observed computed _ [] filtered [] filteredB
      hfiltered hfilteredB ?_ List.Forall₂.nil
    intro ty le sets setsB hsetsA hsetsB'
    rw [ObservationCollection.getObservations, hlist] at hsetsA
    rw [ObservationCollection.getObservations, hlistB] at hsetsB'
    obtain ⟨inner, f1, f2⟩ := observationSetsAt_eq_ok m ty le sets hsetsA
    obtain ⟨innerB, g1, g2⟩ := observationSetsAt_eq_ok mB ty le setsB hsetsB'
    have hp := StdMap.mem_of_find? m ty inner f1
    have hq := StdMap.mem_of_find? inner le sets f2
    rcases StdMap.find?_forall₂ _ ty m mB hsame with ⟨k1, -⟩ | ⟨v, w, k1, k2, hvw⟩
    · rw [f1] at k1
      cases k1
    · rw [f1] at k1
      rw [g1] at k2
      simp only [Option.some.injEq] at k1 k2
      subst k1
      subst k2
      rcases StdMap.find?_forall₂ _ le inner innerB hvw with ⟨k1, -⟩ | ⟨v, w, k1, k2, hvw'⟩
      · rw [f2] at k1
        cases k1
      · rw [f2] at k1
        rw [g2] at k2
        simp only [Option.some.injEq] at k1 k2
        subst k1
        subst k2
        refine forall₂_imp_mem hvw' ?_
        intro s hs sB _ hss indices s' sB' hs' hsB'
        exact SingleObservationSet.createFilteredObservationSet_sameSamples s sB hss.2
          (hinv (ty, inner) hp (le, sets) hq s hs).1.timesSorted indices s' sB' hs' hsB'
  have hvalidF : ∀ p ∈ filtered, ∀ q ∈ p.2, ∀ set ∈ q.2,
      set.numberOfObservations_ = set.observations_.length ∧
      set.observationTimes_.length = set.observations_.length := fun p hp q hq set hset =>
    ⟨(hinvF p hp q hq set hset).numberOfObservations, (hinvF p hp q hq set hset).timesLength⟩
  have hvalidFB : ∀ p ∈ filteredB, ∀ q ∈ p.2, ∀ set ∈ q.2,
      set.numberOfObservations_ = set.observations_.length ∧
      set.observationTimes_.length = set.observations_.length := fun p hp q hq set hset =>
    ⟨(hinvFB p hp q hq set hset).numberOfObservations,
      (hinvFB p hp q hq set hset).timesLength⟩
  obtain ⟨-, htimesF, -, -, -, htotalF, -⟩ := ObservationCollection.construct_buffers
    getObservableSize filtered r hr hwfF hvalidF
  obtain ⟨-, htimesFB, -, -, -, htotalFB, -⟩ := ObservationCollection.construct_buffers
    getObservableSize filteredB rB hrB hwfFB hvalidFB
  obtain ⟨hbt, hbl⟩ := IdenticalStructure_buffers getObservableSize filtered filteredB hstruct
  refine ⟨r, rB, ?_, ?_, ?_, ?_, ?_⟩
  · unfold filterObservedAndComputedData
    simp only [hsub, hplan, hfd, hfdB]
  · rw [ObservationCollection.getObservations, ObservationCollection.getObservations, hlistF,
      hlistFB]
    exact hstruct
  · rw [ObservationCollection.getConcatenatedTimeVector,
      ObservationCollection.getConcatenatedTimeVector, htimesF, htimesFB, hbt]
  · rw [ObservationCollection.getTotalObservableSize,
      ObservationCollection.getTotalObservableSize, htotalF, htotalFB, hbl]
  · intro p hp q hq j set setB hset hsetB
    rw [ObservationCollection.getObservations, hlistB] at hsetB
    obtain ⟨entry, hentry, hesize, -⟩ := (ObservationCollection.construct_table_entry
      getObservableSize m observed hobserved hwf p hp q hq).2 j set hset
    obtain ⟨v, hv⟩ := hcut p hp
    have hgetD : (StdMap.find? cutoffs p.1).getD 0 = v := by
      rw [hv]
      rfl
    have hsetA : (StdMap.entriesAt m p.1 q.1).get? j = some set := by
      rw [StdMap.entriesAt_of_mem m hwf p hp q hq]
      exact hset
    obtain ⟨s', a1, a2⟩ := hsets p hp q hq j set set entry hset hentry hsetA
    obtain ⟨sB', b1, b2⟩ := hsetsB p hp q hq j set setB entry hset hentry hsetB
    obtain ⟨p', hp', hpk, hpq⟩ := forall₂_mem_left hsame p hp
    obtain ⟨q', hq', hqk, hqs⟩ := forall₂_mem_left hpq q hq
    have hentB : StdMap.entriesAt mB p.1 q.1 = q'.2 := by
      rw [hpk, hqk]
      exact StdMap.entriesAt_of_mem mB hwfB p' hp' q' hq'
    rw [hentB] at hsetB
    obtain ⟨setB', c1, hss⟩ := forall₂_get?_left hqs j set hset
    rw [hsetB] at c1
    simp only [Option.some.injEq] at c1
    subst c1
    obtain ⟨hI, hdeps⟩ := hinv p hp q hq set (List.get?_mem hset)
    obtain ⟨hIB, hdepsB⟩ := hinvB p' hp' q' hq' setB (List.get?_mem hsetB)
    obtain ⟨hnodup, hbound⟩ := hf p hp q hq set (List.get?_mem hset) entry
    have hno : set.observations_.length = set.getNumberOfObservables :=
      hI.numberOfObservations.symm
    have hnt : set.observationTimes_.length = set.getNumberOfObservables := by
      rw [hI.timesLength, hno]
    have hmem : ∀ i : Int,
        i ∈ exceedingIndices ((residual.drop entry.1).take entry.2)
          ((StdMap.find? cutoffs p.1).getD 0) (getObservableSize p.1)
          set.observationTimes_.length ↔
        0 ≤ i ∧ i < (set.getNumberOfObservables : Int) ∧
          ∃ k x, k < getObservableSize p.1 ∧
            residual.get? (entry.1 + i.toNat * getObservableSize p.1 + k) = some x ∧
            x > v := by
      intro i
      rw [mem_exceedingIndices, hnt, hgetD]
      constructor
      · rintro ⟨h0, hn, k, x, hk, hget, hx⟩
        rw [get?_take_drop] at hget
        exact ⟨h0, hn, k, x, hk, by rw [Nat.add_assoc]; exact hget.2, hx⟩
      · rintro ⟨h0, hn, k, x, hk, hget, hx⟩
        refine ⟨h0, hn, k, x, hk, ?_, hx⟩
        rw [get?_take_drop, hesize]
        exact ⟨mul_add_lt_mul _ _ _ _ (by omega) hk, by rw [← Nat.add_assoc]; exact hget⟩
    generalize exceedingIndices ((residual.drop entry.1).take entry.2)
      ((StdMap.find? cutoffs p.1).getD 0) (getObservableSize p.1)
      set.observationTimes_.length = indices at a2 b2 hnodup hbound hmem
    rw [SingleObservationSet.createFilteredObservationSet_eq set hI _ hnodup hbound hdeps,
      Except.ok.injEq] at a2
    rw [SingleObservationSet.createFilteredObservationSet_eq setB hIB _ hnodup
      (by rw [← hss.1]; exact hbound) hdepsB, Except.ok.injEq] at b2
    have hnoB : setB.observations_.length = set.getNumberOfObservables := by
      rw [hss.1]
      exact hIB.numberOfObservations.symm
    have hntB : setB.observationTimes_.length = set.getNumberOfObservables := by
      rw [hIB.timesLength, hnoB]
    refine ⟨indices, s', sB', entry, v, hentry, hv,
      by simpa only [ObservationCollection.getObservationVector, hres] using hmem,
      by rw [ObservationCollection.getObservations, hlistF]; exact a1,
      by rw [ObservationCollection.getObservations, hlistFB]; exact b1, ?_, ?_, ?_⟩
    · rw [← a2, ← hno]
      exact (entriesNotAt_retained _ set.observations_).1
    · rw [← b2, ← hnoB]
      exact (entriesNotAt_retained _ setB.observations_).1
    · intro k i hk
      rw [← a2, ← b2]
      refine ⟨?_, ?_, ?_, ?_⟩
      · exact (entriesNotAt_retained _ set.observations_).2 k i (by rw [hno]; exact hk)
      · exact (entriesNotAt_retained _ set.observationTimes_).2 k i (by rw [hnt]; exact hk)
      · exact (entriesNotAt_retained _ setB.observations_).2 k i (by rw [hnoB]; exact hk)
      · exact (entriesNotAt_retained _ setB.observationTimes_).2 k i (by rw [hntB]; exact hk)

end FilterObservedAndComputedClaims

section FilterObservedAndComputedExamples

theorem exampleSortedObservationSets_invariant :
    ∀ p ∈ exampleSortedObservationSets, ∀ q ∈ p.2, ∀ set ∈ q.2, set.Invariant ∧
      (set.observationsDependentVariables_.length = 0 ∨
        set.observationsDependentVariables_.length = set.getNumberOfObservables) := by
  simp only [exampleSortedObservationSets, List.mem_cons, List.mem_singleton,
    List.not_mem_nil, or_false, forall_eq_or_imp, forall_eq]
  exact ⟨⟨⟨rfl, rfl, rfl, rfl, by decide⟩, Or.inl rfl⟩,
    ⟨⟨rfl, rfl, rfl, rfl, by decide⟩, Or.inl rfl⟩,
    ⟨⟨rfl, rfl, rfl, rfl, by decide⟩, Or.inl rfl⟩⟩

theorem exampleComputedSets_invariant :
    ∀ p ∈ exampleComputedSets, ∀ q ∈ p.2, ∀ set ∈ q.2, set.Invariant ∧
      (set.observationsDependentVariables_.length = 0 ∨
        set.observationsDependentVariables_.length = set.getNumberOfObservables) := by
  simp only [exampleComputedSets, List.mem_cons, List.mem_singleton,
    List.not_mem_nil, or_false, forall_eq_or_imp, forall_eq]
  exact ⟨⟨⟨rfl, rfl, rfl, rfl, by decide⟩, Or.inl rfl⟩,
    ⟨⟨rfl, rfl, rfl, rfl, by decide⟩, Or.inl rfl⟩,
    ⟨⟨rfl, rfl, rfl, rfl, by decide⟩, Or.inl rfl⟩⟩

theorem exampleComputedSets_identicalStructure :
    IdenticalStructure exampleSortedObservationSets exampleComputedSets := by
  simp [IdenticalStructure, exampleSortedObservationSets, exampleComputedSets, SameSamples,
    SingleObservationSet.getNumberOfObservables]

/-- Witness of C22 (amended): the example collection as the observed one and the collection of
the same sets with other observations as the computed one, with the cutoff 100 for the
observable type 1 and the cutoff 20 for the observable type 2. -/
theorem filterObservedAndComputedData_aligned_witness :
    ∃ observedFiltered computedFiltered,
      filterObservedAndComputedData (fun ty => ty) exampleObservationCollection
          exampleComputedCollection none none [(1, 100), (2, 20)] =
        (.ok (), some observedFiltered, some computedFiltered) ∧
      IdenticalStructure observedFiltered.getObservations computedFiltered.getObservations ∧
      observedFiltered.getConcatenatedTimeVector =
        computedFiltered.getConcatenatedTimeVector ∧
      observedFiltered.getTotalObservableSize = computedFiltered.getTotalObservableSize ∧
      ∀ p ∈ exampleSortedObservationSets, ∀ q ∈ p.2, ∀ j set setB, q.2.get? j = some set →
        (StdMap.entriesAt exampleComputedCollection.getObservations p.1 q.1).get? j =
          some setB →
        ∃ indices s' sB' entry cutoff,
          (StdMap.entriesAt exampleObservationCollection.getObservationSetStartAndSize p.1
            q.1).get? j = some entry ∧
          StdMap.find? [(1, 100), (2, 20)] p.1 = some cutoff ∧
          (∀ i : Int, i ∈ indices ↔
            0 ≤ i ∧ i < (set.getNumberOfObservables : Int) ∧
              ∃ k x, k < p.1 ∧
                (List.zipWith (· - ·) exampleObservationCollection.getObservationVector
                  exampleComputedCollection.getObservationVector).get?
                    (entry.1 + i.toNat * p.1 + k) = some x ∧
                x > cutoff) ∧
          (StdMap.entriesAt observedFiltered.getObservations p.1 q.1).get? j = some s' ∧
          (StdMap.entriesAt computedFiltered.getObservations p.1 q.1).get? j = some sB' ∧
          s'.getNumberOfObservables =
            (retainedIndices indices set.getNumberOfObservables).length ∧
          sB'.getNumberOfObservables =
            (retainedIndices indices set.getNumberOfObservables).length ∧
          ∀ k i, (retainedIndices indices set.getNumberOfObservables).get? k = some i →
            s'.observations_.get? k = set.observations_.get? i ∧
            s'.observationTimes_.get? k = set.observationTimes_.get? i ∧
            sB'.observations_.get? k = setB.observations_.get? i ∧
            sB'.observationTimes_.get? k = setB.observationTimes_.get? i :=
  filterObservedAndComputedData_aligned (fun ty => ty) exampleSortedObservationSets
    exampleComputedSets exampleObservationCollection exampleComputedCollection
    exampleObservationCollection_constructed exampleComputedCollection_constructed
    ⟨by simp [StdMap.WF, exampleSortedObservationSets],
      by simp [StdMap.WF, exampleSortedObservationSets]⟩
    exampleSortedObservationSets_invariant exampleComputedSets_invariant
    exampleComputedSets_identicalStructure [(1, 100), (2, 20)]
    (by simp [exampleSortedObservationSets, StdMap.find?]) none none

/-- The example of C22 evaluated: the residuals are 9 for the observable type 1 and 28,
28, 16, 16, 16, 16 for the observable type 2, so that the one observation under the link
ends 4 is removed from both collections and every other observation is kept. -/
theorem filterObservedAndComputedData_example :
    (fun result : Except Error Unit × Option (ObservationCollection Int Int Nat) ×
        Option (ObservationCollection Int Int Nat) =>
      (result.1, result.2.1.map (fun c => (c.getObservationVector, c.getConcatenatedTimeVector)),
        result.2.2.map (fun c => (c.getObservationVector, c.getConcatenatedTimeVector))))
      (filterObservedAndComputedData (fun ty => ty) exampleObservationCollection
        exampleComputedCollection none none [(1, 100), (2, 20)]) =
      (.ok (), some ([10, 20, 21, 22, 23], [3, 5, 5, 6, 6]),
        some ([1, 4, 5, 6, 7], [3, 5, 5, 6, 6])) := rfl

end FilterObservedAndComputedExamples

end Tudat
